import Mathlib

/-!
# pptxtojson: the slide tree resolution engine

A shallow embedding of `src/pptxtojson.js` and the properties of its specification.

## Conventions of the embedding

* A JavaScript value is a `JVal`. An object is an association list in insertion order; the
  keys of every object the XML reader produces are XML names, so `for ... in` visits them in
  insertion order. Objects are assumed to carry each key once; `JVal.get` reads the first.
* A JavaScript number is `Option ℚ`: `some q` is the finite number `q`, `none` stands for a
  value that is not a finite number (`NaN`, and the infinities of a division by zero).
  Arithmetic on finite numbers is exact rational arithmetic: the rounding of IEEE doubles is
  not modelled.
* A function that can throw returns `Except Err _`. A property read on `undefined` or `null`
  throws `Err.typeError`.
* The recursion of the tree walk (`processNodesInSlide` and `processGroupSpNode` call each
  other) is bounded by a fuel argument; `JVal.size` of the visited node is always enough.
* Collaborators that live in other modules of the repository are the fields of `Env`, except
  the few that are modelled here and say so in their documentation.
* The one assignment into a shared part, the flags `genTable` attaches to a table style
  (line 819), is visible to the collaborators of that table; `tableStylesAfter` is the part it
  leaves behind. The walk does not carry it to the nodes that follow: the next table that
  finds the style overwrites the flags before any read, and nothing else in the file reads
  them.
-/

set_option autoImplicit false

namespace Pptx

/-! ## Values -/

/-- A JavaScript value. -/
inductive JVal where
  | undefined
  | null
  | bool (b : Bool)
  | num (q : Option ℚ)
  | str (s : String)
  | arr (xs : List JVal)
  | obj (kvs : List (String × JVal))
deriving Inhabited

/-- What a call can throw. `fuel` is not a JavaScript error: it marks a walk that was given
too little fuel. -/
inductive Err where
  | typeError
  | error (msg : String)
  | fuel
deriving DecidableEq, Inhabited

mutual
/-- Number of constructors of a value: the fuel that always suffices to walk it. -/
def JVal.size : JVal → Nat
  | .arr xs => sizeList xs + 1
  | .obj kvs => sizeEntries kvs + 1
  | _ => 1
/-- Total size of the items of an array. -/
def sizeList : List JVal → Nat
  | [] => 0
  | x :: xs => x.size + sizeList xs
/-- Total size of the values of an object. -/
def sizeEntries : List (String × JVal) → Nat
  | [] => 0
  | (_, v) :: kvs => v.size + sizeEntries kvs
end

/-- JavaScript truthiness (`if (v)`, `!v`, `a || b`). -/
def JVal.truthy : JVal → Bool
  | .undefined => false
  | .null => false
  | .bool b => b
  | .num none => false
  | .num (some q) => decide (q ≠ 0)
  | .str s => decide (s ≠ "")
  | .arr _ => true
  | .obj _ => true

/-- The expression `a || b`. -/
def JVal.or (a b : JVal) : JVal := if a.truthy then a else b

/-- First value stored under `k` in an association list. -/
def lookupKey (k : String) : List (String × JVal) → Option JVal
  | [] => none
  | (k', v) :: kvs => if k' = k then some v else lookupKey k kvs

/-- The read `v[k]` on a value that is neither `undefined` nor `null`, for a key that is an
XML name or a field name: only objects have such properties. -/
def JVal.get (v : JVal) (k : String) : JVal :=
  match v with
  | .obj kvs => (lookupKey k kvs).getD .undefined
  | _ => .undefined

/-- The read `v[k]`: throws on `undefined` and `null`. -/
def getProp (v : JVal) (k : String) : Except Err JVal :=
  match v with
  | .undefined => .error .typeError
  | .null => .error .typeError
  | _ => .ok (v.get k)

/-- The assignment `o[k] = v` on the entries of an object: an existing key keeps its place. -/
def objSet : List (String × JVal) → String → JVal → List (String × JVal)
  | [], k, v => [(k, v)]
  | (k', v') :: kvs, k, v => if k' = k then (k, v) :: kvs else (k', v') :: objSet kvs k v

/-- Index keys `i, i+1, ...` paired with the items of a list. -/
def indexed : Nat → List JVal → List (String × JVal)
  | _, [] => []
  | i, x :: xs => (toString i, x) :: indexed (i + 1) xs

/-- The own enumerable properties of a value, in the order `for ... in` and the spread
`{...v}` visit them. -/
def JVal.entries : JVal → List (String × JVal)
  | .obj kvs => kvs
  | .arr xs => indexed 0 xs
  | .str s => indexed 0 (s.toList.map fun c => JVal.str (String.singleton c))
  | _ => []

/-- The test `v.constructor === Array`: throws on `undefined` and `null`. -/
def isArrayCtor : JVal → Except Err Bool
  | .undefined => .error .typeError
  | .null => .error .typeError
  | .arr _ => .ok true
  | _ => .ok false

/-- The items `for (const x of v)` visits: arrays and strings are iterable, nothing else
that occurs here is. -/
def forOf : JVal → Except Err (List JVal)
  | .arr xs => .ok xs
  | .str s => .ok (s.toList.map fun c => JVal.str (String.singleton c))
  | _ => .error .typeError

/-- The test `a === s` against a string literal. -/
def JVal.isStr (a : JVal) (s : String) : Bool :=
  match a with
  | .str t => decide (t = s)
  | _ => false

/-- The test `a === b`: primitives compare by value, objects and arrays by identity, and two
values read from different places of a tree are never the same object. -/
def strictEq : JVal → JVal → Bool
  | .undefined, .undefined => true
  | .null, .null => true
  | .bool a, .bool b => decide (a = b)
  | .num (some a), .num (some b) => decide (a = b)
  | .str a, .str b => decide (a = b)
  | _, _ => false

/-- The test `v === undefined`. -/
def JVal.isUndefined : JVal → Bool
  | .undefined => true
  | _ => false

/-- The string a value turns into when it is used as a property key. Keys here are strings;
a finite integer is written in decimal, and a container, which the reader never puts in an
attribute, is given the text of a plain object. -/
def toPropertyKey : JVal → String
  | .str s => s
  | .undefined => "undefined"
  | .null => "null"
  | .bool true => "true"
  | .bool false => "false"
  | .num none => "NaN"
  | .num (some q) => toString q
  | _ => "[object Object]"

/-! ## Numbers -/

/-- Characters `parseInt` skips before the number. -/
def isJsSpace (c : Char) : Bool :=
  c = ' ' || c = '\t' || c = '\n' || c = '\r' || c.toNat = 11 || c.toNat = 12

/-- Value of a hexadecimal digit. -/
def hexVal (c : Char) : Option Nat :=
  if c.isDigit then some (c.toNat - 48)
  else if 'a'.toNat ≤ c.toNat ∧ c.toNat ≤ 'f'.toNat then some (c.toNat - 87)
  else if 'A'.toNat ≤ c.toNat ∧ c.toNat ≤ 'F'.toNat then some (c.toNat - 55)
  else none

/-- Value of a digit in the given radix (10 or 16). -/
def digitVal (radix : Nat) (c : Char) : Option Nat :=
  if radix = 16 then hexVal c else if c.isDigit then some (c.toNat - 48) else none

/-- Longest prefix of digits, read in the given radix; `none` when there is no digit. -/
def parseDigits (radix : Nat) : List Char → Option Nat → Option Nat
  | [], acc => acc
  | c :: cs, acc =>
    match digitVal radix c with
    | some d => parseDigits radix cs (some (acc.getD 0 * radix + d))
    | none => acc

/-- After the sign: an optional `0x` prefix selects radix 16. -/
def parseUnsigned : List Char → Option Nat
  | '0' :: 'x' :: cs => parseDigits 16 cs none
  | '0' :: 'X' :: cs => parseDigits 16 cs none
  | cs => parseDigits 10 cs none

/-- The call `parseInt(s)` on the characters of a string. -/
def parseIntChars (cs : List Char) : Option Int :=
  match cs.dropWhile isJsSpace with
  | '-' :: rest => (parseUnsigned rest).map fun n => -(n : Int)
  | '+' :: rest => (parseUnsigned rest).map fun n => (n : Int)
  | rest => (parseUnsigned rest).map fun n => (n : Int)

/-- The call `parseInt(v)`; `none` is `NaN`. A finite number is cut to its integer part; an
array or object, which no attribute holds, gives `NaN`. -/
def parseInt : JVal → Option Int
  | .str s => parseIntChars s.toList
  | .num (some q) => some (Int.tdiv q.num q.den)
  | _ => none

/-- The integer nearest to a number, the even one of the two when the number lies half way
between them. -/
def roundHalfEven (x : ℚ) : ℤ :=
  if x - ⌊x⌋ < 1 / 2 then ⌊x⌋
  else if 1 / 2 < x - ⌊x⌋ then ⌊x⌋ + 1
  else if ⌊x⌋ % 2 = 0 then ⌊x⌋ else ⌊x⌋ + 1

/-- The rounding of binary64, the number type of the source: the nearest number with 53
significant bits, the one with an even last bit when two are equally near. The exponent is not
bounded: numbers of a magnitude of `2 ^ 1024` and more, which the source rounds to an
infinity, and of less than `2 ^ (-1022)`, where the source has fewer bits, are outside the
model. -/
def round64 (q : ℚ) : ℚ :=
  if q = 0 then 0
  else (roundHalfEven (q / 2 ^ (Int.log 2 |q| - 52)) : ℚ) * 2 ^ (Int.log 2 |q| - 52)

/-- The number `parseInt` returns for the integer it reads: the nearest binary64 number. -/
def jsNum (n : Int) : ℚ := round64 (n : ℚ)

/-- Modelled from the spec: the constant `RATIO_EMUs_Points` of `constants.js`, which is not
in the source given; the spec fixes the ratio from the archive unit to points as 1/12700, and
a constant of the source is the binary64 number nearest to it. -/
def RATIO_EMUs_Points : ℚ := round64 (1 / 12700)

/-- The product `a * b` of two numbers, rounded as binary64 rounds it. -/
def jsMul (a b : Option ℚ) : Option ℚ :=
  match a, b with
  | some x, some y => some (round64 (x * y))
  | _, _ => none

/-- The difference `a - b` of two numbers, rounded as binary64 rounds it. -/
def jsSub (a b : Option ℚ) : Option ℚ :=
  match a, b with
  | some x, some y => some (round64 (x - y))
  | _, _ => none

/-- The sum `a + b` of line 572, of a converted angle and 90. The sum is taken exactly: the
rounding of binary64 leaves a sum of whole numbers of degrees as it is. -/
def jsAdd (a b : Option ℚ) : Option ℚ :=
  match a, b with
  | some x, some y => some (x + y)
  | _, _ => none

/-- The quotient `a / b` of two numbers, rounded as binary64 rounds it; a division by zero is
not a finite number. -/
def jsDiv (a b : Option ℚ) : Option ℚ :=
  match a, b with
  | some x, some y => if y = 0 then none else some (round64 (x / y))
  | _, _ => none

/-- The expression `parseInt(v) * RATIO_EMUs_Points` of the source (lines 76-77, 458-465 and
612-613). -/
def emuToPoints (v : JVal) : Option ℚ :=
  jsMul ((parseInt v).map jsNum) (some RATIO_EMUs_Points)

/-- Modelled from the spec: the conversion of an attribute in the archive unit to points in
`position.js`, which is not in the source given; the spec gives the points as the value in
the archive unit over 12700. -/
def pointsOfEmu (v : JVal) : Option ℚ :=
  (parseInt v).map fun n => (n : ℚ) / 12700

/-- The number a value turns into under `-` and `*`. The geometry fields this is applied to
are numbers or `undefined`; a string or container there is taken as not a number. -/
def JVal.toNumber : JVal → Option ℚ
  | .num q => q
  | .null => some 0
  | .bool true => some 1
  | .bool false => some 0
  | _ => none

/-! ## Path lookup and geometry -/

/-- Modelled from the spec: `getTextByPathList` of `utils.js`, which is not in the source
given. The spec describes every read of a nested property as one in which any step may be
absent; the helper follows a path of keys from a node and stops at the first value that is
absent or falsy, returning that value; with every step present it returns the value
reached. -/
def getTextByPathList : JVal → List String → JVal
  | node, [] => node
  | node, key :: path => if node.truthy then getTextByPathList (node.get key) path else node

/-- First truthy value among three. -/
def firstTruthy (a b c : JVal) : JVal := JVal.or a (JVal.or b c)

/-- Modelled from the spec: `getPosition` of `position.js`, which is not in the source
given. The offset attributes are read from the first of the slide, layout and master
transform nodes that defines them and converted to points; when none defines them both
fields are `undefined`. -/
def getPosition (slideXfrm layoutXfrm masterXfrm : JVal) : JVal :=
  let off := firstTruthy (getTextByPathList slideXfrm ["a:off", "attrs"])
    (getTextByPathList layoutXfrm ["a:off", "attrs"])
    (getTextByPathList masterXfrm ["a:off", "attrs"])
  if off.truthy then
    .obj [("top", .num (pointsOfEmu (off.get "y"))), ("left", .num (pointsOfEmu (off.get "x")))]
  else .obj [("top", .undefined), ("left", .undefined)]

/-- Modelled from the spec: `getSize` of `position.js`, which is not in the source given.
The extent attributes are read from the first of the slide, layout and master transform
nodes that defines them and converted to points; when none defines them both fields are
`undefined`. -/
def getSize (slideXfrm layoutXfrm masterXfrm : JVal) : JVal :=
  let ext := firstTruthy (getTextByPathList slideXfrm ["a:ext", "attrs"])
    (getTextByPathList layoutXfrm ["a:ext", "attrs"])
    (getTextByPathList masterXfrm ["a:ext", "attrs"])
  if ext.truthy then
    .obj [("width", .num (pointsOfEmu (ext.get "cx"))), ("height", .num (pointsOfEmu (ext.get "cy")))]
  else .obj [("width", .undefined), ("height", .undefined)]

/-! ## Collaborators -/

/-- The fields of the `warpObj` record `processSingleSlide` builds; the archive handle `zip`
is part of `Env`. -/
structure WarpObj where
  slideLayoutContent : JVal
  slideLayoutTables : JVal
  slideMasterContent : JVal
  slideMasterTables : JVal
  slideContent : JVal
  tableStyles : JVal
  slideResObj : JVal
  slideMasterTextStyles : JVal
  layoutResObj : JVal
  masterResObj : JVal
  themeContent : JVal
  themeResObj : JVal
  digramFileContent : JVal
  diagramResObj : JVal
  defaultTextStyle : JVal

/-- The functions imported from the other modules of the repository and the archive the
conversion reads, none of which is in the source given. Each is a function of its
arguments. -/
structure Env where
  /-- The call `readXmlFile(zip, name)`. -/
  readXmlFile : JVal → Except Err JVal
  /-- The bytes `zip.file(name).async('arraybuffer')` yields; `none` when `zip.file(name)`
  is `null`. -/
  zipFile : JVal → Option JVal
  /-- The call `URL.createObjectURL(new Blob([bytes], options))`. -/
  createObjectURL : JVal → JVal → JVal
  /-- The angle converter of `utils.js`; it returns a number. -/
  angleToDegrees : JVal → Option ℚ
  hasValidText : JVal → Bool
  extractFileExtension : JVal → JVal
  base64ArrayBuffer : JVal → String
  getMimeType : JVal → String
  isVideoLink : JVal → Bool
  escapeHtml : JVal → JVal
  genTextBody : JVal → JVal → JVal → JVal → WarpObj → JVal
  getBorder : JVal → JVal → WarpObj → JVal
  getSlideBackgroundFill : WarpObj → JVal
  getShapeFill : JVal → JVal → WarpObj → JVal
  getSolidFill : JVal → JVal → JVal → WarpObj → JVal
  getShadow : JVal → WarpObj → JVal
  getVerticalAlign : JVal → JVal → JVal → JVal → JVal
  getCustomShapePath : JVal → Option ℚ → Option ℚ → JVal
  getChartInfo : JVal → JVal
  getTableBorders : JVal → WarpObj → JVal
  getTableCellParams : JVal → JVal → JVal → WarpObj → JVal
  getTableRowParams : JVal → Nat → JVal → JVal → WarpObj → JVal
  findOMath : JVal → JVal
  parseOMath : JVal → JVal
  latexFormart : JVal → JVal

/-! ## Shapes -/

/-- The statement `if (data.content && !hasValidText(data.content)) data.content = ''`. -/
def normalizeContent (env : Env) (data : List (String × JVal)) : List (String × JVal) :=
  let content := (JVal.obj data).get "content"
  if content.truthy && !env.hasValidText content then objSet data "content" (.str "") else data

/-- The function `genShape` (lines 551-638). -/
def genShape (env : Env) (node slideLayoutSpNode slideMasterSpNode name type order : JVal)
    (warpObj : WarpObj) : Except Err JVal := do
  let xfrmList := ["p:spPr", "a:xfrm"]
  let slideXfrmNode := getTextByPathList node xfrmList
  let slideLayoutXfrmNode := getTextByPathList slideLayoutSpNode xfrmList
  let slideMasterXfrmNode := getTextByPathList slideMasterSpNode xfrmList
  let shapType := getTextByPathList node ["p:spPr", "a:prstGeom", "attrs", "prst"]
  let custShapType := getTextByPathList node ["p:spPr", "a:custGeom"]
  let position := getPosition slideXfrmNode slideLayoutXfrmNode slideMasterXfrmNode
  let top := position.get "top"
  let left := position.get "left"
  let size := getSize slideXfrmNode slideLayoutXfrmNode slideMasterXfrmNode
  let width := size.get "width"
  let height := size.get "height"
  let isFlipV := (getTextByPathList slideXfrmNode ["attrs", "flipV"]).isStr "1"
  let isFlipH := (getTextByPathList slideXfrmNode ["attrs", "flipH"]).isStr "1"
  let rotate := env.angleToDegrees (getTextByPathList slideXfrmNode ["attrs", "rot"])
  let txtXframeNode := getTextByPathList node ["p:txXfrm"]
  let txtRotate : JVal :=
    if txtXframeNode.truthy then
      let txtXframeRot := getTextByPathList txtXframeNode ["attrs", "rot"]
      if txtXframeRot.truthy then .num (jsAdd (env.angleToDegrees txtXframeRot) (some 90))
      else .undefined
    else .num rotate
  let txBody ← getProp node "p:txBody"
  let content : JVal :=
    if txBody.truthy then env.genTextBody txBody node slideLayoutSpNode type warpObj
    else .str ""
  let border := env.getBorder node type warpObj
  let borderColor ← getProp border "borderColor"
  let borderWidth ← getProp border "borderWidth"
  let borderType ← getProp border "borderType"
  let strokeDasharray ← getProp border "strokeDasharray"
  let fillColor := JVal.or (env.getShapeFill node .undefined warpObj) (.str "")
  let outerShdwNode := getTextByPathList node ["p:spPr", "a:effectLst", "a:outerShdw"]
  let shadow : JVal := if outerShdwNode.truthy then env.getShadow outerShdwNode warpObj else .undefined
  let vAlign := env.getVerticalAlign node slideLayoutSpNode slideMasterSpNode type
  let isVertical := (getTextByPathList node ["p:txBody", "a:bodyPr", "attrs", "vert"]).isStr "eaVert"
  let data0 : List (String × JVal) :=
    [("left", left), ("top", top), ("width", width), ("height", height),
     ("borderColor", borderColor), ("borderWidth", borderWidth), ("borderType", borderType),
     ("borderStrokeDasharray", strokeDasharray), ("fillColor", fillColor),
     ("content", content), ("isFlipV", .bool isFlipV), ("isFlipH", .bool isFlipH),
     ("rotate", .num rotate), ("vAlign", vAlign), ("name", name), ("order", order)]
  let data := if shadow.truthy then objSet data0 "shadow" shadow else data0
  if custShapType.truthy && !type.isStr "diagram" then
    let ext := getTextByPathList slideXfrmNode ["a:ext", "attrs"]
    let w := emuToPoints (← getProp ext "cx")
    let h := emuToPoints (← getProp ext "cy")
    let d := env.getCustomShapePath custShapType w h
    let data := normalizeContent env data
    return .obj (objSet (objSet (objSet data "type" (.str "shape")) "shapType" (.str "custom"))
      "path" d)
  if shapType.truthy && (type.isStr "obj" || !type.truthy) then
    let data := normalizeContent env data
    return .obj (objSet (objSet data "type" (.str "shape")) "shapType" shapType)
  return .obj (objSet (objSet (objSet data "type" (.str "text")) "isVertical" (.bool isVertical))
    "rotate" txtRotate)

/-- The counterpart of a slide shape in the tables of a layout or master (lines 513-526):
looked up by the placeholder type of the shape when it has one, else by its placeholder
index, else absent. -/
def counterpart (tables type idx : JVal) : Except Err JVal := do
  if type.truthy then getProp (← getProp tables "typeTable") (toPropertyKey type)
  else if idx.truthy then getProp (← getProp tables "idxTable") (toPropertyKey idx)
  else pure .undefined

/-- The function `processSpNode` (lines 505-541). -/
def processSpNode (env : Env) (node : JVal) (warpObj : WarpObj) (source : String) :
    Except Err JVal := do
  let name := getTextByPathList node ["p:nvSpPr", "p:cNvPr", "attrs", "name"]
  let idx := getTextByPathList node ["p:nvSpPr", "p:nvPr", "p:ph", "attrs", "idx"]
  let type0 := getTextByPathList node ["p:nvSpPr", "p:nvPr", "p:ph", "attrs", "type"]
  let order := getTextByPathList node ["attrs", "order"]
  let slideLayoutSpNode ← counterpart warpObj.slideLayoutTables type0 idx
  let slideMasterSpNode ← counterpart warpObj.slideMasterTables type0 idx
  let type1 : JVal :=
    if !type0.truthy then
      let txBoxVal := getTextByPathList node ["p:nvSpPr", "p:cNvSpPr", "attrs", "txBox"]
      if txBoxVal.isStr "1" then .str "text" else type0
    else type0
  let type2 : JVal :=
    if !type1.truthy then
      getTextByPathList slideLayoutSpNode ["p:nvSpPr", "p:nvPr", "p:ph", "attrs", "type"]
    else type1
  let type3 : JVal :=
    if !type2.truthy then
      getTextByPathList slideMasterSpNode ["p:nvSpPr", "p:nvPr", "p:ph", "attrs", "type"]
    else type2
  let type4 : JVal :=
    if !type3.truthy then (if source = "diagramBg" then .str "diagram" else .str "obj")
    else type3
  genShape env node slideLayoutSpNode slideMasterSpNode name type4 order warpObj

/-- The function `processCxnSpNode` (lines 543-549). -/
def processCxnSpNode (env : Env) (node : JVal) (warpObj : WarpObj) : Except Err JVal := do
  let name ← getProp (← getProp (← getProp (← getProp node "p:nvCxnSpPr") "p:cNvPr") "attrs") "name"
  let ph ← getProp (← getProp (← getProp node "p:nvCxnSpPr") "p:nvPr") "p:ph"
  let type ←
    if ph.isUndefined then pure JVal.undefined
    else getProp (← getProp (← getProp (← getProp (← getProp node "p:nvSpPr") "p:nvPr") "p:ph")
      "attrs") "type"
  let order ← getProp (← getProp node "attrs") "order"
  genShape env node .undefined .undefined name type order warpObj

/-- The call `f(node)[0]`: first item of the value a collaborator returns. -/
def getFirst : JVal → Except Err JVal
  | .undefined => .error .typeError
  | .null => .error .typeError
  | .arr (x :: _) => .ok x
  | .str s => .ok (match s.toList with | c :: _ => .str (String.singleton c) | [] => .undefined)
  | _ => .ok .undefined

/-- The function `processMathNode` (lines 433-451). -/
def processMathNode (env : Env) (node : JVal) : Except Err JVal := do
  let order ← getProp (← getProp node "attrs") "order"
  let xfrmNode := getTextByPathList node ["p:sp", "p:spPr", "a:xfrm"]
  let position := getPosition xfrmNode .undefined .undefined
  let top := position.get "top"
  let left := position.get "left"
  let size := getSize xfrmNode .undefined .undefined
  let width := size.get "width"
  let height := size.get "height"
  let oMath ← getFirst (env.findOMath node)
  let latex := env.latexFormart (env.parseOMath oMath)
  return .obj [("type", .str "math"), ("top", top), ("left", left), ("width", width),
    ("height", height), ("latex", latex), ("order", order)]

/-! ## Pictures -/

/-- The call `v.toLowerCase()`: only a string has the method. -/
def jsToLowerCase : JVal → Except Err JVal
  | .str s => .ok (.str s.toLower)
  | _ => .error .typeError

/-- The read `await zip.file(name).async('arraybuffer')`: throws when the archive has no such
member. -/
def readBytes (env : Env) (name : JVal) : Except Err JVal :=
  match env.zipFile name with
  | some bytes => .ok bytes
  | none => .error .typeError

/-- The video part of `processPicNode` (lines 671-688): the pair `(blob, src)` with the flag
`isVdeoLink`. -/
def picVideo (env : Env) (videoNode resObj : JVal) : Except Err (JVal × JVal × Bool) := do
  let videoRid ← getProp (videoNode.get "attrs") "r:link"
  let videoFile ← getProp (← getProp resObj (toPropertyKey videoRid)) "target"
  if env.isVideoLink videoFile then return (.undefined, env.escapeHtml videoFile, true)
  let videoFileExt ← jsToLowerCase (env.extractFileExtension videoFile)
  if videoFileExt.isStr "mp4" || videoFileExt.isStr "webm" || videoFileExt.isStr "ogg" then
    let uInt8ArrayVideo ← readBytes env videoFile
    let videoMimeType := env.getMimeType videoFileExt
    return (env.createObjectURL uInt8ArrayVideo (.obj [("type", .str videoMimeType)]), videoFile,
      false)
  return (.undefined, videoFile, false)

/-- The audio part of `processPicNode` (lines 690-700): the value of `audioBlob`. -/
def picAudio (env : Env) (audioNode resObj : JVal) : Except Err JVal := do
  let audioRid ← getProp (audioNode.get "attrs") "r:link"
  let audioFile ← getProp (← getProp resObj (toPropertyKey audioRid)) "target"
  let audioFileExt ← jsToLowerCase (env.extractFileExtension audioFile)
  if audioFileExt.isStr "mp3" || audioFileExt.isStr "wav" || audioFileExt.isStr "ogg" then
    let uInt8ArrayAudio ← readBytes env audioFile
    return env.createObjectURL uInt8ArrayAudio .undefined
  return .undefined

/-- The function `processPicNode` (lines 640-750). -/
def processPicNode (env : Env) (node : JVal) (warpObj : WarpObj) (source : String) :
    Except Err JVal := do
  let resObj :=
    if source = "slideMasterBg" then warpObj.masterResObj
    else if source = "slideLayoutBg" then warpObj.layoutResObj
    else warpObj.slideResObj
  let order ← getProp (← getProp node "attrs") "order"
  let rid ← getProp (← getProp (← getProp (← getProp node "p:blipFill") "a:blip") "attrs") "r:embed"
  let imgName ← getProp (← getProp resObj (toPropertyKey rid)) "target"
  let imgFileExt ← jsToLowerCase (env.extractFileExtension imgName)
  let imgArrayBuffer ← readBytes env imgName
  let xfrmNode ← getProp (← getProp node "p:spPr") "a:xfrm"
  let mimeType := env.getMimeType imgFileExt
  let position := getPosition xfrmNode .undefined .undefined
  let top := position.get "top"
  let left := position.get "left"
  let size := getSize xfrmNode .undefined .undefined
  let width := size.get "width"
  let height := size.get "height"
  let src := "data:" ++ mimeType ++ ";base64," ++ env.base64ArrayBuffer imgArrayBuffer
  let isFlipV := (getTextByPathList xfrmNode ["attrs", "flipV"]).isStr "1"
  let isFlipH := (getTextByPathList xfrmNode ["attrs", "flipH"]).isStr "1"
  let rotateNode := getTextByPathList node ["p:spPr", "a:xfrm", "attrs", "rot"]
  let rotate : Option ℚ := if rotateNode.truthy then env.angleToDegrees rotateNode else some 0
  let videoNode := getTextByPathList node ["p:nvPicPr", "p:nvPr", "a:videoFile"]
  let (videoBlob, videoFile, isVdeoLink) ←
    if videoNode.truthy then picVideo env videoNode resObj
    else pure (JVal.undefined, JVal.undefined, false)
  let audioNode := getTextByPathList node ["p:nvPicPr", "p:nvPr", "a:audioFile"]
  let audioBlob ← if audioNode.truthy then picAudio env audioNode resObj else pure JVal.undefined
  if videoNode.truthy && !isVdeoLink then
    return .obj [("type", .str "video"), ("top", top), ("left", left), ("width", width),
      ("height", height), ("rotate", .num rotate), ("blob", videoBlob), ("order", order)]
  if videoNode.truthy && isVdeoLink then
    return .obj [("type", .str "video"), ("top", top), ("left", left), ("width", width),
      ("height", height), ("rotate", .num rotate), ("src", videoFile), ("order", order)]
  if audioNode.truthy then
    return .obj [("type", .str "audio"), ("top", top), ("left", left), ("width", width),
      ("height", height), ("rotate", .num rotate), ("blob", audioBlob), ("order", order)]
  return .obj [("type", .str "image"), ("top", top), ("left", left), ("width", width),
    ("height", height), ("rotate", .num rotate), ("src", .str src), ("isFlipV", .bool isFlipV),
    ("isFlipH", .bool isFlipH), ("order", order)]

/-! ## Tables -/

/-- The six flags of `tblStylAttrObj` (lines 791-798); `true` is the number 1. -/
structure TblFlags where
  isFrstRowAttr : Bool
  isFrstColAttr : Bool
  isLstRowAttr : Bool
  isLstColAttr : Bool
  isBandRowAttr : Bool
  isBandColAttr : Bool

/-- The number 1 or 0 a flag is stored as. -/
def flagNum (b : Bool) : JVal := .num (some (if b then 1 else 0))

/-- The object `tblStylAttrObj`. -/
def TblFlags.toJVal (f : TblFlags) : JVal :=
  .obj [("isFrstRowAttr", flagNum f.isFrstRowAttr), ("isFrstColAttr", flagNum f.isFrstColAttr),
    ("isLstRowAttr", flagNum f.isLstRowAttr), ("isLstColAttr", flagNum f.isLstColAttr),
    ("isBandRowAttr", flagNum f.isBandRowAttr), ("isBandColAttr", flagNum f.isBandColAttr)]

/-- One flag of the table properties (lines 785-797): the attribute is the string `1`. -/
def tblFlag (attrs : JVal) (k : String) : Bool :=
  let a := if attrs.truthy then attrs.get k else JVal.undefined
  a.truthy && a.isStr "1"

/-- The search for the style of the table in an array of styles (lines 806-810): the last
style with the id wins. -/
def findTblStyle (tbleStyleId : JVal) : List JVal → JVal → Except Err JVal
  | [], cur => .ok cur
  | st :: rest, cur => do
    let sid ← getProp (← getProp st "attrs") "styleId"
    findTblStyle tbleStyleId rest (if strictEq sid tbleStyleId then st else cur)

/-- The style of the table (lines 800-818). -/
def lookupTblStyle (tbleStyleId : JVal) (warpObj : WarpObj) : Except Err JVal := do
  if !tbleStyleId.truthy then return .undefined
  let tbleStylList ← getProp (← getProp warpObj.tableStyles "a:tblStyleLst") "a:tblStyle"
  if !tbleStylList.truthy then return .undefined
  match tbleStylList with
  | .arr xs => findTblStyle tbleStyleId xs .undefined
  | _ =>
    let sid ← getProp (← getProp tbleStylList "attrs") "styleId"
    return (if strictEq sid tbleStyleId then tbleStylList else .undefined)

/-- The assignment `thisTblStyle['tblStylAttrObj'] = tblStylAttrObj` (line 819), as the value
of `thisTblStyle` after it. -/
def attachFlags (thisTblStyle : JVal) (f : TblFlags) : JVal :=
  match thisTblStyle with
  | .obj kvs => .obj (objSet kvs "tblStylAttrObj" f.toJVal)
  | other => other

/-- The assignment `o[k] = v` on a value; only an object takes it. -/
def setIn (o : JVal) (k : String) (v : JVal) : JVal :=
  match o with
  | .obj kvs => .obj (objSet kvs k v)
  | other => other

/-- The array of styles after the search of lines 806-810 and the assignment of line 819:
the last style with the id of the table carries the flags. The second component tells
whether a style was found. -/
def stampStyles (tbleStyleId : JVal) (f : TblFlags) : List JVal → Except Err (List JVal × Bool)
  | [] => .ok ([], false)
  | st :: rest => do
    let sid ← getProp (← getProp st "attrs") "styleId"
    let (rest', found) ← stampStyles tbleStyleId f rest
    if found then return (st :: rest', true)
    else if strictEq sid tbleStyleId then return (attachFlags st f :: rest', true)
    else return (st :: rest', false)

/-- The part `warpObj['tableStyles']` after lines 800-819. The style `thisTblStyle` is an
object inside that part, so the assignment of line 819 changes the part in place: the style
the search found carries the flags, everything else is as before. -/
def stampTableStyles (tbleStyleId : JVal) (f : TblFlags) (tableStyles : JVal) : Except Err JVal := do
  if !tbleStyleId.truthy then return tableStyles
  let tblStyleLst ← getProp tableStyles "a:tblStyleLst"
  let tbleStylList ← getProp tblStyleLst "a:tblStyle"
  if !tbleStylList.truthy then return tableStyles
  let stamped ←
    match tbleStylList with
    | .arr xs => do pure (JVal.arr (← stampStyles tbleStyleId f xs).1)
    | _ => do
      let sid ← getProp (← getProp tbleStylList "attrs") "styleId"
      pure (if strictEq sid tbleStyleId then attachFlags tbleStylList f else tbleStylList)
  return setIn tableStyles "a:tblStyleLst" (setIn tblStyleLst "a:tblStyle" stamped)

/-- The object `tblStylAttrObj` of a table, from the attributes of its properties
(lines 785-798). -/
def tblFlagsOf (attrs : JVal) : TblFlags :=
  { isFrstRowAttr := tblFlag attrs "firstRow"
    isFrstColAttr := tblFlag attrs "firstCol"
    isLstRowAttr := tblFlag attrs "lastRow"
    isLstColAttr := tblFlag attrs "lastCol"
    isBandRowAttr := tblFlag attrs "bandRow"
    isBandColAttr := tblFlag attrs "bandCol" }

/-- The part `warpObj['tableStyles']` as a call of `genTable` on `node` leaves it
(lines 777-819). -/
def tableStylesAfter (node : JVal) (warpObj : WarpObj) : Except Err JVal := do
  let _ ← getProp (← getProp node "attrs") "order"
  let getTblPr := getTextByPathList node ["a:graphic", "a:graphicData", "a:tbl", "a:tblPr"]
  let attrs ← getProp getTblPr "attrs"
  stampTableStyles (getTblPr.get "a:tableStyleId") (tblFlagsOf attrs) warpObj.tableStyles

/-- The style region `a_sorce` of cell `(i, j)` in a row whose `a:tc` is an array of `nCols`
cells, in a table of `nRows` rows (lines 858-892). -/
def aSorceMulti (f : TblFlags) (thisTblStyle : JVal) (i j nRows nCols : Nat) : JVal :=
  let s1 : JVal :=
    if j = 0 && f.isFrstColAttr then
      if f.isLstRowAttr && i = nRows - 1 && (getTextByPathList thisTblStyle ["a:seCell"]).truthy
      then .str "a:seCell"
      else if f.isFrstRowAttr && i = 0 && (getTextByPathList thisTblStyle ["a:neCell"]).truthy
      then .str "a:neCell"
      else .str "a:firstCol"
    else if (decide (j > 0) && f.isBandColAttr) && !(f.isFrstColAttr && i = 0) &&
        !(f.isLstRowAttr && i = nRows - 1) && j ≠ nCols - 1 then
      if j % 2 ≠ 0 then
        let aBandNode := getTextByPathList thisTblStyle ["a:band2V"]
        if aBandNode.isUndefined then
          if (getTextByPathList thisTblStyle ["a:band1V"]).truthy then .str "a:band2V" else .undefined
        else .str "a:band2V"
      else .undefined
    else .undefined
  if j = nCols - 1 && f.isLstColAttr then
    if f.isLstRowAttr && i = nRows - 1 && (getTextByPathList thisTblStyle ["a:swCell"]).truthy
    then .str "a:swCell"
    else if f.isFrstRowAttr && i = 0 && (getTextByPathList thisTblStyle ["a:nwCell"]).truthy
    then .str "a:nwCell"
    else .str "a:lastCol"
  else s1

/-- The style region `a_sorce` of the cell of a row whose `a:tc` is a single record
(lines 908-922). -/
def aSorceSingle (f : TblFlags) (thisTblStyle : JVal) : JVal :=
  let s1 : JVal :=
    if f.isFrstColAttr && !f.isLstRowAttr then .str "a:firstCol"
    else if f.isBandColAttr && !f.isLstRowAttr then
      if !(getTextByPathList thisTblStyle ["a:band2V"]).truthy then
        if (getTextByPathList thisTblStyle ["a:band1V"]).truthy then .str "a:band2V" else .undefined
      else .str "a:band2V"
    else .undefined
  if f.isLstColAttr && !f.isLstRowAttr then .str "a:lastCol" else s1

/-- One conditional field of a cell: `if (a || b || c) td[k] = a || b || c`. -/
def tdField (td : List (String × JVal)) (k : String) (v : JVal) : List (String × JVal) :=
  if v.truthy then objSet td k v else td

/-- The cell record `td` (lines 893-902 and 924-933). -/
def genTd (env : Env) (tcNode thisTblStyle a_sorce fillColor fontColor fontBold tbl_bgcolor : JVal)
    (warpObj : WarpObj) : Except Err JVal := do
  let text := env.genTextBody (← getProp tcNode "a:txBody") tcNode .undefined .undefined warpObj
  let cell := env.getTableCellParams tcNode thisTblStyle a_sorce warpObj
  let td0 : List (String × JVal) := [("text", text)]
  let td1 := tdField td0 "rowSpan" (← getProp cell "rowSpan")
  let td2 := tdField td1 "colSpan" (cell.get "colSpan")
  let td3 := tdField td2 "vMerge" (cell.get "vMerge")
  let td4 := tdField td3 "hMerge" (cell.get "hMerge")
  let td5 := tdField td4 "fontBold" (JVal.or (cell.get "fontBold") fontBold)
  let td6 := tdField td5 "fontColor" (JVal.or (cell.get "fontColor") fontColor)
  let td7 := tdField td6 "fillColor" (JVal.or (JVal.or (cell.get "fillColor") fillColor) tbl_bgcolor)
  return .obj td7

/-- The cells of a row whose `a:tc` is an array, from column `j` on (lines 856-905). -/
def genCells (env : Env) (f : TblFlags) (thisTblStyle fillColor fontColor fontBold tbl_bgcolor : JVal)
    (warpObj : WarpObj) (i nRows nCols : Nat) : Nat → List JVal → Except Err (List JVal)
  | _, [] => .ok []
  | j, tcNode :: rest => do
    let td ← genTd env tcNode thisTblStyle (aSorceMulti f thisTblStyle i j nRows nCols) fillColor
      fontColor fontBold tbl_bgcolor warpObj
    let tds ← genCells env f thisTblStyle fillColor fontColor fontBold tbl_bgcolor warpObj i nRows
      nCols (j + 1) rest
    return td :: tds

/-- The rows of the table, from row `i` on (lines 843-938). -/
def genRows (env : Env) (f : TblFlags) (thisTblStyle tbl_bgcolor : JVal) (warpObj : WarpObj)
    (trNodes : List JVal) : Nat → List JVal → Except Err (List JVal)
  | _, [] => .ok []
  | i, trNode :: rest => do
    let rowParams := env.getTableRowParams (.arr trNodes) i f.toJVal thisTblStyle warpObj
    let fillColor ← getProp rowParams "fillColor"
    let fontColor ← getProp rowParams "fontColor"
    let fontBold ← getProp rowParams "fontBold"
    let tcNodes ← getProp trNode "a:tc"
    let _ ← isArrayCtor tcNodes
    let tr ←
      match tcNodes with
      | .arr cells =>
        genCells env f thisTblStyle fillColor fontColor fontBold tbl_bgcolor warpObj i
          trNodes.length cells.length 0 cells
      | _ => do
        let td ← genTd env tcNodes thisTblStyle (aSorceSingle f thisTblStyle) fillColor fontColor
          fontBold tbl_bgcolor warpObj
        pure [td]
    let trs ← genRows env f thisTblStyle tbl_bgcolor warpObj trNodes (i + 1) rest
    return JVal.arr tr :: trs

/-- The spread `{...o, ...b}` on the entries of `o`. -/
def spreadInto (o : List (String × JVal)) (b : JVal) : List (String × JVal) :=
  b.entries.foldl (fun acc kv => objSet acc kv.1 kv.2) o

/-- The function `genTable` (lines 776-950). From line 819 on the style record carries the
flags of this table, in `thisTblStyle` and inside `warpObj['tableStyles']`. -/
def genTable (env : Env) (node : JVal) (warpObj : WarpObj) : Except Err JVal := do
  let order ← getProp (← getProp node "attrs") "order"
  let tableNode := getTextByPathList node ["a:graphic", "a:graphicData", "a:tbl"]
  let xfrmNode := getTextByPathList node ["p:xfrm"]
  let position := getPosition xfrmNode .undefined .undefined
  let top := position.get "top"
  let left := position.get "left"
  let size := getSize xfrmNode .undefined .undefined
  let width := size.get "width"
  let height := size.get "height"
  let getTblPr := getTextByPathList node ["a:graphic", "a:graphicData", "a:tbl", "a:tblPr"]
  let attrs ← getProp getTblPr "attrs"
  let f : TblFlags := tblFlagsOf attrs
  let tbleStyleId := getTblPr.get "a:tableStyleId"
  let thisTblStyle := attachFlags (← lookupTblStyle tbleStyleId warpObj) f
  let warpObj : WarpObj :=
    { warpObj with tableStyles := ← stampTableStyles tbleStyleId f warpObj.tableStyles }
  let tblStyl := getTextByPathList thisTblStyle ["a:wholeTbl", "a:tcStyle"]
  let tblBorderStyl := getTextByPathList tblStyl ["a:tcBdr"]
  let tbl_border : JVal :=
    if tblBorderStyl.truthy then
      let tbl_borders := env.getTableBorders tblBorderStyl warpObj
      if tbl_borders.truthy then
        JVal.or (JVal.or (JVal.or (tbl_borders.get "bottom") (tbl_borders.get "left"))
          (tbl_borders.get "right")) (tbl_borders.get "top")
      else .undefined
    else .undefined
  let tbl_bgFillschemeClr := getTextByPathList thisTblStyle ["a:tblBg", "a:fillRef"]
  let tbl_bgcolor1 : JVal :=
    if tbl_bgFillschemeClr.truthy then env.getSolidFill tbl_bgFillschemeClr .undefined .undefined warpObj
    else .str ""
  let tbl_bgcolor : JVal :=
    if tbl_bgFillschemeClr.isUndefined then
      env.getSolidFill
        (getTextByPathList thisTblStyle ["a:wholeTbl", "a:tcStyle", "a:fill", "a:solidFill"])
        .undefined .undefined warpObj
    else tbl_bgcolor1
  let trNodes0 ← getProp tableNode "a:tr"
  let _ ← isArrayCtor trNodes0
  let trNodes : List JVal := match trNodes0 with
    | .arr xs => xs
    | other => [other]
  let data ← genRows env f thisTblStyle tbl_bgcolor warpObj trNodes 0 trNodes
  let base : List (String × JVal) :=
    [("type", .str "table"), ("top", top), ("left", left), ("width", width), ("height", height),
     ("data", .arr data), ("order", order)]
  return .obj (spreadInto base (JVal.or tbl_border (.obj [])))

/-! ## Charts and diagrams -/

/-- One optional field of a chart: `if (chart[k] !== undefined) data[k] = chart[k]`. -/
def chartField (chart : JVal) (data : List (String × JVal)) (k : String) : List (String × JVal) :=
  if (chart.get k).isUndefined then data else objSet data k (chart.get k)

/-- The function `genChart` (lines 952-984). -/
def genChart (env : Env) (node : JVal) (warpObj : WarpObj) : Except Err JVal := do
  let order ← getProp (← getProp node "attrs") "order"
  let xfrmNode := getTextByPathList node ["p:xfrm"]
  let position := getPosition xfrmNode .undefined .undefined
  let top := position.get "top"
  let left := position.get "left"
  let size := getSize xfrmNode .undefined .undefined
  let width := size.get "width"
  let height := size.get "height"
  let rid ← getProp (← getProp (← getProp (← getProp (← getProp node "a:graphic") "a:graphicData")
    "c:chart") "attrs") "r:id"
  let refName ← getProp (← getProp warpObj.slideResObj (toPropertyKey rid)) "target"
  let content ← env.readXmlFile refName
  let plotArea := getTextByPathList content ["c:chartSpace", "c:chart", "c:plotArea"]
  let chart := env.getChartInfo plotArea
  if !chart.truthy then return .obj []
  let data : List (String × JVal) :=
    [("type", .str "chart"), ("top", top), ("left", left), ("width", width), ("height", height),
     ("data", chart.get "data"), ("chartType", chart.get "type"), ("order", order)]
  return .obj (chartField chart (chartField chart (chartField chart (chartField chart
    (chartField chart data "marker") "barDir") "holeSize") "grouping") "style")

/-- The loop of `genDiagram` over the shapes of the drawing (lines 995-998). -/
def diagramElements (env : Env) (warpObj : WarpObj) : List JVal → Except Err (List JVal)
  | [] => .ok []
  | item :: rest => do
    let el ← processSpNode env item warpObj "diagramBg"
    let els ← diagramElements env warpObj rest
    return (if el.truthy then el :: els else els)

/-- The function `genDiagram` (lines 986-1010). -/
def genDiagram (env : Env) (node : JVal) (warpObj : WarpObj) : Except Err JVal := do
  let order ← getProp (← getProp node "attrs") "order"
  let xfrmNode := getTextByPathList node ["p:xfrm"]
  let position := getPosition xfrmNode .undefined .undefined
  let left := position.get "left"
  let top := position.get "top"
  let size := getSize xfrmNode .undefined .undefined
  let width := size.get "width"
  let height := size.get "height"
  let dgmDrwSpArray := getTextByPathList warpObj.digramFileContent ["p:drawing", "p:spTree", "p:sp"]
  let elements ←
    if dgmDrwSpArray.truthy then do diagramElements env warpObj (← forOf dgmDrwSpArray)
    else pure []
  return .obj [("type", .str "diagram"), ("left", left), ("top", top), ("width", width),
    ("height", height), ("elements", .arr elements), ("order", order)]

/-- The function `processGraphicFrameNode` (lines 752-774). In the embedded-object case the
source calls `processGroupSpNode` and drops the promise it returns, so `result` stays
`undefined` whatever that call does: nothing of it reaches the value returned. -/
def processGraphicFrameNode (env : Env) (node : JVal) (warpObj : WarpObj) : Except Err JVal :=
  let graphicTypeUri := getTextByPathList node ["a:graphic", "a:graphicData", "attrs", "uri"]
  match graphicTypeUri with
  | .str "http://schemas.openxmlformats.org/drawingml/2006/table" => genTable env node warpObj
  | .str "http://schemas.openxmlformats.org/drawingml/2006/chart" => genChart env node warpObj
  | .str "http://schemas.openxmlformats.org/drawingml/2006/diagram" => genDiagram env node warpObj
  | _ => .ok .undefined

/-! ## Groups and the dispatcher -/

/-- The expression `parseInt(xfrmNode[child]['attrs'][attr]) * RATIO_EMUs_Points`
(lines 458-465). -/
def xfrmPoints (xfrmNode : JVal) (child attr : String) : Except Err (Option ℚ) := do
  return emuToPoints (← getProp (← getProp (← getProp xfrmNode child) "attrs") attr)

/-- The inner loop `for (const item of items)` of the tree walk (lines 279-282 and 476-479):
the truthy results, in order. -/
def walkItems (recur : String → JVal → Except Err JVal) (nodeKey : String) :
    List JVal → Except Err (List JVal)
  | [] => .ok []
  | item :: rest => do
    let ret ← recur nodeKey item
    let rets ← walkItems recur nodeKey rest
    return (if ret.truthy then ret :: rets else rets)

/-- The loop `for (const nodeKey in nodes)` of the tree walk (lines 277-288 and 474-485): an
array value is visited item by item, any other value as one node, and the truthy results are
collected in order. -/
def walkEntries (recur : String → JVal → Except Err JVal) :
    List (String × JVal) → Except Err (List JVal)
  | [] => .ok []
  | (nodeKey, v) :: rest => do
    let _ ← isArrayCtor v
    let here ←
      match v with
      | .arr items => walkItems recur nodeKey items
      | _ => do
        let ret ← recur nodeKey v
        pure (if ret.truthy then [ret] else [])
    let rets ← walkEntries recur rest
    return here ++ rets

/-- The remap of one child of a group (lines 495-501). -/
def rescaleChild (chx chy ws hs : Option ℚ) (element : JVal) : JVal :=
  .obj (objSet (objSet (objSet (objSet element.entries
    "left" (.num (jsMul (jsSub (element.get "left").toNumber chx) ws)))
    "top" (.num (jsMul (jsSub (element.get "top").toNumber chy) hs)))
    "width" (.num (jsMul (element.get "width").toNumber ws)))
    "height" (.num (jsMul (element.get "height").toNumber hs)))

/-- The rotation of a group (lines 467-468): the `rot` attribute converted, or the number 0
when there is none. -/
def groupRotate (env : Env) (xfrmNode : JVal) : JVal :=
  let rot := JVal.or (getTextByPathList xfrmNode ["attrs", "rot"]) (.num (some 0))
  if rot.truthy then .num (env.angleToDegrees rot) else rot

/-- The function `processGroupSpNode` (lines 453-503); `recur` is the call
`processNodesInSlide(nodeKey, item, warpObj, source)` it makes on its children. -/
def processGroupSpNode (env : Env) (recur : String → JVal → Except Err JVal) (node : JVal) :
    Except Err JVal := do
  let order ← getProp (← getProp node "attrs") "order"
  let xfrmNode := getTextByPathList node ["p:grpSpPr", "a:xfrm"]
  if !xfrmNode.truthy then return .null
  let x ← xfrmPoints xfrmNode "a:off" "x"
  let y ← xfrmPoints xfrmNode "a:off" "y"
  let chx ← xfrmPoints xfrmNode "a:chOff" "x"
  let chy ← xfrmPoints xfrmNode "a:chOff" "y"
  let cx ← xfrmPoints xfrmNode "a:ext" "cx"
  let cy ← xfrmPoints xfrmNode "a:ext" "cy"
  let chcx ← xfrmPoints xfrmNode "a:chExt" "cx"
  let chcy ← xfrmPoints xfrmNode "a:chExt" "cy"
  let rotate := groupRotate env xfrmNode
  let ws := jsDiv cx chcx
  let hs := jsDiv cy chcy
  let elements ← walkEntries recur node.entries
  return .obj [("type", .str "group"), ("top", .num y), ("left", .num x), ("width", .num cx),
    ("height", .num cy), ("rotate", rotate), ("order", order),
    ("elements", .arr (elements.map (rescaleChild chx chy ws hs)))]

/-- The function `processNodesInSlide` (lines 400-431), with the fuel that bounds the
recursion through `processGroupSpNode`. -/
def processNodesInSlide (env : Env) (warpObj : WarpObj) (source : String) :
    Nat → String → JVal → Except Err JVal
  | 0, _, _ => .error .fuel
  | fuel + 1, nodeKey, nodeValue =>
    match nodeKey with
    | "p:sp" => processSpNode env nodeValue warpObj source
    | "p:cxnSp" => processCxnSpNode env nodeValue warpObj
    | "p:pic" => processPicNode env nodeValue warpObj source
    | "p:graphicFrame" => processGraphicFrameNode env nodeValue warpObj
    | "p:grpSp" => processGroupSpNode env (processNodesInSlide env warpObj source fuel) nodeValue
    | "mc:AlternateContent" =>
      if (getTextByPathList nodeValue ["mc:Fallback", "p:grpSpPr", "a:xfrm"]).truthy then
        processGroupSpNode env (processNodesInSlide env warpObj source fuel)
          (getTextByPathList nodeValue ["mc:Fallback"])
      else if (getTextByPathList nodeValue ["mc:Choice"]).truthy then
        processMathNode env (getTextByPathList nodeValue ["mc:Choice"])
      else .ok .undefined
    | _ => .ok .undefined

/-- The call `processNodesInSlide(nodeKey, nodeValue, warpObj, source)` with the fuel that
is always enough. -/
def processNode (env : Env) (warpObj : WarpObj) (source : String) (nodeKey : String)
    (nodeValue : JVal) : Except Err JVal :=
  processNodesInSlide env warpObj source nodeValue.size nodeKey nodeValue

/-! ## Strings -/

/-- Whether the characters `pat` open the list `cs`. -/
def startsWith : List Char → List Char → Bool
  | [], _ => true
  | _ :: _, [] => false
  | p :: ps, c :: cs => p = c && startsWith ps cs

/-- The call `s.replace(pat, rep)` with a string pattern, on characters: the first
occurrence is replaced. -/
def replaceFirstChars (pat rep : List Char) : List Char → List Char
  | [] => if pat = [] then rep else []
  | c :: cs =>
    if startsWith pat (c :: cs) then rep ++ (c :: cs).drop pat.length
    else c :: replaceFirstChars pat rep cs

/-- The call `s.replace(pat, rep)` with a string pattern. -/
def replaceFirst (s pat rep : String) : String :=
  String.mk (replaceFirstChars pat.toList rep.toList s.toList)

/-- The call `v.replace(pat, rep)` on a value: only a string has the method. -/
def jsReplace (v : JVal) (pat rep : String) : Except Err JVal :=
  match v with
  | .str s => .ok (.str (replaceFirst s pat rep))
  | _ => .error .typeError

/-- The call `s.replace(/dsp:/g, 'p:')`, on characters. -/
def replaceDsp : List Char → List Char
  | 'd' :: 's' :: 'p' :: ':' :: cs => 'p' :: ':' :: replaceDsp cs
  | c :: cs => c :: replaceDsp cs
  | [] => []

/-- The characters after the last `/`: `s.split('/').pop()`. -/
def lastSegmentChars : List Char → List Char → List Char
  | [], acc => acc
  | c :: cs, acc => if c = '/' then lastSegmentChars cs [] else lastSegmentChars cs (acc ++ [c])

/-- The call `s.split('/').pop()`. -/
def lastSegment (s : String) : String := String.mk (lastSegmentChars s.toList [])

/-- The short type of a relationship: its `Type` without the URL of the relationships. -/
def relType (attrs : JVal) : Except Err JVal := do
  jsReplace (← getProp attrs "Type")
    "http://schemas.openxmlformats.org/officeDocument/2006/relationships/" ""

/-- The target of a relationship: its `Target` with `../` replaced by `ppt/`. -/
def relTarget (attrs : JVal) : Except Err JVal := do
  jsReplace (← getProp attrs "Target") "../" "ppt/"

/-- The record `{ type, target }` stored for a relationship. -/
def relEntry (attrs : JVal) : Except Err JVal := do
  let type ← relType attrs
  let target ← relTarget attrs
  return .obj [("type", type), ("target", target)]

/-- The assignment `resObj[item.attrs.Id] = { type, target }`. -/
def addRel (resObj : List (String × JVal)) (item : JVal) : Except Err (List (String × JVal)) := do
  let attrs ← getProp item "attrs"
  let id ← getProp attrs "Id"
  let entry ← relEntry attrs
  return objSet resObj (toPropertyKey id) entry

/-- The loop that stores every relationship of an array (lines 203-208 and 235-240). -/
def addRels : List JVal → List (String × JVal) → Except Err (List (String × JVal))
  | [], resObj => .ok resObj
  | item :: rest, resObj => do addRels rest (← addRel resObj item)

/-- The text of a string value: the argument of a call that needs a string. -/
def JVal.strD : JVal → String
  | .str s => s
  | _ => ""

/-! ## The placeholder index and the notes -/

/-- The property names `Object.keys(v)` lists: throws on `undefined` and `null`. -/
def objectKeys : JVal → Except Err (List String)
  | .undefined => .error .typeError
  | .null => .error .typeError
  | v => .ok (v.entries.map Prod.fst)

/-- The three tables of `indexNodes`, as the entries of each. -/
structure IndexTables where
  idTable : List (String × JVal)
  idxTable : List (String × JVal)
  typeTable : List (String × JVal)

/-- The object `{ idTable, idxTable, typeTable }`. -/
def IndexTables.toJVal (t : IndexTables) : JVal :=
  .obj [("idTable", .obj t.idTable), ("idxTable", .obj t.idxTable), ("typeTable", .obj t.typeTable)]

/-- The registration of one node (lines 375-382 and 386-393). -/
def indexNode (t : IndexTables) (targetNode : JVal) : Except Err IndexTables := do
  let nvSpPrNode ← getProp targetNode "p:nvSpPr"
  let id := getTextByPathList nvSpPrNode ["p:cNvPr", "attrs", "id"]
  let idx := getTextByPathList nvSpPrNode ["p:nvPr", "p:ph", "attrs", "idx"]
  let type := getTextByPathList nvSpPrNode ["p:nvPr", "p:ph", "attrs", "type"]
  let t1 := if id.truthy then { t with idTable := objSet t.idTable (toPropertyKey id) targetNode } else t
  let t2 := if idx.truthy then { t1 with idxTable := objSet t1.idxTable (toPropertyKey idx) targetNode }
    else t1
  let t3 := if type.truthy then
      { t2 with typeTable := objSet t2.typeTable (toPropertyKey type) targetNode }
    else t2
  return t3

/-- The loop over the items of an array child (lines 374-383). -/
def indexItems : List JVal → IndexTables → Except Err IndexTables
  | [], t => .ok t
  | item :: rest, t => do indexItems rest (← indexNode t item)

/-- The loop over the children of the shape tree (lines 368-395). -/
def indexEntries : List (String × JVal) → IndexTables → Except Err IndexTables
  | [], t => .ok t
  | (key, targetNode) :: rest, t =>
    if key = "p:nvGrpSpPr" ∨ key = "p:grpSpPr" then indexEntries rest t
    else do
      let _ ← isArrayCtor targetNode
      let t' ←
        match targetNode with
        | .arr items => indexItems items t
        | _ => indexNode t targetNode
      indexEntries rest t'

/-- The key `keys[0]` as it is used in a property read: the first name, and `undefined` as
a property key when there is none. -/
def firstKey : List String → String
  | k :: _ => k
  | [] => "undefined"

/-- The function `indexNodes` (lines 361-398). -/
def indexNodes (content : JVal) : Except Err JVal := do
  let keys ← objectKeys content
  let root := content.get (firstKey keys)
  let spTreeNode ← getProp (← getProp root "p:cSld") "p:spTree"
  let t ← indexEntries spTreeNode.entries ⟨[], [], []⟩
  return t.toJVal

/-- The value as the list a loop runs over: `if (v.constructor !== Array) v = [v]`. -/
def asList : JVal → List JVal
  | .arr xs => xs
  | v => [v]

/-- The text of the runs of one shape of the notes (lines 304-311). -/
def noteRuns : List JVal → String
  | [] => ""
  | rNode :: rest =>
    match getTextByPathList rNode ["a:t"] with
    | .str t => t ++ noteRuns rest
    | _ => noteRuns rest

/-- The text of the shapes of the notes (lines 303-312). -/
def noteShapes : List JVal → String
  | [] => ""
  | spNode :: rest =>
    let rNodes := getTextByPathList spNode ["p:txBody", "a:p", "a:r"]
    if rNodes.truthy then noteRuns (asList rNodes) ++ noteShapes rest else noteShapes rest

/-- The function `getNote` (lines 297-314). -/
def getNote (noteContent : JVal) : String :=
  let spNodes := getTextByPathList noteContent ["p:notes", "p:cSld", "p:spTree", "p:sp"]
  if spNodes.truthy then noteShapes (asList spNodes) else ""

/-! ## The parts and the size of the presentation -/

/-- The number a string of decimal digits stands for. -/
def digitsValue (ds : List Char) : Nat :=
  ds.foldl (fun n c => 10 * n + (c.toNat - 48)) 0

/-- The number `+/(\d+)\.xml/.exec(p)[1]` on the characters of a name: the digits of the
leftmost match of one or more digits followed by `.xml`, the digits taken greedily; `none`
when nothing matches. The number is exact: the rounding of a number of more than fifteen
digits is not modelled. -/
def xmlNumberChars : List Char → Option Nat
  | [] => none
  | c :: cs =>
    if c.isDigit && startsWith ".xml".toList ((c :: cs).dropWhile Char.isDigit) then
      some (digitsValue ((c :: cs).takeWhile Char.isDigit))
    else xmlNumberChars cs

/-- The number `+/(\d+)\.xml/.exec(p)[1]` of a name. -/
def xmlNumber (p : String) : Option Nat := xmlNumberChars p.toList

/-- The comparator `sortSlideXml` (lines 57-61): the difference of the numbers of the two
names; the read `exec(p)[1]` throws on a name without a match. -/
def sortSlideXml (p1 p2 : String) : Except Err Int :=
  match xmlNumber p1, xmlNumber p2 with
  | some n1, some n2 => .ok ((n1 : Int) - (n2 : Int))
  | _, _ => .error .typeError

/-- One insertion of the sort: the name `a` goes before the first name of the sorted list
that the comparator does not put it after (a result that is not positive). -/
def insertBy (cmp : String → String → Except Err Int) (a : String) :
    List String → Except Err (List String)
  | [] => .ok [a]
  | b :: l => do
    let d ← cmp a b
    if d ≤ 0 then return a :: b :: l
    else return b :: (← insertBy cmp a l)

/-- The call `names.sort(cmp)` (lines 62-63), as a stable sort by insertion that calls the
comparator: from the last name to the first, each name is inserted into the sorted rest. The
comparator is not called on a list of fewer than two names, and is called at least once on
every name of a longer list; the call throws when the comparator does. -/
def jsSort (cmp : String → String → Except Err Int) : List String → Except Err (List String)
  | [] => .ok []
  | a :: l => do insertBy cmp a (← jsSort cmp l)

/-- The call `v.substr(1)`: only a string has the method; the first character is dropped. -/
def jsSubstr1 : JVal → Except Err String
  | .str s => .ok (String.mk (s.toList.drop 1))
  | _ => .error .typeError

/-- One turn of the loop over the overrides of the content types (lines 46-54): the lists of
slide names and of layout names. -/
def contentTypeItem (st : List String × List String) (item : JVal) :
    Except Err (List String × List String) := do
  let attrs ← getProp item "attrs"
  match ← getProp attrs "ContentType" with
  | .str "application/vnd.openxmlformats-officedocument.presentationml.slide+xml" =>
    return (st.1 ++ [← jsSubstr1 (← getProp attrs "PartName")], st.2)
  | .str "application/vnd.openxmlformats-officedocument.presentationml.slideLayout+xml" =>
    return (st.1, st.2 ++ [← jsSubstr1 (← getProp attrs "PartName")])
  | _ => return st

/-- The loop over the overrides of the content types (lines 45-55). -/
def contentTypeItems : List JVal → List String × List String →
    Except Err (List String × List String)
  | [], st => .ok st
  | item :: rest, st => do contentTypeItems rest (← contentTypeItem st item)

/-- The function `getContentTypes` (lines 39-69): the names of the slides and of the slide
layouts, each list sorted. -/
def getContentTypes (env : Env) : Except Err (List String × List String) := do
  let ContentTypesJson ← env.readXmlFile (.str "[Content_Types].xml")
  let subObj ← getProp (← getProp ContentTypesJson "Types") "Override"
  let (slidesLocArray, slideLayoutsLocArray) ← contentTypeItems (← forOf subObj) ([], [])
  let slides ← jsSort sortSlideXml slidesLocArray
  let slideLayouts ← jsSort sortSlideXml slideLayoutsLocArray
  return (slides, slideLayouts)

/-- The function `getSlideInfo` (lines 71-80). -/
def getSlideInfo (env : Env) : Except Err JVal := do
  let content ← env.readXmlFile (.str "ppt/presentation.xml")
  let sldSzAttrs ← getProp (← getProp (← getProp content "p:presentation") "p:sldSz") "attrs"
  let defaultTextStyle ← getProp (← getProp content "p:presentation") "p:defaultTextStyle"
  let width := emuToPoints (← getProp sldSzAttrs "cx")
  let height := emuToPoints (← getProp sldSzAttrs "cy")
  return .obj [("width", .num width), ("height", .num height),
    ("defaultTextStyle", defaultTextStyle)]

/-! ## The theme of the presentation -/

/-- The loop of `loadTheme` over an array of relationships (lines 88-93): the target of the
first relationship of the theme type, `undefined` when there is none. -/
def findThemeURI : List JVal → Except Err JVal
  | [] => .ok .undefined
  | relationshipItem :: rest => do
    let attrs ← getProp relationshipItem "attrs"
    if (← getProp attrs "Type").isStr
        "http://schemas.openxmlformats.org/officeDocument/2006/relationships/theme" then
      getProp attrs "Target"
    else findThemeURI rest

/-- The function `loadTheme` (lines 82-101). The string `'ppt/' + themeURI` is built from a
truthy `themeURI`, turned into a string as a property key is. -/
def loadTheme (env : Env) : Except Err JVal := do
  let preResContent ← env.readXmlFile (.str "ppt/_rels/presentation.xml.rels")
  let relationshipArray ← getProp (← getProp preResContent "Relationships") "Relationship"
  let _ ← isArrayCtor relationshipArray
  let themeURI ←
    match relationshipArray with
    | .arr items => findThemeURI items
    | single => do
      let attrs ← getProp single "attrs"
      if (← getProp attrs "Type").isStr
          "http://schemas.openxmlformats.org/officeDocument/2006/relationships/theme" then
        getProp attrs "Target"
      else pure .undefined
  if !themeURI.truthy then throw (.error "Can't open theme file.")
  env.readXmlFile (.str ("ppt/" ++ toPropertyKey themeURI))

/-! ## One slide -/

mutual
/-- The value `JSON.parse(JSON.stringify(v).replace(/dsp:/g, 'p:'))` (lines 227-229): every
key and every string has `dsp:` replaced by `p:`; a property that is `undefined` is dropped, an
item that is `undefined` and a number that is not finite become `null`. -/
def renameDsp : JVal → JVal
  | .str s => .str (String.mk (replaceDsp s.toList))
  | .num none => .null
  | .undefined => .null
  | .arr xs => .arr (renameDspList xs)
  | .obj kvs => .obj (renameDspEntries kvs [])
  | v => v
/-- The items of an array under `renameDsp`. -/
def renameDspList : List JVal → List JVal
  | [] => []
  | x :: xs => renameDsp x :: renameDspList xs
/-- The entries of an object under `renameDsp`; of two keys that become equal the later
value is kept. -/
def renameDspEntries : List (String × JVal) → List (String × JVal) → List (String × JVal)
  | [], acc => acc
  | (k, v) :: kvs, acc =>
    match v with
    | .undefined => renameDspEntries kvs acc
    | _ => renameDspEntries kvs (objSet acc (String.mk (replaceDsp k.toList)) (renameDsp v))
end

/-- The state of the loop over the relationships of a slide (lines 107-110). -/
structure SlideRels where
  layoutFilename : String
  diagramFilename : String
  notesFilename : String
  slideResObj : List (String × JVal)

/-- One turn of the loop over the relationships of a slide (lines 113-137). -/
def slideRel (st : SlideRels) (item : JVal) : Except Err SlideRels := do
  let attrs ← getProp item "attrs"
  match ← getProp attrs "Type" with
  | .str "http://schemas.openxmlformats.org/officeDocument/2006/relationships/slideLayout" =>
    return { st with layoutFilename := (← relTarget attrs).strD }
  | .str "http://schemas.microsoft.com/office/2007/relationships/diagramDrawing" =>
    let diagramFilename := (← relTarget attrs).strD
    return { st with diagramFilename := diagramFilename, slideResObj := ← addRel st.slideResObj item }
  | .str "http://schemas.openxmlformats.org/officeDocument/2006/relationships/notesSlide" =>
    return { st with notesFilename := (← relTarget attrs).strD }
  | _ => return { st with slideResObj := ← addRel st.slideResObj item }

/-- The loop over the relationships of a slide. -/
def slideRels : List JVal → SlideRels → Except Err SlideRels
  | [], st => .ok st
  | item :: rest, st => do slideRels rest (← slideRel st item)

/-- The relationships of a slide (lines 107-139), from the value of
`Relationships.Relationship`: the loop over a list, and for a single record its target as the
layout file name. -/
def slideRelsOf (relationshipArray : JVal) : Except Err SlideRels := do
  let _ ← isArrayCtor relationshipArray
  match relationshipArray with
  | .arr items => slideRels items ⟨"", "", "", []⟩
  | single => do
    let target ← relTarget (← getProp single "attrs")
    pure (⟨target.strD, "", "", []⟩ : SlideRels)

/-- One turn of the loop over the relationships of a layout (lines 154-165): the master
file name and the table of the other relationships. -/
def layoutRel (st : String × List (String × JVal)) (item : JVal) :
    Except Err (String × List (String × JVal)) := do
  let attrs ← getProp item "attrs"
  match ← getProp attrs "Type" with
  | .str "http://schemas.openxmlformats.org/officeDocument/2006/relationships/slideMaster" =>
    return ((← relTarget attrs).strD, st.2)
  | _ => return (st.1, ← addRel st.2 item)

/-- The loop over the relationships of a layout. -/
def layoutRels : List JVal → String × List (String × JVal) →
    Except Err (String × List (String × JVal))
  | [], st => .ok st
  | item :: rest, st => do layoutRels rest (← layoutRel st item)

/-- The relationships of a layout (lines 151-167), from the value of
`Relationships.Relationship`: the master file name and the table of the other relationships. -/
def layoutRelsOf (relationshipArray : JVal) : Except Err (String × List (String × JVal)) := do
  let _ ← isArrayCtor relationshipArray
  match relationshipArray with
  | .arr items => layoutRels items ("", [])
  | single => do
    let target ← relTarget (← getProp single "attrs")
    pure (target.strD, ([] : List (String × JVal)))

/-- One turn of the loop over the relationships of a master (lines 180-190): a theme entry
is passed over, the others are stored. -/
def masterRel (resObj : List (String × JVal)) (item : JVal) :
    Except Err (List (String × JVal)) := do
  let attrs ← getProp item "attrs"
  match ← getProp attrs "Type" with
  | .str "http://schemas.openxmlformats.org/officeDocument/2006/relationships/theme" =>
    return resObj
  | _ => addRel resObj item

/-- The loop over the relationships of a master. -/
def masterRels : List JVal → List (String × JVal) → Except Err (List (String × JVal))
  | [], resObj => .ok resObj
  | item :: rest, resObj => do masterRels rest (← masterRel resObj item)

/-- The relationships of a master (lines 177-192), from the value of
`Relationships.Relationship`: the theme file name and the table of the other relationships.
The loop over a list leaves the theme file name empty. -/
def masterRelsOf (relationshipArray : JVal) : Except Err (String × List (String × JVal)) := do
  let _ ← isArrayCtor relationshipArray
  match relationshipArray with
  | .arr items => do pure ("", ← masterRels items [])
  | single => do
    let target ← relTarget (← getProp single "attrs")
    pure (target.strD, ([] : List (String × JVal)))

/-- The file name of the relationships of a part: `name.replace(last, '_rels/' + last) +
'.rels'` with `last = name.split('/').pop()` (lines 196-197 and 223-224). -/
def relsFileName (name : String) : String :=
  replaceFirst name (lastSegment name) ("_rels/" ++ lastSegment name) ++ ".rels"

/-- The table of all relationships of a part (lines 200-216 and 233-247), from the value of
`Relationships.Relationship`. -/
def allRels (relationshipArray : JVal) : Except Err (List (String × JVal)) := do
  let _ ← isArrayCtor relationshipArray
  match relationshipArray with
  | .arr items => addRels items []
  | single => addRel [] single

/-- The relationship table of the theme (lines 194-218). -/
def themeRels (env : Env) (themeFilename : String) : Except Err (List (String × JVal)) := do
  if themeFilename = "" then return []
  let themeResContent ← env.readXmlFile (.str (relsFileName themeFilename))
  if !themeResContent.truthy then return []
  let relationshipArray ← getProp (themeResContent.get "Relationships") "Relationship"
  if !relationshipArray.truthy then return []
  allRels relationshipArray

/-- The content and the relationship table of the diagram drawing (lines 220-249). -/
def diagramParts (env : Env) (diagramFilename : String) :
    Except Err (JVal × List (String × JVal)) := do
  if diagramFilename = "" then return (.obj [], [])
  let content ← env.readXmlFile (.str diagramFilename)
  let digramFileContent := if content.truthy then renameDsp content else content
  let digramResContent ← env.readXmlFile (.str (relsFileName diagramFilename))
  if !digramResContent.truthy then return (digramFileContent, [])
  let relationshipArray ← getProp (digramResContent.get "Relationships") "Relationship"
  return (digramFileContent, ← allRels relationshipArray)

/-- The first part of `processSingleSlide` (lines 104-272): the parts of the inheritance
chain are read and indexed; the result is the record `warpObj`, the note and the shape tree
`nodes` of the slide. -/
def slideContext (env : Env) (sldFileName : String) (themeContent defaultTextStyle : JVal) :
    Except Err (WarpObj × String × JVal) := do
  let resName := replaceFirst sldFileName "slides/slide" "slides/_rels/slide" ++ ".rels"
  let resContent ← env.readXmlFile (.str resName)
  let relationshipArray ← getProp (← getProp resContent "Relationships") "Relationship"
  let rels ← slideRelsOf relationshipArray
  let slideNotesContent ← env.readXmlFile (.str rels.notesFilename)
  let note := getNote slideNotesContent
  let slideLayoutContent ← env.readXmlFile (.str rels.layoutFilename)
  let slideLayoutTables ← indexNodes slideLayoutContent
  let slideLayoutResFilename :=
    replaceFirst rels.layoutFilename "slideLayouts/slideLayout" "slideLayouts/_rels/slideLayout"
      ++ ".rels"
  let slideLayoutResContent ← env.readXmlFile (.str slideLayoutResFilename)
  let relationshipArray ← getProp (← getProp slideLayoutResContent "Relationships") "Relationship"
  let (masterFilename, layoutResObj) ← layoutRelsOf relationshipArray
  let slideMasterContent ← env.readXmlFile (.str masterFilename)
  let slideMasterTextStyles := getTextByPathList slideMasterContent ["p:sldMaster", "p:txStyles"]
  let slideMasterTables ← indexNodes slideMasterContent
  let slideMasterResFilename :=
    replaceFirst masterFilename "slideMasters/slideMaster" "slideMasters/_rels/slideMaster"
      ++ ".rels"
  let slideMasterResContent ← env.readXmlFile (.str slideMasterResFilename)
  let relationshipArray ← getProp (← getProp slideMasterResContent "Relationships") "Relationship"
  let (themeFilename, masterResObj) ← masterRelsOf relationshipArray
  let themeResObj ← themeRels env themeFilename
  let (digramFileContent, diagramResObj) ← diagramParts env rels.diagramFilename
  let tableStyles ← env.readXmlFile (.str "ppt/tableStyles.xml")
  let slideContent ← env.readXmlFile (.str sldFileName)
  let nodes ← getProp (← getProp (← getProp slideContent "p:sld") "p:cSld") "p:spTree"
  let warpObj : WarpObj :=
    { slideLayoutContent := slideLayoutContent
      slideLayoutTables := slideLayoutTables
      slideMasterContent := slideMasterContent
      slideMasterTables := slideMasterTables
      slideContent := slideContent
      tableStyles := tableStyles
      slideResObj := .obj rels.slideResObj
      slideMasterTextStyles := slideMasterTextStyles
      layoutResObj := .obj layoutResObj
      masterResObj := .obj masterResObj
      themeContent := themeContent
      themeResObj := .obj themeResObj
      digramFileContent := digramFileContent
      diagramResObj := .obj diagramResObj
      defaultTextStyle := defaultTextStyle }
  return (warpObj, note, nodes)

/-- The function `processSingleSlide` (lines 103-295): after `slideContext`, the background
and the walk over the shape tree (lines 274-294). -/
def processSingleSlide (env : Env) (sldFileName : String) (themeContent defaultTextStyle : JVal) :
    Except Err JVal := do
  let (warpObj, note, nodes) ← slideContext env sldFileName themeContent defaultTextStyle
  let bgColor := env.getSlideBackgroundFill warpObj
  let elements ← walkEntries (processNode env warpObj "slide") nodes.entries
  return .obj [("fill", bgColor), ("elements", .arr elements), ("note", .str note)]

/-- The loop of `parse` over the names of the slides (lines 25-28). -/
def parseSlides (env : Env) (themeContent defaultTextStyle : JVal) :
    List String → Except Err (List JVal)
  | [] => .ok []
  | filename :: rest => do
    let singleSlide ← processSingleSlide env filename themeContent defaultTextStyle
    let slides ← parseSlides env themeContent defaultTextStyle rest
    return singleSlide :: slides

/-- The function `parse` (lines 16-37), on the archive the reader of `env` reads. -/
def parse (env : Env) : Except Err JVal := do
  let filesInfo ← getContentTypes env
  let info ← getSlideInfo env
  let themeContent ← loadTheme env
  let slides ← parseSlides env themeContent (info.get "defaultTextStyle") filesInfo.1
  return .obj [("slides", .arr slides),
    ("size", .obj [("width", info.get "width"), ("height", info.get "height")])]

/-! ## Auxiliary definitions for the statements -/

/-- The nodes the tree walk visits for the entries of an object, in order: the items of an
array value one by one, any other value as one node. -/
def childNodes : List (String × JVal) → List (String × JVal)
  | [] => []
  | (k, .arr items) :: rest => items.map (fun c => (k, c)) ++ childNodes rest
  | (k, v) :: rest => (k, v) :: childNodes rest

/-- Whether a value is `undefined` or `null`. -/
def JVal.isNullish : JVal → Bool
  | .undefined => true
  | .null => true
  | _ => false

/-- The value a call returned, `undefined` when it threw. -/
def okVal : Except Err JVal → JVal
  | .ok v => v
  | .error _ => .undefined

/-- Whether a call returned. -/
def isOk : Except Err JVal → Bool
  | .ok _ => true
  | .error _ => false

/-- The integer `parseInt(xfrmNode[child]['attrs'][attr])` of an attribute of a transform
(lines 458-465, before the conversion to points). -/
def xfrmEmu (xfrmNode : JVal) (child attr : String) : Except Err (Option Int) := do
  return parseInt (← getProp (← getProp (← getProp xfrmNode child) "attrs") attr)

/-- The value of `parseInt(…) * RATIO_EMUs_Points` (lines 458-465) when `parseInt` reads the
integer `n`. -/
def pointsOfInt (n : Int) : Option ℚ := jsMul (some (jsNum n)) (some RATIO_EMUs_Points)

/-- The scale factor `cx / chcx` of a group (lines 470-471), from the extent and the child
extent in the archive unit. -/
def scaleOf (ext chExt : Int) : Option ℚ := jsDiv (pointsOfInt ext) (pointsOfInt chExt)

/-- The rotation of the text of a shape (lines 568-574): with a text-frame transform
`p:txXfrm` it is the converted `rot` of that transform plus 90, and `undefined` when the
transform has no `rot`; without one it is the rotation of the shape. -/
def txtRotateOf (env : Env) (node : JVal) : JVal :=
  let txtXframeNode := getTextByPathList node ["p:txXfrm"]
  if txtXframeNode.truthy then
    let txtXframeRot := getTextByPathList txtXframeNode ["attrs", "rot"]
    if txtXframeRot.truthy then .num (jsAdd (env.angleToDegrees txtXframeRot) (some 90))
    else .undefined
  else .num (env.angleToDegrees (getTextByPathList (getTextByPathList node ["p:spPr", "a:xfrm"])
    ["attrs", "rot"]))

/-- The value of `shadow` in `genShape` (lines 582-584). -/
def shapeShadow (env : Env) (node : JVal) (warpObj : WarpObj) : JVal :=
  let outerShdwNode := getTextByPathList node ["p:spPr", "a:effectLst", "a:outerShdw"]
  if outerShdwNode.truthy then env.getShadow outerShdwNode warpObj else .undefined

/-- The record `data` of `genShape` as it is first built (lines 589-606), for a node and a
border record on which no read throws. -/
def shapeData0 (env : Env) (node slideLayoutSpNode slideMasterSpNode name type order : JVal)
    (warpObj : WarpObj) : List (String × JVal) :=
  let slideXfrmNode := getTextByPathList node ["p:spPr", "a:xfrm"]
  let slideLayoutXfrmNode := getTextByPathList slideLayoutSpNode ["p:spPr", "a:xfrm"]
  let slideMasterXfrmNode := getTextByPathList slideMasterSpNode ["p:spPr", "a:xfrm"]
  let position := getPosition slideXfrmNode slideLayoutXfrmNode slideMasterXfrmNode
  let size := getSize slideXfrmNode slideLayoutXfrmNode slideMasterXfrmNode
  let border := env.getBorder node type warpObj
  [("left", position.get "left"), ("top", position.get "top"), ("width", size.get "width"),
   ("height", size.get "height"), ("borderColor", border.get "borderColor"),
   ("borderWidth", border.get "borderWidth"), ("borderType", border.get "borderType"),
   ("borderStrokeDasharray", border.get "strokeDasharray"),
   ("fillColor", JVal.or (env.getShapeFill node .undefined warpObj) (.str "")),
   ("content", if (node.get "p:txBody").truthy then
      env.genTextBody (node.get "p:txBody") node slideLayoutSpNode type warpObj else .str ""),
   ("isFlipV", .bool ((getTextByPathList slideXfrmNode ["attrs", "flipV"]).isStr "1")),
   ("isFlipH", .bool ((getTextByPathList slideXfrmNode ["attrs", "flipH"]).isStr "1")),
   ("rotate", .num (env.angleToDegrees (getTextByPathList slideXfrmNode ["attrs", "rot"]))),
   ("vAlign", env.getVerticalAlign node slideLayoutSpNode slideMasterSpNode type),
   ("name", name), ("order", order)]

/-- The record `data` of `genShape` (lines 589-608): `shapeData0` with the shadow, when
there is one. -/
def shapeData (env : Env) (node slideLayoutSpNode slideMasterSpNode name type order : JVal)
    (warpObj : WarpObj) : List (String × JVal) :=
  if (shapeShadow env node warpObj).truthy then
    objSet (shapeData0 env node slideLayoutSpNode slideMasterSpNode name type order warpObj)
      "shadow" (shapeShadow env node warpObj)
  else shapeData0 env node slideLayoutSpNode slideMasterSpNode name type order warpObj

/-- The condition of the custom-geometry branch of `genShape` (line 610). -/
def isCustomCase (node type : JVal) : Bool :=
  (getTextByPathList node ["p:spPr", "a:custGeom"]).truthy && !type.isStr "diagram"

/-- The condition of the preset-geometry branch of `genShape` (line 624). -/
def isPresetCase (node type : JVal) : Bool :=
  (getTextByPathList node ["p:spPr", "a:prstGeom", "attrs", "prst"]).truthy &&
    (type.isStr "obj" || !type.truthy)

/-- The extent attributes the custom-geometry branch reads from the transform of the slide
node alone (line 611). -/
def slideExt (node : JVal) : JVal :=
  getTextByPathList (getTextByPathList node ["p:spPr", "a:xfrm"]) ["a:ext", "attrs"]

/-- The element `genShape` returns when none of its reads throws: the three branches of
lines 610-637 over the record `data`. -/
def shapeElement (env : Env) (node slideLayoutSpNode slideMasterSpNode name type order : JVal)
    (warpObj : WarpObj) : JVal :=
  let data := shapeData env node slideLayoutSpNode slideMasterSpNode name type order warpObj
  if isCustomCase node type then
    .obj (objSet (objSet (objSet (normalizeContent env data) "type" (.str "shape"))
      "shapType" (.str "custom"))
      "path" (env.getCustomShapePath (getTextByPathList node ["p:spPr", "a:custGeom"])
        (emuToPoints ((slideExt node).get "cx")) (emuToPoints ((slideExt node).get "cy"))))
  else if isPresetCase node type then
    .obj (objSet (objSet (normalizeContent env data) "type" (.str "shape"))
      "shapType" (getTextByPathList node ["p:spPr", "a:prstGeom", "attrs", "prst"]))
  else
    .obj (objSet (objSet (objSet data "type" (.str "text"))
      "isVertical" (.bool ((getTextByPathList node
        ["p:txBody", "a:bodyPr", "attrs", "vert"]).isStr "eaVert")))
      "rotate" (txtRotateOf env node))

/-- The placeholder type of a shape as the spec words it: the explicit type attribute, else
`text` for a text box, else the inherited layout type, else the inherited master type, else
the default of the caller context. -/
def placeholderTypeSpec (own txBox layoutType masterType : JVal) (source : String) : JVal :=
  if own.truthy then own
  else if txBox.isStr "1" then .str "text"
  else if layoutType.truthy then layoutType
  else if masterType.truthy then masterType
  else if source = "diagramBg" then .str "diagram"
  else .str "obj"

/-! ## A sample presentation -/

/-- An angle converter that meets the contract of the spec: sixty-thousandths of a degree to
degrees, normalized into `[0, 360)`; 0 for a value that holds no number. -/
def sampleAngle (v : JVal) : Option ℚ :=
  some (match parseInt v with
    | some n => (((n / 60000) % 360 : Int) : ℚ)
    | none => 0)

/-- An element with one attribute record. -/
def attrsNode (attrs : List (String × JVal)) : JVal := .obj [("attrs", .obj attrs)]

/-- A transform node `a:xfrm` with offset and extent, in EMU. -/
def xfrmOf (x y cx cy : String) (more : List (String × JVal)) : JVal :=
  .obj ([("a:off", attrsNode [("x", .str x), ("y", .str y)]),
    ("a:ext", attrsNode [("cx", .str cx), ("cy", .str cy)])] ++ more)

/-- A shape `p:sp` with a placeholder of type `obj`, preset geometry `rect`, offset
(914400, 457200) and extent (1828800, 914400). -/
def sampleShape (order : ℚ) : JVal :=
  .obj [("attrs", .obj [("order", .num (some order))]),
    ("p:nvSpPr", .obj [("p:cNvPr", attrsNode [("id", .str "2"), ("name", .str "Rectangle 1")]),
      ("p:nvPr", .obj [("p:ph", attrsNode [("type", .str "obj")])])]),
    ("p:spPr", .obj [("a:xfrm", xfrmOf "914400" "457200" "1828800" "914400" []),
      ("a:prstGeom", attrsNode [("prst", .str "rect")])])]

/-- A connector `p:cxnSp` that is a straight line. -/
def sampleConnector (order : ℚ) : JVal :=
  .obj [("attrs", .obj [("order", .num (some order))]),
    ("p:nvCxnSpPr", .obj [("p:cNvPr", attrsNode [("id", .str "3"), ("name", .str "Line 2")]),
      ("p:nvPr", .obj [])]),
    ("p:spPr", .obj [("a:xfrm", xfrmOf "0" "0" "914400" "0" []),
      ("a:prstGeom", attrsNode [("prst", .str "line")])])]

/-- The entries of a group `p:grpSp` with the given transform and children. -/
def groupEntries (order : ℚ) (x y cx cy chx chy chcx chcy : String)
    (children : List (String × JVal)) : List (String × JVal) :=
  [("attrs", .obj [("order", .num (some order))]),
   ("p:grpSpPr", .obj [("a:xfrm", xfrmOf x y cx cy
      [("a:chOff", attrsNode [("x", .str chx), ("y", .str chy)]),
       ("a:chExt", attrsNode [("cx", .str chcx), ("cy", .str chcy)])])])] ++ children

/-- A group at (0, 0) that shows its children at twice their size, with child offset
(12700, 25400), holding one shape. -/
def sampleGroupEntries : List (String × JVal) :=
  groupEntries 2 "0" "0" "3657600" "1828800" "12700" "25400" "1828800" "914400"
    [("p:sp", sampleShape 1)]

/-- A group at (0, 0) that shows its children at three times their size, holding the group
`sampleGroupEntries`. -/
def sampleOuterEntries : List (String × JVal) :=
  groupEntries 3 "0" "0" "10972800" "5486400" "0" "0" "3657600" "1828800"
    [("p:grpSp", .obj sampleGroupEntries)]

/-- A group at (0, 0) of width 1000000 over a child width of 5000000, with child offset
(12700, 25400), holding one shape. -/
def sampleFifthEntries : List (String × JVal) :=
  groupEntries 4 "0" "0" "1000000" "1828800" "12700" "25400" "5000000" "914400"
    [("p:sp", sampleShape 1)]

/-- A layout shape with a placeholder of type `obj` whose transform holds offset
(914400, 457200), extent (1828800, 914400), a rotation of 90 degrees and both flips. -/
def sampleLayoutShape : JVal :=
  .obj [("attrs", .obj [("order", .num (some 7))]),
    ("p:nvSpPr", .obj [("p:cNvPr", attrsNode [("id", .str "2"), ("name", .str "Content 1")]),
      ("p:nvPr", .obj [("p:ph", attrsNode [("type", .str "obj")])])]),
    ("p:spPr", .obj [("a:xfrm", xfrmOf "914400" "457200" "1828800" "914400"
      [("attrs", .obj [("rot", .str "5400000"), ("flipH", .str "1"), ("flipV", .str "1")])])])]

/-- A slide shape with a placeholder of type `obj` and preset geometry `rect` that has no
transform of its own. -/
def sampleShapeNoXfrm : JVal :=
  .obj [("attrs", .obj [("order", .num (some 4))]),
    ("p:nvSpPr", .obj [("p:cNvPr", attrsNode [("id", .str "4"), ("name", .str "Content 3")]),
      ("p:nvPr", .obj [("p:ph", attrsNode [("type", .str "obj")])])]),
    ("p:spPr", .obj [("a:prstGeom", attrsNode [("prst", .str "rect")])])]

/-- A slide shape with a placeholder of type `obj` and custom geometry that has no transform
of its own. -/
def sampleCustomNoXfrm : JVal :=
  .obj [("attrs", .obj [("order", .num (some 5))]),
    ("p:nvSpPr", .obj [("p:cNvPr", attrsNode [("id", .str "5"), ("name", .str "Freeform 4")]),
      ("p:nvPr", .obj [("p:ph", attrsNode [("type", .str "obj")])])]),
    ("p:spPr", .obj [("a:custGeom", .obj [("a:pathLst", .obj [])])])]

/-- A shape of a diagram drawing with a placeholder of type `body`, its own transform and a
text-frame transform rotated by 300 degrees. -/
def sampleTextFrameShape : JVal :=
  .obj [("attrs", .obj [("order", .num (some 6))]),
    ("p:nvSpPr", .obj [("p:cNvPr", attrsNode [("id", .str "6"), ("name", .str "Text 5")]),
      ("p:nvPr", .obj [("p:ph", attrsNode [("type", .str "body")])])]),
    ("p:spPr", .obj [("a:xfrm", xfrmOf "0" "0" "914400" "914400" [])]),
    ("p:txXfrm", xfrmOf "0" "0" "914400" "914400" [("attrs", .obj [("rot", .str "18000000")])])]

/-- A part whose shape tree is empty, under the given root. -/
def emptyTreePart (root : String) : JVal :=
  .obj [(root, .obj [("p:cSld", .obj [("p:spTree", .obj [])])])]

/-- A relationship part with a single record. -/
def singleRel (id type target : String) : JVal :=
  .obj [("Relationships", .obj [("Relationship",
    attrsNode [("Id", .str id), ("Type", .str type), ("Target", .str target)])])]

/-- A shape tree that holds, after the two property nodes every tree has and in document
order, a shape (order 0), a connector (order 1) and a second shape (order 2); the reader
stores the two shapes under one key. -/
def sampleTree : JVal :=
  .obj [("p:nvGrpSpPr", .obj []), ("p:grpSpPr", .obj []),
    ("p:sp", .arr [sampleShape 0, sampleShape 2]), ("p:cxnSp", sampleConnector 1)]

/-- A slide with the shape tree `sampleTree`. -/
def sampleSlide : JVal :=
  .obj [("p:sld", .obj [("p:cSld", .obj [("p:spTree", sampleTree)])])]

/-- A shape tree that holds one shape, after the two property nodes every tree has. -/
def sampleTreeOne : JVal :=
  .obj [("p:nvGrpSpPr", .obj [("attrs", .obj [("order", .num (some 0))])]),
    ("p:grpSpPr", .obj [("attrs", .obj [("order", .num (some 1))])]),
    ("p:sp", sampleShape 2)]

/-- A slide with the shape tree `sampleTreeOne`. -/
def sampleSlideOne : JVal :=
  .obj [("p:sld", .obj [("p:cSld", .obj [("p:spTree", sampleTreeOne)])])]

/-- The parts of a sample archive; a name the archive lacks reads as `null`. -/
def sampleArchive : JVal → Except Err JVal
  | .str "ppt/slides/_rels/slide1.xml.rels" =>
    .ok (singleRel "rId1"
      "http://schemas.openxmlformats.org/officeDocument/2006/relationships/slideLayout"
      "../slideLayouts/slideLayout1.xml")
  | .str "ppt/slideLayouts/slideLayout1.xml" => .ok (emptyTreePart "p:sldLayout")
  | .str "ppt/slideLayouts/_rels/slideLayout1.xml.rels" =>
    .ok (singleRel "rId1"
      "http://schemas.openxmlformats.org/officeDocument/2006/relationships/slideMaster"
      "../slideMasters/slideMaster1.xml")
  | .str "ppt/slideMasters/slideMaster1.xml" => .ok (emptyTreePart "p:sldMaster")
  | .str "ppt/slideMasters/_rels/slideMaster1.xml.rels" =>
    .ok (singleRel "rId1"
      "http://schemas.openxmlformats.org/officeDocument/2006/relationships/theme"
      "../theme/theme1.xml")
  | .str "ppt/slides/slide1.xml" => .ok sampleSlide
  | .str "ppt/slides/_rels/slide2.xml.rels" =>
    .ok (singleRel "rId1"
      "http://schemas.openxmlformats.org/officeDocument/2006/relationships/slideLayout"
      "../slideLayouts/slideLayout1.xml")
  | .str "ppt/slides/slide2.xml" => .ok sampleSlideOne
  | _ => .ok .null

/-- Collaborators for the sample presentation: an angle converter that meets the contract of
the spec, a border record without fields, and no fill, shadow, text or media. -/
def sampleEnv : Env where
  readXmlFile := sampleArchive
  zipFile := fun _ => none
  createObjectURL := fun _ _ => .undefined
  angleToDegrees := sampleAngle
  hasValidText := fun v => match v with
    | .str t => !(t.toList.all isJsSpace)
    | _ => false
  extractFileExtension := fun _ => .str ""
  base64ArrayBuffer := fun _ => ""
  getMimeType := fun _ => ""
  isVideoLink := fun _ => false
  escapeHtml := fun v => v
  genTextBody := fun txBody _ _ _ _ => getTextByPathList txBody ["a:p", "a:r", "a:t"]
  getBorder := fun _ _ _ => .obj []
  getSlideBackgroundFill := fun _ => .undefined
  getShapeFill := fun _ _ _ => .undefined
  getSolidFill := fun _ _ _ _ => .undefined
  getShadow := fun _ _ => .undefined
  getVerticalAlign := fun _ _ _ _ => .str "mid"
  getCustomShapePath := fun _ _ _ => .str ""
  getChartInfo := fun _ => .undefined
  getTableBorders := fun _ _ => .undefined
  getTableCellParams := fun _ _ _ _ => .obj []
  getTableRowParams := fun _ _ _ _ _ => .obj []
  findOMath := fun _ => .arr []
  parseOMath := fun v => v
  latexFormart := fun v => v

/-- Index tables without entries. -/
def emptyTables : JVal := .obj [("idTable", .obj []), ("idxTable", .obj []), ("typeTable", .obj [])]

/-- The record `warpObj` of a slide whose layout and master have no shapes. -/
def sampleWarp : WarpObj where
  slideLayoutContent := emptyTreePart "p:sldLayout"
  slideLayoutTables := emptyTables
  slideMasterContent := emptyTreePart "p:sldMaster"
  slideMasterTables := emptyTables
  slideContent := sampleSlide
  tableStyles := .null
  slideResObj := .obj []
  slideMasterTextStyles := .undefined
  layoutResObj := .obj []
  masterResObj := .obj []
  themeContent := .undefined
  themeResObj := .obj []
  digramFileContent := .obj []
  diagramResObj := .obj []
  defaultTextStyle := .undefined

/-- The record `warpObj` of a slide whose layout holds the shape `sampleLayoutShape`, indexed
by its placeholder type. -/
def sampleWarpLayout : WarpObj :=
  { sampleWarp with
    slideLayoutTables := .obj [("idTable", .obj [("2", sampleLayoutShape)]), ("idxTable", .obj []),
      ("typeTable", .obj [("obj", sampleLayoutShape)])] }

/-- The record `warpObj` of the slide `sampleSlideOne`. -/
def sampleWarpOne : WarpObj := { sampleWarp with slideContent := sampleSlideOne }

/-- The offset attributes of the transform of the slide node itself. -/
def slideOff (node : JVal) : JVal :=
  getTextByPathList (getTextByPathList node ["p:spPr", "a:xfrm"]) ["a:off", "attrs"]

/-! ## The text of a shape -/

/-- The value of `content` in the record `data` of `genShape` (line 599): the text of the
text body, when the node has one. -/
def shapeContent (env : Env) (node slideLayoutSpNode type : JVal) (warpObj : WarpObj) : JVal :=
  if (node.get "p:txBody").truthy then
    env.genTextBody (node.get "p:txBody") node slideLayoutSpNode type warpObj
  else .str ""

/-- A shape with preset geometry `rect` whose text body holds one run of two blanks. -/
def sampleBlankShape : JVal :=
  .obj [("attrs", .obj [("order", .num (some 8))]),
    ("p:nvSpPr", .obj [("p:cNvPr", attrsNode [("id", .str "8"), ("name", .str "Blank 7")]),
      ("p:nvPr", .obj [("p:ph", attrsNode [("type", .str "obj")])])]),
    ("p:spPr", .obj [("a:xfrm", xfrmOf "0" "0" "914400" "914400" []),
      ("a:prstGeom", attrsNode [("prst", .str "rect")])]),
    ("p:txBody", .obj [("a:p", .obj [("a:r", .obj [("a:t", .str "  ")])])])]

/-! ## A sample table -/

/-- The item `v[i]` of an array. -/
def JVal.item (v : JVal) (i : Nat) : JVal :=
  match v with
  | .arr xs => xs.getD i .undefined
  | _ => .undefined

/-- The cell `data[i][j]` of a table element. -/
def tableCell (t : JVal) (i j : Nat) : JVal := ((t.get "data").item i).item j

/-- The four corner regions of a table style. -/
def isCornerRegion (r : JVal) : Bool :=
  r.isStr "a:nwCell" || r.isStr "a:neCell" || r.isStr "a:swCell" || r.isStr "a:seCell"

/-- A table style that defines the corner `a:nwCell` and the first band `a:band1V`, and
neither another corner nor the second band. -/
def sampleTblStyle : JVal :=
  .obj [("attrs", .obj [("styleId", .str "{S1}")]),
    ("a:nwCell", .obj [("a:tcStyle", .obj [])]),
    ("a:band1V", .obj [("a:tcStyle", .obj [])])]

/-- A part `ppt/tableStyles.xml` that holds the style `sampleTblStyle` alone. -/
def sampleTableStyles : JVal :=
  .obj [("a:tblStyleLst", .obj [("a:tblStyle", sampleTblStyle)])]

/-- A table cell with one run of text. -/
def sampleTc (text : String) : JVal :=
  .obj [("a:txBody", .obj [("a:p", .obj [("a:r", .obj [("a:t", .str text)])])])]

/-- A graphic frame that holds a table of two rows and three columns with the flags
`firstRow`, `firstCol` and `bandCol` set and the style `sampleTblStyle`. -/
def sampleTable : JVal :=
  .obj [("attrs", .obj [("order", .num (some 9))]),
    ("p:xfrm", xfrmOf "0" "0" "2743200" "914400" []),
    ("a:graphic", .obj [("a:graphicData", .obj [("a:tbl", .obj
      [("a:tblPr", .obj [("attrs", .obj [("firstRow", .str "1"), ("firstCol", .str "1"),
          ("bandCol", .str "1")]),
        ("a:tableStyleId", .str "{S1}")]),
       ("a:tr", .arr [
         .obj [("a:tc", .arr [sampleTc "a", sampleTc "b", sampleTc "c"])],
         .obj [("a:tc", .arr [sampleTc "d", sampleTc "e", sampleTc "f"])]])])])])]

/-- The flags of `sampleTable`. -/
def sampleFlags : TblFlags :=
  { isFrstRowAttr := true, isFrstColAttr := true, isLstRowAttr := false, isLstColAttr := false,
    isBandRowAttr := false, isBandColAttr := true }

/-- The record `warpObj` of a slide of a presentation with the styles `sampleTableStyles`. -/
def sampleWarpStyles : WarpObj := { sampleWarp with tableStyles := sampleTableStyles }

/-- Collaborators as `sampleEnv`, with cell parameters that report the style region they are
asked for as the fill colour of the cell. -/
def regionEnv : Env :=
  { sampleEnv with
    getTableCellParams := fun _ _ a_sorce _ => JVal.obj [("fillColor", a_sorce)] }

/-- The entries of the cell record `td` when no read throws (lines 895-902). -/
def tdEntries (env : Env) (tcNode thisTblStyle a_sorce fillColor fontColor fontBold tbl_bgcolor : JVal)
    (warpObj : WarpObj) : List (String × JVal) :=
  let cell := env.getTableCellParams tcNode thisTblStyle a_sorce warpObj
  tdField (tdField (tdField (tdField (tdField (tdField (tdField
    [("text", env.genTextBody (tcNode.get "a:txBody") tcNode .undefined .undefined warpObj)]
    "rowSpan" (cell.get "rowSpan")) "colSpan" (cell.get "colSpan")) "vMerge" (cell.get "vMerge"))
    "hMerge" (cell.get "hMerge")) "fontBold" (JVal.or (cell.get "fontBold") fontBold))
    "fontColor" (JVal.or (cell.get "fontColor") fontColor))
    "fillColor" (JVal.or (JVal.or (cell.get "fillColor") fillColor) tbl_bgcolor)

/-! ## The visited children of a shape tree -/

/-- The shape tree `content[keys[0]]['p:cSld']['p:spTree']` of a part (lines 362-363). -/
def spTreeOf (content : JVal) : JVal :=
  ((content.get (firstKey (content.entries.map Prod.fst))).get "p:cSld").get "p:spTree"

/-- The shape id `indexNodes` reads from a node (lines 375-376 and 386-387). -/
def nvId (c : JVal) : JVal := getTextByPathList (c.get "p:nvSpPr") ["p:cNvPr", "attrs", "id"]

/-- The placeholder index `indexNodes` reads from a node (lines 377 and 388). -/
def nvIdx (c : JVal) : JVal :=
  getTextByPathList (c.get "p:nvSpPr") ["p:nvPr", "p:ph", "attrs", "idx"]

/-- The placeholder type `indexNodes` reads from a node (lines 378 and 389). -/
def nvType (c : JVal) : JVal :=
  getTextByPathList (c.get "p:nvSpPr") ["p:nvPr", "p:ph", "attrs", "type"]

/-- The direct children of a shape tree that `indexNodes` visits, in the order of its loops:
the values of the keys other than `p:nvGrpSpPr` and `p:grpSpPr`, an array value item by item. -/
def indexedNodes (kvs : List (String × JVal)) : List JVal :=
  (childNodes (kvs.filter fun kv => !(kv.1 == "p:nvGrpSpPr" || kv.1 == "p:grpSpPr"))).map
    Prod.snd

/-- Whether a node carries the key `k` in the attribute `attr`: the attribute is truthy and
is `k` as a property key. -/
def carriesKey (attr : JVal → JVal) (k : String) (c : JVal) : Bool :=
  (attr c).truthy && toPropertyKey (attr c) == k

/-- The last node of a list that carries the key `k` in the attribute `attr`. -/
def lastCarrying (attr : JVal → JVal) (k : String) (cs : List JVal) : Option JVal :=
  cs.reverse.find? (carriesKey attr k)

/-- The slot `tables[tbl][k]` of the tables `indexNodes` returns; `none` when the table has no
such key. -/
def tableSlot (tables : JVal) (tbl k : String) : Option JVal :=
  lookupKey k (tables.get tbl).entries

/-- A picture `p:pic` whose non-visual properties hold the shape id 4 and a placeholder of
type `pic` with index 1. -/
def samplePicture : JVal :=
  .obj [("attrs", .obj [("order", .num (some 3))]),
    ("p:nvPicPr", .obj [("p:cNvPr", attrsNode [("id", .str "4"), ("name", .str "Picture 3")]),
      ("p:nvPr", .obj [("p:ph", attrsNode [("type", .str "pic"), ("idx", .str "1")])])]),
    ("p:blipFill", .obj [])]

/-- A layout shape with the given id and a placeholder of type `title`. -/
def sampleTitle (id : String) : JVal :=
  .obj [("attrs", .obj [("order", .num (some 0))]),
    ("p:nvSpPr", .obj [("p:cNvPr", attrsNode [("id", .str id), ("name", .str "Title")]),
      ("p:nvPr", .obj [("p:ph", attrsNode [("type", .str "title")])])]),
    ("p:spPr", .obj [])]

/-- A layout whose shape tree holds, after the two property nodes, two title shapes with the
ids 2 and 5, the connector `sampleConnector` and the picture `samplePicture`. -/
def sampleLayoutPart : JVal :=
  .obj [("p:sldLayout", .obj [("p:cSld", .obj [("p:spTree", .obj
    [("p:nvGrpSpPr", .obj [("p:cNvPr", attrsNode [("id", .str "1")])]),
     ("p:grpSpPr", .obj []),
     ("p:sp", .arr [sampleTitle "2", sampleTitle "5"]),
     ("p:cxnSp", sampleConnector 1),
     ("p:pic", samplePicture)])])])]

/-! ## Relationships and readers -/

/-- Whether a relationship record is of the theme type. -/
def isThemeRel (r : JVal) : Bool :=
  ((r.get "attrs").get "Type").isStr
    "http://schemas.openxmlformats.org/officeDocument/2006/relationships/theme"

/-- The target of a relationship record. -/
def relTargetOf (r : JVal) : JVal := (r.get "attrs").get "Target"

/-- The target of the first relationship of the theme type among the relationships of the
presentation, given as a list or as a single record; `undefined` when there is none. -/
def firstThemeTarget (relationshipArray : JVal) : JVal :=
  match (asList relationshipArray).find? isThemeRel with
  | some r => relTargetOf r
  | none => .undefined

/-- A relationship record. -/
def relRecord (id type target : String) : JVal :=
  attrsNode [("Id", .str id), ("Type", .str type), ("Target", .str target)]

/-- A reader over an archive given as the list of its parts; a name the archive lacks reads
as `null`. -/
def readOrNull (archive : List (String × JVal)) (path : JVal) : Except Err JVal :=
  .ok ((lookupKey path.strD archive).getD .null)

/-- Collaborators as `sampleEnv`, over an archive whose presentation has two relationships of
the theme type, the first with an empty target. -/
def emptyThemeEnv : Env :=
  { sampleEnv with
    readXmlFile := readOrNull [("ppt/_rels/presentation.xml.rels",
      JVal.obj [("Relationships", JVal.obj [("Relationship", JVal.arr
        [relRecord "rId1"
          "http://schemas.openxmlformats.org/officeDocument/2006/relationships/theme" "",
         relRecord "rId2"
          "http://schemas.openxmlformats.org/officeDocument/2006/relationships/theme"
          "theme/theme1.xml"])])]),
      ("ppt/theme/theme1.xml", JVal.obj [("a:theme", JVal.obj [])])] }

/-- Collaborators as `sampleEnv`, over an archive whose presentation has a relationship to a
master and one to the theme `ppt/theme/theme1.xml`. -/
def themeEnv : Env :=
  { sampleEnv with
    readXmlFile := readOrNull [("ppt/_rels/presentation.xml.rels",
      JVal.obj [("Relationships", JVal.obj [("Relationship", JVal.arr
        [relRecord "rId1"
          "http://schemas.openxmlformats.org/officeDocument/2006/relationships/slideMaster"
          "slideMasters/slideMaster1.xml",
         relRecord "rId2"
          "http://schemas.openxmlformats.org/officeDocument/2006/relationships/theme"
          "theme/theme1.xml"])])]),
      ("ppt/theme/theme1.xml", JVal.obj [("a:theme", JVal.obj [])])] }

/-- Whether a relationship record is of the slide layout type. -/
def isLayoutRel (r : JVal) : Bool :=
  ((r.get "attrs").get "Type").isStr
    "http://schemas.openxmlformats.org/officeDocument/2006/relationships/slideLayout"

/-- Whether a relationship record has attributes with a string `Type` and a string
`Target`. -/
def isRelRecord (r : JVal) : Bool :=
  match (r.get "attrs").get "Type", (r.get "attrs").get "Target" with
  | .str _, .str _ => true
  | _, _ => false

/-- The parts of an archive whose slide 3 has two relationships, to an image and to its
notes, and whose slide 4 has a single relationship, to an image; neither has one to a
layout. -/
def noLayoutArchive : List (String × JVal) :=
  [("ppt/slides/_rels/slide3.xml.rels",
      .obj [("Relationships", .obj [("Relationship", .arr
        [relRecord "rId1"
          "http://schemas.openxmlformats.org/officeDocument/2006/relationships/image"
          "../media/image1.png",
         relRecord "rId2"
          "http://schemas.openxmlformats.org/officeDocument/2006/relationships/notesSlide"
          "../notesSlides/notesSlide3.xml"])])]),
   ("ppt/notesSlides/notesSlide3.xml", emptyTreePart "p:notes"),
   ("ppt/slides/slide3.xml", sampleSlideOne),
   ("ppt/slides/_rels/slide4.xml.rels",
      singleRel "rId1" "http://schemas.openxmlformats.org/officeDocument/2006/relationships/image"
        "../media/image1.png"),
   ("ppt/slides/slide4.xml", sampleSlideOne)]

/-- Collaborators as `sampleEnv`, with a part reader over `noLayoutArchive` that returns `null`
for a part the archive lacks, the value the tests of lines 199, 226 and 232 provide for. -/
def noLayoutEnv : Env := { sampleEnv with readXmlFile := readOrNull noLayoutArchive }

/-! ## Samples for connectors, embedded objects and alternate content -/

/-- A connector `p:cxnSp` that is a straight line and whose non-visual properties carry a
placeholder of type `body`. -/
def samplePhConnector : JVal :=
  .obj [("attrs", .obj [("order", .num (some 1))]),
    ("p:nvCxnSpPr", .obj [("p:cNvPr", attrsNode [("id", .str "3"), ("name", .str "Line 2")]),
      ("p:nvPr", .obj [("p:ph", attrsNode [("type", .str "body")])])]),
    ("p:spPr", .obj [("a:xfrm", xfrmOf "0" "0" "914400" "0" []),
      ("a:prstGeom", attrsNode [("prst", .str "line")])])]

/-- A graphic frame of the embedded-object kind whose alternate drawing tree
`mc:AlternateContent/mc:Fallback/p:oleObj` is the group `sampleGroupEntries`. -/
def sampleOleFrame : JVal :=
  .obj [("attrs", .obj [("order", .num (some 4))]),
    ("a:graphic", .obj [("a:graphicData", .obj
      [("attrs", .obj [("uri", .str "http://schemas.openxmlformats.org/presentationml/2006/ole")]),
       ("mc:AlternateContent", .obj [("mc:Fallback", .obj
          [("p:oleObj", .obj sampleGroupEntries)])])])])]

/-- An alternate-content node whose fallback has no group transform and whose choice branch
holds a shape with a text body and no math object. -/
def sampleChoiceNoMath : JVal :=
  .obj [("mc:Choice", .obj [("attrs", .obj [("order", .num (some 5)), ("Requires", .str "a14")]),
      ("p:sp", sampleBlankShape)]),
    ("mc:Fallback", .obj [("p:sp", sampleBlankShape)])]

/-- The element `processMathNode` returns when none of its reads throws (lines 442-450). -/
def mathElement (env : Env) (node : JVal) : JVal :=
  let xfrmNode := getTextByPathList node ["p:sp", "p:spPr", "a:xfrm"]
  let position := getPosition xfrmNode .undefined .undefined
  let size := getSize xfrmNode .undefined .undefined
  .obj [("type", .str "math"), ("top", position.get "top"), ("left", position.get "left"),
    ("width", size.get "width"), ("height", size.get "height"),
    ("latex", env.latexFormart (env.parseOMath (okVal (getFirst (env.findOMath node))))),
    ("order", (node.get "attrs").get "order")]

/-! ## A sample table with column bands -/

/-- A table style that defines both column bands and no corner. -/
def sampleBandStyle : JVal :=
  .obj [("attrs", .obj [("styleId", .str "{S2}")]),
    ("a:band1V", .obj [("a:tcStyle", .obj [])]),
    ("a:band2V", .obj [("a:tcStyle", .obj [])])]

/-- A part `ppt/tableStyles.xml` that holds the styles `sampleTblStyle` and
`sampleBandStyle`. -/
def sampleBandStyles : JVal :=
  .obj [("a:tblStyleLst", .obj [("a:tblStyle", .arr [sampleTblStyle, sampleBandStyle])])]

/-- A graphic frame that holds a table of two rows and four columns with the style
`sampleBandStyle` and the flags `bandCol` and `lastRow` set, and no other flag. -/
def sampleBandTable : JVal :=
  .obj [("attrs", .obj [("order", .num (some 9))]),
    ("p:xfrm", xfrmOf "0" "0" "2743200" "914400" []),
    ("a:graphic", .obj [("a:graphicData", .obj [("a:tbl", .obj
      [("a:tblPr", .obj [("attrs", .obj [("bandCol", .str "1"), ("lastRow", .str "1")]),
        ("a:tableStyleId", .str "{S2}")]),
       ("a:tr", .arr [
         .obj [("a:tc", .arr [sampleTc "a", sampleTc "b", sampleTc "c", sampleTc "d"])],
         .obj [("a:tc", .arr [sampleTc "e", sampleTc "f", sampleTc "g", sampleTc "h"])]])])])])]

/-- The flags of `sampleBandTable`: `bandCol` and `lastRow`. -/
def bandFlags : TblFlags :=
  { isFrstRowAttr := false, isFrstColAttr := false, isLstRowAttr := true, isLstColAttr := false,
    isBandRowAttr := false, isBandColAttr := true }

/-- The record `warpObj` of a slide of a presentation with the styles `sampleBandStyles`. -/
def sampleWarpBand : WarpObj := { sampleWarp with tableStyles := sampleBandStyles }

/-! ## Relationship records and a sample archive with relationship lists -/

/-- The declared type of a relationship record. -/
def relTypeOf (r : JVal) : JVal := (r.get "attrs").get "Type"

/-- Whether a relationship record is of the notes type. -/
def isNotesRel (r : JVal) : Bool :=
  (relTypeOf r).isStr "http://schemas.openxmlformats.org/officeDocument/2006/relationships/notesSlide"

/-- Whether a relationship record is of the diagram drawing type. -/
def isDiagramRel (r : JVal) : Bool :=
  (relTypeOf r).isStr "http://schemas.microsoft.com/office/2007/relationships/diagramDrawing"

/-- Whether a relationship record is of the slide master type. -/
def isMasterRel (r : JVal) : Bool :=
  (relTypeOf r).isStr
    "http://schemas.openxmlformats.org/officeDocument/2006/relationships/slideMaster"

/-- The path of the target of a relationship record: its `Target` with the first `../`
replaced by `ppt/`. -/
def relPath (r : JVal) : String := replaceFirst (relTargetOf r).strD "../" "ppt/"

/-- The layout file name lines 107-143 leave for relationships none of which is of the slide
layout type: the empty name of line 107 for a list, and the target of the record for a single
record (line 141). -/
def layoutNameOf (relationshipArray : JVal) : String :=
  match relationshipArray with
  | .arr _ => ""
  | single => relPath single

/-- The key a relationship record is stored under: its `Id` as a property key. -/
def relIdKey (r : JVal) : String := toPropertyKey ((r.get "attrs").get "Id")

/-- The record `{ type, target }` of a relationship record: the declared type with the first
occurrence of the URL of the relationships removed, and the path of the target. -/
def relEntryOf (r : JVal) : JVal :=
  .obj [("type", .str (replaceFirst (relTypeOf r).strD
      "http://schemas.openxmlformats.org/officeDocument/2006/relationships/" "")),
    ("target", .str (relPath r))]

/-- Whether the loop over the relationships of a slide stores a record in the table: every
record but those of the slide layout type and of the notes type (lines 114-136). -/
def isStoredRel (r : JVal) : Bool := !(isLayoutRel r || isNotesRel r)

/-- A graphic frame that holds a chart, related to the slide by `rId5`. -/
def sampleChartFrame : JVal :=
  .obj [("attrs", .obj [("order", .num (some 2))]),
    ("p:xfrm", xfrmOf "0" "0" "914400" "914400" []),
    ("a:graphic", .obj [("a:graphicData", .obj
      [("attrs", .obj [("uri", .str "http://schemas.openxmlformats.org/drawingml/2006/chart")]),
       ("c:chart", attrsNode [("r:id", .str "rId5")])])])]

/-- The relationships of slide 6 of the archive `relsArchive`: two entries of the slide
layout type, one to the notes, an image, a chart and a diagram drawing. -/
def slide6Rels : List JVal :=
  [relRecord "rId1"
      "http://schemas.openxmlformats.org/officeDocument/2006/relationships/slideLayout"
      "../slideLayouts/slideLayout1.xml",
   relRecord "rId2"
      "http://schemas.openxmlformats.org/officeDocument/2006/relationships/slideLayout"
      "../slideLayouts/slideLayout2.xml",
   relRecord "rId3"
      "http://schemas.openxmlformats.org/officeDocument/2006/relationships/notesSlide"
      "../notesSlides/notesSlide6.xml",
   relRecord "rId4" "http://schemas.openxmlformats.org/officeDocument/2006/relationships/image"
      "../media/image1.png",
   relRecord "rId5" "http://schemas.openxmlformats.org/officeDocument/2006/relationships/chart"
      "../charts/chart1.xml",
   relRecord "rId6" "http://schemas.microsoft.com/office/2007/relationships/diagramDrawing"
      "../diagrams/drawing1.xml"]

/-- The relationships of layout 2 of the archive `relsArchive`: two entries of the slide
master type and an image. -/
def layout2Rels : List JVal :=
  [relRecord "rId1"
      "http://schemas.openxmlformats.org/officeDocument/2006/relationships/slideMaster"
      "../slideMasters/slideMaster1.xml",
   relRecord "rId2"
      "http://schemas.openxmlformats.org/officeDocument/2006/relationships/slideMaster"
      "../slideMasters/slideMaster2.xml",
   relRecord "rId3" "http://schemas.openxmlformats.org/officeDocument/2006/relationships/image"
      "../media/image2.png"]

/-- The relationships of master 2 of the archive `relsArchive`: an entry to a layout and an
entry of the theme type. -/
def master2Rels : List JVal :=
  [relRecord "rId1"
      "http://schemas.openxmlformats.org/officeDocument/2006/relationships/slideLayout"
      "../slideLayouts/slideLayout2.xml",
   relRecord "rId2" "http://schemas.openxmlformats.org/officeDocument/2006/relationships/theme"
      "../theme/theme1.xml"]

/-- A relationship part that holds a list of records. -/
def listRels (items : List JVal) : JVal :=
  .obj [("Relationships", .obj [("Relationship", .arr items)])]

/-- The parts of an archive whose slide 6, layout 2 and master 2 have lists of relationships;
the slide holds one chart frame, the theme has a relationship part with one image, and the
archive has both layouts and both masters. -/
def relsArchive : List (String × JVal) :=
  [("ppt/slides/_rels/slide6.xml.rels", listRels slide6Rels),
   ("ppt/slides/slide6.xml", .obj [("p:sld", .obj [("p:cSld", .obj [("p:spTree", .obj
      [("p:nvGrpSpPr", .obj []), ("p:grpSpPr", .obj []),
       ("p:graphicFrame", sampleChartFrame)])])])]),
   ("ppt/slideLayouts/slideLayout1.xml", emptyTreePart "p:sldLayout"),
   ("ppt/slideLayouts/slideLayout2.xml", sampleLayoutPart),
   ("ppt/slideLayouts/_rels/slideLayout2.xml.rels", listRels layout2Rels),
   ("ppt/slideMasters/slideMaster1.xml", emptyTreePart "p:sldMaster"),
   ("ppt/slideMasters/slideMaster2.xml",
      .obj [("p:sldMaster", .obj [("p:cSld", .obj [("p:spTree", .obj [])]),
        ("p:txStyles", .obj [("p:titleStyle", .obj [])])])]),
   ("ppt/slideMasters/_rels/slideMaster2.xml.rels", listRels master2Rels),
   ("ppt/theme/theme1.xml", .obj [("a:theme", .obj [])]),
   ("ppt/theme/_rels/theme1.xml.rels",
      singleRel "rId1" "http://schemas.openxmlformats.org/officeDocument/2006/relationships/image"
        "../media/image3.png")]

/-- Collaborators as `sampleEnv`, over the archive `relsArchive`. -/
def relsEnv : Env := { sampleEnv with readXmlFile := readOrNull relsArchive }

/-! ## The overrides of the content types and a sample presentation of two slides -/

/-- Whether an override declares a slide. -/
def isSlideOverride (item : JVal) : Bool :=
  ((item.get "attrs").get "ContentType").isStr
    "application/vnd.openxmlformats-officedocument.presentationml.slide+xml"

/-- Whether an override declares a slide layout. -/
def isLayoutOverride (item : JVal) : Bool :=
  ((item.get "attrs").get "ContentType").isStr
    "application/vnd.openxmlformats-officedocument.presentationml.slideLayout+xml"

/-- The part name of an override without its first character, the leading `/`. -/
def partNameOf (item : JVal) : String :=
  String.mk (((item.get "attrs").get "PartName").strD.toList.drop 1)

/-- Whether an override has attributes and, when it declares a slide or a slide layout, a
part name that is a string. -/
def isOverrideRecord (item : JVal) : Bool :=
  !(item.get "attrs").isNullish &&
    (!(isSlideOverride item || isLayoutOverride item) ||
      match (item.get "attrs").get "PartName" with
      | .str _ => true
      | _ => false)

/-- The part names declared with the slide content type, in the order of the overrides. -/
def declaredSlides (items : List JVal) : List String :=
  (items.filter isSlideOverride).map partNameOf

/-- The part names declared with the slide layout content type, in the order of the
overrides. -/
def declaredLayouts (items : List JVal) : List String :=
  (items.filter isLayoutOverride).map partNameOf

/-- An override of the content types. -/
def overrideRecord (partName contentType : String) : JVal :=
  attrsNode [("PartName", .str partName), ("ContentType", .str contentType)]

/-- The overrides of the sample presentation: slide 10 is declared before slide 2. -/
def deckOverrides : List JVal :=
  [overrideRecord "/ppt/presentation.xml"
      "application/vnd.openxmlformats-officedocument.presentationml.presentation.main+xml",
   overrideRecord "/ppt/slides/slide10.xml"
      "application/vnd.openxmlformats-officedocument.presentationml.slide+xml",
   overrideRecord "/ppt/slideLayouts/slideLayout1.xml"
      "application/vnd.openxmlformats-officedocument.presentationml.slideLayout+xml",
   overrideRecord "/ppt/slides/slide2.xml"
      "application/vnd.openxmlformats-officedocument.presentationml.slide+xml",
   overrideRecord "/ppt/theme/theme1.xml" "application/vnd.openxmlformats-officedocument.theme+xml"]

/-- The parts of a presentation of two slides, slide 2 with one shape and slide 10 with two
shapes and a connector, on one layout, one master and one theme. -/
def deckArchive : List (String × JVal) :=
  [("[Content_Types].xml", .obj [("Types", .obj [("Override", .arr deckOverrides)])]),
   ("ppt/presentation.xml", .obj [("p:presentation", .obj
      [("p:sldSz", attrsNode [("cx", .str "12192000"), ("cy", .str "6858000")]),
       ("p:defaultTextStyle", .obj [])])]),
   ("ppt/_rels/presentation.xml.rels", listRels
      [relRecord "rId1"
         "http://schemas.openxmlformats.org/officeDocument/2006/relationships/slideMaster"
         "slideMasters/slideMaster1.xml",
       relRecord "rId2" "http://schemas.openxmlformats.org/officeDocument/2006/relationships/theme"
         "theme/theme1.xml"]),
   ("ppt/theme/theme1.xml", .obj [("a:theme", .obj [])]),
   ("ppt/slides/_rels/slide2.xml.rels",
      singleRel "rId1"
        "http://schemas.openxmlformats.org/officeDocument/2006/relationships/slideLayout"
        "../slideLayouts/slideLayout1.xml"),
   ("ppt/slides/slide2.xml", sampleSlideOne),
   ("ppt/slides/_rels/slide10.xml.rels",
      singleRel "rId1"
        "http://schemas.openxmlformats.org/officeDocument/2006/relationships/slideLayout"
        "../slideLayouts/slideLayout1.xml"),
   ("ppt/slides/slide10.xml", sampleSlide),
   ("ppt/slideLayouts/slideLayout1.xml", emptyTreePart "p:sldLayout"),
   ("ppt/slideLayouts/_rels/slideLayout1.xml.rels",
      singleRel "rId1"
        "http://schemas.openxmlformats.org/officeDocument/2006/relationships/slideMaster"
        "../slideMasters/slideMaster1.xml"),
   ("ppt/slideMasters/slideMaster1.xml", emptyTreePart "p:sldMaster"),
   ("ppt/slideMasters/_rels/slideMaster1.xml.rels",
      singleRel "rId1" "http://schemas.openxmlformats.org/officeDocument/2006/relationships/theme"
        "../theme/theme1.xml")]

/-- Collaborators as `sampleEnv`, over the archive `deckArchive`. -/
def deckEnv : Env := { sampleEnv with readXmlFile := readOrNull deckArchive }

/-! ## The counterpart of a slide shape in a layout or master -/

/-- The placeholder type a shape declares. -/
def phTypeOf (sp : JVal) : JVal :=
  getTextByPathList sp ["p:nvSpPr", "p:nvPr", "p:ph", "attrs", "type"]

/-- The counterpart of a slide shape in the index tables of a layout or master, as the
inheritance is worded: the shape the tables hold under the placeholder type of the slide
shape when the slide shape has one, else the shape they hold under its placeholder index, else
none. -/
def counterpartOf (tables own idx : JVal) : JVal :=
  if own.truthy then (tables.get "typeTable").get (toPropertyKey own)
  else if idx.truthy then (tables.get "idxTable").get (toPropertyKey idx)
  else .undefined

/-- A slide shape with a placeholder of index 1 and no type, with preset geometry `rect`. -/
def sampleIdxShape : JVal :=
  .obj [("attrs", .obj [("order", .num (some 1))]),
    ("p:nvSpPr", .obj [("p:cNvPr", attrsNode [("id", .str "4"), ("name", .str "Content 3")]),
      ("p:nvPr", .obj [("p:ph", attrsNode [("idx", .str "1")])])]),
    ("p:spPr", .obj [("a:xfrm", xfrmOf "914400" "457200" "1828800" "914400" []),
      ("a:prstGeom", attrsNode [("prst", .str "rect")])])]

/-- A shape of a layout or master with a placeholder of the given type and index 1. -/
def samplePlaceholder (type : String) : JVal :=
  .obj [("attrs", .obj [("order", .num (some 1))]),
    ("p:nvSpPr", .obj [("p:cNvPr", attrsNode [("id", .str "2"), ("name", .str "Placeholder")]),
      ("p:nvPr", .obj [("p:ph", attrsNode [("type", .str type), ("idx", .str "1")])])]),
    ("p:spPr", .obj [])]

/-- The index tables of a layout or master that holds the one shape `samplePlaceholder`. -/
def placeholderTables (type : String) : JVal :=
  .obj [("idTable", .obj [("2", samplePlaceholder type)]),
    ("idxTable", .obj [("1", samplePlaceholder type)]),
    ("typeTable", .obj [(type, samplePlaceholder type)])]

/-- The record `warpObj` of a slide whose layout holds a placeholder of type `body` with
index 1 and whose master holds a placeholder of type `title` with index 1. -/
def sampleWarpIdx : WarpObj :=
  { sampleWarp with
    slideLayoutTables := placeholderTables "body"
    slideMasterTables := placeholderTables "title" }

/-- As `sampleWarpIdx`, with a layout that holds no shape. -/
def sampleWarpIdxMaster : WarpObj :=
  { sampleWarp with slideMasterTables := placeholderTables "title" }


/-! ## The rows, cells and colours of a table -/

/-- The rows `a:tr` of the table of a graphic frame, as the list `genTable` walks
(lines 839-843): a single row record counts as one row. -/
def tableRowsOf (node : JVal) : List JVal :=
  match (getTextByPathList node ["a:graphic", "a:graphicData", "a:tbl"]).get "a:tr" with
  | .arr xs => xs
  | other => [other]

/-- The cells `a:tc` of a row: a single cell record counts as one cell. -/
def rowCellsOf (trNode : JVal) : List JVal :=
  match trNode.get "a:tc" with
  | .arr cells => cells
  | other => [other]

/-- The style region of cell `(i, j)` of a row: the branch of lines 858-892 when the cells of
the row are an array, the branch of lines 908-922 when the row holds a single cell record. -/
def cellRegionOf (f : TblFlags) (thisTblStyle trNode : JVal) (i j nRows : Nat) : JVal :=
  match trNode.get "a:tc" with
  | .arr cells => aSorceMulti f thisTblStyle i j nRows cells.length
  | _ => aSorceSingle f thisTblStyle

/-- The background colour `tbl_bgcolor` of a table (lines 829-837): the fill reference of the
table background of the style, and the solid fill of the whole table when the style has no
such reference. -/
def tableBgColor (env : Env) (thisTblStyle : JVal) (warpObj : WarpObj) : JVal :=
  if (getTextByPathList thisTblStyle ["a:tblBg", "a:fillRef"]).isUndefined then
    env.getSolidFill
      (getTextByPathList thisTblStyle ["a:wholeTbl", "a:tcStyle", "a:fill", "a:solidFill"])
      .undefined .undefined warpObj
  else if (getTextByPathList thisTblStyle ["a:tblBg", "a:fillRef"]).truthy then
    env.getSolidFill (getTextByPathList thisTblStyle ["a:tblBg", "a:fillRef"]) .undefined
      .undefined warpObj
  else .str ""

/-- The record spread into the table element (lines 821-827 and 948): the border of the whole
table, or the empty record. -/
def tableBorderOf (env : Env) (thisTblStyle : JVal) (warpObj : WarpObj) : JVal :=
  JVal.or
    (if (getTextByPathList (getTextByPathList thisTblStyle ["a:wholeTbl", "a:tcStyle"])
        ["a:tcBdr"]).truthy then
      if (env.getTableBorders (getTextByPathList (getTextByPathList thisTblStyle
          ["a:wholeTbl", "a:tcStyle"]) ["a:tcBdr"]) warpObj).truthy then
        JVal.or (JVal.or (JVal.or
          ((env.getTableBorders (getTextByPathList (getTextByPathList thisTblStyle
            ["a:wholeTbl", "a:tcStyle"]) ["a:tcBdr"]) warpObj).get "bottom")
          ((env.getTableBorders (getTextByPathList (getTextByPathList thisTblStyle
            ["a:wholeTbl", "a:tcStyle"]) ["a:tcBdr"]) warpObj).get "left"))
          ((env.getTableBorders (getTextByPathList (getTextByPathList thisTblStyle
            ["a:wholeTbl", "a:tcStyle"]) ["a:tcBdr"]) warpObj).get "right"))
          ((env.getTableBorders (getTextByPathList (getTextByPathList thisTblStyle
            ["a:wholeTbl", "a:tcStyle"]) ["a:tcBdr"]) warpObj).get "top")
      else .undefined
    else .undefined)
    (.obj [])

/-- The properties `a:tblPr` of the table of a graphic frame (line 778). -/
def tblPrOf (node : JVal) : JVal :=
  getTextByPathList node ["a:graphic", "a:graphicData", "a:tbl", "a:tblPr"]

/-- The flags of the table of a graphic frame (lines 785-798). -/
def tableFlagsOf (node : JVal) : TblFlags := tblFlagsOf ((tblPrOf node).get "attrs")

/-- The style `thisTblStyle` of a table after line 819, from the style `st` the search of
lines 800-818 found. -/
def tableStyleIn (node st : JVal) : JVal := attachFlags st (tableFlagsOf node)

/-- The record `warpObj` after line 819, with the part of the table styles as the assignment
of that line leaves it. -/
def tableWarp (warpObj : WarpObj) (ts : JVal) : WarpObj := { warpObj with tableStyles := ts }

/-- The parameters of row `i` of a table (line 845). -/
def rowParamsOf (env : Env) (node st : JVal) (warpObj : WarpObj) (i : Nat) : JVal :=
  env.getTableRowParams (.arr (tableRowsOf node)) i (tableFlagsOf node).toJVal
    (tableStyleIn node st) warpObj

/-- The parameters of the cell `tcNode` at `(i, j)` in the row `trNode` of a table
(lines 894 and 925). -/
def cellParamsOf (env : Env) (node st : JVal) (warpObj : WarpObj) (i j : Nat)
    (trNode tcNode : JVal) : JVal :=
  env.getTableCellParams tcNode (tableStyleIn node st)
    (cellRegionOf (tableFlagsOf node) (tableStyleIn node st) trNode i j
      (tableRowsOf node).length) warpObj

/-- Collaborators as `sampleEnv`, with row parameters that give the first row the fill
`#row0` and a bold font, cell parameters that give the cell with the text `a` the fill
`#cell` and the font colour `#font`, and the solid fill `#bg`. -/
def cascadeEnv : Env :=
  { sampleEnv with
    getTableRowParams := fun _ i _ _ _ =>
      if i = 0 then JVal.obj [("fillColor", .str "#row0"), ("fontBold", .bool true)]
      else JVal.obj []
    getTableCellParams := fun tcNode _ _ _ =>
      if (getTextByPathList tcNode ["a:txBody", "a:p", "a:r", "a:t"]).isStr "a" then
        JVal.obj [("fillColor", .str "#cell"), ("fontColor", .str "#font")]
      else JVal.obj []
    getSolidFill := fun _ _ _ _ => JVal.str "#bg" }


/-! ## A sample presentation whose layouts have names without a number -/

/-- The overrides of a presentation of two slides, `slide1.xml` and `slide2.xml`, and two
slide layouts, `title.xml` and `blank.xml`. -/
def namedLayoutOverrides : List JVal :=
  [overrideRecord "/ppt/slides/slide1.xml"
      "application/vnd.openxmlformats-officedocument.presentationml.slide+xml",
   overrideRecord "/ppt/slides/slide2.xml"
      "application/vnd.openxmlformats-officedocument.presentationml.slide+xml",
   overrideRecord "/ppt/slideLayouts/title.xml"
      "application/vnd.openxmlformats-officedocument.presentationml.slideLayout+xml",
   overrideRecord "/ppt/slideLayouts/blank.xml"
      "application/vnd.openxmlformats-officedocument.presentationml.slideLayout+xml"]

/-- Collaborators as `deckEnv`, over the parts of `deckArchive` with the overrides
`namedLayoutOverrides` for content types. -/
def namedLayoutEnv : Env :=
  { sampleEnv with
    readXmlFile := readOrNull
      (("[Content_Types].xml", .obj [("Types", .obj [("Override", .arr namedLayoutOverrides)])])
        :: deckArchive) }

/-! ## The fuel of the tree walk -/

theorem JVal.size_pos (v : JVal) : 0 < v.size := by
  cases v <;> simp [JVal.size]

theorem lookupKey_size {k : String} {kvs : List (String × JVal)} {v : JVal}
    (h : lookupKey k kvs = some v) : v.size ≤ sizeEntries kvs := by
  induction kvs with
  | nil => simp [lookupKey] at h
  | cons kv rest ih =>
    obtain ⟨k', v'⟩ := kv
    simp only [lookupKey] at h
    split at h
    · simp only [Option.some.injEq] at h
      subst h
      simp [sizeEntries]
    · have := ih h
      simp only [sizeEntries]
      omega

theorem JVal.get_size (v : JVal) (k : String) : (v.get k).size ≤ v.size := by
  cases v with
  | obj kvs =>
    simp only [JVal.get]
    cases h : lookupKey k kvs with
    | none => simp [JVal.size]
    | some x =>
      have := lookupKey_size h
      simp only [Option.getD_some, JVal.size]
      omega
  | _ => simp [JVal.get, JVal.size]

theorem getTextByPathList_size (path : List String) :
    ∀ v : JVal, (getTextByPathList v path).size ≤ v.size := by
  induction path with
  | nil => intro v; simp [getTextByPathList]
  | cons k ks ih =>
    intro v
    simp only [getTextByPathList]
    split
    · exact le_trans (ih _) (v.get_size k)
    · exact le_refl _

theorem walkItems_congr {r1 r2 : String → JVal → Except Err JVal} (k : String) :
    ∀ items : List JVal, (∀ c ∈ items, r1 k c = r2 k c) →
      walkItems r1 k items = walkItems r2 k items := by
  intro items
  induction items with
  | nil => intro _; rfl
  | cons c rest ih =>
    intro h
    simp only [walkItems]
    rw [h c (List.mem_cons_self _ _), ih (fun c hc => h c (List.mem_cons_of_mem _ hc))]

theorem mem_childNodes_cons_arr {k : String} {items : List JVal} {rest : List (String × JVal)}
    {kc : String × JVal} :
    kc ∈ childNodes ((k, .arr items) :: rest) ↔
      (∃ c ∈ items, kc = (k, c)) ∨ kc ∈ childNodes rest := by
  simp only [childNodes, List.mem_append, List.mem_map]
  constructor
  · rintro (⟨c, hc, rfl⟩ | h)
    · exact Or.inl ⟨c, hc, rfl⟩
    · exact Or.inr h
  · rintro (⟨c, hc, rfl⟩ | h)
    · exact Or.inl ⟨c, hc, rfl⟩
    · exact Or.inr h

theorem walkEntries_congr {r1 r2 : String → JVal → Except Err JVal} :
    ∀ kvs : List (String × JVal), (∀ kc ∈ childNodes kvs, r1 kc.1 kc.2 = r2 kc.1 kc.2) →
      walkEntries r1 kvs = walkEntries r2 kvs := by
  intro kvs
  induction kvs with
  | nil => intro _; rfl
  | cons kv rest ih =>
    obtain ⟨k, v⟩ := kv
    intro h
    cases v with
    | arr items =>
      have h1 : walkItems r1 k items = walkItems r2 k items :=
        walkItems_congr k items (fun c hc =>
          h (k, c) (mem_childNodes_cons_arr.2 (Or.inl ⟨c, hc, rfl⟩)))
      have h2 := ih (fun kc hkc => h kc (mem_childNodes_cons_arr.2 (Or.inr hkc)))
      simp only [walkEntries, h1, h2]
    | undefined => rfl
    | null => rfl
    | bool b =>
      have h1 := h (k, .bool b) (by simp [childNodes])
      have h2 := ih (fun kc hkc => h kc (by simp [childNodes, hkc]))
      simp only [walkEntries] at *
      simp only [h1, h2]
    | num q =>
      have h1 := h (k, .num q) (by simp [childNodes])
      have h2 := ih (fun kc hkc => h kc (by simp [childNodes, hkc]))
      simp only [walkEntries] at *
      simp only [h1, h2]
    | str t =>
      have h1 := h (k, .str t) (by simp [childNodes])
      have h2 := ih (fun kc hkc => h kc (by simp [childNodes, hkc]))
      simp only [walkEntries] at *
      simp only [h1, h2]
    | obj o =>
      have h1 := h (k, .obj o) (by simp [childNodes])
      have h2 := ih (fun kc hkc => h kc (by simp [childNodes, hkc]))
      simp only [walkEntries] at *
      simp only [h1, h2]

theorem mem_sizeList {c : JVal} {items : List JVal} (h : c ∈ items) : c.size ≤ sizeList items := by
  induction items with
  | nil => cases h
  | cons x rest ih =>
    simp only [sizeList]
    rcases List.mem_cons.1 h with rfl | h'
    · omega
    · have := ih h'
      omega

theorem childNodes_size {kvs : List (String × JVal)} {kc : String × JVal}
    (h : kc ∈ childNodes kvs) : kc.2.size ≤ sizeEntries kvs := by
  induction kvs with
  | nil => simp [childNodes] at h
  | cons kv rest ih =>
    obtain ⟨k, v⟩ := kv
    cases v with
    | arr items =>
      rcases mem_childNodes_cons_arr.1 h with ⟨c, hc, rfl⟩ | h'
      · have := mem_sizeList hc
        simp only [sizeEntries, JVal.size]
        omega
      · have := ih h'
        simp only [sizeEntries]
        omega
    | undefined | null | bool _ | num _ | str _ | obj _ =>
      simp only [childNodes, List.mem_cons] at h
      rcases h with rfl | h'
      · simp only [sizeEntries]
        omega
      · have := ih h'
        simp only [sizeEntries]
        omega

theorem processGroupSpNode_congr (env : Env) {r1 r2 : String → JVal → Except Err JVal}
    (node : JVal) (h : ∀ kc ∈ childNodes node.entries, r1 kc.1 kc.2 = r2 kc.1 kc.2) :
    processGroupSpNode env r1 node = processGroupSpNode env r2 node := by
  simp only [processGroupSpNode, walkEntries_congr _ h]

theorem processGroupSpNode_of_size (env : Env) {r1 r2 : String → JVal → Except Err JVal}
    (node : JVal) (h : ∀ k c, c.size < node.size → r1 k c = r2 k c) :
    processGroupSpNode env r1 node = processGroupSpNode env r2 node := by
  cases node with
  | obj kvs =>
    apply processGroupSpNode_congr
    intro kc hkc
    apply h
    have := childNodes_size hkc
    simp only [JVal.entries] at this
    simp only [JVal.size]
    omega
  | undefined | null | bool _ | num _ | str _ | arr _ =>
    simp [processGroupSpNode, getProp, JVal.get, bind, Except.bind]

/-- Fuel beyond the size of the node does not change the result of the tree walk. -/
theorem processNodesInSlide_fuel (env : Env) (warpObj : WarpObj) (source : String) :
    ∀ (n m : Nat) (k : String) (v : JVal), v.size ≤ n → v.size ≤ m →
      processNodesInSlide env warpObj source n k v = processNodesInSlide env warpObj source m k v := by
  intro n
  induction n with
  | zero =>
    intro m k v hn _
    have := v.size_pos
    omega
  | succ n ih =>
    intro m k v hn hm
    cases m with
    | zero =>
      have := v.size_pos
      omega
    | succ m =>
      have key : ∀ x : JVal, x.size ≤ v.size →
          processGroupSpNode env (processNodesInSlide env warpObj source n) x =
            processGroupSpNode env (processNodesInSlide env warpObj source m) x := by
        intro x hx
        apply processGroupSpNode_of_size
        intro k' c hc
        apply ih <;> omega
      simp only [processNodesInSlide]
      split
      · rfl
      · rfl
      · rfl
      · rfl
      · exact key v (le_refl _)
      · rw [key _ (getTextByPathList_size _ v)]
      · rfl

/-- The tree walk with any fuel that covers the node is the walk `processNode`. -/
theorem processNodesInSlide_eq_processNode (env : Env) (warpObj : WarpObj) (source : String)
    (n : Nat) (k : String) (v : JVal) (h : v.size ≤ n) :
    processNodesInSlide env warpObj source n k v = processNode env warpObj source k v :=
  processNodesInSlide_fuel env warpObj source n v.size k v h (le_refl _)

theorem processNode_grpSp (env : Env) (warpObj : WarpObj) (source : String) (v : JVal) :
    processNode env warpObj source "p:grpSp" v =
      processGroupSpNode env (processNode env warpObj source) v := by
  obtain ⟨n, hn⟩ : ∃ n, v.size = n + 1 := ⟨v.size - 1, by have := v.size_pos; omega⟩
  unfold processNode
  rw [hn]
  simp only [processNodesInSlide]
  apply processGroupSpNode_of_size
  intro k c hc
  exact processNodesInSlide_eq_processNode env warpObj source n k c (by omega)

theorem processNode_sp (env : Env) (warpObj : WarpObj) (source : String) (v : JVal) :
    processNode env warpObj source "p:sp" v = processSpNode env v warpObj source := by
  obtain ⟨n, hn⟩ : ∃ n, v.size = n + 1 := ⟨v.size - 1, by have := v.size_pos; omega⟩
  unfold processNode
  rw [hn]
  simp only [processNodesInSlide]

theorem processNode_cxnSp (env : Env) (warpObj : WarpObj) (source : String) (v : JVal) :
    processNode env warpObj source "p:cxnSp" v = processCxnSpNode env v warpObj := by
  obtain ⟨n, hn⟩ : ∃ n, v.size = n + 1 := ⟨v.size - 1, by have := v.size_pos; omega⟩
  unfold processNode
  rw [hn]
  simp only [processNodesInSlide]

/-! ## The loop of the tree walk -/

theorem walkItems_ok (recur : String → JVal → Except Err JVal) (k : String) :
    ∀ items : List JVal, (∀ c ∈ items, isOk (recur k c) = true) →
      walkItems recur k items =
        .ok ((items.map fun c => okVal (recur k c)).filter JVal.truthy) := by
  intro items
  induction items with
  | nil => intro _; rfl
  | cons c rest ih =>
    intro h
    have hc := h c (List.mem_cons_self _ _)
    have hrest := ih (fun c hc => h c (List.mem_cons_of_mem _ hc))
    simp only [walkItems, hrest]
    cases hr : recur k c with
    | error e => rw [hr] at hc; simp [isOk] at hc
    | ok r =>
      cases ht : r.truthy <;>
        simp [bind, Except.bind, pure, Except.pure, okVal, hr, ht, List.filter]

theorem walkEntries_ok (recur : String → JVal → Except Err JVal) :
    ∀ kvs : List (String × JVal), (∀ kv ∈ kvs, kv.2.isNullish = false) →
      (∀ kc ∈ childNodes kvs, isOk (recur kc.1 kc.2) = true) →
      walkEntries recur kvs =
        .ok (((childNodes kvs).map fun kc => okVal (recur kc.1 kc.2)).filter JVal.truthy) := by
  intro kvs
  induction kvs with
  | nil => intro _ _; rfl
  | cons kv rest ih =>
    obtain ⟨k, v⟩ := kv
    intro hnn hok
    have hv := hnn (k, v) (List.mem_cons_self _ _)
    have hnn' : ∀ kv ∈ rest, kv.2.isNullish = false :=
      fun kv hkv => hnn kv (List.mem_cons_of_mem _ hkv)
    cases v with
    | undefined => simp [JVal.isNullish] at hv
    | null => simp [JVal.isNullish] at hv
    | arr items =>
      have h1 := walkItems_ok recur k items (fun c hc =>
        hok (k, c) (mem_childNodes_cons_arr.2 (Or.inl ⟨c, hc, rfl⟩)))
      have h2 := ih hnn' (fun kc hkc => hok kc (mem_childNodes_cons_arr.2 (Or.inr hkc)))
      simp [walkEntries, isArrayCtor, h1, h2, bind, Except.bind, pure, Except.pure, childNodes,
        List.map_map, Function.comp_def]
    | bool b =>
      have h1 := hok (k, .bool b) (by simp [childNodes])
      have h2 := ih hnn' (fun kc hkc => hok kc (by simp [childNodes, hkc]))
      simp only [] at h1
      cases hr : recur k (.bool b) with
      | error e => rw [hr] at h1; simp [isOk] at h1
      | ok r =>
        cases ht : r.truthy <;>
          simp [walkEntries, isArrayCtor, h2, bind, Except.bind, pure, Except.pure, childNodes,
            okVal, hr, ht, List.filter]
    | num q =>
      have h1 := hok (k, .num q) (by simp [childNodes])
      have h2 := ih hnn' (fun kc hkc => hok kc (by simp [childNodes, hkc]))
      simp only [] at h1
      cases hr : recur k (.num q) with
      | error e => rw [hr] at h1; simp [isOk] at h1
      | ok r =>
        cases ht : r.truthy <;>
          simp [walkEntries, isArrayCtor, h2, bind, Except.bind, pure, Except.pure, childNodes,
            okVal, hr, ht, List.filter]
    | str t =>
      have h1 := hok (k, .str t) (by simp [childNodes])
      have h2 := ih hnn' (fun kc hkc => hok kc (by simp [childNodes, hkc]))
      simp only [] at h1
      cases hr : recur k (.str t) with
      | error e => rw [hr] at h1; simp [isOk] at h1
      | ok r =>
        cases ht : r.truthy <;>
          simp [walkEntries, isArrayCtor, h2, bind, Except.bind, pure, Except.pure, childNodes,
            okVal, hr, ht, List.filter]
    | obj o =>
      have h1 := hok (k, .obj o) (by simp [childNodes])
      have h2 := ih hnn' (fun kc hkc => hok kc (by simp [childNodes, hkc]))
      simp only [] at h1
      cases hr : recur k (.obj o) with
      | error e => rw [hr] at h1; simp [isOk] at h1
      | ok r =>
        cases ht : r.truthy <;>
          simp [walkEntries, isArrayCtor, h2, bind, Except.bind, pure, Except.pure, childNodes,
            okVal, hr, ht, List.filter]

/-! ## The rounding of binary64 -/

theorem roundHalfEven_of_near (x : ℚ) (m : ℤ) (h : |x - m| < 1 / 2) : roundHalfEven x = m := by
  have h1 := abs_lt.mp h
  have hfl := Int.floor_le x
  have hlt := Int.lt_floor_add_one x
  unfold roundHalfEven
  split_ifs with ha hb hc
  · -- floor = m
    have h2 : (m : ℚ) - 1 < ⌊x⌋ := by linarith
    have h3 : ((⌊x⌋ : ℤ) : ℚ) < m + 1 := by linarith
    have h2' : m - 1 < ⌊x⌋ := by exact_mod_cast h2
    have h3' : ⌊x⌋ < m + 1 := by exact_mod_cast h3
    omega
  · have h2 : (m : ℚ) - 1 < ⌊x⌋ + 1 := by linarith
    have h3 : ((⌊x⌋ : ℤ) : ℚ) + 1 < m + 1 := by linarith
    have h2' : m - 1 < ⌊x⌋ + 1 := by exact_mod_cast h2
    have h3' : ⌊x⌋ + 1 < m + 1 := by exact_mod_cast h3
    omega
  · exfalso
    have he : x - ⌊x⌋ = 1 / 2 := le_antisymm (not_lt.mp hb) (not_lt.mp ha)
    have h2 : (m : ℚ) - 1 < ⌊x⌋ := by linarith
    have h3 : ((⌊x⌋ : ℤ) : ℚ) < m := by linarith
    have h2' : m - 1 < ⌊x⌋ := by exact_mod_cast h2
    have h3' : ⌊x⌋ < m := by exact_mod_cast h3
    omega
  · exfalso
    have he : x - ⌊x⌋ = 1 / 2 := le_antisymm (not_lt.mp hb) (not_lt.mp ha)
    have h2 : (m : ℚ) - 1 < ⌊x⌋ := by linarith
    have h3 : ((⌊x⌋ : ℤ) : ℚ) < m := by linarith
    have h2' : m - 1 < ⌊x⌋ := by exact_mod_cast h2
    have h3' : ⌊x⌋ < m := by exact_mod_cast h3
    omega

theorem roundHalfEven_error (x : ℚ) : |(roundHalfEven x : ℚ) - x| ≤ 1 / 2 := by
  have hfl := Int.floor_le x
  have hlt := Int.lt_floor_add_one x
  unfold roundHalfEven
  rw [abs_le]
  split_ifs with ha hb hc
  · constructor <;> linarith
  · push_cast
    constructor <;> linarith
  · have he : x - ⌊x⌋ = 1 / 2 := le_antisymm (not_lt.mp hb) (not_lt.mp ha)
    constructor <;> linarith
  · have he : x - ⌊x⌋ = 1 / 2 := le_antisymm (not_lt.mp hb) (not_lt.mp ha)
    push_cast
    constructor <;> linarith

theorem log_of_bounds (q : ℚ) (k : ℤ) (hlo : (2 : ℚ) ^ k ≤ |q|) (hhi : |q| < 2 ^ (k + 1)) :
    Int.log 2 |q| = k := by
  have hpos : 0 < |q| := lt_of_lt_of_le (by positivity) hlo
  have h1 : k ≤ Int.log 2 |q| := (Int.zpow_le_iff_le_log (by norm_num) hpos).mp (by exact_mod_cast hlo)
  have h2 : Int.log 2 |q| < k + 1 := (Int.lt_zpow_iff_log_lt (by norm_num) hpos).mp (by exact_mod_cast hhi)
  omega

/-- The value of the rounding on a number near a number with 53 significant bits. -/
theorem round64_eq_of_near (q : ℚ) (m e : ℤ)
    (hlo : (2 : ℚ) ^ (e + 52) ≤ |q|) (hhi : |q| < 2 ^ (e + 52 + 1))
    (hnear : |q - m * 2 ^ e| < 2 ^ e / 2) : round64 q = m * 2 ^ e := by
  have hpos : 0 < |q| := lt_of_lt_of_le (by positivity) hlo
  have hq : q ≠ 0 := abs_pos.mp hpos
  have hlog := log_of_bounds q (e + 52) hlo hhi
  have he : (0 : ℚ) < 2 ^ e := by positivity
  unfold round64
  rw [if_neg hq, hlog, show e + 52 - 52 = e by ring]
  rw [roundHalfEven_of_near (q / 2 ^ e) m ?_]
  have : q / 2 ^ e - m = (q - m * 2 ^ e) / 2 ^ e := by
    field_simp
    ring
  rw [this, abs_div, abs_of_pos he, div_lt_iff₀ he]
  linarith

/-- The relative error of the rounding is at most `2 ^ (-53)`. -/
theorem round64_error (q : ℚ) : |round64 q - q| ≤ |q| / 2 ^ 53 := by
  by_cases hq : q = 0
  · simp [round64, hq]
  have hpos : 0 < |q| := abs_pos.mpr hq
  unfold round64
  rw [if_neg hq]
  generalize hk : Int.log 2 |q| = k
  have hlo : (2 : ℚ) ^ k ≤ |q| := by
    have := Int.zpow_log_le_self (b := 2) (by norm_num) hpos
    rw [hk] at this
    exact_mod_cast this
  have he : (0 : ℚ) < 2 ^ (k - 52) := by positivity
  have herr := roundHalfEven_error (q / 2 ^ (k - 52))
  have h1 : (roundHalfEven (q / 2 ^ (k - 52)) : ℚ) * 2 ^ (k - 52) - q =
      ((roundHalfEven (q / 2 ^ (k - 52)) : ℚ) - q / 2 ^ (k - 52)) * 2 ^ (k - 52) := by
    field_simp
  rw [h1, abs_mul, abs_of_pos he]
  have h2 : (2 : ℚ) ^ (k - 52) = 2 ^ k / 2 ^ 52 := by
    rw [zpow_sub₀ (by norm_num)]
    norm_num
  calc |(roundHalfEven (q / 2 ^ (k - 52)) : ℚ) - q / 2 ^ (k - 52)| * 2 ^ (k - 52)
      ≤ 1 / 2 * 2 ^ (k - 52) := by gcongr
    _ = 2 ^ k / 2 ^ 53 := by rw [h2]; ring
    _ ≤ |q| / 2 ^ 53 := by gcongr

/-- The value of the rounding on a positive number, in the form used on numerals. -/
theorem round64_eq (q : ℚ) (m e : ℤ)
    (hlo : (2 : ℚ) ^ (e + 52) ≤ q) (hhi : q < 2 ^ (e + 52 + 1))
    (h1 : q - m * 2 ^ e < 2 ^ e / 2) (h2 : m * 2 ^ e - q < 2 ^ e / 2) :
    round64 q = m * 2 ^ e := by
  have hpos : 0 < q := lt_of_lt_of_le (by positivity) hlo
  refine round64_eq_of_near q m e ?_ ?_ ?_
  · rwa [abs_of_pos hpos]
  · rwa [abs_of_pos hpos]
  · rw [abs_lt]
    constructor <;> linarith


/-- A number with at most 53 significant bits is left as it is. -/
theorem round64_of_repr (m e : ℤ) (hm : |m| < 2 ^ 53) :
    round64 ((m : ℚ) * 2 ^ e) = (m : ℚ) * 2 ^ e := by
  by_cases h0 : m = 0
  · simp [round64, h0]
  have he : (0 : ℚ) < 2 ^ e := by positivity
  have hm0 : (m : ℚ) ≠ 0 := by exact_mod_cast h0
  have hq : (m : ℚ) * 2 ^ e ≠ 0 := mul_ne_zero hm0 (ne_of_gt he)
  have hpos : 0 < |(m : ℚ) * 2 ^ e| := abs_pos.mpr hq
  unfold round64
  rw [if_neg hq]
  generalize hk : Int.log 2 |(m : ℚ) * 2 ^ e| = k
  have hlo : (2 : ℚ) ^ k ≤ |(m : ℚ) * 2 ^ e| := by
    have := Int.zpow_log_le_self (b := 2) (by norm_num) hpos
    rw [hk] at this
    exact_mod_cast this
  have hmq : |(m : ℚ)| < 2 ^ 53 := by
    have : ((|m| : ℤ) : ℚ) < ((2 ^ 53 : ℤ) : ℚ) := by exact_mod_cast hm
    rw [Int.cast_abs] at this
    exact_mod_cast this
  have hlt : (2 : ℚ) ^ k < 2 ^ (53 + e) := by
    calc (2 : ℚ) ^ k ≤ |(m : ℚ) * 2 ^ e| := hlo
      _ = |(m : ℚ)| * 2 ^ e := by rw [abs_mul, abs_of_pos he]
      _ < 2 ^ 53 * 2 ^ e := by gcongr
      _ = 2 ^ (53 + e) := by
        rw [zpow_add₀ (by norm_num)]
        norm_num
  have hke : k < 53 + e := (zpow_lt_zpow_iff_right₀ (by norm_num : (1 : ℚ) < 2)).mp hlt
  obtain ⟨d, hd⟩ : ∃ d : ℕ, e = k - 52 + d := ⟨(e - (k - 52)).toNat, by omega⟩
  have hz : (m : ℚ) * 2 ^ e / 2 ^ (k - 52) = ((m * 2 ^ d : ℤ) : ℚ) := by
    rw [hd, zpow_add₀ (by norm_num)]
    have : (0 : ℚ) < 2 ^ (k - 52) := by positivity
    field_simp
    ring
  rw [hz, roundHalfEven_of_near _ (m * 2 ^ d) (by simp), ← hz]
  have : (0 : ℚ) < 2 ^ (k - 52) := by positivity
  field_simp

/-- An integer of a magnitude below `2 ^ 53` is a binary64 number. -/
theorem round64_int (n : ℤ) (hn : |n| < 2 ^ 53) : round64 (n : ℚ) = n := by
  have := round64_of_repr n 0 hn
  simpa using this

/-- The rounding of a number other than zero is not zero. -/
theorem round64_ne_zero {q : ℚ} (hq : q ≠ 0) : round64 q ≠ 0 := by
  intro h
  have herr := round64_error q
  rw [h, zero_sub, abs_neg] at herr
  have hpos : 0 < |q| := abs_pos.mpr hq
  have : |q| / 2 ^ 53 < |q| := by
    rw [div_lt_iff₀ (by positivity)]
    nlinarith
  linarith

/-- The rounding of a positive number lies within the relative error on both sides. -/
theorem round64_bounds {q : ℚ} (hq : 0 < q) :
    q * (1 - 1 / 2 ^ 53) ≤ round64 q ∧ round64 q ≤ q * (1 + 1 / 2 ^ 53) := by
  have herr := round64_error q
  rw [abs_of_pos hq, abs_le] at herr
  constructor <;> linarith [herr.1, herr.2]

theorem quotient_bound (a b r A B W u : ℚ) (ha : 0 < a) (hb : 0 < b) (hr : 0 < r)
    (hu0 : 0 < u) (hu1 : u ≤ 1 / 8)
    (hA : a * r * (1 - u) ≤ A ∧ A ≤ a * r * (1 + u))
    (hB : b * r * (1 - u) ≤ B ∧ B ≤ b * r * (1 + u))
    (hQ : A / B * (1 - u) ≤ W ∧ W ≤ A / B * (1 + u)) :
    |W - a / b| ≤ a / b * (4 * u) := by
  have h1u : 0 < 1 - u := by linarith
  have h1u' : 0 < 1 + u := by linarith
  have hApos : 0 < A := lt_of_lt_of_le (by positivity) hA.1
  have hBpos : 0 < B := lt_of_lt_of_le (by positivity) hB.1
  have hab : 0 < a / b := div_pos ha hb
  have hQup : A / B ≤ a / b * ((1 + u) / (1 - u)) := by
    rw [div_le_iff₀ hBpos]
    have h1 : a / b * ((1 + u) / (1 - u)) * (b * r * (1 - u)) ≤
        a / b * ((1 + u) / (1 - u)) * B := by
      gcongr
      exact hB.1
    have h2 : a / b * ((1 + u) / (1 - u)) * (b * r * (1 - u)) = a * r * (1 + u) := by
      field_simp
      ring
    linarith [hA.2]
  have hQlo : a / b * ((1 - u) / (1 + u)) ≤ A / B := by
    rw [le_div_iff₀ hBpos]
    have h1 : a / b * ((1 - u) / (1 + u)) * B ≤
        a / b * ((1 - u) / (1 + u)) * (b * r * (1 + u)) := by
      gcongr
      exact hB.2
    have h2 : a / b * ((1 - u) / (1 + u)) * (b * r * (1 + u)) = a * r * (1 - u) := by
      field_simp
      ring
    linarith [hA.1]
  have hup : (1 + u) / (1 - u) * (1 + u) ≤ 1 + 4 * u := by
    rw [div_mul_eq_mul_div, div_le_iff₀ h1u]
    nlinarith
  have hlo : 1 - 4 * u ≤ (1 - u) / (1 + u) * (1 - u) := by
    rw [div_mul_eq_mul_div, le_div_iff₀ h1u']
    nlinarith
  rw [abs_le]
  constructor
  · have : a / b * (1 - 4 * u) ≤ W := by
      calc a / b * (1 - 4 * u) ≤ a / b * ((1 - u) / (1 + u) * (1 - u)) := by gcongr
        _ = a / b * ((1 - u) / (1 + u)) * (1 - u) := by ring
        _ ≤ A / B * (1 - u) := by gcongr
        _ ≤ W := hQ.1
    linarith
  · have : W ≤ a / b * (1 + 4 * u) := by
      calc W ≤ A / B * (1 + u) := hQ.2
        _ ≤ a / b * ((1 + u) / (1 - u)) * (1 + u) := by gcongr
        _ = a / b * ((1 + u) / (1 - u) * (1 + u)) := by ring
        _ ≤ a / b * (1 + 4 * u) := by gcongr
    linarith

/-- The quotient of the roundings of two positive numbers with a common factor, rounded, is
within four units of relative error of the quotient without the factor. -/
theorem quotient_of_scaled (a b r : ℚ) (ha : 0 < a) (hb : 0 < b) (hr : 0 < r) :
    |round64 (round64 (a * r) / round64 (b * r)) - a / b| ≤ a / b / 2 ^ 51 := by
  have hA := round64_bounds (mul_pos ha hr)
  have hB := round64_bounds (mul_pos hb hr)
  have hApos : 0 < round64 (a * r) := lt_of_lt_of_le (by positivity) hA.1
  have hBpos : 0 < round64 (b * r) := lt_of_lt_of_le (by positivity) hB.1
  have hQ := round64_bounds (div_pos hApos hBpos)
  have h := quotient_bound a b r _ _ _ (1 / 2 ^ 53) ha hb hr (by positivity) (by norm_num)
    hA hB hQ
  have h51 : a / b / 2 ^ 51 = a / b * (4 * (1 / 2 ^ 53)) := by ring
  rw [h51]
  exact h

/-- The constant of the unit ratio as a fraction. -/
theorem ratio_val : RATIO_EMUs_Points = 5809998133451827 / 73786976294838206464 := by
  unfold RATIO_EMUs_Points
  rw [round64_eq _ 5809998133451827 (-66) (by norm_num) (by norm_num) (by norm_num)
    (by norm_num)]
  norm_num

theorem ratio_pos : 0 < RATIO_EMUs_Points := by
  rw [ratio_val]
  norm_num

theorem jsNum_eq (n : ℤ) (hn : |n| < 2 ^ 53) : jsNum n = n := round64_int n hn

/-- The points of an integer of the archive unit, from the nearest number with 53 bits. -/
theorem pointsOfInt_eq (n m e : ℤ) (hn : |n| < 2 ^ 53)
    (hlo : (2 : ℚ) ^ (e + 52) ≤ n * (5809998133451827 / 73786976294838206464))
    (hhi : (n : ℚ) * (5809998133451827 / 73786976294838206464) < 2 ^ (e + 52 + 1))
    (h1 : (n : ℚ) * (5809998133451827 / 73786976294838206464) - m * 2 ^ e < 2 ^ e / 2)
    (h2 : (m : ℚ) * 2 ^ e - n * (5809998133451827 / 73786976294838206464) < 2 ^ e / 2) :
    pointsOfInt n = some ((m : ℚ) * 2 ^ e) := by
  simp only [pointsOfInt, jsMul, jsNum_eq n hn, ratio_val]
  rw [round64_eq _ m e hlo hhi h1 h2]

theorem pointsOfInt_zero : pointsOfInt 0 = some 0 := by
  simp [pointsOfInt, jsMul, jsNum, round64]

theorem pointsOfInt_12700 : pointsOfInt 12700 = some (1) := by
  rw [pointsOfInt_eq 12700 9007199254740992 (-53) (by norm_num) (by norm_num) (by norm_num) (by norm_num)
    (by norm_num)]
  norm_num

theorem pointsOfInt_25400 : pointsOfInt 25400 = some (2) := by
  rw [pointsOfInt_eq 25400 9007199254740992 (-52) (by norm_num) (by norm_num) (by norm_num) (by norm_num)
    (by norm_num)]
  norm_num

theorem pointsOfInt_914400 : pointsOfInt 914400 = some (72) := by
  rw [pointsOfInt_eq 914400 5066549580791808 (-46) (by norm_num) (by norm_num) (by norm_num) (by norm_num)
    (by norm_num)]
  norm_num

theorem pointsOfInt_457200 : pointsOfInt 457200 = some (36) := by
  rw [pointsOfInt_eq 457200 5066549580791808 (-47) (by norm_num) (by norm_num) (by norm_num) (by norm_num)
    (by norm_num)]
  norm_num

theorem pointsOfInt_1828800 : pointsOfInt 1828800 = some (144) := by
  rw [pointsOfInt_eq 1828800 5066549580791808 (-45) (by norm_num) (by norm_num) (by norm_num) (by norm_num)
    (by norm_num)]
  norm_num

theorem pointsOfInt_3657600 : pointsOfInt 3657600 = some (288) := by
  rw [pointsOfInt_eq 3657600 5066549580791808 (-44) (by norm_num) (by norm_num) (by norm_num) (by norm_num)
    (by norm_num)]
  norm_num

theorem pointsOfInt_10972800 : pointsOfInt 10972800 = some (864) := by
  rw [pointsOfInt_eq 10972800 7599824371187712 (-43) (by norm_num) (by norm_num) (by norm_num) (by norm_num)
    (by norm_num)]
  norm_num

theorem pointsOfInt_5486400 : pointsOfInt 5486400 = some (432) := by
  rw [pointsOfInt_eq 5486400 7599824371187712 (-44) (by norm_num) (by norm_num) (by norm_num) (by norm_num)
    (by norm_num)]
  norm_num

theorem pointsOfInt_12192000 : pointsOfInt 12192000 = some (960) := by
  rw [pointsOfInt_eq 12192000 8444249301319680 (-43) (by norm_num) (by norm_num) (by norm_num) (by norm_num)
    (by norm_num)]
  norm_num

theorem pointsOfInt_6858000 : pointsOfInt 6858000 = some (540) := by
  rw [pointsOfInt_eq 6858000 4749890231992320 (-43) (by norm_num) (by norm_num) (by norm_num) (by norm_num)
    (by norm_num)]
  norm_num

theorem pointsOfInt_1000000 : pointsOfInt 1000000 = some (1385211499560315 / 17592186044416) := by
  rw [pointsOfInt_eq 1000000 5540845998241260 (-46) (by norm_num) (by norm_num) (by norm_num) (by norm_num)
    (by norm_num)]
  norm_num

theorem pointsOfInt_5000000 : pointsOfInt 5000000 = some (3463028748900787 / 8796093022208) := by
  rw [pointsOfInt_eq 5000000 6926057497801574 (-44) (by norm_num) (by norm_num) (by norm_num) (by norm_num)
    (by norm_num)]
  norm_num

theorem scaleOf_fifth : scaleOf 1000000 5000000 = some (7205759403792795 / 36028797018963968) := by
  simp only [scaleOf, pointsOfInt_1000000, pointsOfInt_5000000, jsDiv]
  rw [if_neg (by norm_num)]
  rw [round64_eq _ 7205759403792795 (-55) (by norm_num) (by norm_num) (by norm_num)
    (by norm_num)]
  norm_num

theorem round64_two : round64 2 = 2 := by
  have := round64_int 2 (by norm_num)
  simpa using this

theorem scaleOf_double_x : scaleOf 3657600 1828800 = some 2 := by
  simp only [scaleOf, pointsOfInt_3657600, pointsOfInt_1828800, jsDiv]
  rw [if_neg (by norm_num)]
  norm_num [round64_two]

theorem scaleOf_double_y : scaleOf 1828800 914400 = some 2 := by
  simp only [scaleOf, pointsOfInt_1828800, pointsOfInt_914400, jsDiv]
  rw [if_neg (by norm_num)]
  norm_num [round64_two]

theorem pointsOfInt_some (n : ℤ) :
    pointsOfInt n = some (round64 (jsNum n * RATIO_EMUs_Points)) := rfl

theorem pointsOfInt_ne_zero {n : ℤ} (hn : n ≠ 0) :
    round64 (jsNum n * RATIO_EMUs_Points) ≠ 0 := by
  have h1 : jsNum n ≠ 0 := round64_ne_zero (by exact_mod_cast hn)
  exact round64_ne_zero (mul_ne_zero h1 (ne_of_gt ratio_pos))

/-- The scale factor of a group with a child extent other than zero is a number. -/
theorem scaleOf_some (a : ℤ) {b : ℤ} (hb : b ≠ 0) :
    scaleOf a b = some (round64 (round64 (jsNum a * RATIO_EMUs_Points) /
      round64 (jsNum b * RATIO_EMUs_Points))) := by
  simp only [scaleOf, pointsOfInt_some, jsDiv, if_neg (pointsOfInt_ne_zero hb)]

/-- The scale factor of a group is within a relative error of `2 ^ (-51)` of the quotient of
the extent and the child extent. -/
theorem scaleOf_near (a b : ℤ) (ha : 0 < a) (ha2 : a < 2 ^ 53) (hb : 0 < b) (hb2 : b < 2 ^ 53) :
    ∃ ws, scaleOf a b = some ws ∧ |ws - (a : ℚ) / b| ≤ (a : ℚ) / b / 2 ^ 51 := by
  refine ⟨_, scaleOf_some a (ne_of_gt hb), ?_⟩
  rw [jsNum_eq a (by rw [abs_of_pos ha]; exact ha2), jsNum_eq b (by rw [abs_of_pos hb]; exact hb2)]
  exact quotient_of_scaled a b RATIO_EMUs_Points (by exact_mod_cast ha) (by exact_mod_cast hb)
    ratio_pos

/-- A group whose extent is its child extent has the scale factor 1. -/
theorem scaleOf_self (a : ℤ) (ha : a ≠ 0) : scaleOf a a = some 1 := by
  rw [scaleOf_some a ha, div_self (pointsOfInt_ne_zero ha)]
  have := round64_int 1 (by norm_num)
  simpa using this

theorem pointsOfEmu_of_parseInt {v : JVal} {n : Int} (h : parseInt v = some n) :
    pointsOfEmu v = some ((n : ℚ) / 12700) := by
  simp [pointsOfEmu, h]

/-! ## Groups -/

theorem processGroupSpNode_ok (env : Env) (recur : String → JVal → Except Err JVal)
    (kvs : List (String × JVal)) (order : JVal) (x y chx chy cx cy chcx chcy : Option ℚ)
    (els : List JVal)
    (horder : getProp ((JVal.obj kvs).get "attrs") "order" = .ok order)
    (hxfrm : (getTextByPathList (.obj kvs) ["p:grpSpPr", "a:xfrm"]).truthy = true)
    (hx : xfrmPoints (getTextByPathList (.obj kvs) ["p:grpSpPr", "a:xfrm"]) "a:off" "x" = .ok x)
    (hy : xfrmPoints (getTextByPathList (.obj kvs) ["p:grpSpPr", "a:xfrm"]) "a:off" "y" = .ok y)
    (hchx : xfrmPoints (getTextByPathList (.obj kvs) ["p:grpSpPr", "a:xfrm"]) "a:chOff" "x"
      = .ok chx)
    (hchy : xfrmPoints (getTextByPathList (.obj kvs) ["p:grpSpPr", "a:xfrm"]) "a:chOff" "y"
      = .ok chy)
    (hcx : xfrmPoints (getTextByPathList (.obj kvs) ["p:grpSpPr", "a:xfrm"]) "a:ext" "cx" = .ok cx)
    (hcy : xfrmPoints (getTextByPathList (.obj kvs) ["p:grpSpPr", "a:xfrm"]) "a:ext" "cy" = .ok cy)
    (hchcx : xfrmPoints (getTextByPathList (.obj kvs) ["p:grpSpPr", "a:xfrm"]) "a:chExt" "cx"
      = .ok chcx)
    (hchcy : xfrmPoints (getTextByPathList (.obj kvs) ["p:grpSpPr", "a:xfrm"]) "a:chExt" "cy"
      = .ok chcy)
    (hels : walkEntries recur kvs = .ok els) :
    processGroupSpNode env recur (.obj kvs) =
      .ok (.obj [("type", .str "group"), ("top", .num y), ("left", .num x), ("width", .num cx),
        ("height", .num cy),
        ("rotate", groupRotate env (getTextByPathList (.obj kvs) ["p:grpSpPr", "a:xfrm"])),
        ("order", order),
        ("elements", .arr (els.map (rescaleChild chx chy (jsDiv cx chcx) (jsDiv cy chcy))))]) := by
  have hget : getProp (JVal.obj kvs) "attrs" = .ok ((JVal.obj kvs).get "attrs") := rfl
  simp only [processGroupSpNode, hget, horder, hxfrm, hx, hy, hchx, hchy, hcx, hcy, hchcx, hchcy,
    hels, JVal.entries, bind, Except.bind, pure, Except.pure, Bool.not_true]
  rfl


theorem xfrmPoints_of_xfrmEmu {xfrmNode : JVal} {child attr : String} {n : Int}
    (h : xfrmEmu xfrmNode child attr = .ok (some n)) :
    xfrmPoints xfrmNode child attr = .ok (pointsOfInt n) := by
  simp only [xfrmEmu, xfrmPoints, bind, Except.bind, pure, Except.pure] at h ⊢
  cases h1 : getProp xfrmNode child with
  | error e => simp [h1] at h
  | ok a =>
    simp only [h1] at h ⊢
    cases h2 : getProp a "attrs" with
    | error e => simp [h2] at h
    | ok b =>
      simp only [h2] at h ⊢
      cases h3 : getProp b attr with
      | error e => simp [h3] at h
      | ok c =>
        simp only [h3, Except.ok.injEq] at h ⊢
        simp [emuToPoints, h, pointsOfInt]

theorem lookupKey_objSet_same (kvs : List (String × JVal)) (k : String) (v : JVal) :
    lookupKey k (objSet kvs k v) = some v := by
  induction kvs with
  | nil => simp [objSet, lookupKey]
  | cons kv rest ih =>
    obtain ⟨k', v'⟩ := kv
    by_cases hk : k' = k
    · simp [objSet, lookupKey, hk]
    · simp [objSet, lookupKey, hk, ih]

theorem lookupKey_objSet_ne (kvs : List (String × JVal)) {k k' : String} (v : JVal)
    (hne : k' ≠ k) : lookupKey k (objSet kvs k' v) = lookupKey k kvs := by
  induction kvs with
  | nil => simp [objSet, lookupKey, hne]
  | cons kv rest ih =>
    obtain ⟨k₀, v₀⟩ := kv
    by_cases hk : k₀ = k'
    · subst hk
      simp [objSet, lookupKey, hne]
    · by_cases hk2 : k₀ = k
      · subst hk2
        simp [objSet, lookupKey, hk]
      · simp [objSet, lookupKey, hk, hk2, ih]

theorem rescaleChild_left (chx chy ws hs : Option ℚ) (e : JVal) :
    (rescaleChild chx chy ws hs e).get "left" =
      .num (jsMul (jsSub (e.get "left").toNumber chx) ws) := by
  simp only [rescaleChild, JVal.get]
  rw [lookupKey_objSet_ne _ _ (by decide), lookupKey_objSet_ne _ _ (by decide),
    lookupKey_objSet_ne _ _ (by decide), lookupKey_objSet_same]
  rfl

theorem rescaleChild_top (chx chy ws hs : Option ℚ) (e : JVal) :
    (rescaleChild chx chy ws hs e).get "top" =
      .num (jsMul (jsSub (e.get "top").toNumber chy) hs) := by
  simp only [rescaleChild, JVal.get]
  rw [lookupKey_objSet_ne _ _ (by decide), lookupKey_objSet_ne _ _ (by decide),
    lookupKey_objSet_same]
  rfl

theorem rescaleChild_width (chx chy ws hs : Option ℚ) (e : JVal) :
    (rescaleChild chx chy ws hs e).get "width" = .num (jsMul (e.get "width").toNumber ws) := by
  simp only [rescaleChild, JVal.get]
  rw [lookupKey_objSet_ne _ _ (by decide), lookupKey_objSet_same]
  rfl

theorem rescaleChild_height (chx chy ws hs : Option ℚ) (e : JVal) :
    (rescaleChild chx chy ws hs e).get "height" = .num (jsMul (e.get "height").toNumber hs) := by
  simp only [rescaleChild, JVal.get]
  rw [lookupKey_objSet_same]
  rfl

theorem rescaleChild_other (chx chy ws hs : Option ℚ) (kvs : List (String × JVal)) (k : String)
    (h1 : "left" ≠ k) (h2 : "top" ≠ k) (h3 : "width" ≠ k) (h4 : "height" ≠ k) :
    (rescaleChild chx chy ws hs (.obj kvs)).get k = (JVal.obj kvs).get k := by
  simp only [rescaleChild, JVal.get, JVal.entries]
  rw [lookupKey_objSet_ne _ _ h4, lookupKey_objSet_ne _ _ h3, lookupKey_objSet_ne _ _ h2,
    lookupKey_objSet_ne _ _ h1]

/-- The group element `processNode` returns for a group whose transform holds the eight
numbers and whose children are all processed. -/
theorem processNode_group (env : Env) (warpObj : WarpObj) (source : String)
    (kvs : List (String × JVal)) (order : JVal)
    (offX offY chOffX chOffY extCx extCy chExtCx chExtCy : Int)
    (horder : getProp ((JVal.obj kvs).get "attrs") "order" = .ok order)
    (hxfrm : (getTextByPathList (.obj kvs) ["p:grpSpPr", "a:xfrm"]).truthy = true)
    (hoffX : xfrmEmu (getTextByPathList (.obj kvs) ["p:grpSpPr", "a:xfrm"]) "a:off" "x"
      = .ok (some offX))
    (hoffY : xfrmEmu (getTextByPathList (.obj kvs) ["p:grpSpPr", "a:xfrm"]) "a:off" "y"
      = .ok (some offY))
    (hchOffX : xfrmEmu (getTextByPathList (.obj kvs) ["p:grpSpPr", "a:xfrm"]) "a:chOff" "x"
      = .ok (some chOffX))
    (hchOffY : xfrmEmu (getTextByPathList (.obj kvs) ["p:grpSpPr", "a:xfrm"]) "a:chOff" "y"
      = .ok (some chOffY))
    (hextCx : xfrmEmu (getTextByPathList (.obj kvs) ["p:grpSpPr", "a:xfrm"]) "a:ext" "cx"
      = .ok (some extCx))
    (hextCy : xfrmEmu (getTextByPathList (.obj kvs) ["p:grpSpPr", "a:xfrm"]) "a:ext" "cy"
      = .ok (some extCy))
    (hchExtCx : xfrmEmu (getTextByPathList (.obj kvs) ["p:grpSpPr", "a:xfrm"]) "a:chExt" "cx"
      = .ok (some chExtCx))
    (hchExtCy : xfrmEmu (getTextByPathList (.obj kvs) ["p:grpSpPr", "a:xfrm"]) "a:chExt" "cy"
      = .ok (some chExtCy))
    (hnn : ∀ kv ∈ kvs, kv.2.isNullish = false)
    (hok : ∀ kc ∈ childNodes kvs, isOk (processNode env warpObj source kc.1 kc.2) = true) :
    processNode env warpObj source "p:grpSp" (.obj kvs) =
      .ok (.obj [("type", .str "group"), ("top", .num (pointsOfInt offY)),
        ("left", .num (pointsOfInt offX)),
        ("width", .num (pointsOfInt extCx)),
        ("height", .num (pointsOfInt extCy)),
        ("rotate", groupRotate env (getTextByPathList (.obj kvs) ["p:grpSpPr", "a:xfrm"])),
        ("order", order),
        ("elements", .arr ((((childNodes kvs).map fun kc =>
            okVal (processNode env warpObj source kc.1 kc.2)).filter JVal.truthy).map
          (rescaleChild (pointsOfInt chOffX) (pointsOfInt chOffY)
            (scaleOf extCx chExtCx) (scaleOf extCy chExtCy))))]) := by
  rw [processNode_grpSp]
  exact processGroupSpNode_ok env (processNode env warpObj source) kvs order _ _ _ _ _ _ _ _ _
    horder hxfrm (xfrmPoints_of_xfrmEmu hoffX) (xfrmPoints_of_xfrmEmu hoffY)
    (xfrmPoints_of_xfrmEmu hchOffX) (xfrmPoints_of_xfrmEmu hchOffY)
    (xfrmPoints_of_xfrmEmu hextCx) (xfrmPoints_of_xfrmEmu hextCy)
    (xfrmPoints_of_xfrmEmu hchExtCx) (xfrmPoints_of_xfrmEmu hchExtCy)
    (walkEntries_ok _ kvs hnn hok)

/-! ## The shape generator -/

theorem getProp_ok {v : JVal} (h : v.isNullish = false) (k : String) :
    getProp v k = .ok (v.get k) := by
  cases v <;> simp [JVal.isNullish] at h <;> rfl

theorem getProp_error {v : JVal} (h : v.isNullish = true) (k : String) :
    getProp v k = .error .typeError := by
  cases v <;> simp [JVal.isNullish] at h <;> rfl

/-- The custom-geometry branch of `genShape`. -/
theorem genShape_custom (env : Env) (node l m name type order : JVal) (warpObj : WarpObj)
    (hnode : node.isNullish = false)
    (hborder : (env.getBorder node type warpObj).isNullish = false)
    (hcust : isCustomCase node type = true)
    (hext : (slideExt node).isNullish = false) :
    genShape env node l m name type order warpObj =
      .ok (.obj (objSet (objSet (objSet
        (normalizeContent env (shapeData env node l m name type order warpObj))
        "type" (.str "shape")) "shapType" (.str "custom"))
        "path" (env.getCustomShapePath (getTextByPathList node ["p:spPr", "a:custGeom"])
          (emuToPoints ((slideExt node).get "cx")) (emuToPoints ((slideExt node).get "cy"))))) := by
  simp only [isCustomCase, slideExt] at hcust hext
  simp only [genShape, getProp_ok hnode, getProp_ok hborder, getProp_ok hext, hcust, shapeData, shapeData0, shapeShadow,
    bind, Except.bind, pure, Except.pure, if_true]
  rfl

/-- The custom-geometry branch of `genShape` throws when the slide node has no extent. -/
theorem genShape_custom_throws (env : Env) (node l m name type order : JVal) (warpObj : WarpObj)
    (hcust : isCustomCase node type = true)
    (hext : (slideExt node).isNullish = true) :
    genShape env node l m name type order warpObj = .error .typeError := by
  simp only [isCustomCase, slideExt] at hcust hext
  cases hnode : node.isNullish with
  | true => simp [genShape, getProp_error hnode, bind, Except.bind]
  | false =>
    cases hborder : (env.getBorder node type warpObj).isNullish with
    | true => simp [genShape, getProp_ok hnode, getProp_error hborder, bind, Except.bind]
    | false =>
      simp only [genShape, getProp_ok hnode, getProp_ok hborder, getProp_error hext, hcust,
        bind, Except.bind, pure, Except.pure, if_true]

/-- The preset-geometry branch of `genShape`. -/
theorem genShape_preset (env : Env) (node l m name type order : JVal) (warpObj : WarpObj)
    (hnode : node.isNullish = false)
    (hborder : (env.getBorder node type warpObj).isNullish = false)
    (hcust : isCustomCase node type = false)
    (hprst : isPresetCase node type = true) :
    genShape env node l m name type order warpObj =
      .ok (.obj (objSet (objSet
        (normalizeContent env (shapeData env node l m name type order warpObj))
        "type" (.str "shape"))
        "shapType" (getTextByPathList node ["p:spPr", "a:prstGeom", "attrs", "prst"]))) := by
  simp only [isCustomCase, isPresetCase] at hcust hprst
  simp only [genShape, getProp_ok hnode, getProp_ok hborder, hcust, hprst, shapeData, shapeData0, shapeShadow,
    bind, Except.bind, pure, Except.pure, if_true]
  rfl

/-- The text branch of `genShape`. -/
theorem genShape_text (env : Env) (node l m name type order : JVal) (warpObj : WarpObj)
    (hnode : node.isNullish = false)
    (hborder : (env.getBorder node type warpObj).isNullish = false)
    (hcust : isCustomCase node type = false)
    (hprst : isPresetCase node type = false) :
    genShape env node l m name type order warpObj =
      .ok (.obj (objSet (objSet (objSet (shapeData env node l m name type order warpObj)
        "type" (.str "text"))
        "isVertical" (.bool ((getTextByPathList node
          ["p:txBody", "a:bodyPr", "attrs", "vert"]).isStr "eaVert")))
        "rotate" (txtRotateOf env node))) := by
  simp only [isCustomCase, isPresetCase] at hcust hprst
  simp only [genShape, getProp_ok hnode, getProp_ok hborder, hcust, hprst, shapeData, shapeData0, shapeShadow, txtRotateOf,
    bind, Except.bind, pure, Except.pure, if_true]
  rfl

theorem genShape_eq (env : Env) (node l m name type order : JVal) (warpObj : WarpObj)
    (hnode : node.isNullish = false)
    (hborder : (env.getBorder node type warpObj).isNullish = false)
    (hext : isCustomCase node type = true → (slideExt node).isNullish = false) :
    genShape env node l m name type order warpObj =
      .ok (shapeElement env node l m name type order warpObj) := by
  cases hc : isCustomCase node type with
  | true =>
    rw [genShape_custom env node l m name type order warpObj hnode hborder hc (hext hc)]
    simp [shapeElement, hc]
  | false =>
    cases hp : isPresetCase node type with
    | true =>
      rw [genShape_preset env node l m name type order warpObj hnode hborder hc hp]
      simp [shapeElement, hc, hp]
    | false =>
      rw [genShape_text env node l m name type order warpObj hnode hborder hc hp]
      simp [shapeElement, hc, hp]

/-- When `genShape` returns, no read threw and the result is `shapeElement`. -/
theorem genShape_ok_inv (env : Env) (node l m name type order : JVal) (warpObj : WarpObj)
    (e : JVal) (h : genShape env node l m name type order warpObj = .ok e) :
    node.isNullish = false ∧ (env.getBorder node type warpObj).isNullish = false ∧
      (isCustomCase node type = true → (slideExt node).isNullish = false) ∧
      e = shapeElement env node l m name type order warpObj := by
  cases hnode : node.isNullish with
  | true =>
    simp [genShape, getProp_error hnode, bind, Except.bind] at h
  | false =>
    cases hborder : (env.getBorder node type warpObj).isNullish with
    | true =>
      simp [genShape, getProp_ok hnode, getProp_error hborder, bind, Except.bind] at h
    | false =>
      have hext : isCustomCase node type = true → (slideExt node).isNullish = false := by
        intro hc
        cases hx : (slideExt node).isNullish with
        | false => rfl
        | true =>
          rw [genShape_custom_throws env node l m name type order warpObj hc hx] at h
          cases h
      refine ⟨rfl, rfl, hext, ?_⟩
      rw [genShape_eq env node l m name type order warpObj hnode hborder hext] at h
      cases h
      rfl

theorem lookupKey_normalizeContent (env : Env) (data : List (String × JVal)) {k : String}
    (hk : "content" ≠ k) : lookupKey k (normalizeContent env data) = lookupKey k data := by
  simp only [normalizeContent]
  split
  · exact lookupKey_objSet_ne _ _ hk
  · rfl

theorem lookupKey_shapeData (env : Env) (node l m name type order : JVal) (warpObj : WarpObj)
    {k : String} (hk : "shadow" ≠ k) :
    lookupKey k (shapeData env node l m name type order warpObj) =
      lookupKey k (shapeData0 env node l m name type order warpObj) := by
  simp only [shapeData]
  split
  · exact lookupKey_objSet_ne _ _ hk
  · rfl

/-- A field of the record `data` other than `content` and `shadow`, read from the element
`genShape` builds in one of the two shape branches. -/
theorem lookupKey_shape_branch (env : Env) (node l m name type order : JVal) (warpObj : WarpObj)
    {k : String} (h1 : "shadow" ≠ k) (h2 : "content" ≠ k) (h3 : "type" ≠ k)
    (h4 : "shapType" ≠ k) (t st : JVal) :
    lookupKey k (objSet (objSet
      (normalizeContent env (shapeData env node l m name type order warpObj)) "type" t)
      "shapType" st) = lookupKey k (shapeData0 env node l m name type order warpObj) := by
  rw [lookupKey_objSet_ne _ _ h4, lookupKey_objSet_ne _ _ h3, lookupKey_normalizeContent _ _ h2,
    lookupKey_shapeData _ _ _ _ _ _ _ _ h1]

/-- A field of the record `data` other than `shadow`, read from the element of the text
branch. -/
theorem lookupKey_text_branch (env : Env) (node l m name type order : JVal) (warpObj : WarpObj)
    {k : String} (h1 : "shadow" ≠ k) (h2 : "rotate" ≠ k) (h3 : "type" ≠ k)
    (h4 : "isVertical" ≠ k) (t v r : JVal) :
    lookupKey k (objSet (objSet (objSet (shapeData env node l m name type order warpObj) "type" t)
      "isVertical" v) "rotate" r) =
      lookupKey k (shapeData0 env node l m name type order warpObj) := by
  rw [lookupKey_objSet_ne _ _ h2, lookupKey_objSet_ne _ _ h4, lookupKey_objSet_ne _ _ h3,
    lookupKey_shapeData _ _ _ _ _ _ _ _ h1]

/-- A field of the record `data` that no branch of `genShape` changes, read from the element
it returns. -/
theorem shapeElement_get (env : Env) (node l m name type order : JVal) (warpObj : WarpObj)
    {k : String} (h1 : "shadow" ≠ k) (h2 : "content" ≠ k) (h3 : "type" ≠ k)
    (h4 : "shapType" ≠ k) (h5 : "path" ≠ k) (h6 : "rotate" ≠ k) (h7 : "isVertical" ≠ k) :
    (shapeElement env node l m name type order warpObj).get k =
      (lookupKey k (shapeData0 env node l m name type order warpObj)).getD .undefined := by
  simp only [shapeElement]
  split
  · simp only [JVal.get]
    rw [lookupKey_objSet_ne _ _ h5, lookupKey_shape_branch _ _ _ _ _ _ _ _ h1 h2 h3 h4]
  · split
    · simp only [JVal.get]
      rw [lookupKey_shape_branch _ _ _ _ _ _ _ _ h1 h2 h3 h4]
    · simp only [JVal.get]
      rw [lookupKey_text_branch _ _ _ _ _ _ _ _ h1 h6 h3 h7]

theorem shapeElement_custom (env : Env) (node l m name type order : JVal) (warpObj : WarpObj)
    (hc : isCustomCase node type = true) :
    shapeElement env node l m name type order warpObj =
      .obj (objSet (objSet (objSet
        (normalizeContent env (shapeData env node l m name type order warpObj))
        "type" (.str "shape")) "shapType" (.str "custom"))
        "path" (env.getCustomShapePath (getTextByPathList node ["p:spPr", "a:custGeom"])
          (emuToPoints ((slideExt node).get "cx")) (emuToPoints ((slideExt node).get "cy")))) := by
  simp [shapeElement, hc]

theorem shapeElement_preset (env : Env) (node l m name type order : JVal) (warpObj : WarpObj)
    (hc : isCustomCase node type = false) (hp : isPresetCase node type = true) :
    shapeElement env node l m name type order warpObj =
      .obj (objSet (objSet
        (normalizeContent env (shapeData env node l m name type order warpObj))
        "type" (.str "shape"))
        "shapType" (getTextByPathList node ["p:spPr", "a:prstGeom", "attrs", "prst"])) := by
  simp [shapeElement, hc, hp]

theorem shapeElement_text (env : Env) (node l m name type order : JVal) (warpObj : WarpObj)
    (hc : isCustomCase node type = false) (hp : isPresetCase node type = false) :
    shapeElement env node l m name type order warpObj =
      .obj (objSet (objSet (objSet (shapeData env node l m name type order warpObj)
        "type" (.str "text"))
        "isVertical" (.bool ((getTextByPathList node
          ["p:txBody", "a:bodyPr", "attrs", "vert"]).isStr "eaVert")))
        "rotate" (txtRotateOf env node)) := by
  simp [shapeElement, hc, hp]

theorem shapeElement_order (env : Env) (node l m name type order : JVal) (warpObj : WarpObj) :
    (shapeElement env node l m name type order warpObj).get "order" = order := by
  rw [shapeElement_get _ _ _ _ _ _ _ _ (by decide) (by decide) (by decide) (by decide)
    (by decide) (by decide) (by decide)]
  rfl

/-! ## Claims -/

/-- C1 (counterexample): in the group `sampleFifthEntries`, with extent 1000000, child extent
5000000 and child offset 12700 in the archive unit, the shape resolved at left 72 comes out at
left `999236167322829 / 70368744177664`, the binary64 number after `71 / 5`, and not at
`(72 - 12700 / 12700) * (1000000 / 5000000) = 71 / 5`: the scale factor is the rounded
quotient of the two rounded extents in points, `7205759403792795 / 2 ^ 55`, which is not
`1 / 5` nor the binary64 number nearest to it. -/
theorem group_child_left_rounding_counterexample :
    ∃ e o : JVal,
      processNode sampleEnv sampleWarp "slide" "p:sp" (sampleShape 1) = .ok e ∧
      (okVal (processNode sampleEnv sampleWarp "slide" "p:grpSp"
        (.obj sampleFifthEntries))).get "elements" = .arr [o] ∧
      e.get "left" = .num (some 72) ∧
      scaleOf 1000000 5000000 = some (7205759403792795 / 36028797018963968) ∧
      round64 ((1000000 : ℚ) / 5000000) = 7205759403792794 / 36028797018963968 ∧
      o.get "left" = .num (some (999236167322829 / 70368744177664)) ∧
      o.get "left" ≠ .num (some ((72 - (12700 : ℚ) / 12700) * ((1000000 : ℚ) / 5000000))) := by
  have hl : (rescaleChild (pointsOfInt 12700) (pointsOfInt 25400) (scaleOf 1000000 5000000)
      (scaleOf 1828800 914400)
      (okVal (processNode sampleEnv sampleWarp "slide" "p:sp" (sampleShape 1)))).get "left"
      = .num (some (999236167322829 / 70368744177664)) := by
    rw [rescaleChild_left]
    show JVal.num (jsMul (jsSub (pointsOfEmu (.str "914400")) (pointsOfInt 12700))
      (scaleOf 1000000 5000000)) = _
    rw [pointsOfEmu_of_parseInt (n := 914400) (by rfl), pointsOfInt_12700, scaleOf_fifth]
    simp only [jsSub, jsMul]
    rw [show ((914400 : ℤ) : ℚ) / 12700 - 1 = ((71 : ℤ) : ℚ) by norm_num,
      round64_int 71 (by norm_num),
      round64_eq _ 7993889338582632 (-49) (by norm_num) (by norm_num) (by norm_num)
        (by norm_num)]
    norm_num
  refine ⟨okVal (processNode sampleEnv sampleWarp "slide" "p:sp" (sampleShape 1)),
    rescaleChild (pointsOfInt 12700) (pointsOfInt 25400) (scaleOf 1000000 5000000)
      (scaleOf 1828800 914400)
      (okVal (processNode sampleEnv sampleWarp "slide" "p:sp" (sampleShape 1))),
    rfl, rfl, ?_, scaleOf_fifth, ?_, hl, ?_⟩
  · show JVal.num (pointsOfEmu (.str "914400")) = _
    rw [pointsOfEmu_of_parseInt (n := 914400) (by rfl)]
    norm_num
  · rw [round64_eq _ 7205759403792794 (-55) (by norm_num) (by norm_num) (by norm_num)
      (by norm_num)]
    norm_num
  · rw [hl]
    norm_num

/-- C1 (amended): for a group node that has its own transform (`a:off`, `a:chOff`, `a:ext`,
`a:chExt` with non-zero child extent) and whose children are all processed,
`processGroupSpNode`, reached through `processNodesInSlide`, returns a group whose elements
are exactly the truthy results of `processNodesInSlide` on its children, in iteration order,
each remapped by `rescaleChild`; the remapped element has, in binary64 arithmetic,
`left = (e.left - chx) * ws` and `top = (e.top - chy) * hs`, where `e` is the element resolved
for that child before the remap, `chx` and `chy` are the child offset times
`RATIO_EMUs_Points`, and `ws` and `hs` are the quotients `cx / chcx` and `cy / chcy` of the
extent and the child extent, each first multiplied by `RATIO_EMUs_Points`. The scale factors
are numbers, and for positive extents below `2 ^ 53` they are within a relative error of
`2 ^ (-51)` of `ext.cx / chExt.cx` and `ext.cy / chExt.cy`: the unit ratio cancels up to
rounding only. -/
theorem processGroupSpNode_children_left_top (env : Env) (warpObj : WarpObj) (source : String)
    (kvs : List (String × JVal)) (order : JVal)
    (offX offY chOffX chOffY extCx extCy chExtCx chExtCy : Int)
    (horder : getProp ((JVal.obj kvs).get "attrs") "order" = .ok order)
    (hxfrm : (getTextByPathList (.obj kvs) ["p:grpSpPr", "a:xfrm"]).truthy = true)
    (hoffX : xfrmEmu (getTextByPathList (.obj kvs) ["p:grpSpPr", "a:xfrm"]) "a:off" "x"
      = .ok (some offX))
    (hoffY : xfrmEmu (getTextByPathList (.obj kvs) ["p:grpSpPr", "a:xfrm"]) "a:off" "y"
      = .ok (some offY))
    (hchOffX : xfrmEmu (getTextByPathList (.obj kvs) ["p:grpSpPr", "a:xfrm"]) "a:chOff" "x"
      = .ok (some chOffX))
    (hchOffY : xfrmEmu (getTextByPathList (.obj kvs) ["p:grpSpPr", "a:xfrm"]) "a:chOff" "y"
      = .ok (some chOffY))
    (hextCx : xfrmEmu (getTextByPathList (.obj kvs) ["p:grpSpPr", "a:xfrm"]) "a:ext" "cx"
      = .ok (some extCx))
    (hextCy : xfrmEmu (getTextByPathList (.obj kvs) ["p:grpSpPr", "a:xfrm"]) "a:ext" "cy"
      = .ok (some extCy))
    (hchExtCx : xfrmEmu (getTextByPathList (.obj kvs) ["p:grpSpPr", "a:xfrm"]) "a:chExt" "cx"
      = .ok (some chExtCx))
    (hchExtCy : xfrmEmu (getTextByPathList (.obj kvs) ["p:grpSpPr", "a:xfrm"]) "a:chExt" "cy"
      = .ok (some chExtCy))
    (hcx0 : chExtCx ≠ 0) (hcy0 : chExtCy ≠ 0)
    (hnn : ∀ kv ∈ kvs, kv.2.isNullish = false)
    (hok : ∀ kc ∈ childNodes kvs, isOk (processNode env warpObj source kc.1 kc.2) = true) :
    ∃ (g : JVal) (out : List JVal) (ws hs : ℚ),
      processNode env warpObj source "p:grpSp" (.obj kvs) = .ok g ∧
      g.get "type" = .str "group" ∧ g.get "elements" = .arr out ∧
      scaleOf extCx chExtCx = some ws ∧ scaleOf extCy chExtCy = some hs ∧
      out = (((childNodes kvs).map fun kc =>
          okVal (processNode env warpObj source kc.1 kc.2)).filter JVal.truthy).map
        (rescaleChild (pointsOfInt chOffX) (pointsOfInt chOffY) (some ws) (some hs)) ∧
      (∀ (i : Nat) (e : JVal),
        (((childNodes kvs).map fun kc =>
          okVal (processNode env warpObj source kc.1 kc.2)).filter JVal.truthy)[i]? = some e →
        ∃ o, out[i]? = some o ∧
          o.get "left" = .num (jsMul (jsSub (e.get "left").toNumber (pointsOfInt chOffX))
            (some ws)) ∧
          o.get "top" = .num (jsMul (jsSub (e.get "top").toNumber (pointsOfInt chOffY))
            (some hs))) ∧
      (0 < extCx → extCx < 2 ^ 53 → 0 < chExtCx → chExtCx < 2 ^ 53 →
        |ws - (extCx : ℚ) / chExtCx| ≤ (extCx : ℚ) / chExtCx / 2 ^ 51) ∧
      (0 < extCy → extCy < 2 ^ 53 → 0 < chExtCy → chExtCy < 2 ^ 53 →
        |hs - (extCy : ℚ) / chExtCy| ≤ (extCy : ℚ) / chExtCy / 2 ^ 51) := by
  have h := processNode_group env warpObj source kvs order offX offY chOffX chOffY extCx extCy
    chExtCx chExtCy horder hxfrm hoffX hoffY hchOffX hchOffY hextCx hextCy hchExtCx hchExtCy
    hnn hok
  rw [scaleOf_some extCx hcx0, scaleOf_some extCy hcy0] at h
  refine ⟨_, _, _, _, h, rfl, rfl, scaleOf_some extCx hcx0, scaleOf_some extCy hcy0, rfl,
    ?_, ?_, ?_⟩
  · intro i e he
    exact ⟨_, by rw [List.getElem?_map, he]; rfl, rescaleChild_left _ _ _ _ _,
      rescaleChild_top _ _ _ _ _⟩
  · intro h1 h2 h3 h4
    obtain ⟨ws, hws, hb⟩ := scaleOf_near extCx chExtCx h1 h2 h3 h4
    rw [scaleOf_some extCx hcx0] at hws
    cases hws
    exact hb
  · intro h1 h2 h3 h4
    obtain ⟨hs, hhs, hb⟩ := scaleOf_near extCy chExtCy h1 h2 h3 h4
    rw [scaleOf_some extCy hcy0] at hhs
    cases hhs
    exact hb

theorem processGroupSpNode_children_left_top_witness :
    ∃ (g : JVal) (out : List JVal) (ws hs : ℚ),
      processNode sampleEnv sampleWarp "slide" "p:grpSp" (.obj sampleGroupEntries) = .ok g ∧
      g.get "type" = .str "group" ∧ g.get "elements" = .arr out ∧
      scaleOf 3657600 1828800 = some ws ∧ scaleOf 1828800 914400 = some hs ∧
      out = (((childNodes sampleGroupEntries).map fun kc =>
          okVal (processNode sampleEnv sampleWarp "slide" kc.1 kc.2)).filter JVal.truthy).map
        (rescaleChild (pointsOfInt 12700) (pointsOfInt 25400) (some ws) (some hs)) ∧
      (∀ (i : Nat) (e : JVal),
        (((childNodes sampleGroupEntries).map fun kc =>
          okVal (processNode sampleEnv sampleWarp "slide" kc.1 kc.2)).filter JVal.truthy)[i]?
            = some e →
        ∃ o, out[i]? = some o ∧
          o.get "left" = .num (jsMul (jsSub (e.get "left").toNumber (pointsOfInt 12700))
            (some ws)) ∧
          o.get "top" = .num (jsMul (jsSub (e.get "top").toNumber (pointsOfInt 25400))
            (some hs))) ∧
      ((0 : Int) < 3657600 → (3657600 : Int) < 2 ^ 53 → (0 : Int) < 1828800 →
        (1828800 : Int) < 2 ^ 53 →
        |ws - ((3657600 : Int) : ℚ) / (1828800 : Int)| ≤
          ((3657600 : Int) : ℚ) / (1828800 : Int) / 2 ^ 51) ∧
      ((0 : Int) < 1828800 → (1828800 : Int) < 2 ^ 53 → (0 : Int) < 914400 →
        (914400 : Int) < 2 ^ 53 →
        |hs - ((1828800 : Int) : ℚ) / (914400 : Int)| ≤
          ((1828800 : Int) : ℚ) / (914400 : Int) / 2 ^ 51) :=
  processGroupSpNode_children_left_top sampleEnv sampleWarp "slide" sampleGroupEntries
    (.num (some 2)) 0 0 12700 25400 3657600 1828800 1828800 914400
    rfl rfl rfl rfl rfl rfl rfl rfl rfl rfl (by decide) (by decide) (by decide) (by decide)

/-- C2 (counterexample): in the sample group, whose child offset is one point and whose scale
is 2, the shape of width 144 comes out with width 288, not `(144 - 1) * 2`. -/
theorem group_child_width_offset_counterexample :
    ∃ e o : JVal,
      processNode sampleEnv sampleWarp "slide" "p:sp" (sampleShape 1) = .ok e ∧
      (okVal (processNode sampleEnv sampleWarp "slide" "p:grpSp"
        (.obj sampleGroupEntries))).get "elements" = .arr [o] ∧
      e.get "width" = .num (some 144) ∧ o.get "width" = .num (some 288) ∧
      o.get "width" ≠ .num (jsMul (jsSub (e.get "width").toNumber (some ((12700 : ℚ) / 12700)))
        (some ((3657600 : ℚ) / 1828800))) := by
  have he : (okVal (processNode sampleEnv sampleWarp "slide" "p:sp" (sampleShape 1))).get "width"
      = .num (some 144) := by
    show JVal.num (pointsOfEmu (.str "1828800")) = _
    rw [pointsOfEmu_of_parseInt (n := 1828800) (by rfl)]
    norm_num
  have hw : (rescaleChild (pointsOfInt 12700) (pointsOfInt 25400) (scaleOf 3657600 1828800)
      (scaleOf 1828800 914400)
      (okVal (processNode sampleEnv sampleWarp "slide" "p:sp" (sampleShape 1)))).get "width"
      = .num (some 288) := by
    rw [rescaleChild_width, he, scaleOf_double_x]
    simp only [JVal.toNumber, jsMul]
    rw [show (144 : ℚ) * 2 = ((288 : ℤ) : ℚ) by norm_num, round64_int 288 (by norm_num)]
    norm_num
  refine ⟨okVal (processNode sampleEnv sampleWarp "slide" "p:sp" (sampleShape 1)),
    rescaleChild (pointsOfInt 12700) (pointsOfInt 25400) (scaleOf 3657600 1828800)
      (scaleOf 1828800 914400)
      (okVal (processNode sampleEnv sampleWarp "slide" "p:sp" (sampleShape 1))),
    rfl, rfl, he, hw, ?_⟩
  rw [hw, he]
  simp only [JVal.toNumber, jsSub, jsMul]
  rw [show (144 : ℚ) - 12700 / 12700 = ((143 : ℤ) : ℚ) by norm_num,
    round64_int 143 (by norm_num),
    show ((143 : ℤ) : ℚ) * (3657600 / 1828800) = ((286 : ℤ) : ℚ) by norm_num,
    round64_int 286 (by norm_num)]
  norm_num

/-- C2 (amended): for a group node with its own transform and non-zero child extent whose
children are all processed, the remapped child has, in binary64 arithmetic,
`width = e.width * ws` and `height = e.height * hs`, where `e` is the element resolved for the
child before the remap and `ws`, `hs` are the scale factors of the group, the quotients of
the extent and the child extent in points: the child offset is subtracted from `left` and
`top` only. -/
theorem processGroupSpNode_children_width_height (env : Env) (warpObj : WarpObj)
    (source : String) (kvs : List (String × JVal)) (order : JVal)
    (offX offY chOffX chOffY extCx extCy chExtCx chExtCy : Int)
    (horder : getProp ((JVal.obj kvs).get "attrs") "order" = .ok order)
    (hxfrm : (getTextByPathList (.obj kvs) ["p:grpSpPr", "a:xfrm"]).truthy = true)
    (hoffX : xfrmEmu (getTextByPathList (.obj kvs) ["p:grpSpPr", "a:xfrm"]) "a:off" "x"
      = .ok (some offX))
    (hoffY : xfrmEmu (getTextByPathList (.obj kvs) ["p:grpSpPr", "a:xfrm"]) "a:off" "y"
      = .ok (some offY))
    (hchOffX : xfrmEmu (getTextByPathList (.obj kvs) ["p:grpSpPr", "a:xfrm"]) "a:chOff" "x"
      = .ok (some chOffX))
    (hchOffY : xfrmEmu (getTextByPathList (.obj kvs) ["p:grpSpPr", "a:xfrm"]) "a:chOff" "y"
      = .ok (some chOffY))
    (hextCx : xfrmEmu (getTextByPathList (.obj kvs) ["p:grpSpPr", "a:xfrm"]) "a:ext" "cx"
      = .ok (some extCx))
    (hextCy : xfrmEmu (getTextByPathList (.obj kvs) ["p:grpSpPr", "a:xfrm"]) "a:ext" "cy"
      = .ok (some extCy))
    (hchExtCx : xfrmEmu (getTextByPathList (.obj kvs) ["p:grpSpPr", "a:xfrm"]) "a:chExt" "cx"
      = .ok (some chExtCx))
    (hchExtCy : xfrmEmu (getTextByPathList (.obj kvs) ["p:grpSpPr", "a:xfrm"]) "a:chExt" "cy"
      = .ok (some chExtCy))
    (hcx0 : chExtCx ≠ 0) (hcy0 : chExtCy ≠ 0)
    (hnn : ∀ kv ∈ kvs, kv.2.isNullish = false)
    (hok : ∀ kc ∈ childNodes kvs,
      isOk (processNode env warpObj source kc.1 kc.2) = true) :
    ∃ (g : JVal) (out : List JVal) (ws hs : ℚ),
      processNode env warpObj source "p:grpSp" (.obj kvs) = .ok g ∧
      g.get "elements" = .arr out ∧
      scaleOf extCx chExtCx = some ws ∧ scaleOf extCy chExtCy = some hs ∧
      ∀ (i : Nat) (e : JVal),
        (((childNodes kvs).map fun kc =>
          okVal (processNode env warpObj source kc.1 kc.2)).filter JVal.truthy)[i]? = some e →
        ∃ o, out[i]? = some o ∧
          o.get "width" = .num (jsMul (e.get "width").toNumber (some ws)) ∧
          o.get "height" = .num (jsMul (e.get "height").toNumber (some hs)) := by
  have h := processNode_group env warpObj source kvs order offX offY chOffX chOffY extCx extCy
    chExtCx chExtCy horder hxfrm hoffX hoffY hchOffX hchOffY hextCx hextCy
    hchExtCx hchExtCy hnn hok
  rw [scaleOf_some extCx hcx0, scaleOf_some extCy hcy0] at h
  refine ⟨_, _, _, _, h, rfl, scaleOf_some extCx hcx0, scaleOf_some extCy hcy0, ?_⟩
  intro i e he
  exact ⟨_, by rw [List.getElem?_map, he]; rfl, rescaleChild_width _ _ _ _ _,
    rescaleChild_height _ _ _ _ _⟩

theorem processGroupSpNode_children_width_height_witness :
    ∃ (g : JVal) (out : List JVal) (ws hs : ℚ),
      processNode sampleEnv sampleWarp "slide" "p:grpSp" (.obj sampleGroupEntries) = .ok g ∧
      g.get "elements" = .arr out ∧
      scaleOf 3657600 1828800 = some ws ∧ scaleOf 1828800 914400 = some hs ∧
      ∀ (i : Nat) (e : JVal),
        (((childNodes sampleGroupEntries).map fun kc =>
          okVal (processNode sampleEnv sampleWarp "slide" kc.1 kc.2)).filter JVal.truthy)[i]?
            = some e →
        ∃ o, out[i]? = some o ∧
          o.get "width" = .num (jsMul (e.get "width").toNumber (some ws)) ∧
          o.get "height" = .num (jsMul (e.get "height").toNumber (some hs)) :=
  processGroupSpNode_children_width_height sampleEnv sampleWarp "slide" sampleGroupEntries
    (.num (some 2)) 0 0 12700 25400 3657600 1828800 1828800 914400
    rfl rfl rfl rfl rfl rfl rfl rfl rfl rfl (by decide) (by decide) (by decide) (by decide)

/-- C3 (counterexample): in the sample of a group of scale 3 that holds a group of scale 2 and
child offset one point that holds a shape of width 144 at left 72, the output reports the
shape with width 288 and left 142, not with the composed `144 * 2 * 3` and
`((72 - 1) * 2 + 0 - 0) * 3`. -/
theorem nested_group_composition_counterexample :
    ∃ e h leaf : JVal,
      processNode sampleEnv sampleWarp "slide" "p:sp" (sampleShape 1) = .ok e ∧
      e.get "width" = .num (some 144) ∧ e.get "left" = .num (some 72) ∧
      (okVal (processNode sampleEnv sampleWarp "slide" "p:grpSp"
        (.obj sampleOuterEntries))).get "elements" = .arr [h] ∧
      h.get "elements" = .arr [leaf] ∧
      leaf.get "width" = .num (some 288) ∧ leaf.get "left" = .num (some 142) ∧
      leaf.get "width" ≠ .num (some (144 * ((3657600 : ℚ) / 1828800) * ((10972800 : ℚ) / 3657600))) ∧
      leaf.get "left" ≠ .num (some (((72 - (12700 : ℚ) / 12700) * ((3657600 : ℚ) / 1828800)
        + 0 - 0) * ((10972800 : ℚ) / 3657600))) := by
  have hew : (okVal (processNode sampleEnv sampleWarp "slide" "p:sp" (sampleShape 1))).get
      "width" = .num (some 144) := by
    show JVal.num (pointsOfEmu (.str "1828800")) = _
    rw [pointsOfEmu_of_parseInt (n := 1828800) (by rfl)]
    norm_num
  have hel : (okVal (processNode sampleEnv sampleWarp "slide" "p:sp" (sampleShape 1))).get
      "left" = .num (some 72) := by
    show JVal.num (pointsOfEmu (.str "914400")) = _
    rw [pointsOfEmu_of_parseInt (n := 914400) (by rfl)]
    norm_num
  have hw : (rescaleChild (pointsOfInt 12700) (pointsOfInt 25400) (scaleOf 3657600 1828800)
      (scaleOf 1828800 914400)
      (okVal (processNode sampleEnv sampleWarp "slide" "p:sp" (sampleShape 1)))).get "width"
      = .num (some 288) := by
    rw [rescaleChild_width, hew, scaleOf_double_x]
    simp only [JVal.toNumber, jsMul]
    rw [show (144 : ℚ) * 2 = ((288 : ℤ) : ℚ) by norm_num, round64_int 288 (by norm_num)]
    norm_num
  have hl : (rescaleChild (pointsOfInt 12700) (pointsOfInt 25400) (scaleOf 3657600 1828800)
      (scaleOf 1828800 914400)
      (okVal (processNode sampleEnv sampleWarp "slide" "p:sp" (sampleShape 1)))).get "left"
      = .num (some 142) := by
    rw [rescaleChild_left, hel, scaleOf_double_x, pointsOfInt_12700]
    simp only [JVal.toNumber, jsSub, jsMul]
    rw [show (72 : ℚ) - 1 = ((71 : ℤ) : ℚ) by norm_num, round64_int 71 (by norm_num),
      show ((71 : ℤ) : ℚ) * 2 = ((142 : ℤ) : ℚ) by norm_num, round64_int 142 (by norm_num)]
    norm_num
  refine ⟨okVal (processNode sampleEnv sampleWarp "slide" "p:sp" (sampleShape 1)),
    rescaleChild (pointsOfInt 0) (pointsOfInt 0) (scaleOf 10972800 3657600)
      (scaleOf 5486400 1828800)
      (okVal (processNode sampleEnv sampleWarp "slide" "p:grpSp" (.obj sampleGroupEntries))),
    rescaleChild (pointsOfInt 12700) (pointsOfInt 25400) (scaleOf 3657600 1828800)
      (scaleOf 1828800 914400)
      (okVal (processNode sampleEnv sampleWarp "slide" "p:sp" (sampleShape 1))),
    rfl, hew, hel, rfl, rfl, hw, hl, ?_, ?_⟩
  · rw [hw]
    norm_num
  · rw [hl]
    norm_num

/-- C3 (amended): for an outer group G that holds an inner group H, both with their own
transform and non-zero child extent and with all children processed, the output reports the
elements of H remapped by H alone, in binary64 arithmetic `left = (e.left - chx_H) * ws_H` and
`width = e.width * ws_H` for the element `e` resolved for a child of H, nested under the
element of H; G remaps only the box of H itself, to `left = (x_H - chx_G) * ws_G` and
`width = cx_H * ws_G`, where `x`, `chx` and `cx` are the offset, the child offset and the
extent of a group times `RATIO_EMUs_Points` and `ws` is its scale factor. The two remaps are
not composed on the children of H. -/
theorem nested_group_inner_remap_only (env : Env) (warpObj : WarpObj) (source : String)
    (kvsG kvsH : List (String × JVal)) (orderG orderH : JVal)
    (offXG offYG chOffXG chOffYG extCxG extCyG chExtCxG chExtCyG : Int)
    (offXH offYH chOffXH chOffYH extCxH extCyH chExtCxH chExtCyH : Int)
    (horderG : getProp ((JVal.obj kvsG).get "attrs") "order" = .ok orderG)
    (hxfrmG : (getTextByPathList (.obj kvsG) ["p:grpSpPr", "a:xfrm"]).truthy = true)
    (hoffXG : xfrmEmu (getTextByPathList (.obj kvsG) ["p:grpSpPr", "a:xfrm"]) "a:off" "x"
      = .ok (some offXG))
    (hoffYG : xfrmEmu (getTextByPathList (.obj kvsG) ["p:grpSpPr", "a:xfrm"]) "a:off" "y"
      = .ok (some offYG))
    (hchOffXG : xfrmEmu (getTextByPathList (.obj kvsG) ["p:grpSpPr", "a:xfrm"]) "a:chOff" "x"
      = .ok (some chOffXG))
    (hchOffYG : xfrmEmu (getTextByPathList (.obj kvsG) ["p:grpSpPr", "a:xfrm"]) "a:chOff" "y"
      = .ok (some chOffYG))
    (hextCxG : xfrmEmu (getTextByPathList (.obj kvsG) ["p:grpSpPr", "a:xfrm"]) "a:ext" "cx"
      = .ok (some extCxG))
    (hextCyG : xfrmEmu (getTextByPathList (.obj kvsG) ["p:grpSpPr", "a:xfrm"]) "a:ext" "cy"
      = .ok (some extCyG))
    (hchExtCxG : xfrmEmu (getTextByPathList (.obj kvsG) ["p:grpSpPr", "a:xfrm"]) "a:chExt" "cx"
      = .ok (some chExtCxG))
    (hchExtCyG : xfrmEmu (getTextByPathList (.obj kvsG) ["p:grpSpPr", "a:xfrm"]) "a:chExt" "cy"
      = .ok (some chExtCyG))
    (hcx0G : chExtCxG ≠ 0)
    (hnnG : ∀ kv ∈ kvsG, kv.2.isNullish = false)
    (hokG : ∀ kc ∈ childNodes kvsG,
      isOk (processNode env warpObj source kc.1 kc.2) = true)
    (horderH : getProp ((JVal.obj kvsH).get "attrs") "order" = .ok orderH)
    (hxfrmH : (getTextByPathList (.obj kvsH) ["p:grpSpPr", "a:xfrm"]).truthy = true)
    (hoffXH : xfrmEmu (getTextByPathList (.obj kvsH) ["p:grpSpPr", "a:xfrm"]) "a:off" "x"
      = .ok (some offXH))
    (hoffYH : xfrmEmu (getTextByPathList (.obj kvsH) ["p:grpSpPr", "a:xfrm"]) "a:off" "y"
      = .ok (some offYH))
    (hchOffXH : xfrmEmu (getTextByPathList (.obj kvsH) ["p:grpSpPr", "a:xfrm"]) "a:chOff" "x"
      = .ok (some chOffXH))
    (hchOffYH : xfrmEmu (getTextByPathList (.obj kvsH) ["p:grpSpPr", "a:xfrm"]) "a:chOff" "y"
      = .ok (some chOffYH))
    (hextCxH : xfrmEmu (getTextByPathList (.obj kvsH) ["p:grpSpPr", "a:xfrm"]) "a:ext" "cx"
      = .ok (some extCxH))
    (hextCyH : xfrmEmu (getTextByPathList (.obj kvsH) ["p:grpSpPr", "a:xfrm"]) "a:ext" "cy"
      = .ok (some extCyH))
    (hchExtCxH : xfrmEmu (getTextByPathList (.obj kvsH) ["p:grpSpPr", "a:xfrm"]) "a:chExt" "cx"
      = .ok (some chExtCxH))
    (hchExtCyH : xfrmEmu (getTextByPathList (.obj kvsH) ["p:grpSpPr", "a:xfrm"]) "a:chExt" "cy"
      = .ok (some chExtCyH))
    (hcx0H : chExtCxH ≠ 0)
    (hnnH : ∀ kv ∈ kvsH, kv.2.isNullish = false)
    (hokH : ∀ kc ∈ childNodes kvsH,
      isOk (processNode env warpObj source kc.1 kc.2) = true)
    (hchild : ("p:grpSp", JVal.obj kvsH) ∈ childNodes kvsG) :
    ∃ (g h : JVal) (outG outH : List JVal) (wsG wsH : ℚ),
      processNode env warpObj source "p:grpSp" (.obj kvsG) = .ok g ∧
      scaleOf extCxG chExtCxG = some wsG ∧ scaleOf extCxH chExtCxH = some wsH ∧
      g.get "elements" = .arr outG ∧ h ∈ outG ∧ h.get "type" = .str "group" ∧
      h.get "left" = .num (jsMul (jsSub (pointsOfInt offXH) (pointsOfInt chOffXG)) (some wsG)) ∧
      h.get "width" = .num (jsMul (pointsOfInt extCxH) (some wsG)) ∧
      h.get "elements" = .arr outH ∧
      ∀ (i : Nat) (e : JVal),
        (((childNodes kvsH).map fun kc =>
          okVal (processNode env warpObj source kc.1 kc.2)).filter JVal.truthy)[i]? = some e →
        ∃ o, outH[i]? = some o ∧
          o.get "left" = .num (jsMul (jsSub (e.get "left").toNumber (pointsOfInt chOffXH))
            (some wsH)) ∧
          o.get "width" = .num (jsMul (e.get "width").toNumber (some wsH)) := by
  have hG := processNode_group env warpObj source kvsG orderG offXG offYG chOffXG chOffYG extCxG extCyG
    chExtCxG chExtCyG horderG hxfrmG hoffXG hoffYG hchOffXG hchOffYG hextCxG hextCyG
    hchExtCxG hchExtCyG hnnG hokG
  have hH := processNode_group env warpObj source kvsH orderH offXH offYH chOffXH chOffYH extCxH extCyH
    chExtCxH chExtCyH horderH hxfrmH hoffXH hoffYH hchOffXH hchOffYH hextCxH hextCyH
    hchExtCxH hchExtCyH hnnH hokH
  obtain ⟨wsG, hwsG⟩ : ∃ ws, scaleOf extCxG chExtCxG = some ws := ⟨_, scaleOf_some extCxG hcx0G⟩
  obtain ⟨wsH, hwsH⟩ : ∃ ws, scaleOf extCxH chExtCxH = some ws := ⟨_, scaleOf_some extCxH hcx0H⟩
  rw [hwsG] at hG
  rw [hwsH] at hH
  refine ⟨_, rescaleChild (pointsOfInt chOffXG) (pointsOfInt chOffYG)
      (some wsG) (scaleOf extCyG chExtCyG)
      (okVal (processNode env warpObj source "p:grpSp" (.obj kvsH))),
    _, (((childNodes kvsH).map fun kc =>
        okVal (processNode env warpObj source kc.1 kc.2)).filter JVal.truthy).map
      (rescaleChild (pointsOfInt chOffXH) (pointsOfInt chOffYH)
        (some wsH) (scaleOf extCyH chExtCyH)),
    wsG, wsH, hG, hwsG, hwsH, rfl, ?_, ?_, ?_, ?_, ?_, ?_⟩
  · refine List.mem_map.2 ⟨_, List.mem_filter.2 ⟨List.mem_map.2 ⟨_, hchild, rfl⟩, ?_⟩, rfl⟩
    rw [hH]
    rfl
  · rw [hH]
    simp only [okVal]
    rw [rescaleChild_other _ _ _ _ _ _ (by decide) (by decide) (by decide) (by decide)]
    rfl
  · rw [hH, rescaleChild_left]
    rfl
  · rw [hH, rescaleChild_width]
    rfl
  · rw [hH]
    simp only [okVal]
    rw [rescaleChild_other _ _ _ _ _ _ (by decide) (by decide) (by decide) (by decide)]
    rfl
  · intro i e he
    exact ⟨_, by rw [List.getElem?_map, he]; rfl, rescaleChild_left _ _ _ _ _,
      rescaleChild_width _ _ _ _ _⟩

theorem nested_group_inner_remap_only_witness :
    ∃ (g h : JVal) (outG outH : List JVal) (wsG wsH : ℚ),
      processNode sampleEnv sampleWarp "slide" "p:grpSp" (.obj sampleOuterEntries) = .ok g ∧
      scaleOf 10972800 3657600 = some wsG ∧ scaleOf 3657600 1828800 = some wsH ∧
      g.get "elements" = .arr outG ∧ h ∈ outG ∧ h.get "type" = .str "group" ∧
      h.get "left" = .num (jsMul (jsSub (pointsOfInt 0) (pointsOfInt 0)) (some wsG)) ∧
      h.get "width" = .num (jsMul (pointsOfInt 3657600) (some wsG)) ∧
      h.get "elements" = .arr outH ∧
      ∀ (i : Nat) (e : JVal),
        (((childNodes sampleGroupEntries).map fun kc =>
          okVal (processNode sampleEnv sampleWarp "slide" kc.1 kc.2)).filter JVal.truthy)[i]?
            = some e →
        ∃ o, outH[i]? = some o ∧
          o.get "left" = .num (jsMul (jsSub (e.get "left").toNumber (pointsOfInt 12700))
            (some wsH)) ∧
          o.get "width" = .num (jsMul (e.get "width").toNumber (some wsH)) :=
  nested_group_inner_remap_only sampleEnv sampleWarp "slide" sampleOuterEntries
    sampleGroupEntries (.num (some 3)) (.num (some 2))
    0 0 0 0 10972800 5486400 3657600 1828800
    0 0 12700 25400 3657600 1828800 1828800 914400
    rfl rfl rfl rfl rfl rfl rfl rfl rfl rfl (by decide) (by decide) (by decide)
    rfl rfl rfl rfl rfl rfl rfl rfl rfl rfl (by decide) (by decide) (by decide)
    (by simp [childNodes, sampleOuterEntries, groupEntries])

/-! ## Shapes and slides -/

theorem processSpNode_eq (env : Env) (node : JVal) (warpObj : WarpObj) (source : String)
    (l m : JVal)
    (hl : counterpart warpObj.slideLayoutTables
      (getTextByPathList node ["p:nvSpPr", "p:nvPr", "p:ph", "attrs", "type"])
      (getTextByPathList node ["p:nvSpPr", "p:nvPr", "p:ph", "attrs", "idx"]) = .ok l)
    (hm : counterpart warpObj.slideMasterTables
      (getTextByPathList node ["p:nvSpPr", "p:nvPr", "p:ph", "attrs", "type"])
      (getTextByPathList node ["p:nvSpPr", "p:nvPr", "p:ph", "attrs", "idx"]) = .ok m) :
    processSpNode env node warpObj source =
      genShape env node l m (getTextByPathList node ["p:nvSpPr", "p:cNvPr", "attrs", "name"])
        (placeholderTypeSpec
          (getTextByPathList node ["p:nvSpPr", "p:nvPr", "p:ph", "attrs", "type"])
          (getTextByPathList node ["p:nvSpPr", "p:cNvSpPr", "attrs", "txBox"])
          (getTextByPathList l ["p:nvSpPr", "p:nvPr", "p:ph", "attrs", "type"])
          (getTextByPathList m ["p:nvSpPr", "p:nvPr", "p:ph", "attrs", "type"]) source)
        (getTextByPathList node ["attrs", "order"]) warpObj := by
  have htext : (JVal.str "text").truthy = true := rfl
  have hdiag : (JVal.str "diagram").truthy = true := rfl
  have hobj : (JVal.str "obj").truthy = true := rfl
  simp only [processSpNode, hl, hm, bind, Except.bind, placeholderTypeSpec]
  congr 1
  cases h0 : (getTextByPathList node ["p:nvSpPr", "p:nvPr", "p:ph", "attrs", "type"]).truthy
  · cases h1 : (getTextByPathList node ["p:nvSpPr", "p:cNvSpPr", "attrs", "txBox"]).isStr "1"
    · cases h2 : (getTextByPathList l ["p:nvSpPr", "p:nvPr", "p:ph", "attrs", "type"]).truthy
      · cases h3 : (getTextByPathList m ["p:nvSpPr", "p:nvPr", "p:ph", "attrs", "type"]).truthy
        · by_cases h4 : source = "diagramBg" <;> simp [h0, h2, h3, h4, hdiag, hobj]
        · simp [h0, h2, h3]
      · simp [h0, h2]
    · simp [h0, htext]
  · simp [h0]

/-- When `processSpNode` returns, it returns what `genShape` built for some counterparts and
type, with the name and the order read from the node. -/
theorem processSpNode_ok_inv (env : Env) (node : JVal) (warpObj : WarpObj) (source : String)
    (e : JVal) (h : processSpNode env node warpObj source = .ok e) :
    ∃ l m type : JVal,
      genShape env node l m (getTextByPathList node ["p:nvSpPr", "p:cNvPr", "attrs", "name"])
        type (getTextByPathList node ["attrs", "order"]) warpObj = .ok e := by
  cases hl : counterpart warpObj.slideLayoutTables
      (getTextByPathList node ["p:nvSpPr", "p:nvPr", "p:ph", "attrs", "type"])
      (getTextByPathList node ["p:nvSpPr", "p:nvPr", "p:ph", "attrs", "idx"]) with
  | error err => simp [processSpNode, hl, bind, Except.bind] at h
  | ok l =>
    cases hm : counterpart warpObj.slideMasterTables
        (getTextByPathList node ["p:nvSpPr", "p:nvPr", "p:ph", "attrs", "type"])
        (getTextByPathList node ["p:nvSpPr", "p:nvPr", "p:ph", "attrs", "idx"]) with
    | error err => simp [processSpNode, hl, hm, bind, Except.bind] at h
    | ok m =>
      rw [processSpNode_eq env node warpObj source l m hl hm] at h
      exact ⟨l, m, _, h⟩

theorem processSpNode_order (env : Env) (node : JVal) (warpObj : WarpObj) (source : String)
    (e : JVal) (h : processSpNode env node warpObj source = .ok e) :
    e.get "order" = getTextByPathList node ["attrs", "order"] := by
  obtain ⟨l, m, type, hg⟩ := processSpNode_ok_inv env node warpObj source e h
  obtain ⟨-, -, -, rfl⟩ := genShape_ok_inv env node l m _ type _ warpObj e hg
  exact shapeElement_order _ _ _ _ _ _ _ _

theorem bind_ok_inv {α β : Type} {x : Except Err α} {f : α → Except Err β} {b : β}
    (h : x >>= f = .ok b) : ∃ a, x = .ok a ∧ f a = .ok b := by
  cases x with
  | error e => cases h
  | ok a => exact ⟨a, rfl, h⟩

theorem getProp_ok_inv {v a : JVal} {k : String} (h : getProp v k = .ok a) :
    v.isNullish = false ∧ a = v.get k := by
  cases v <;> simp [getProp] at h <;> simp [JVal.isNullish, h]

theorem processCxnSpNode_order (env : Env) (node : JVal) (warpObj : WarpObj)
    (e : JVal) (h : processCxnSpNode env node warpObj = .ok e) :
    getProp (node.get "attrs") "order" = .ok (e.get "order") := by
  unfold processCxnSpNode at h
  obtain ⟨a1, h1, h⟩ := bind_ok_inv h
  obtain ⟨a2, -, h⟩ := bind_ok_inv h
  obtain ⟨a3, -, h⟩ := bind_ok_inv h
  obtain ⟨name, -, h⟩ := bind_ok_inv h
  obtain ⟨b1, -, h⟩ := bind_ok_inv h
  obtain ⟨b2, -, h⟩ := bind_ok_inv h
  obtain ⟨ph, -, h⟩ := bind_ok_inv h
  have key : ∀ type : JVal,
      (getProp node "attrs" >>= fun c1 => getProp c1 "order" >>= fun order =>
        genShape env node .undefined .undefined name type order warpObj) = .ok e →
      getProp (node.get "attrs") "order" = .ok (e.get "order") := by
    intro type hk
    obtain ⟨c1, hc1, hk1⟩ := bind_ok_inv hk
    obtain ⟨order, horder, hk2⟩ := bind_ok_inv hk1
    have hc := (getProp_ok_inv hc1).2
    have he := (genShape_ok_inv env node _ _ name type order warpObj e hk2).2.2.2
    rw [he, shapeElement_order, ← hc]
    exact horder
  dsimp only at h
  split at h
  · obtain ⟨type, -, h⟩ := bind_ok_inv h
    exact key type h
  · obtain ⟨d1, -, h⟩ := bind_ok_inv h
    obtain ⟨d2, -, h⟩ := bind_ok_inv h
    obtain ⟨d3, -, h⟩ := bind_ok_inv h
    obtain ⟨d4, -, h⟩ := bind_ok_inv h
    obtain ⟨type, -, h⟩ := bind_ok_inv h
    exact key type h

theorem processGroupSpNode_order (env : Env) (recur : String → JVal → Except Err JVal)
    (node e : JVal) (h : processGroupSpNode env recur node = .ok e) :
    e = .null ∨ getProp (node.get "attrs") "order" = .ok (e.get "order") := by
  unfold processGroupSpNode at h
  obtain ⟨c1, hc1, h1⟩ := bind_ok_inv h
  obtain ⟨order, horder, h2⟩ := bind_ok_inv h1
  have hc := (getProp_ok_inv hc1).2
  dsimp only at h2
  split at h2
  · left
    cases h2
    rfl
  · right
    obtain ⟨_, -, h2'⟩ := bind_ok_inv h2
    obtain ⟨x, -, h3⟩ := bind_ok_inv h2'
    obtain ⟨y, -, h4⟩ := bind_ok_inv h3
    obtain ⟨chx, -, h5⟩ := bind_ok_inv h4
    obtain ⟨chy, -, h6⟩ := bind_ok_inv h5
    obtain ⟨cx, -, h7⟩ := bind_ok_inv h6
    obtain ⟨cy, -, h8⟩ := bind_ok_inv h7
    obtain ⟨chcx, -, h9⟩ := bind_ok_inv h8
    obtain ⟨chcy, -, h10⟩ := bind_ok_inv h9
    obtain ⟨els, -, h11⟩ := bind_ok_inv h10
    cases h11
    rw [← hc]
    exact horder

theorem processSingleSlide_elements (env : Env) (sldFileName : String)
    (themeContent defaultTextStyle : JVal) (warpObj : WarpObj) (note : String) (nodes : JVal)
    (hctx : slideContext env sldFileName themeContent defaultTextStyle
      = .ok (warpObj, note, nodes))
    (hnn : ∀ kv ∈ nodes.entries, kv.2.isNullish = false)
    (hok : ∀ kc ∈ childNodes nodes.entries,
      isOk (processNode env warpObj "slide" kc.1 kc.2) = true) :
    processSingleSlide env sldFileName themeContent defaultTextStyle =
      .ok (.obj [("fill", env.getSlideBackgroundFill warpObj),
        ("elements", .arr (((childNodes nodes.entries).map fun kc =>
          okVal (processNode env warpObj "slide" kc.1 kc.2)).filter JVal.truthy)),
        ("note", .str note)]) := by
  simp only [processSingleSlide, hctx, walkEntries_ok _ _ hnn hok, bind, Except.bind, pure,
    Except.pure]

/-- C4 (counterexample): the sample slide holds, in document order, a shape with order 0, a
connector with order 1 and a shape with order 2; `processSingleSlide` lists the two shapes
before the connector, so the orders read 0, 2, 1: the list is not in document order and the
order of its second element is not the number of elements before it. -/
theorem slide_elements_order_counterexample :
    ∃ els : List JVal,
      isOk (processSingleSlide sampleEnv "ppt/slides/slide1.xml" .undefined .undefined) = true ∧
      (okVal (processSingleSlide sampleEnv "ppt/slides/slide1.xml" .undefined
        .undefined)).get "elements" = .arr els ∧
      (els.map fun e => e.get "order") = [.num (some 0), .num (some 2), .num (some 1)] ∧
      ¬ ∀ (i : Nat) (e : JVal), els[i]? = some e → e.get "order" = .num (some (i : ℚ)) := by
  refine ⟨[okVal (processNode sampleEnv sampleWarp "slide" "p:sp" (sampleShape 0)),
    okVal (processNode sampleEnv sampleWarp "slide" "p:sp" (sampleShape 2)),
    okVal (processNode sampleEnv sampleWarp "slide" "p:cxnSp" (sampleConnector 1))],
    rfl, rfl, rfl, ?_⟩
  intro h
  have h1 := h 1 (okVal (processNode sampleEnv sampleWarp "slide" "p:sp" (sampleShape 2))) rfl
  have h2 : (okVal (processNode sampleEnv sampleWarp "slide" "p:sp" (sampleShape 2))).get "order"
      = .num (some 2) := rfl
  rw [h2] at h1
  simp only [JVal.num.injEq, Option.some.injEq] at h1
  norm_num at h1

/-- C4 (amended): when the parts of the slide are read and every child of the shape tree is
processed, the elements list of `processSingleSlide` holds the truthy results of
`processNodesInSlide` for the children taken key by key, in the order of the keys of the tree
and, under one key, in array order; and the `order` of the element of a shape, connector or
group is the `order` attribute stored on its node: the walk copies it and counts nothing. -/
theorem processSingleSlide_elements_by_key (env : Env) (sldFileName : String)
    (themeContent defaultTextStyle : JVal) (warpObj : WarpObj) (note : String) (nodes : JVal)
    (hctx : slideContext env sldFileName themeContent defaultTextStyle
      = .ok (warpObj, note, nodes))
    (hnn : ∀ kv ∈ nodes.entries, kv.2.isNullish = false)
    (hok : ∀ kc ∈ childNodes nodes.entries,
      isOk (processNode env warpObj "slide" kc.1 kc.2) = true) :
    ∃ slide : JVal,
      processSingleSlide env sldFileName themeContent defaultTextStyle = .ok slide ∧
      slide.get "elements" = .arr (((childNodes nodes.entries).map fun kc =>
        okVal (processNode env warpObj "slide" kc.1 kc.2)).filter JVal.truthy) ∧
      (∀ c e : JVal, processNode env warpObj "slide" "p:sp" c = .ok e →
        e.get "order" = getTextByPathList c ["attrs", "order"]) ∧
      (∀ c e : JVal, processNode env warpObj "slide" "p:cxnSp" c = .ok e →
        getProp (c.get "attrs") "order" = .ok (e.get "order")) ∧
      (∀ c e : JVal, processNode env warpObj "slide" "p:grpSp" c = .ok e →
        e = .null ∨ getProp (c.get "attrs") "order" = .ok (e.get "order")) := by
  refine ⟨_, processSingleSlide_elements env sldFileName themeContent defaultTextStyle warpObj
    note nodes hctx hnn hok, rfl, ?_, ?_, ?_⟩
  · intro c e h
    rw [processNode_sp] at h
    exact processSpNode_order env c warpObj "slide" e h
  · intro c e h
    rw [processNode_cxnSp] at h
    exact processCxnSpNode_order env c warpObj e h
  · intro c e h
    rw [processNode_grpSp] at h
    exact processGroupSpNode_order env _ c e h

theorem processSingleSlide_elements_by_key_witness :
    ∃ slide : JVal,
      processSingleSlide sampleEnv "ppt/slides/slide1.xml" .undefined .undefined = .ok slide ∧
      slide.get "elements" = .arr (((childNodes sampleTree.entries).map fun kc =>
        okVal (processNode sampleEnv sampleWarp "slide" kc.1 kc.2)).filter JVal.truthy) ∧
      (∀ c e : JVal, processNode sampleEnv sampleWarp "slide" "p:sp" c = .ok e →
        e.get "order" = getTextByPathList c ["attrs", "order"]) ∧
      (∀ c e : JVal, processNode sampleEnv sampleWarp "slide" "p:cxnSp" c = .ok e →
        getProp (c.get "attrs") "order" = .ok (e.get "order")) ∧
      (∀ c e : JVal, processNode sampleEnv sampleWarp "slide" "p:grpSp" c = .ok e →
        e = .null ∨ getProp (c.get "attrs") "order" = .ok (e.get "order")) :=
  processSingleSlide_elements_by_key sampleEnv "ppt/slides/slide1.xml" .undefined .undefined
    sampleWarp "" sampleTree rfl (by decide) (by decide)

/-- The lookup of lines 513-526 in tables that hold both index tables. -/
theorem counterpart_eq (tables own idx : JVal)
    (ht : (tables.get "typeTable").isNullish = false)
    (hi : (tables.get "idxTable").isNullish = false) :
    counterpart tables own idx = .ok (counterpartOf tables own idx) := by
  have hn : tables.isNullish = false := by
    cases tables <;> first | rfl | exact absurd ht (by decide)
  simp only [counterpart, counterpartOf, getProp_ok hn, getProp_ok ht, getProp_ok hi, bind,
    Except.bind, pure, Except.pure]
  cases own.truthy <;> cases idx.truthy <;> rfl

/-- C5: for a slide whose layout and master have index tables, the placeholder type
`processSpNode` passes to `genShape` is never empty and is the one this precedence selects:
the own `p:ph` type of the node; else `text` for a text box; else the `p:ph` type of the layout
counterpart; else the `p:ph` type of the master counterpart; else `diagram` for the caller
context `diagramBg` and `obj` otherwise. The counterparts, which are also the layout and
master nodes passed to `genShape`, are the shapes the index tables hold under the own type of
the node, or under its placeholder index when it has no type: a node without own type that
is no text box inherits the type of the layout shape with its index, else that of the master
shape with its index, and gets the default when it has no index either. -/
theorem processSpNode_placeholder_type (env : Env) (node : JVal) (warpObj : WarpObj)
    (source : String)
    (hlt : (warpObj.slideLayoutTables.get "typeTable").isNullish = false)
    (hli : (warpObj.slideLayoutTables.get "idxTable").isNullish = false)
    (hmt : (warpObj.slideMasterTables.get "typeTable").isNullish = false)
    (hmi : (warpObj.slideMasterTables.get "idxTable").isNullish = false) :
    ∃ l m T : JVal,
      processSpNode env node warpObj source =
        genShape env node l m (getTextByPathList node ["p:nvSpPr", "p:cNvPr", "attrs", "name"])
          T (getTextByPathList node ["attrs", "order"]) warpObj ∧
      l = counterpartOf warpObj.slideLayoutTables (phTypeOf node)
        (getTextByPathList node ["p:nvSpPr", "p:nvPr", "p:ph", "attrs", "idx"]) ∧
      m = counterpartOf warpObj.slideMasterTables (phTypeOf node)
        (getTextByPathList node ["p:nvSpPr", "p:nvPr", "p:ph", "attrs", "idx"]) ∧
      T = placeholderTypeSpec (phTypeOf node)
        (getTextByPathList node ["p:nvSpPr", "p:cNvSpPr", "attrs", "txBox"])
        (phTypeOf l) (phTypeOf m) source ∧
      T.truthy = true ∧
      ((phTypeOf node).truthy = true → T = phTypeOf node) ∧
      ((phTypeOf node).truthy = false →
        (getTextByPathList node ["p:nvSpPr", "p:cNvSpPr", "attrs", "txBox"]).isStr "1" = false →
        (getTextByPathList node ["p:nvSpPr", "p:nvPr", "p:ph", "attrs", "idx"]).truthy = true →
        (l = (warpObj.slideLayoutTables.get "idxTable").get (toPropertyKey
            (getTextByPathList node ["p:nvSpPr", "p:nvPr", "p:ph", "attrs", "idx"])) ∧
          m = (warpObj.slideMasterTables.get "idxTable").get (toPropertyKey
            (getTextByPathList node ["p:nvSpPr", "p:nvPr", "p:ph", "attrs", "idx"])) ∧
          ((phTypeOf l).truthy = true → T = phTypeOf l) ∧
          ((phTypeOf l).truthy = false → (phTypeOf m).truthy = true → T = phTypeOf m))) ∧
      ((phTypeOf node).truthy = false →
        (getTextByPathList node ["p:nvSpPr", "p:cNvSpPr", "attrs", "txBox"]).isStr "1" = false →
        (getTextByPathList node ["p:nvSpPr", "p:nvPr", "p:ph", "attrs", "idx"]).truthy = false →
        l = .undefined ∧ m = .undefined ∧
          T = if source = "diagramBg" then .str "diagram" else .str "obj") := by
  have hundef : phTypeOf .undefined = .undefined := rfl
  have hfalse : JVal.undefined.truthy = false := rfl
  refine ⟨_, _, _, processSpNode_eq env node warpObj source _ _
    (counterpart_eq _ _ _ hlt hli) (counterpart_eq _ _ _ hmt hmi), rfl, rfl, rfl, ?_, ?_, ?_, ?_⟩
  · simp only [placeholderTypeSpec]
    split
    · assumption
    · split
      · rfl
      · split
        · assumption
        · split
          · assumption
          · split <;> rfl
  · intro h
    simp only [placeholderTypeSpec, phTypeOf] at h ⊢
    rw [if_pos h]
  · intro h0 h1 h2
    simp only [phTypeOf] at h0
    refine ⟨by simp only [counterpartOf, phTypeOf, h0, h2]; rfl,
      by simp only [counterpartOf, phTypeOf, h0, h2]; rfl, ?_, ?_⟩
    · intro h3
      simp only [placeholderTypeSpec, phTypeOf, h0, h1, h3] at h3 ⊢
      simp [h3]
    · intro h3 h4
      simp only [placeholderTypeSpec, phTypeOf, h0, h1] at h3 h4 ⊢
      simp [h3, h4]
  · intro h0 h1 h2
    simp only [phTypeOf] at h0
    have hl : counterpartOf warpObj.slideLayoutTables
        (getTextByPathList node ["p:nvSpPr", "p:nvPr", "p:ph", "attrs", "type"])
        (getTextByPathList node ["p:nvSpPr", "p:nvPr", "p:ph", "attrs", "idx"]) = .undefined := by
      simp only [counterpartOf, h0, h2]
      rfl
    have hm : counterpartOf warpObj.slideMasterTables
        (getTextByPathList node ["p:nvSpPr", "p:nvPr", "p:ph", "attrs", "type"])
        (getTextByPathList node ["p:nvSpPr", "p:nvPr", "p:ph", "attrs", "idx"]) = .undefined := by
      simp only [counterpartOf, h0, h2]
      rfl
    refine ⟨hl, hm, ?_⟩
    rw [hl, hm]
    simp only [placeholderTypeSpec, phTypeOf, h0, h1, hundef, hfalse]
    simp [getTextByPathList, JVal.truthy]

theorem processSpNode_placeholder_type_witness :
    (∃ e : JVal, processSpNode sampleEnv sampleIdxShape sampleWarpIdx "slide" = .ok e ∧
      processSpNode sampleEnv sampleIdxShape sampleWarpIdx "slide" =
        genShape sampleEnv sampleIdxShape (samplePlaceholder "body")
          (samplePlaceholder "title") (.str "Content 3") (.str "body") (.num (some 1))
          sampleWarpIdx) ∧
    processSpNode sampleEnv sampleIdxShape sampleWarpIdxMaster "slide" =
      genShape sampleEnv sampleIdxShape .undefined (samplePlaceholder "title")
        (.str "Content 3") (.str "title") (.num (some 1)) sampleWarpIdxMaster := by
  obtain ⟨l, m, T, h, hl, hm, hT, _, _, hidx, _⟩ :=
    processSpNode_placeholder_type sampleEnv sampleIdxShape sampleWarpIdx "slide"
      rfl rfl rfl rfl
  obtain ⟨hl2, hm2, hT1, _⟩ := hidx rfl rfl rfl
  obtain ⟨l', m', T', h', hl', hm', hT', _, _, hidx', _⟩ :=
    processSpNode_placeholder_type sampleEnv sampleIdxShape sampleWarpIdxMaster "slide"
      rfl rfl rfl rfl
  obtain ⟨hl2', hm2', _, hT2'⟩ := hidx' rfl rfl rfl
  have e1 : l = samplePlaceholder "body" := by rw [hl2]; rfl
  have e2 : m = samplePlaceholder "title" := by rw [hm2]; rfl
  have e3 : T = .str "body" := by rw [hT1 (by rw [e1]; rfl), e1]; rfl
  have e1' : l' = .undefined := by rw [hl2']; rfl
  have e2' : m' = samplePlaceholder "title" := by rw [hm2']; rfl
  have e3' : T' = .str "title" := by
    rw [hT2' (by rw [e1']; rfl) (by rw [e2']; rfl), e2']
    rfl
  subst e1 e2 e3 e1' e2' e3'
  exact ⟨⟨_, rfl, h⟩, h'⟩

/-- The three kinds of element of `genShape`, on a node and a resolved placeholder type on
which no read of `genShape` throws (the node is not `undefined` or `null`, the border
extractor returns a record and, in the custom-geometry case, the transform of the slide node
has an extent): `genShape` returns one element of exactly one of three kinds, decided in
priority order: with `a:custGeom` declared and a type other than `diagram`, type `shape` with
shapType `custom` and a path; otherwise, with a preset `prst` declared and a type that is
absent or `obj`, type `shape` with shapType the preset name and no path; otherwise type
`text`. -/
theorem genShape_three_kinds (env : Env) (node l m name type order : JVal) (warpObj : WarpObj)
    (hnode : node.isNullish = false)
    (hborder : (env.getBorder node type warpObj).isNullish = false)
    (hext : isCustomCase node type = true → (slideExt node).isNullish = false) :
    ∃ e : JVal, genShape env node l m name type order warpObj = .ok e ∧
      (isCustomCase node type = true →
        e.get "type" = .str "shape" ∧ e.get "shapType" = .str "custom" ∧
        lookupKey "path" e.entries = some (env.getCustomShapePath
          (getTextByPathList node ["p:spPr", "a:custGeom"])
          (emuToPoints ((slideExt node).get "cx")) (emuToPoints ((slideExt node).get "cy")))) ∧
      (isCustomCase node type = false → isPresetCase node type = true →
        e.get "type" = .str "shape" ∧
        e.get "shapType" = getTextByPathList node ["p:spPr", "a:prstGeom", "attrs", "prst"] ∧
        lookupKey "path" e.entries = none) ∧
      (isCustomCase node type = false → isPresetCase node type = false →
        e.get "type" = .str "text") := by
  refine ⟨_, genShape_eq env node l m name type order warpObj hnode hborder hext, ?_, ?_, ?_⟩
  · intro hc
    rw [shapeElement_custom _ _ _ _ _ _ _ _ hc]
    simp only [JVal.get, JVal.entries]
    refine ⟨?_, ?_, ?_⟩
    · rw [lookupKey_objSet_ne _ _ (by decide), lookupKey_objSet_ne _ _ (by decide),
        lookupKey_objSet_same]
      rfl
    · rw [lookupKey_objSet_ne _ _ (by decide), lookupKey_objSet_same]
      rfl
    · rw [lookupKey_objSet_same]
  · intro hc hp
    rw [shapeElement_preset _ _ _ _ _ _ _ _ hc hp]
    simp only [JVal.get, JVal.entries]
    refine ⟨?_, ?_, ?_⟩
    · rw [lookupKey_objSet_ne _ _ (by decide), lookupKey_objSet_same]
      rfl
    · rw [lookupKey_objSet_same]
      rfl
    · rw [lookupKey_shape_branch _ _ _ _ _ _ _ _ (by decide) (by decide) (by decide) (by decide)]
      rfl
  · intro hc hp
    rw [shapeElement_text _ _ _ _ _ _ _ _ hc hp]
    simp only [JVal.get]
    rw [lookupKey_objSet_ne _ _ (by decide), lookupKey_objSet_ne _ _ (by decide),
      lookupKey_objSet_same]
    rfl

theorem genShape_three_kinds_witness :
    ∃ e : JVal, genShape sampleEnv (sampleShape 1) .undefined .undefined (.str "Rectangle 1")
        (.str "obj") (.num (some 1)) sampleWarp = .ok e ∧
      (isCustomCase (sampleShape 1) (.str "obj") = true →
        e.get "type" = .str "shape" ∧ e.get "shapType" = .str "custom" ∧
        lookupKey "path" e.entries = some (sampleEnv.getCustomShapePath
          (getTextByPathList (sampleShape 1) ["p:spPr", "a:custGeom"])
          (emuToPoints ((slideExt (sampleShape 1)).get "cx"))
          (emuToPoints ((slideExt (sampleShape 1)).get "cy")))) ∧
      (isCustomCase (sampleShape 1) (.str "obj") = false →
        isPresetCase (sampleShape 1) (.str "obj") = true →
        e.get "type" = .str "shape" ∧
        e.get "shapType" =
          getTextByPathList (sampleShape 1) ["p:spPr", "a:prstGeom", "attrs", "prst"] ∧
        lookupKey "path" e.entries = none) ∧
      (isCustomCase (sampleShape 1) (.str "obj") = false →
        isPresetCase (sampleShape 1) (.str "obj") = false →
        e.get "type" = .str "text") :=
  genShape_three_kinds sampleEnv (sampleShape 1) .undefined .undefined (.str "Rectangle 1")
    (.str "obj") (.num (some 1)) sampleWarp rfl rfl (by decide)

/-- C6 (the code departs from the claim): for a node that is not `undefined` or `null`, a
resolved placeholder type and a border extractor that returns a record, `genShape` returns
one element of exactly one of the three kinds, decided in the priority order of the claim,
except in the first case of the claim (`a:custGeom` declared and a type other than `diagram`)
when the transform of the slide node itself has no extent: there `genShape` returns no
element and throws a `TypeError`, because the extent of the path is read from the slide node
alone (lines 611-612). -/
theorem genShape_kinds_or_throws (env : Env) (node l m name type order : JVal)
    (warpObj : WarpObj)
    (hnode : node.isNullish = false)
    (hborder : (env.getBorder node type warpObj).isNullish = false) :
    (isCustomCase node type = true → (slideExt node).isNullish = true →
      genShape env node l m name type order warpObj = .error .typeError) ∧
    ((isCustomCase node type = true → (slideExt node).isNullish = false) →
      ∃ e : JVal, genShape env node l m name type order warpObj = .ok e ∧
        (isCustomCase node type = true →
          e.get "type" = .str "shape" ∧ e.get "shapType" = .str "custom" ∧
          lookupKey "path" e.entries = some (env.getCustomShapePath
            (getTextByPathList node ["p:spPr", "a:custGeom"])
            (emuToPoints ((slideExt node).get "cx"))
            (emuToPoints ((slideExt node).get "cy")))) ∧
        (isCustomCase node type = false → isPresetCase node type = true →
          e.get "type" = .str "shape" ∧
          e.get "shapType" = getTextByPathList node ["p:spPr", "a:prstGeom", "attrs", "prst"] ∧
          lookupKey "path" e.entries = none) ∧
        (isCustomCase node type = false → isPresetCase node type = false →
          e.get "type" = .str "text")) :=
  ⟨fun hc hext => genShape_custom_throws env node l m name type order warpObj hc hext,
    fun hext => genShape_three_kinds env node l m name type order warpObj hnode hborder hext⟩

theorem genShape_kinds_or_throws_witness :
    isCustomCase sampleCustomNoXfrm (.str "obj") = true ∧
    (slideExt sampleCustomNoXfrm).isNullish = true ∧
    (getSize (getTextByPathList sampleCustomNoXfrm ["p:spPr", "a:xfrm"])
      (getTextByPathList sampleLayoutShape ["p:spPr", "a:xfrm"]) .undefined).get "width"
        ≠ .undefined ∧
    genShape sampleEnv sampleCustomNoXfrm sampleLayoutShape .undefined (.str "Freeform 4")
      (.str "obj") (.num (some 5)) sampleWarpLayout = .error .typeError :=
  ⟨rfl, rfl, (by
    show JVal.num (some (((1828800 : Int) : ℚ) / 12700)) ≠ _
    exact fun h => by cases h),
    (genShape_kinds_or_throws sampleEnv sampleCustomNoXfrm sampleLayoutShape .undefined
      (.str "Freeform 4") (.str "obj") (.num (some 5)) sampleWarpLayout rfl rfl).1 rfl rfl⟩

/-! ## Geometry of a shape -/

theorem truthy_not_nullish {v : JVal} (h : v.truthy = true) : v.isNullish = false := by
  cases v <;> simp [JVal.truthy] at h <;> rfl

theorem getTextByPathList_truthy (v : JVal) (k : String) (ks : List String)
    (h : (getTextByPathList v (k :: ks)).truthy = true) : v.truthy = true := by
  simp only [getTextByPathList] at h
  split at h
  · assumption
  · assumption

theorem node_truthy_of_path (node : JVal) (k1 k2 k3 k4 : String)
    (h : (getTextByPathList (getTextByPathList node [k1, k2]) [k3, k4]).truthy = true) :
    node.truthy = true :=
  getTextByPathList_truthy node k1 [k2] (getTextByPathList_truthy _ k3 [k4] h)

theorem getPosition_of_first (sx lx mx : JVal)
    (h : (getTextByPathList sx ["a:off", "attrs"]).truthy = true) :
    getPosition sx lx mx =
      .obj [("top", .num (pointsOfEmu ((getTextByPathList sx ["a:off", "attrs"]).get "y"))),
        ("left", .num (pointsOfEmu ((getTextByPathList sx ["a:off", "attrs"]).get "x")))] := by
  simp [getPosition, firstTruthy, JVal.or, h]

theorem getSize_of_first (sx lx mx : JVal)
    (h : (getTextByPathList sx ["a:ext", "attrs"]).truthy = true) :
    getSize sx lx mx =
      .obj [("width", .num (pointsOfEmu ((getTextByPathList sx ["a:ext", "attrs"]).get "cx"))),
        ("height", .num (pointsOfEmu ((getTextByPathList sx ["a:ext", "attrs"]).get "cy")))] := by
  simp [getSize, firstTruthy, JVal.or, h]

theorem processNode_skipped (env : Env) (warpObj : WarpObj) (source : String) (k : String)
    (v : JVal) (h1 : k ≠ "p:sp") (h2 : k ≠ "p:cxnSp") (h3 : k ≠ "p:pic")
    (h4 : k ≠ "p:graphicFrame") (h5 : k ≠ "p:grpSp") (h6 : k ≠ "mc:AlternateContent") :
    processNode env warpObj source k v = .ok .undefined := by
  obtain ⟨n, hn⟩ : ∃ n, v.size = n + 1 := ⟨v.size - 1, by have := v.size_pos; omega⟩
  unfold processNode
  rw [hn]
  simp only [processNodesInSlide]

/-- The element of a shape with its own geometry, no custom geometry, a preset geometry and
the placeholder type `obj`. -/
theorem processNode_sp_preset (env : Env) (warpObj : WarpObj) (source : String)
    (node l m : JVal) (p : String) (X Y CX CY : Int)
    (hl : counterpart warpObj.slideLayoutTables
      (getTextByPathList node ["p:nvSpPr", "p:nvPr", "p:ph", "attrs", "type"])
      (getTextByPathList node ["p:nvSpPr", "p:nvPr", "p:ph", "attrs", "idx"]) = .ok l)
    (hm : counterpart warpObj.slideMasterTables
      (getTextByPathList node ["p:nvSpPr", "p:nvPr", "p:ph", "attrs", "type"])
      (getTextByPathList node ["p:nvSpPr", "p:nvPr", "p:ph", "attrs", "idx"]) = .ok m)
    (hborder : (env.getBorder node (.str "obj") warpObj).isNullish = false)
    (htype : getTextByPathList node ["p:nvSpPr", "p:nvPr", "p:ph", "attrs", "type"] = .str "obj")
    (hcust : (getTextByPathList node ["p:spPr", "a:custGeom"]).truthy = false)
    (hprst : getTextByPathList node ["p:spPr", "a:prstGeom", "attrs", "prst"] = .str p)
    (hp : p ≠ "")
    (hoff : (slideOff node).truthy = true)
    (hx : parseInt ((slideOff node).get "x") = some X)
    (hy : parseInt ((slideOff node).get "y") = some Y)
    (hextT : (slideExt node).truthy = true)
    (hcx : parseInt ((slideExt node).get "cx") = some CX)
    (hcy : parseInt ((slideExt node).get "cy") = some CY) :
    ∃ e : JVal, processNode env warpObj source "p:sp" node = .ok e ∧ e.truthy = true ∧
      e.get "type" = .str "shape" ∧ e.get "shapType" = .str p ∧
      e.get "left" = .num (some ((X : ℚ) / 12700)) ∧
      e.get "top" = .num (some ((Y : ℚ) / 12700)) ∧
      e.get "width" = .num (some ((CX : ℚ) / 12700)) ∧
      e.get "height" = .num (some ((CY : ℚ) / 12700)) := by
  have hnode : node.isNullish = false :=
    truthy_not_nullish (node_truthy_of_path node _ _ _ _ hoff)
  have hty : placeholderTypeSpec (.str "obj")
      (getTextByPathList node ["p:nvSpPr", "p:cNvSpPr", "attrs", "txBox"])
      (getTextByPathList l ["p:nvSpPr", "p:nvPr", "p:ph", "attrs", "type"])
      (getTextByPathList m ["p:nvSpPr", "p:nvPr", "p:ph", "attrs", "type"]) source
      = .str "obj" := by
    have : (JVal.str "obj").truthy = true := rfl
    simp [placeholderTypeSpec, this]
  have hc : isCustomCase node (.str "obj") = false := by simp [isCustomCase, hcust]
  have hpc : isPresetCase node (.str "obj") = true := by
    simp [isPresetCase, hprst, JVal.truthy, JVal.isStr, hp]
  rw [processNode_sp, processSpNode_eq env node warpObj source l m hl hm, htype, hty,
    genShape_eq env node l m _ _ _ warpObj hnode hborder (by rw [hc]; intro h; cases h)]
  refine ⟨_, rfl, ?_, ?_, ?_, ?_, ?_, ?_, ?_⟩
  · rw [shapeElement_preset _ _ _ _ _ _ _ _ hc hpc]
    rfl
  · rw [shapeElement_preset _ _ _ _ _ _ _ _ hc hpc]
    simp only [JVal.get]
    rw [lookupKey_objSet_ne _ _ (by decide), lookupKey_objSet_same]
    rfl
  · rw [shapeElement_preset _ _ _ _ _ _ _ _ hc hpc]
    simp only [JVal.get]
    rw [lookupKey_objSet_same, hprst]
    rfl
  · rw [shapeElement_get _ _ _ _ _ _ _ _ (by decide) (by decide) (by decide) (by decide)
      (by decide) (by decide) (by decide)]
    simp only [slideOff] at hoff hx
    show (getPosition _ _ _).get "left" = _
    rw [getPosition_of_first _ _ _ hoff]
    show JVal.num (pointsOfEmu _) = _
    rw [pointsOfEmu_of_parseInt hx]
  · rw [shapeElement_get _ _ _ _ _ _ _ _ (by decide) (by decide) (by decide) (by decide)
      (by decide) (by decide) (by decide)]
    simp only [slideOff] at hoff hy
    show (getPosition _ _ _).get "top" = _
    rw [getPosition_of_first _ _ _ hoff]
    show JVal.num (pointsOfEmu _) = _
    rw [pointsOfEmu_of_parseInt hy]
  · rw [shapeElement_get _ _ _ _ _ _ _ _ (by decide) (by decide) (by decide) (by decide)
      (by decide) (by decide) (by decide)]
    simp only [slideExt] at hextT hcx
    show (getSize _ _ _).get "width" = _
    rw [getSize_of_first _ _ _ hextT]
    show JVal.num (pointsOfEmu _) = _
    rw [pointsOfEmu_of_parseInt hcx]
  · rw [shapeElement_get _ _ _ _ _ _ _ _ (by decide) (by decide) (by decide) (by decide)
      (by decide) (by decide) (by decide)]
    simp only [slideExt] at hextT hcy
    show (getSize _ _ _).get "height" = _
    rw [getSize_of_first _ _ _ hextT]
    show JVal.num (pointsOfEmu _) = _
    rw [pointsOfEmu_of_parseInt hcy]

theorem obj_of_path_truthy (v : JVal) (k : String) (ks : List String)
    (h : (getTextByPathList v (k :: ks)).truthy = true) : ∃ kvs, v = .obj kvs := by
  have hfalsy : ∀ path : List String, getTextByPathList .undefined path = .undefined := by
    intro path
    cases path <;> simp [getTextByPathList, JVal.truthy]
  cases v with
  | obj kvs => exact ⟨kvs, rfl⟩
  | undefined => simp [getTextByPathList, JVal.truthy] at h
  | null => simp [getTextByPathList, JVal.truthy] at h
  | bool b =>
    cases b <;> simp [getTextByPathList, JVal.truthy, JVal.get, hfalsy] at h
  | num q =>
    simp only [getTextByPathList, JVal.get, hfalsy] at h
    split at h <;> simp_all [JVal.truthy]
  | str t =>
    simp only [getTextByPathList, JVal.get, hfalsy] at h
    split at h <;> simp_all [JVal.truthy]
  | arr xs =>
    simp [getTextByPathList, JVal.truthy, JVal.get, hfalsy] at h

/-- C7: when the parts of a slide are read and its shape tree holds, after the two property
nodes, one shape that has the placeholder type `obj`, no custom geometry, a preset geometry
`p` and its own transform with EMU offset `(X, Y)` and extent `(CX, CY)`, the slide yields
exactly one element, with type `shape`, shapType `p` and every coordinate the EMU value
divided by 12700 (for offset (914400, 457200), extent (1828800, 914400) and `rect`: left 72,
top 36, width 144, height 72). -/
theorem slide_one_shape_points (env : Env) (sldFileName : String)
    (themeContent defaultTextStyle : JVal) (warpObj : WarpObj) (note : String)
    (ka kb : List (String × JVal)) (node l m : JVal) (p : String) (X Y CX CY : Int)
    (hctx : slideContext env sldFileName themeContent defaultTextStyle
      = .ok (warpObj, note,
        .obj [("p:nvGrpSpPr", .obj ka), ("p:grpSpPr", .obj kb), ("p:sp", node)]))
    (hl : counterpart warpObj.slideLayoutTables
      (getTextByPathList node ["p:nvSpPr", "p:nvPr", "p:ph", "attrs", "type"])
      (getTextByPathList node ["p:nvSpPr", "p:nvPr", "p:ph", "attrs", "idx"]) = .ok l)
    (hm : counterpart warpObj.slideMasterTables
      (getTextByPathList node ["p:nvSpPr", "p:nvPr", "p:ph", "attrs", "type"])
      (getTextByPathList node ["p:nvSpPr", "p:nvPr", "p:ph", "attrs", "idx"]) = .ok m)
    (hborder : (env.getBorder node (.str "obj") warpObj).isNullish = false)
    (htype : getTextByPathList node ["p:nvSpPr", "p:nvPr", "p:ph", "attrs", "type"] = .str "obj")
    (hcust : (getTextByPathList node ["p:spPr", "a:custGeom"]).truthy = false)
    (hprst : getTextByPathList node ["p:spPr", "a:prstGeom", "attrs", "prst"] = .str p)
    (hp : p ≠ "")
    (hoff : (slideOff node).truthy = true)
    (hx : parseInt ((slideOff node).get "x") = some X)
    (hy : parseInt ((slideOff node).get "y") = some Y)
    (hextT : (slideExt node).truthy = true)
    (hcx : parseInt ((slideExt node).get "cx") = some CX)
    (hcy : parseInt ((slideExt node).get "cy") = some CY) :
    ∃ e : JVal,
      processSingleSlide env sldFileName themeContent defaultTextStyle =
        .ok (.obj [("fill", env.getSlideBackgroundFill warpObj), ("elements", .arr [e]),
          ("note", .str note)]) ∧
      e.get "type" = .str "shape" ∧ e.get "shapType" = .str p ∧
      e.get "left" = .num (some ((X : ℚ) / 12700)) ∧
      e.get "top" = .num (some ((Y : ℚ) / 12700)) ∧
      e.get "width" = .num (some ((CX : ℚ) / 12700)) ∧
      e.get "height" = .num (some ((CY : ℚ) / 12700)) := by
  obtain ⟨e, he, het, h1, h2, h3, h4, h5, h6⟩ := processNode_sp_preset env warpObj "slide" node
    l m p X Y CX CY hl hm hborder htype hcust hprst hp hoff hx hy hextT hcx hcy
  obtain ⟨kn, rfl⟩ : ∃ kn, node = .obj kn := by
    simp only [slideOff] at hoff
    exact obj_of_path_truthy node "p:spPr" ["a:xfrm"] (getTextByPathList_truthy _ _ _ hoff)
  have ha : processNode env warpObj "slide" "p:nvGrpSpPr" (.obj ka) = .ok .undefined :=
    processNode_skipped _ _ _ _ _ (by decide) (by decide) (by decide) (by decide) (by decide)
      (by decide)
  have hb : processNode env warpObj "slide" "p:grpSpPr" (.obj kb) = .ok .undefined :=
    processNode_skipped _ _ _ _ _ (by decide) (by decide) (by decide) (by decide) (by decide)
      (by decide)
  have hs := processSingleSlide_elements env sldFileName themeContent defaultTextStyle warpObj
    note _ hctx
    (by
      intro kv hkv
      simp only [JVal.entries, List.mem_cons, List.mem_singleton, List.not_mem_nil,
        or_false] at hkv
      rcases hkv with rfl | rfl | rfl <;> rfl)
    (by
      intro kc hkc
      simp only [JVal.entries, childNodes, List.mem_cons, List.mem_singleton, List.not_mem_nil,
        or_false] at hkc
      rcases hkc with rfl | rfl | rfl
      · simp only [ha, isOk]
      · simp only [hb, isOk]
      · simp only [he, isOk])
  refine ⟨e, ?_, h1, h2, h3, h4, h5, h6⟩
  have hu : JVal.undefined.truthy = false := rfl
  rw [hs]
  simp [JVal.entries, childNodes, ha, hb, he, okVal, List.filter, het, hu]

theorem slide_one_shape_points_witness :
    ∃ e : JVal,
      processSingleSlide sampleEnv "ppt/slides/slide2.xml" .undefined .undefined =
        .ok (.obj [("fill", sampleEnv.getSlideBackgroundFill sampleWarpOne),
          ("elements", .arr [e]), ("note", .str "")]) ∧
      e.get "type" = .str "shape" ∧ e.get "shapType" = .str "rect" ∧
      e.get "left" = .num (some 72) ∧ e.get "top" = .num (some 36) ∧
      e.get "width" = .num (some 144) ∧ e.get "height" = .num (some 72) := by
  obtain ⟨e, h0, h1, h2, h3, h4, h5, h6⟩ :=
    slide_one_shape_points sampleEnv "ppt/slides/slide2.xml" .undefined .undefined
      sampleWarpOne "" [("attrs", .obj [("order", .num (some 0))])]
      [("attrs", .obj [("order", .num (some 1))])] (sampleShape 2) .undefined .undefined "rect"
      914400 457200 1828800 914400 rfl rfl rfl rfl rfl rfl rfl (by decide) rfl rfl rfl rfl rfl
      rfl
  refine ⟨e, h0, h1, h2, ?_, ?_, ?_, ?_⟩
  · rw [h3]; norm_num
  · rw [h4]; norm_num
  · rw [h5]; norm_num
  · rw [h6]; norm_num

/-! ## Rotation and flips -/

theorem sampleAngle_range (v : JVal) :
    ∃ q : ℚ, sampleEnv.angleToDegrees v = some q ∧ 0 ≤ q ∧ q < 360 := by
  show ∃ q : ℚ, sampleAngle v = some q ∧ 0 ≤ q ∧ q < 360
  unfold sampleAngle
  cases parseInt v with
  | none => exact ⟨0, rfl, le_refl _, by norm_num⟩
  | some n =>
    refine ⟨(((n / 60000) % 360 : Int) : ℚ), rfl, ?_, ?_⟩
    · have := Int.emod_nonneg (n / 60000) (by norm_num : (360 : Int) ≠ 0)
      exact_mod_cast this
    · have := Int.emod_lt_of_pos (n / 60000) (by norm_num : (0 : Int) < 360)
      exact_mod_cast this

theorem shapeElement_rotate_shape (env : Env) (node l m name type order : JVal)
    (warpObj : WarpObj) (h : isCustomCase node type = true ∨ isPresetCase node type = true) :
    (shapeElement env node l m name type order warpObj).get "rotate" =
      .num (env.angleToDegrees
        (getTextByPathList (getTextByPathList node ["p:spPr", "a:xfrm"]) ["attrs", "rot"])) := by
  cases hc : isCustomCase node type with
  | true =>
    rw [shapeElement_custom _ _ _ _ _ _ _ _ hc]
    simp only [JVal.get]
    rw [lookupKey_objSet_ne _ _ (by decide),
      lookupKey_shape_branch _ _ _ _ _ _ _ _ (by decide) (by decide) (by decide) (by decide)]
    rfl
  | false =>
    have hp : isPresetCase node type = true := by
      rcases h with h | h
      · rw [hc] at h; cases h
      · exact h
    rw [shapeElement_preset _ _ _ _ _ _ _ _ hc hp]
    simp only [JVal.get]
    rw [lookupKey_shape_branch _ _ _ _ _ _ _ _ (by decide) (by decide) (by decide) (by decide)]
    rfl

theorem shapeElement_rotate_text (env : Env) (node l m name type order : JVal)
    (warpObj : WarpObj) (hc : isCustomCase node type = false)
    (hp : isPresetCase node type = false) :
    (shapeElement env node l m name type order warpObj).get "rotate" = txtRotateOf env node := by
  rw [shapeElement_text _ _ _ _ _ _ _ _ hc hp]
  simp only [JVal.get]
  rw [lookupKey_objSet_same]
  rfl

/-- C8 (the code at the failing input): a slide shape with custom geometry and no transform of
its own, whose layout counterpart defines offset and extent, makes `genShape` throw, although
the size resolved through the layout is defined (width 144); the same shape with a preset
geometry gets the geometry of the layout. -/
theorem custom_geometry_layout_only_throws :
    counterpart sampleWarpLayout.slideLayoutTables (.str "obj") .undefined
      = .ok sampleLayoutShape ∧
    getTextByPathList sampleCustomNoXfrm ["p:spPr", "a:xfrm"] = .undefined ∧
    (getSize (getTextByPathList sampleCustomNoXfrm ["p:spPr", "a:xfrm"])
      (getTextByPathList sampleLayoutShape ["p:spPr", "a:xfrm"]) .undefined).get "width"
        = .num (some 144) ∧
    processNode sampleEnv sampleWarpLayout "slide" "p:sp" sampleCustomNoXfrm
      = .error .typeError ∧
    ∃ e : JVal, processNode sampleEnv sampleWarpLayout "slide" "p:sp" sampleShapeNoXfrm = .ok e ∧
      e.get "left" = .num (some 72) ∧ e.get "top" = .num (some 36) ∧
      e.get "width" = .num (some 144) ∧ e.get "height" = .num (some 72) := by
  refine ⟨rfl, rfl, ?_, rfl,
    okVal (processNode sampleEnv sampleWarpLayout "slide" "p:sp" sampleShapeNoXfrm), rfl,
    ?_, ?_, ?_, ?_⟩
  · show JVal.num (some (((1828800 : Int) : ℚ) / 12700)) = _
    norm_num
  · show JVal.num (some (((914400 : Int) : ℚ) / 12700)) = _
    norm_num
  · show JVal.num (some (((457200 : Int) : ℚ) / 12700)) = _
    norm_num
  · show JVal.num (some (((1828800 : Int) : ℚ) / 12700)) = _
    norm_num
  · show JVal.num (some (((914400 : Int) : ℚ) / 12700)) = _
    norm_num

/-- C9 (counterexample): a slide shape without a transform of its own, whose layout
counterpart has a transform rotated by 90 degrees with both flips set, comes out with rotate 0
and neither flip. -/
theorem rotation_flip_layout_counterexample :
    ∃ e : JVal,
      processNode sampleEnv sampleWarpLayout "slide" "p:sp" sampleShapeNoXfrm = .ok e ∧
      counterpart sampleWarpLayout.slideLayoutTables (.str "obj") .undefined
        = .ok sampleLayoutShape ∧
      getTextByPathList sampleShapeNoXfrm ["p:spPr", "a:xfrm"] = .undefined ∧
      sampleEnv.angleToDegrees
        (getTextByPathList sampleLayoutShape ["p:spPr", "a:xfrm", "attrs", "rot"]) = some 90 ∧
      getTextByPathList sampleLayoutShape ["p:spPr", "a:xfrm", "attrs", "flipH"] = .str "1" ∧
      getTextByPathList sampleLayoutShape ["p:spPr", "a:xfrm", "attrs", "flipV"] = .str "1" ∧
      e.get "rotate" = .num (some 0) ∧ e.get "rotate" ≠ .num (some 90) ∧
      e.get "isFlipH" = .bool false ∧ e.get "isFlipV" = .bool false := by
  refine ⟨okVal (processNode sampleEnv sampleWarpLayout "slide" "p:sp" sampleShapeNoXfrm),
    rfl, rfl, rfl, ?_, rfl, rfl, rfl, ?_, rfl, rfl⟩
  · show some ((((5400000 : Int) / 60000 % 360 : Int) : ℚ)) = some 90
    norm_num
  · show JVal.num (some 0) ≠ JVal.num (some 90)
    simp

/-- C9 (amended): rotation and the flip flags of a shape are read from the transform of the
slide node alone, without fallback: whenever no read of `genShape` throws, `isFlipH` and
`isFlipV` say whether the slide-level `flipH` and `flipV` are `1`, `rotate` of a shape element
is the converted slide-level `rot`, and `rotate` of a text element is the text rotation of the
node; none of them depends on the layout or master counterpart. -/
theorem genShape_rotation_flip_slide_only (env : Env) (node l m name type order : JVal)
    (warpObj : WarpObj) (hnode : node.isNullish = false)
    (hborder : (env.getBorder node type warpObj).isNullish = false)
    (hext : isCustomCase node type = true → (slideExt node).isNullish = false) :
    ∃ e : JVal, genShape env node l m name type order warpObj = .ok e ∧
      e.get "isFlipH" = .bool ((getTextByPathList (getTextByPathList node ["p:spPr", "a:xfrm"])
        ["attrs", "flipH"]).isStr "1") ∧
      e.get "isFlipV" = .bool ((getTextByPathList (getTextByPathList node ["p:spPr", "a:xfrm"])
        ["attrs", "flipV"]).isStr "1") ∧
      ((isCustomCase node type = true ∨ isPresetCase node type = true) →
        e.get "rotate" = .num (env.angleToDegrees
          (getTextByPathList (getTextByPathList node ["p:spPr", "a:xfrm"]) ["attrs", "rot"]))) ∧
      (isCustomCase node type = false → isPresetCase node type = false →
        e.get "rotate" = txtRotateOf env node) := by
  refine ⟨_, genShape_eq env node l m name type order warpObj hnode hborder hext, ?_, ?_,
    shapeElement_rotate_shape env node l m name type order warpObj,
    shapeElement_rotate_text env node l m name type order warpObj⟩
  · rw [shapeElement_get _ _ _ _ _ _ _ _ (by decide) (by decide) (by decide) (by decide)
      (by decide) (by decide) (by decide)]
    rfl
  · rw [shapeElement_get _ _ _ _ _ _ _ _ (by decide) (by decide) (by decide) (by decide)
      (by decide) (by decide) (by decide)]
    rfl

theorem genShape_rotation_flip_slide_only_witness :
    ∃ e : JVal, genShape sampleEnv sampleShapeNoXfrm sampleLayoutShape .undefined
        (.str "Content 3") (.str "obj") (.num (some 4)) sampleWarpLayout = .ok e ∧
      e.get "isFlipH" = .bool ((getTextByPathList
        (getTextByPathList sampleShapeNoXfrm ["p:spPr", "a:xfrm"]) ["attrs", "flipH"]).isStr "1") ∧
      e.get "isFlipV" = .bool ((getTextByPathList
        (getTextByPathList sampleShapeNoXfrm ["p:spPr", "a:xfrm"]) ["attrs", "flipV"]).isStr "1") ∧
      ((isCustomCase sampleShapeNoXfrm (.str "obj") = true ∨
          isPresetCase sampleShapeNoXfrm (.str "obj") = true) →
        e.get "rotate" = .num (sampleEnv.angleToDegrees
          (getTextByPathList (getTextByPathList sampleShapeNoXfrm ["p:spPr", "a:xfrm"])
            ["attrs", "rot"]))) ∧
      (isCustomCase sampleShapeNoXfrm (.str "obj") = false →
        isPresetCase sampleShapeNoXfrm (.str "obj") = false →
        e.get "rotate" = txtRotateOf sampleEnv sampleShapeNoXfrm) :=
  genShape_rotation_flip_slide_only sampleEnv sampleShapeNoXfrm sampleLayoutShape .undefined
    (.str "Content 3") (.str "obj") (.num (some 4)) sampleWarpLayout rfl rfl (by decide)

/-- C10 (counterexample): with an angle converter that returns degrees in `[0, 360)`, a shape
of a diagram whose text-frame transform `p:txXfrm` is rotated by 300 degrees comes out as a
text element with rotate 390. -/
theorem text_frame_rotation_counterexample :
    (∀ v : JVal, ∃ q : ℚ, sampleEnv.angleToDegrees v = some q ∧ 0 ≤ q ∧ q < 360) ∧
    ∃ e : JVal, processSpNode sampleEnv sampleTextFrameShape sampleWarp "diagramBg" = .ok e ∧
      e.get "type" = .str "text" ∧ e.get "rotate" = .num (some 390) ∧ ¬ ((390 : ℚ) < 360) := by
  refine ⟨sampleAngle_range,
    okVal (processSpNode sampleEnv sampleTextFrameShape sampleWarp "diagramBg"), rfl, rfl, ?_,
    by norm_num⟩
  show JVal.num (some ((((18000000 : Int) / 60000 % 360 : Int) : ℚ) + 90)) = _
  norm_num

/-- C10 (amended): with an angle converter that returns degrees in `[0, 360)`, whenever no
read of `genShape` throws, a shape element (custom or preset geometry) has a rotate in
`[0, 360)`; so has a text element of a node without text-frame transform `p:txXfrm`; a text
element of a node whose `p:txXfrm` has a `rot` has rotate `q + 90` for the converted angle `q`
in `[0, 360)`, that is a rotate in `[90, 450)`. -/
theorem genShape_rotate_range (env : Env) (node l m name type order : JVal) (warpObj : WarpObj)
    (hangle : ∀ v : JVal, ∃ q : ℚ, env.angleToDegrees v = some q ∧ 0 ≤ q ∧ q < 360)
    (hnode : node.isNullish = false)
    (hborder : (env.getBorder node type warpObj).isNullish = false)
    (hext : isCustomCase node type = true → (slideExt node).isNullish = false) :
    ∃ e : JVal, genShape env node l m name type order warpObj = .ok e ∧
      ((isCustomCase node type = true ∨ isPresetCase node type = true) →
        ∃ q : ℚ, e.get "rotate" = .num (some q) ∧ 0 ≤ q ∧ q < 360) ∧
      (isCustomCase node type = false → isPresetCase node type = false →
        (getTextByPathList node ["p:txXfrm"]).truthy = false →
        ∃ q : ℚ, e.get "rotate" = .num (some q) ∧ 0 ≤ q ∧ q < 360) ∧
      (isCustomCase node type = false → isPresetCase node type = false →
        (getTextByPathList node ["p:txXfrm"]).truthy = true →
        (getTextByPathList (getTextByPathList node ["p:txXfrm"]) ["attrs", "rot"]).truthy = true →
        ∃ q : ℚ, e.get "rotate" = .num (some (q + 90)) ∧ 0 ≤ q ∧ q < 360 ∧
          90 ≤ q + 90 ∧ q + 90 < 450) := by
  refine ⟨_, genShape_eq env node l m name type order warpObj hnode hborder hext, ?_, ?_, ?_⟩
  · intro h
    obtain ⟨q, hq, h0, h1⟩ := hangle
      (getTextByPathList (getTextByPathList node ["p:spPr", "a:xfrm"]) ["attrs", "rot"])
    exact ⟨q, by rw [shapeElement_rotate_shape _ _ _ _ _ _ _ _ h, hq], h0, h1⟩
  · intro hc hp ht
    obtain ⟨q, hq, h0, h1⟩ := hangle
      (getTextByPathList (getTextByPathList node ["p:spPr", "a:xfrm"]) ["attrs", "rot"])
    refine ⟨q, ?_, h0, h1⟩
    rw [shapeElement_rotate_text _ _ _ _ _ _ _ _ hc hp]
    simp [txtRotateOf, ht, hq]
  · intro hc hp ht hr
    obtain ⟨q, hq, h0, h1⟩ := hangle
      (getTextByPathList (getTextByPathList node ["p:txXfrm"]) ["attrs", "rot"])
    refine ⟨q, ?_, h0, h1, by linarith, by linarith⟩
    rw [shapeElement_rotate_text _ _ _ _ _ _ _ _ hc hp]
    simp [txtRotateOf, ht, hr, hq, jsAdd]

theorem genShape_rotate_range_witness :
    ∃ e : JVal, genShape sampleEnv sampleTextFrameShape .undefined .undefined (.str "Text 5")
        (.str "body") (.num (some 6)) sampleWarp = .ok e ∧
      ((isCustomCase sampleTextFrameShape (.str "body") = true ∨
          isPresetCase sampleTextFrameShape (.str "body") = true) →
        ∃ q : ℚ, e.get "rotate" = .num (some q) ∧ 0 ≤ q ∧ q < 360) ∧
      (isCustomCase sampleTextFrameShape (.str "body") = false →
        isPresetCase sampleTextFrameShape (.str "body") = false →
        (getTextByPathList sampleTextFrameShape ["p:txXfrm"]).truthy = false →
        ∃ q : ℚ, e.get "rotate" = .num (some q) ∧ 0 ≤ q ∧ q < 360) ∧
      (isCustomCase sampleTextFrameShape (.str "body") = false →
        isPresetCase sampleTextFrameShape (.str "body") = false →
        (getTextByPathList sampleTextFrameShape ["p:txXfrm"]).truthy = true →
        (getTextByPathList (getTextByPathList sampleTextFrameShape ["p:txXfrm"])
          ["attrs", "rot"]).truthy = true →
        ∃ q : ℚ, e.get "rotate" = .num (some (q + 90)) ∧ 0 ≤ q ∧ q < 360 ∧
          90 ≤ q + 90 ∧ q + 90 < 450) :=
  genShape_rotate_range sampleEnv sampleTextFrameShape .undefined .undefined (.str "Text 5")
    (.str "body") (.num (some 6)) sampleWarp sampleAngle_range rfl rfl (by decide)

/-! ## Text content of a shape -/

theorem lookupKey_content_shapeData (env : Env) (node l m name type order : JVal)
    (warpObj : WarpObj) :
    lookupKey "content" (shapeData env node l m name type order warpObj) =
      some (shapeContent env node l type warpObj) := by
  rw [lookupKey_shapeData _ _ _ _ _ _ _ _ (by decide)]
  rfl

/-- A string without valid text is blanked by `normalizeContent`. -/
theorem lookupKey_content_normalizeContent (env : Env) (data : List (String × JVal)) (s : String)
    (hdata : lookupKey "content" data = some (.str s))
    (hinvalid : env.hasValidText (.str s) = false) :
    lookupKey "content" (normalizeContent env data) = some (.str "") := by
  simp only [normalizeContent, JVal.get, hdata, Option.getD_some, hinvalid]
  by_cases hs : s = ""
  · subst hs
    simpa [JVal.truthy] using hdata
  · simp [JVal.truthy, hs, lookupKey_objSet_same]

/-- C11: when no read of `genShape` throws and the text content of the node (the string
`genTextBody` returns for its text body, or the empty string without one) has no valid text,
the element `genShape` returns has `content` equal to the empty string in the custom-geometry
and the preset-geometry branch, and the content unchanged in the text branch. -/
theorem genShape_content_without_valid_text (env : Env) (node l m name type order : JVal)
    (warpObj : WarpObj) (s : String)
    (hnode : node.isNullish = false)
    (hborder : (env.getBorder node type warpObj).isNullish = false)
    (hext : isCustomCase node type = true → (slideExt node).isNullish = false)
    (hcontent : shapeContent env node l type warpObj = .str s)
    (hinvalid : env.hasValidText (.str s) = false) :
    ∃ e : JVal, genShape env node l m name type order warpObj = .ok e ∧
      (isCustomCase node type = true → e.get "content" = .str "") ∧
      (isCustomCase node type = false → isPresetCase node type = true →
        e.get "content" = .str "") ∧
      (isCustomCase node type = false → isPresetCase node type = false →
        e.get "content" = .str s) := by
  have hdata := lookupKey_content_shapeData env node l m name type order warpObj
  rw [hcontent] at hdata
  have hblank := lookupKey_content_normalizeContent env _ s hdata hinvalid
  refine ⟨_, genShape_eq env node l m name type order warpObj hnode hborder hext, ?_, ?_, ?_⟩
  · intro hc
    rw [shapeElement_custom _ _ _ _ _ _ _ _ hc]
    simp only [JVal.get]
    rw [lookupKey_objSet_ne _ _ (by decide), lookupKey_objSet_ne _ _ (by decide),
      lookupKey_objSet_ne _ _ (by decide), hblank]
    rfl
  · intro hc hp
    rw [shapeElement_preset _ _ _ _ _ _ _ _ hc hp]
    simp only [JVal.get]
    rw [lookupKey_objSet_ne _ _ (by decide), lookupKey_objSet_ne _ _ (by decide), hblank]
    rfl
  · intro hc hp
    rw [shapeElement_text _ _ _ _ _ _ _ _ hc hp]
    simp only [JVal.get]
    rw [lookupKey_objSet_ne _ _ (by decide), lookupKey_objSet_ne _ _ (by decide),
      lookupKey_objSet_ne _ _ (by decide), hdata]
    rfl

theorem genShape_content_without_valid_text_witness :
    ∃ e : JVal, genShape sampleEnv sampleBlankShape .undefined .undefined (.str "Blank 7")
        (.str "obj") (.num (some 8)) sampleWarp = .ok e ∧
      (isCustomCase sampleBlankShape (.str "obj") = true → e.get "content" = .str "") ∧
      (isCustomCase sampleBlankShape (.str "obj") = false →
        isPresetCase sampleBlankShape (.str "obj") = true → e.get "content" = .str "") ∧
      (isCustomCase sampleBlankShape (.str "obj") = false →
        isPresetCase sampleBlankShape (.str "obj") = false → e.get "content" = .str "  ") :=
  genShape_content_without_valid_text sampleEnv sampleBlankShape .undefined .undefined
    (.str "Blank 7") (.str "obj") (.num (some 8)) sampleWarp "  " rfl rfl (by decide) rfl rfl

/-! ## Tables -/

/-- C12 (the code departs from the claim): in the table `sampleTable` of two rows and three
columns, with `firstRow` and `firstCol` set and a style that defines `a:nwCell`, the region
`genTable` selects for cell (0, 0) is `a:firstCol`, not `a:nwCell`: column 0 is tested against
the corners `a:seCell` and `a:neCell` (lines 861-866), and `a:nwCell` is tested in the last
column only (line 889). -/
theorem first_cell_region_is_firstCol :
    ∃ t : JVal, genTable regionEnv sampleTable sampleWarpStyles = .ok t ∧
      (getTextByPathList sampleTblStyle ["a:nwCell"]).truthy = true ∧
      tblFlagsOf (getTextByPathList sampleTable
        ["a:graphic", "a:graphicData", "a:tbl", "a:tblPr", "attrs"]) = sampleFlags ∧
      aSorceMulti sampleFlags (attachFlags sampleTblStyle sampleFlags) 0 0 2 3 =
        .str "a:firstCol" ∧
      (tableCell t 0 0).get "fillColor" = .str "a:firstCol" :=
  ⟨_, rfl, rfl, rfl, rfl, rfl⟩

/-- C14 (the code departs from the claim): in the table `sampleTable`, with `bandCol` set and a
style that defines `a:band1V` and no `a:band2V`, the region `genTable` selects for cell (1, 1),
in an odd column that is not a boundary, is `a:band2V`, the region the style lacks, not
`a:band1V` (lines 876-880). -/
theorem band_column_region_is_band2V :
    ∃ t : JVal, genTable regionEnv sampleTable sampleWarpStyles = .ok t ∧
      getTextByPathList sampleTblStyle ["a:band2V"] = .undefined ∧
      (getTextByPathList sampleTblStyle ["a:band1V"]).truthy = true ∧
      aSorceMulti sampleFlags (attachFlags sampleTblStyle sampleFlags) 1 1 2 3 =
        .str "a:band2V" ∧
      (tableCell t 1 1).get "fillColor" = .str "a:band2V" :=
  ⟨_, rfl, rfl, rfl, rfl, rfl⟩

/-- The region of a cell in the last column of a table with `lastCol` set (lines 884-892). -/
theorem aSorceMulti_last (f : TblFlags) (thisTblStyle : JVal) (i j nRows nCols : Nat)
    (hj : j = nCols - 1) (hl : f.isLstColAttr = true) :
    aSorceMulti f thisTblStyle i j nRows nCols =
      if f.isLstRowAttr && i = nRows - 1 && (getTextByPathList thisTblStyle ["a:swCell"]).truthy
      then .str "a:swCell"
      else if f.isFrstRowAttr && i = 0 && (getTextByPathList thisTblStyle ["a:nwCell"]).truthy
      then .str "a:nwCell"
      else .str "a:lastCol" := by
  unfold aSorceMulti
  simp only [hj, hl, decide_True, Bool.and_self, if_true]

/-- The region of a cell in the first column of a table with `firstCol` set, when the cell is
not in the last column of a table with `lastCol` set (lines 859-867). -/
theorem aSorceMulti_first (f : TblFlags) (thisTblStyle : JVal) (i j nRows nCols : Nat)
    (hl : ¬ (j = nCols - 1 ∧ f.isLstColAttr = true)) (hj : j = 0) (hf : f.isFrstColAttr = true) :
    aSorceMulti f thisTblStyle i j nRows nCols =
      if f.isLstRowAttr && i = nRows - 1 && (getTextByPathList thisTblStyle ["a:seCell"]).truthy
      then .str "a:seCell"
      else if f.isFrstRowAttr && i = 0 && (getTextByPathList thisTblStyle ["a:neCell"]).truthy
      then .str "a:neCell"
      else .str "a:firstCol" := by
  have hl2 : (decide (j = nCols - 1) && f.isLstColAttr) = false := by
    cases h : (decide (j = nCols - 1) && f.isLstColAttr) with
    | false => rfl
    | true =>
      simp only [Bool.and_eq_true, decide_eq_true_eq] at h
      exact absurd h hl
  subst hj
  unfold aSorceMulti
  simp only [hl2, hf, decide_True, Bool.and_self, if_true, Bool.false_eq_true, if_false]

/-- The region of a cell that is neither in a flagged first column nor in a flagged last
column: the second band or none (lines 869-883). -/
theorem aSorceMulti_inner (f : TblFlags) (thisTblStyle : JVal) (i j nRows nCols : Nat)
    (hl : ¬ (j = nCols - 1 ∧ f.isLstColAttr = true)) (hf : ¬ (j = 0 ∧ f.isFrstColAttr = true)) :
    aSorceMulti f thisTblStyle i j nRows nCols = .str "a:band2V" ∨
      aSorceMulti f thisTblStyle i j nRows nCols = .undefined := by
  have hl2 : (decide (j = nCols - 1) && f.isLstColAttr) = false := by
    cases h : (decide (j = nCols - 1) && f.isLstColAttr) with
    | false => rfl
    | true =>
      simp only [Bool.and_eq_true, decide_eq_true_eq] at h
      exact absurd h hl
  have hf2 : (decide (j = 0) && f.isFrstColAttr) = false := by
    cases h : (decide (j = 0) && f.isFrstColAttr) with
    | false => rfl
    | true =>
      simp only [Bool.and_eq_true, decide_eq_true_eq] at h
      exact absurd h hf
  unfold aSorceMulti
  simp only [hl2, hf2, Bool.false_eq_true, if_false]
  split_ifs <;> simp

/-- C13: for a cell `(i, j)` of a row of `nCols` cells in a table of `nRows` rows, the region
`genTable` selects is a corner only when the style defines that corner and the cell lies in
the first column with `firstCol` set or in the last column with `lastCol` set, and in the first
row with `firstRow` set or in the last row with `lastRow` set; a cell in the last column with
`lastCol` set that gets no corner gets `a:lastCol`, and a cell in the first column with
`firstCol` set that gets no corner (and is not such a last column) gets `a:firstCol`. -/
theorem aSorceMulti_corner_regions (f : TblFlags) (thisTblStyle : JVal) (i j nRows nCols : Nat) :
    (isCornerRegion (aSorceMulti f thisTblStyle i j nRows nCols) = true →
      ∃ r : String, aSorceMulti f thisTblStyle i j nRows nCols = .str r ∧
        (getTextByPathList thisTblStyle [r]).truthy = true ∧
        ((j = 0 ∧ f.isFrstColAttr = true) ∨ (j = nCols - 1 ∧ f.isLstColAttr = true)) ∧
        ((i = 0 ∧ f.isFrstRowAttr = true) ∨ (i = nRows - 1 ∧ f.isLstRowAttr = true))) ∧
    (isCornerRegion (aSorceMulti f thisTblStyle i j nRows nCols) = false →
      j = nCols - 1 → f.isLstColAttr = true →
      aSorceMulti f thisTblStyle i j nRows nCols = .str "a:lastCol") ∧
    (isCornerRegion (aSorceMulti f thisTblStyle i j nRows nCols) = false →
      j = 0 → f.isFrstColAttr = true → ¬ (j = nCols - 1 ∧ f.isLstColAttr = true) →
      aSorceMulti f thisTblStyle i j nRows nCols = .str "a:firstCol") := by
  by_cases hl : j = nCols - 1 ∧ f.isLstColAttr = true
  · rw [aSorceMulti_last f thisTblStyle i j nRows nCols hl.1 hl.2]
    refine ⟨?_, ?_, ?_⟩
    · intro h
      split_ifs at h ⊢ with h1 h2
      · simp only [Bool.and_eq_true, decide_eq_true_eq] at h1
        exact ⟨_, rfl, h1.2, Or.inr hl, Or.inr ⟨h1.1.2, h1.1.1⟩⟩
      · simp only [Bool.and_eq_true, decide_eq_true_eq] at h2
        exact ⟨_, rfl, h2.2, Or.inr hl, Or.inl ⟨h2.1.2, h2.1.1⟩⟩
      · simp [isCornerRegion, JVal.isStr] at h
    · intro h _ _
      split_ifs at h ⊢ <;> first | rfl | simp [isCornerRegion, JVal.isStr] at h
    · intro _ _ _ hn
      exact absurd hl hn
  · by_cases hf : j = 0 ∧ f.isFrstColAttr = true
    · rw [aSorceMulti_first f thisTblStyle i j nRows nCols hl hf.1 hf.2]
      refine ⟨?_, ?_, ?_⟩
      · intro h
        split_ifs at h ⊢ with h1 h2
        · simp only [Bool.and_eq_true, decide_eq_true_eq] at h1
          exact ⟨_, rfl, h1.2, Or.inl hf, Or.inr ⟨h1.1.2, h1.1.1⟩⟩
        · simp only [Bool.and_eq_true, decide_eq_true_eq] at h2
          exact ⟨_, rfl, h2.2, Or.inl hf, Or.inl ⟨h2.1.2, h2.1.1⟩⟩
        · simp [isCornerRegion, JVal.isStr] at h
      · intro _ h1 h2
        exact absurd ⟨h1, h2⟩ hl
      · intro h _ _ _
        split_ifs at h ⊢ <;> first | rfl | simp [isCornerRegion, JVal.isStr] at h
    · have hin := aSorceMulti_inner f thisTblStyle i j nRows nCols hl hf
      refine ⟨?_, ?_, ?_⟩
      · intro h
        rcases hin with hin | hin <;> rw [hin] at h <;> simp [isCornerRegion, JVal.isStr] at h
      · intro _ h1 h2
        exact absurd ⟨h1, h2⟩ hl
      · intro _ h1 h2 _
        exact absurd ⟨h1, h2⟩ hf

theorem aSorceMulti_corner_regions_witness :
    (isCornerRegion (aSorceMulti ⟨true, true, false, true, false, true⟩ sampleTblStyle 0 2 2 3)
        = true →
      ∃ r : String,
        aSorceMulti ⟨true, true, false, true, false, true⟩ sampleTblStyle 0 2 2 3 = .str r ∧
        (getTextByPathList sampleTblStyle [r]).truthy = true ∧
        ((2 = 0 ∧ true = true) ∨ (2 = 3 - 1 ∧ true = true)) ∧
        ((0 = 0 ∧ true = true) ∨ (0 = 2 - 1 ∧ false = true))) ∧
    (isCornerRegion (aSorceMulti ⟨true, true, false, true, false, true⟩ sampleTblStyle 0 2 2 3)
        = false →
      2 = 3 - 1 → true = true →
      aSorceMulti ⟨true, true, false, true, false, true⟩ sampleTblStyle 0 2 2 3 =
        .str "a:lastCol") ∧
    (isCornerRegion (aSorceMulti ⟨true, true, false, true, false, true⟩ sampleTblStyle 0 2 2 3)
        = false →
      2 = 0 → true = true → ¬ (2 = 3 - 1 ∧ true = true) →
      aSorceMulti ⟨true, true, false, true, false, true⟩ sampleTblStyle 0 2 2 3 =
        .str "a:firstCol") :=
  aSorceMulti_corner_regions ⟨true, true, false, true, false, true⟩ sampleTblStyle 0 2 2 3
theorem lookupKey_tdField_same (td : List (String × JVal)) (k : String) (v : JVal) :
    lookupKey k (tdField td k v) = if v.truthy then some v else lookupKey k td := by
  unfold tdField
  split
  · exact lookupKey_objSet_same td k v
  · rfl

theorem lookupKey_tdField_ne (td : List (String × JVal)) {k k' : String} (v : JVal)
    (hne : k' ≠ k) : lookupKey k (tdField td k' v) = lookupKey k td := by
  unfold tdField
  split
  · exact lookupKey_objSet_ne td v hne
  · rfl

/-- The cascade of one cell record: for a cell node and a record of cell parameters that are
not `undefined` or `null`, the cell record `genTd` builds has `fillColor` equal to the first truthy value of the
cell-level colour, the row-level colour and the background fill of the table style, and no
`fillColor` when none is truthy; `fontBold` and `fontColor` are the cell-level value when it is
truthy, else the row-level value when it is truthy, else absent. -/
theorem genTd_cascade (env : Env)
    (tcNode thisTblStyle a_sorce fillColor fontColor fontBold tbl_bgcolor : JVal)
    (warpObj : WarpObj)
    (htc : tcNode.isNullish = false)
    (hcell : (env.getTableCellParams tcNode thisTblStyle a_sorce warpObj).isNullish = false) :
    ∃ td : List (String × JVal),
      genTd env tcNode thisTblStyle a_sorce fillColor fontColor fontBold tbl_bgcolor warpObj =
        .ok (.obj td) ∧
      lookupKey "fillColor" td =
        [(env.getTableCellParams tcNode thisTblStyle a_sorce warpObj).get "fillColor",
          fillColor, tbl_bgcolor].find? JVal.truthy ∧
      lookupKey "fontBold" td =
        [(env.getTableCellParams tcNode thisTblStyle a_sorce warpObj).get "fontBold",
          fontBold].find? JVal.truthy ∧
      lookupKey "fontColor" td =
        [(env.getTableCellParams tcNode thisTblStyle a_sorce warpObj).get "fontColor",
          fontColor].find? JVal.truthy := by
  refine ⟨tdEntries env tcNode thisTblStyle a_sorce fillColor fontColor fontBold tbl_bgcolor
    warpObj, ?_, ?_, ?_, ?_⟩
  · simp only [genTd, getProp_ok htc, getProp_ok hcell, bind, Except.bind, pure, Except.pure]
    rfl
  all_goals simp only [tdEntries]
  · rw [lookupKey_tdField_same]
    rw [lookupKey_tdField_ne _ _ (by decide), lookupKey_tdField_ne _ _ (by decide),
      lookupKey_tdField_ne _ _ (by decide), lookupKey_tdField_ne _ _ (by decide),
      lookupKey_tdField_ne _ _ (by decide), lookupKey_tdField_ne _ _ (by decide)]
    simp only [JVal.or, List.find?]
    cases h1 : ((env.getTableCellParams tcNode thisTblStyle a_sorce warpObj).get
        "fillColor").truthy <;> cases h2 : fillColor.truthy <;> cases h3 : tbl_bgcolor.truthy <;>
      simp [h1, h2, h3, lookupKey]
  · rw [lookupKey_tdField_ne _ _ (by decide), lookupKey_tdField_ne _ _ (by decide),
      lookupKey_tdField_same]
    rw [lookupKey_tdField_ne _ _ (by decide), lookupKey_tdField_ne _ _ (by decide),
      lookupKey_tdField_ne _ _ (by decide), lookupKey_tdField_ne _ _ (by decide)]
    simp only [JVal.or, List.find?]
    cases h1 : ((env.getTableCellParams tcNode thisTblStyle a_sorce warpObj).get
        "fontBold").truthy <;> cases h2 : fontBold.truthy <;> simp [h1, h2, lookupKey]
  · rw [lookupKey_tdField_ne _ _ (by decide), lookupKey_tdField_same]
    rw [lookupKey_tdField_ne _ _ (by decide), lookupKey_tdField_ne _ _ (by decide),
      lookupKey_tdField_ne _ _ (by decide), lookupKey_tdField_ne _ _ (by decide),
      lookupKey_tdField_ne _ _ (by decide)]
    simp only [JVal.or, List.find?]
    cases h1 : ((env.getTableCellParams tcNode thisTblStyle a_sorce warpObj).get
        "fontColor").truthy <;> cases h2 : fontColor.truthy <;> simp [h1, h2, lookupKey]

theorem genTd_cascade_witness :
    ∃ td : List (String × JVal),
      genTd regionEnv (sampleTc "a") sampleTblStyle (.str "a:firstCol") (.str "#ff0000")
        .undefined (.bool true) (.str "#00ff00") sampleWarpStyles = .ok (.obj td) ∧
      lookupKey "fillColor" td =
        [(regionEnv.getTableCellParams (sampleTc "a") sampleTblStyle (.str "a:firstCol")
            sampleWarpStyles).get "fillColor",
          .str "#ff0000", .str "#00ff00"].find? JVal.truthy ∧
      lookupKey "fontBold" td =
        [(regionEnv.getTableCellParams (sampleTc "a") sampleTblStyle (.str "a:firstCol")
            sampleWarpStyles).get "fontBold",
          .bool true].find? JVal.truthy ∧
      lookupKey "fontColor" td =
        [(regionEnv.getTableCellParams (sampleTc "a") sampleTblStyle (.str "a:firstCol")
            sampleWarpStyles).get "fontColor",
          .undefined].find? JVal.truthy :=
  genTd_cascade regionEnv (sampleTc "a") sampleTblStyle (.str "a:firstCol") (.str "#ff0000")
    .undefined (.bool true) (.str "#00ff00") sampleWarpStyles rfl rfl

/-! ## The cells of a table -/

theorem genTd_ok_inv {env : Env}
    {tcNode thisTblStyle a_sorce fillColor fontColor fontBold tbl_bgcolor td : JVal}
    {warpObj : WarpObj}
    (h : genTd env tcNode thisTblStyle a_sorce fillColor fontColor fontBold tbl_bgcolor warpObj =
      .ok td) :
    tcNode.isNullish = false ∧
      (env.getTableCellParams tcNode thisTblStyle a_sorce warpObj).isNullish = false := by
  cases h1 : tcNode.isNullish with
  | true => simp [genTd, getProp_error h1, bind, Except.bind] at h
  | false =>
    cases h2 : (env.getTableCellParams tcNode thisTblStyle a_sorce warpObj).isNullish with
    | true => simp [genTd, getProp_ok h1, getProp_error h2, bind, Except.bind] at h
    | false => exact ⟨rfl, rfl⟩

/-- The cells the loop over an array of cells returns, one for each cell node, in order. -/
theorem genCells_get (env : Env) (f : TblFlags)
    (thisTblStyle fillColor fontColor fontBold tbl_bgcolor : JVal) (warpObj : WarpObj)
    (i nRows nCols : Nat) :
    ∀ (cells : List JVal) (j0 : Nat) (tds : List JVal),
      genCells env f thisTblStyle fillColor fontColor fontBold tbl_bgcolor warpObj i nRows nCols
        j0 cells = .ok tds →
      ∀ (k : Nat) (tc : JVal), cells[k]? = some tc →
        ∃ td, tds[k]? = some td ∧
          genTd env tc thisTblStyle (aSorceMulti f thisTblStyle i (j0 + k) nRows nCols) fillColor
            fontColor fontBold tbl_bgcolor warpObj = .ok td := by
  intro cells
  induction cells with
  | nil => intro j0 tds _ k tc hk; simp at hk
  | cons c rest ih =>
    intro j0 tds h k tc hk
    simp only [genCells, bind, Except.bind, pure, Except.pure] at h
    cases h1 : genTd env c thisTblStyle (aSorceMulti f thisTblStyle i j0 nRows nCols) fillColor
        fontColor fontBold tbl_bgcolor warpObj with
    | error e => simp [h1] at h
    | ok td =>
      simp only [h1] at h
      cases h2 : genCells env f thisTblStyle fillColor fontColor fontBold tbl_bgcolor warpObj i
          nRows nCols (j0 + 1) rest with
      | error e => simp [h2] at h
      | ok tds' =>
        simp only [h2, Except.ok.injEq] at h
        subst h
        cases k with
        | zero =>
          simp only [List.getElem?_cons_zero, Option.some.injEq] at hk
          subst hk
          exact ⟨td, by simp, by simpa using h1⟩
        | succ k =>
          simp only [List.getElem?_cons_succ] at hk
          obtain ⟨td', h3, h4⟩ := ih (j0 + 1) tds' h2 k tc hk
          refine ⟨td', by simpa using h3, ?_⟩
          have : j0 + 1 + k = j0 + (k + 1) := by omega
          rw [this] at h4
          exact h4

/-- The rows the loop over the rows returns, one array of cells for each row, in order; each
cell is the cell record of its cell node, with the parameters of its row. -/
theorem genRows_get (env : Env) (f : TblFlags) (thisTblStyle tbl_bgcolor : JVal)
    (warpObj : WarpObj) (trNodes : List JVal) :
    ∀ (rows : List JVal) (i0 : Nat) (trs : List JVal),
      genRows env f thisTblStyle tbl_bgcolor warpObj trNodes i0 rows = .ok trs →
      ∀ (k : Nat) (tr : JVal), rows[k]? = some tr →
        ∃ tds, trs[k]? = some (.arr tds) ∧
          ∀ (j : Nat) (tc : JVal), (rowCellsOf tr)[j]? = some tc →
            ∃ td, tds[j]? = some td ∧
              genTd env tc thisTblStyle
                (cellRegionOf f thisTblStyle tr (i0 + k) j trNodes.length)
                ((env.getTableRowParams (.arr trNodes) (i0 + k) f.toJVal thisTblStyle
                  warpObj).get "fillColor")
                ((env.getTableRowParams (.arr trNodes) (i0 + k) f.toJVal thisTblStyle
                  warpObj).get "fontColor")
                ((env.getTableRowParams (.arr trNodes) (i0 + k) f.toJVal thisTblStyle
                  warpObj).get "fontBold")
                tbl_bgcolor warpObj = .ok td := by
  intro rows
  induction rows with
  | nil => intro i0 trs _ k tr hk; simp at hk
  | cons r rest ih =>
    intro i0 trs h k tr hk
    simp only [genRows, bind, Except.bind, pure, Except.pure] at h
    obtain ⟨fc, hfc, h⟩ := bind_ok_inv h
    obtain ⟨fco, hfco, h⟩ := bind_ok_inv h
    obtain ⟨fb, hfb, h⟩ := bind_ok_inv h
    obtain ⟨tcNodes, htc, h⟩ := bind_ok_inv h
    obtain ⟨isArr, harr, h⟩ := bind_ok_inv h
    have hfc' := (getProp_ok_inv hfc).2
    have hfco' := (getProp_ok_inv hfco).2
    have hfb' := (getProp_ok_inv hfb).2
    have htc' := (getProp_ok_inv htc).2
    subst hfc' hfco' hfb' htc'
    have hrow : ∃ tds, (∃ trs', genRows env f thisTblStyle tbl_bgcolor warpObj trNodes (i0 + 1)
          rest = .ok trs' ∧ trs = JVal.arr tds :: trs') ∧
        ∀ (j : Nat) (tc : JVal), (rowCellsOf r)[j]? = some tc →
          ∃ td, tds[j]? = some td ∧
            genTd env tc thisTblStyle (cellRegionOf f thisTblStyle r i0 j trNodes.length)
              ((env.getTableRowParams (.arr trNodes) i0 f.toJVal thisTblStyle
                warpObj).get "fillColor")
              ((env.getTableRowParams (.arr trNodes) i0 f.toJVal thisTblStyle
                warpObj).get "fontColor")
              ((env.getTableRowParams (.arr trNodes) i0 f.toJVal thisTblStyle
                warpObj).get "fontBold")
              tbl_bgcolor warpObj = .ok td := by
      cases hcells : r.get "a:tc" with
      | arr cells =>
        rw [hcells] at h
        obtain ⟨tds, h1, h⟩ := bind_ok_inv h
        obtain ⟨trs', h2, h⟩ := bind_ok_inv h
        simp only [Except.ok.injEq] at h
        refine ⟨tds, ⟨trs', h2, h.symm⟩, ?_⟩
        intro j tc hj
        simp only [rowCellsOf, hcells] at hj
        obtain ⟨td, h3, h4⟩ := genCells_get env f thisTblStyle _ _ _ tbl_bgcolor warpObj i0
          trNodes.length cells.length cells 0 tds h1 j tc hj
        refine ⟨td, h3, ?_⟩
        simp only [cellRegionOf, hcells]
        simpa using h4
      | undefined => rw [hcells] at harr; cases harr
      | null => rw [hcells] at harr; cases harr
      | bool b =>
        rw [hcells] at h
        obtain ⟨td, h1', h⟩ := bind_ok_inv h
        obtain ⟨trs', h2, h⟩ := bind_ok_inv h
        simp only [Except.ok.injEq] at h
        refine ⟨[td], ⟨trs', h2, h.symm⟩, ?_⟩
        intro j tc hj
        simp only [rowCellsOf, hcells] at hj
        cases j with
        | zero =>
          simp only [List.getElem?_cons_zero, Option.some.injEq] at hj
          subst hj
          exact ⟨td, by simp, by simpa only [cellRegionOf, hcells] using h1'⟩
        | succ j => simp at hj
      | num q =>
        rw [hcells] at h
        obtain ⟨td, h1', h⟩ := bind_ok_inv h
        obtain ⟨trs', h2, h⟩ := bind_ok_inv h
        simp only [Except.ok.injEq] at h
        refine ⟨[td], ⟨trs', h2, h.symm⟩, ?_⟩
        intro j tc hj
        simp only [rowCellsOf, hcells] at hj
        cases j with
        | zero =>
          simp only [List.getElem?_cons_zero, Option.some.injEq] at hj
          subst hj
          exact ⟨td, by simp, by simpa only [cellRegionOf, hcells] using h1'⟩
        | succ j => simp at hj
      | str s =>
        rw [hcells] at h
        obtain ⟨td, h1', h⟩ := bind_ok_inv h
        obtain ⟨trs', h2, h⟩ := bind_ok_inv h
        simp only [Except.ok.injEq] at h
        refine ⟨[td], ⟨trs', h2, h.symm⟩, ?_⟩
        intro j tc hj
        simp only [rowCellsOf, hcells] at hj
        cases j with
        | zero =>
          simp only [List.getElem?_cons_zero, Option.some.injEq] at hj
          subst hj
          exact ⟨td, by simp, by simpa only [cellRegionOf, hcells] using h1'⟩
        | succ j => simp at hj
      | obj kvs =>
        rw [hcells] at h
        obtain ⟨td, h1', h⟩ := bind_ok_inv h
        obtain ⟨trs', h2, h⟩ := bind_ok_inv h
        simp only [Except.ok.injEq] at h
        refine ⟨[td], ⟨trs', h2, h.symm⟩, ?_⟩
        intro j tc hj
        simp only [rowCellsOf, hcells] at hj
        cases j with
        | zero =>
          simp only [List.getElem?_cons_zero, Option.some.injEq] at hj
          subst hj
          exact ⟨td, by simp, by simpa only [cellRegionOf, hcells] using h1'⟩
        | succ j => simp at hj
    obtain ⟨tds, ⟨trs', hrest, htrs⟩, hcellsAll⟩ := hrow
    subst htrs
    cases k with
    | zero =>
      simp only [List.getElem?_cons_zero, Option.some.injEq] at hk
      subst hk
      exact ⟨tds, by simp, by simpa using hcellsAll⟩
    | succ k =>
      simp only [List.getElem?_cons_succ] at hk
      obtain ⟨tds', h3, h4⟩ := ih (i0 + 1) trs' hrest k tr hk
      refine ⟨tds', by simpa using h3, ?_⟩
      have : i0 + 1 + k = i0 + (k + 1) := by omega
      rw [this] at h4
      exact h4

theorem lookupKey_foldl_objSet (k : String) :
    ∀ (es o : List (String × JVal)), lookupKey k es = none →
      lookupKey k (es.foldl (fun acc kv => objSet acc kv.1 kv.2) o) = lookupKey k o := by
  intro es
  induction es with
  | nil => intro o _; rfl
  | cons kv rest ih =>
    intro o h
    obtain ⟨k', v⟩ := kv
    simp only [lookupKey] at h
    split at h
    · cases h
    · next hne =>
      simp only [List.foldl_cons]
      rw [ih _ h, lookupKey_objSet_ne _ _ hne]

/-- The table element of `genTable`, from the style the search found, the part of the table
styles after line 819 and the rows the loop returned. -/
theorem genTable_ok_inv {env : Env} {node t : JVal} {warpObj : WarpObj}
    (h : genTable env node warpObj = .ok t) :
    ∃ (st ts : JVal) (data : List JVal),
      lookupTblStyle ((tblPrOf node).get "a:tableStyleId") warpObj = .ok st ∧
      stampTableStyles ((tblPrOf node).get "a:tableStyleId") (tableFlagsOf node)
        warpObj.tableStyles = .ok ts ∧
      genRows env (tableFlagsOf node) (tableStyleIn node st)
        (tableBgColor env (tableStyleIn node st) (tableWarp warpObj ts)) (tableWarp warpObj ts)
        (tableRowsOf node) 0 (tableRowsOf node) = .ok data ∧
      (lookupKey "data" (tableBorderOf env (tableStyleIn node st)
          (tableWarp warpObj ts)).entries = none → t.get "data" = .arr data) := by
  simp only [genTable, bind, Except.bind, pure, Except.pure] at h
  obtain ⟨a, ha, h⟩ := bind_ok_inv h
  obtain ⟨order, horder, h⟩ := bind_ok_inv h
  obtain ⟨attrs, hattrs, h⟩ := bind_ok_inv h
  obtain ⟨st, hst, h⟩ := bind_ok_inv h
  obtain ⟨ts, hts, h⟩ := bind_ok_inv h
  obtain ⟨trNodes0, htr, h⟩ := bind_ok_inv h
  obtain ⟨isArr, harr, h⟩ := bind_ok_inv h
  obtain ⟨data, hdata, h⟩ := bind_ok_inv h
  have hattrs' := (getProp_ok_inv hattrs).2
  have htr' := (getProp_ok_inv htr).2
  subst hattrs' htr'
  simp only [hdata, Except.ok.injEq] at h
  refine ⟨st, ts, data, hst, hts, ?_, ?_⟩
  · exact hdata
  · intro hb
    rw [← h]
    show (lookupKey "data" (List.foldl (fun acc kv => objSet acc kv.1 kv.2) _
      (tableBorderOf env (tableStyleIn node st) (tableWarp warpObj ts)).entries)).getD
        .undefined = _
    rw [lookupKey_foldl_objSet "data" _ _ hb]
    rfl

/-- C15: in the table element `genTable` returns, the record of the cell `tcNode` at column `j`
of the row at index `i` has `fillColor` equal to the first truthy value of the colour of the
parameters of the cell, the colour of the parameters of its row and the background colour of
the table style, and no `fillColor` when none is truthy; its `fontBold` and `fontColor` are
the value of the parameters of the cell when it is truthy, else the value of the parameters of
its row when it is truthy, else absent. The parameters of the row are those
`getTableRowParams` returns for the index of the row, the parameters of the cell those
`getTableCellParams` returns for the cell node and its style region, and the background is
the colour of lines 829-837; the style is the one the search of lines 800-818 found, with the
flags of the table. The border record spread into the element is taken to have no field
`data`. -/
theorem genTable_cell_cascade (env : Env) (node t : JVal) (warpObj : WarpObj)
    (h : genTable env node warpObj = .ok t) :
    ∃ st ts : JVal,
      lookupTblStyle ((tblPrOf node).get "a:tableStyleId") warpObj = .ok st ∧
      stampTableStyles ((tblPrOf node).get "a:tableStyleId") (tableFlagsOf node)
        warpObj.tableStyles = .ok ts ∧
      (lookupKey "data" (tableBorderOf env (tableStyleIn node st)
          (tableWarp warpObj ts)).entries = none →
        ∀ (i j : Nat) (trNode tcNode : JVal),
          (tableRowsOf node)[i]? = some trNode → (rowCellsOf trNode)[j]? = some tcNode →
          ∃ td : List (String × JVal), tableCell t i j = .obj td ∧
            lookupKey "fillColor" td =
              [(cellParamsOf env node st (tableWarp warpObj ts) i j trNode tcNode).get "fillColor",
                (rowParamsOf env node st (tableWarp warpObj ts) i).get "fillColor",
                tableBgColor env (tableStyleIn node st) (tableWarp warpObj ts)].find?
                  JVal.truthy ∧
            lookupKey "fontBold" td =
              [(cellParamsOf env node st (tableWarp warpObj ts) i j trNode tcNode).get "fontBold",
                (rowParamsOf env node st (tableWarp warpObj ts) i).get "fontBold"].find?
                  JVal.truthy ∧
            lookupKey "fontColor" td =
              [(cellParamsOf env node st (tableWarp warpObj ts) i j trNode tcNode).get "fontColor",
                (rowParamsOf env node st (tableWarp warpObj ts) i).get "fontColor"].find?
                  JVal.truthy) := by
  obtain ⟨st, ts, data, hst, hts, hrows, hdata⟩ := genTable_ok_inv h
  refine ⟨st, ts, hst, hts, ?_⟩
  intro hb i j trNode tcNode hi hj
  obtain ⟨tds, htds, hcells⟩ := genRows_get env _ _ _ _ _ _ 0 data hrows i trNode hi
  obtain ⟨tdv, htd, hgen⟩ := hcells j tcNode hj
  simp only [Nat.zero_add] at hgen
  obtain ⟨htc, hcell⟩ := genTd_ok_inv hgen
  obtain ⟨td, htdeq, hfill, hbold, hcolor⟩ := genTd_cascade env tcNode _ _ _ _ _ _ _ htc hcell
  rw [hgen, Except.ok.injEq] at htdeq
  subst htdeq
  refine ⟨td, ?_, hfill, hbold, hcolor⟩
  simp only [tableCell, hdata hb, JVal.item]
  rw [List.getD_eq_getElem?_getD, htds]
  simp only [Option.getD_some]
  rw [List.getD_eq_getElem?_getD, htd]
  rfl

theorem genTable_cell_cascade_witness :
    (∃ st ts : JVal,
      lookupTblStyle ((tblPrOf sampleTable).get "a:tableStyleId") sampleWarpStyles = .ok st ∧
      stampTableStyles ((tblPrOf sampleTable).get "a:tableStyleId") (tableFlagsOf sampleTable)
        sampleWarpStyles.tableStyles = .ok ts ∧
      (lookupKey "data" (tableBorderOf cascadeEnv (tableStyleIn sampleTable st)
          (tableWarp sampleWarpStyles ts)).entries = none →
        ∀ (i j : Nat) (trNode tcNode : JVal),
          (tableRowsOf sampleTable)[i]? = some trNode → (rowCellsOf trNode)[j]? = some tcNode →
          ∃ td : List (String × JVal),
            tableCell (okVal (genTable cascadeEnv sampleTable sampleWarpStyles)) i j = .obj td ∧
            lookupKey "fillColor" td =
              [(cellParamsOf cascadeEnv sampleTable st (tableWarp sampleWarpStyles ts) i j trNode
                  tcNode).get "fillColor",
                (rowParamsOf cascadeEnv sampleTable st (tableWarp sampleWarpStyles ts) i).get
                  "fillColor",
                tableBgColor cascadeEnv (tableStyleIn sampleTable st)
                  (tableWarp sampleWarpStyles ts)].find? JVal.truthy ∧
            lookupKey "fontBold" td =
              [(cellParamsOf cascadeEnv sampleTable st (tableWarp sampleWarpStyles ts) i j trNode
                  tcNode).get "fontBold",
                (rowParamsOf cascadeEnv sampleTable st (tableWarp sampleWarpStyles ts) i).get
                  "fontBold"].find? JVal.truthy ∧
            lookupKey "fontColor" td =
              [(cellParamsOf cascadeEnv sampleTable st (tableWarp sampleWarpStyles ts) i j trNode
                  tcNode).get "fontColor",
                (rowParamsOf cascadeEnv sampleTable st (tableWarp sampleWarpStyles ts) i).get
                  "fontColor"].find? JVal.truthy)) ∧
    (tableCell (okVal (genTable cascadeEnv sampleTable sampleWarpStyles)) 0 0).get "fillColor" =
      .str "#cell" ∧
    (tableCell (okVal (genTable cascadeEnv sampleTable sampleWarpStyles)) 0 1).get "fillColor" =
      .str "#row0" ∧
    (tableCell (okVal (genTable cascadeEnv sampleTable sampleWarpStyles)) 1 1).get "fillColor" =
      .str "#bg" ∧
    (tableCell (okVal (genTable cascadeEnv sampleTable sampleWarpStyles)) 0 1).get "fontBold" =
      .bool true ∧
    lookupKey "fontBold"
      (tableCell (okVal (genTable cascadeEnv sampleTable sampleWarpStyles)) 1 1).entries = none ∧
    (tableCell (okVal (genTable cascadeEnv sampleTable sampleWarpStyles)) 0 0).get "fontColor" =
      .str "#font" :=
  ⟨genTable_cell_cascade cascadeEnv sampleTable _ sampleWarpStyles rfl, rfl, rfl, rfl, rfl, rfl,
    rfl⟩

/-! ## The shared table styles -/

theorem attachFlags_get (st : JVal) (f : TblFlags) {k : String} (hk : "tblStylAttrObj" ≠ k) :
    (attachFlags st f).get k = st.get k := by
  cases st <;> simp only [attachFlags, JVal.get]
  rw [lookupKey_objSet_ne _ _ hk]

theorem attachFlags_isNullish (st : JVal) (f : TblFlags) :
    (attachFlags st f).isNullish = st.isNullish := by
  cases st <;> rfl

theorem getProp_attachFlags (st : JVal) (f : TblFlags) {k : String} (hk : "tblStylAttrObj" ≠ k) :
    getProp (attachFlags st f) k = getProp st k := by
  cases h : st.isNullish with
  | true => rw [getProp_error h, getProp_error (by rw [attachFlags_isNullish, h])]
  | false =>
    rw [getProp_ok h, getProp_ok (by rw [attachFlags_isNullish, h]), attachFlags_get st f hk]

/-- The array of styles after line 819, searched again: when the search found a style, the
search in the new array finds that style with the flags. -/
theorem findTblStyle_stampStyles (id : JVal) (f : TblFlags) :
    ∀ (xs : List JVal) (cur r : JVal), findTblStyle id xs cur = .ok r →
      ∃ (xs' : List JVal) (found : Bool), stampStyles id f xs = .ok (xs', found) ∧
        (found = true → ∀ cur', findTblStyle id xs' cur' = .ok (attachFlags r f)) ∧
        (found = false → r = cur ∧ ∀ cur', findTblStyle id xs' cur' = .ok cur') := by
  intro xs
  induction xs with
  | nil =>
    intro cur r h
    simp only [findTblStyle] at h
    cases h
    exact ⟨[], false, rfl, (fun h => by cases h), fun _ => ⟨rfl, fun _ => rfl⟩⟩
  | cons st rest ih =>
    intro cur r h
    cases hA : getProp st "attrs" with
    | error e => simp [findTblStyle, hA, bind, Except.bind] at h
    | ok a =>
      cases hS : getProp a "styleId" with
      | error e => simp [findTblStyle, hA, hS, bind, Except.bind] at h
      | ok sid =>
        simp only [findTblStyle, hA, hS, bind, Except.bind] at h
        obtain ⟨rest', found, hst, ht, hf⟩ := ih _ r h
        cases found with
        | true =>
          refine ⟨st :: rest', true, ?_, ?_, (fun h => by cases h)⟩
          · simp [stampStyles, hA, hS, hst, bind, Except.bind, pure, Except.pure]
          · intro _ cur'
            simp only [findTblStyle, hA, hS, bind, Except.bind]
            exact ht rfl _
        | false =>
          obtain ⟨hr, hfind⟩ := hf rfl
          cases hm : strictEq sid id with
          | true =>
            refine ⟨attachFlags st f :: rest', true, ?_, ?_, (fun h => by cases h)⟩
            · simp [stampStyles, hA, hS, hst, hm, bind, Except.bind, pure, Except.pure]
            · intro _ cur'
              simp only [findTblStyle, getProp_attachFlags st f (by decide : "tblStylAttrObj" ≠ "attrs"),
                hA, hS, hm, bind, Except.bind, if_true]
              rw [hfind, hr, hm]
              rfl
          | false =>
            refine ⟨st :: rest', false, ?_, (fun h => by cases h), ?_⟩
            · simp [stampStyles, hA, hS, hst, hm, bind, Except.bind, pure, Except.pure]
            · intro _
              refine ⟨?_, ?_⟩
              · rw [hr, hm]
                rfl
              · intro cur'
                simp only [findTblStyle, hA, hS, hm, bind, Except.bind]
                exact hfind _
theorem obj_of_get_truthy {o : JVal} {k : String} (h : (o.get k).truthy = true) :
    ∃ kvs, o = .obj kvs := by
  cases o <;> simp [JVal.get, JVal.truthy] at h ⊢

theorem getProp_setIn (kvs : List (String × JVal)) (k : String) (v : JVal) :
    getProp (setIn (.obj kvs) k v) k = .ok v := by
  simp [setIn, getProp, JVal.get, lookupKey_objSet_same]

/-- The style of a table, searched in the table styles line 819 leaves behind, is the style
the search found before with the flags of the table attached. -/
theorem lookupTblStyle_stampTableStyles (id : JVal) (f : TblFlags) (w : WarpObj) (st : JVal)
    (hst : lookupTblStyle id w = .ok st) (htr : st.truthy = true) :
    ∃ after : JVal, stampTableStyles id f w.tableStyles = .ok after ∧
      lookupTblStyle id { w with tableStyles := after } = .ok (attachFlags st f) := by
  have hu : JVal.undefined.truthy = false := rfl
  cases hid : id.truthy with
  | false =>
    simp only [lookupTblStyle, hid, Bool.not_false, if_true, pure, Except.pure] at hst
    cases hst
    rw [hu] at htr
    cases htr
  | true =>
    cases hL : getProp w.tableStyles "a:tblStyleLst" with
    | error e => simp [lookupTblStyle, hid, hL, bind, Except.bind, pure, Except.pure] at hst
    | ok lst =>
      cases hT : getProp lst "a:tblStyle" with
      | error e =>
        simp [lookupTblStyle, hid, hL, hT, bind, Except.bind, pure, Except.pure] at hst
      | ok tl =>
        cases htl : tl.truthy with
        | false =>
          simp only [lookupTblStyle, hid, hL, hT, htl, bind, Except.bind, Bool.not_true,
            Bool.not_false, Bool.false_eq_true, if_false, if_true, pure, Except.pure] at hst
          cases hst
          rw [hu] at htr
          cases htr
        | true =>
          have hlstget := (getProp_ok_inv hT).2
          have hwget := (getProp_ok_inv hL).2
          obtain ⟨kvs2, hkvs2⟩ : ∃ kvs, lst = .obj kvs :=
            obj_of_get_truthy (k := "a:tblStyle") (by rw [← hlstget]; exact htl)
          have hlsttr : lst.truthy = true := by rw [hkvs2]; rfl
          obtain ⟨kvs, hkvs⟩ : ∃ kvs, w.tableStyles = .obj kvs :=
            obj_of_get_truthy (k := "a:tblStyleLst") (by rw [← hwget]; exact hlsttr)
          simp only [lookupTblStyle, hid, hL, hT, htl, bind, Except.bind, Bool.not_true,
            Bool.false_eq_true, if_false, pure, Except.pure] at hst
          have key : ∀ stamped : JVal, stamped.truthy = true →
              lookupTblStyle id { w with tableStyles :=
                (setIn w.tableStyles "a:tblStyleLst" (setIn lst "a:tblStyle" stamped)) } =
              (match stamped with
                | .arr xs => findTblStyle id xs .undefined
                | _ => do
                  let sid ← getProp (← getProp stamped "attrs") "styleId"
                  return (if strictEq sid id then stamped else .undefined)) := by
            intro stamped hs
            simp only [lookupTblStyle, hid, hkvs, hkvs2, getProp_setIn, hs, bind, Except.bind,
              Bool.not_true, Bool.false_eq_true, if_false, pure, Except.pure]
          cases tl with
          | arr xs =>
            simp only at hst
            obtain ⟨xs', found, hstamp, ht, hf⟩ := findTblStyle_stampStyles id f xs _ st hst
            cases found with
            | false =>
              rw [(hf rfl).1, hu] at htr
              cases htr
            | true =>
              refine ⟨setIn w.tableStyles "a:tblStyleLst" (setIn lst "a:tblStyle" (.arr xs')),
                ?_, ?_⟩
              · simp only [stampTableStyles, hid, hL, hT, htl, hstamp, bind, Except.bind, pure,
                  Except.pure, Bool.not_true, Bool.false_eq_true, if_false]
              · rw [key (.arr xs') rfl]
                exact ht rfl _
          | obj tkvs =>
            simp only at hst
            cases hA : getProp (.obj tkvs) "attrs" with
            | error e => simp [hA, bind, Except.bind] at hst
            | ok a =>
              cases hS : getProp a "styleId" with
              | error e => simp [hA, hS, bind, Except.bind] at hst
              | ok sid =>
                simp only [hA, hS, bind, Except.bind, pure, Except.pure] at hst
                cases hm : strictEq sid id with
                | false =>
                  rw [hm] at hst
                  simp only [Bool.false_eq_true, if_false] at hst
                  cases hst
                  rw [hu] at htr
                  cases htr
                | true =>
                  rw [hm] at hst
                  simp only [if_true] at hst
                  cases hst
                  refine ⟨setIn w.tableStyles "a:tblStyleLst"
                    (setIn lst "a:tblStyle" (attachFlags (.obj tkvs) f)), ?_, ?_⟩
                  · simp only [stampTableStyles, hid, hL, hT, htl, hA, hS, hm, bind,
                      Except.bind, pure, Except.pure, Bool.not_true, Bool.false_eq_true, if_false,
                      if_true]
                  · rw [key (attachFlags (.obj tkvs) f) rfl]
                    have hA2 := getProp_attachFlags (.obj tkvs) f
                      (by decide : "tblStylAttrObj" ≠ "attrs")
                    simp only [attachFlags] at hA2 ⊢
                    simp [hA2, hA, hS, hm, bind, Except.bind, pure, Except.pure]
          | undefined => cases htl
          | null => cases htl
          | bool b => simp [getProp, JVal.get, bind, Except.bind] at hst
          | num q => simp [getProp, JVal.get, bind, Except.bind] at hst
          | str s => simp [getProp, JVal.get, bind, Except.bind] at hst
theorem obj_of_get_not_nullish {o : JVal} {k : String} (h : (o.get k).isNullish = false) :
    ∃ kvs, o = .obj kvs := by
  cases o <;> simp [JVal.get, JVal.isNullish] at h ⊢

theorem obj_of_styleId {st a sid : JVal} (hA : getProp st "attrs" = .ok a)
    (hS : getProp a "styleId" = .ok sid) : ∃ kvs, st = .obj kvs := by
  have h1 := (getProp_ok_inv hS).1
  rw [(getProp_ok_inv hA).2] at h1
  exact obj_of_get_not_nullish h1

theorem findTblStyle_obj (id : JVal) :
    ∀ (xs : List JVal) (cur r : JVal), findTblStyle id xs cur = .ok r →
      r = cur ∨ ∃ kvs, r = .obj kvs := by
  intro xs
  induction xs with
  | nil =>
    intro cur r h
    simp only [findTblStyle] at h
    cases h
    exact Or.inl rfl
  | cons st rest ih =>
    intro cur r h
    cases hA : getProp st "attrs" with
    | error e => simp [findTblStyle, hA, bind, Except.bind] at h
    | ok a =>
      cases hS : getProp a "styleId" with
      | error e => simp [findTblStyle, hA, hS, bind, Except.bind] at h
      | ok sid =>
        simp only [findTblStyle, hA, hS, bind, Except.bind] at h
        rcases ih _ r h with hr | hr
        · cases hm : strictEq sid id with
          | true =>
            rw [hm] at hr
            exact Or.inr (by rw [hr]; exact obj_of_styleId hA hS)
          | false =>
            rw [hm] at hr
            exact Or.inl hr
        · exact Or.inr hr

/-- The style the search of lines 800-818 finds is an object. -/
theorem lookupTblStyle_obj (id : JVal) (w : WarpObj) (st : JVal)
    (hst : lookupTblStyle id w = .ok st) (htr : st.truthy = true) : ∃ kvs, st = .obj kvs := by
  have hu : JVal.undefined.truthy = false := rfl
  have hne : st ≠ .undefined := by
    intro h
    rw [h, hu] at htr
    cases htr
  cases hid : id.truthy with
  | false =>
    simp only [lookupTblStyle, hid, Bool.not_false, if_true, pure, Except.pure] at hst
    cases hst
    exact absurd rfl hne
  | true =>
    cases hL : getProp w.tableStyles "a:tblStyleLst" with
    | error e => simp [lookupTblStyle, hid, hL, bind, Except.bind, pure, Except.pure] at hst
    | ok lst =>
      cases hT : getProp lst "a:tblStyle" with
      | error e =>
        simp [lookupTblStyle, hid, hL, hT, bind, Except.bind, pure, Except.pure] at hst
      | ok tl =>
        cases htl : tl.truthy with
        | false =>
          simp only [lookupTblStyle, hid, hL, hT, htl, bind, Except.bind, Bool.not_true,
            Bool.not_false, Bool.false_eq_true, if_false, if_true, pure, Except.pure] at hst
          cases hst
          exact absurd rfl hne
        | true =>
          simp only [lookupTblStyle, hid, hL, hT, htl, bind, Except.bind, Bool.not_true,
            Bool.false_eq_true, if_false, pure, Except.pure] at hst
          cases tl with
          | arr xs =>
            simp only at hst
            rcases findTblStyle_obj id xs _ st hst with h | h
            · exact absurd h hne
            · exact h
          | obj tkvs =>
            simp only at hst
            cases hA : getProp (.obj tkvs) "attrs" with
            | error e => simp [hA, bind, Except.bind] at hst
            | ok a =>
              cases hS : getProp a "styleId" with
              | error e => simp [hA, hS, bind, Except.bind] at hst
              | ok sid =>
                simp only [hA, hS, bind, Except.bind, pure, Except.pure] at hst
                cases hm : strictEq sid id with
                | false =>
                  rw [hm] at hst
                  simp only [Bool.false_eq_true, if_false] at hst
                  cases hst
                  exact absurd rfl hne
                | true =>
                  rw [hm] at hst
                  simp only [if_true] at hst
                  cases hst
                  exact ⟨tkvs, rfl⟩
          | undefined => cases htl
          | null => cases htl
          | bool b => simp [getProp, JVal.get, bind, Except.bind] at hst
          | num q => simp [getProp, JVal.get, bind, Except.bind] at hst
          | str s => simp [getProp, JVal.get, bind, Except.bind] at hst

/-- C16 (counterexample): the table `sampleTable` names the style `sampleTblStyle` of the part
`sampleTableStyles`; `genTable` returns, and the part it leaves behind is not the part it was
given: the style record, which carried no `tblStylAttrObj`, carries the flags of the table. -/
theorem genTable_changes_style_counterexample :
    isOk (genTable sampleEnv sampleTable sampleWarpStyles) = true ∧
    lookupTblStyle (.str "{S1}") sampleWarpStyles = .ok sampleTblStyle ∧
    ∃ after : JVal, tableStylesAfter sampleTable sampleWarpStyles = .ok after ∧
      after ≠ sampleWarpStyles.tableStyles ∧
      getTextByPathList sampleWarpStyles.tableStyles
        ["a:tblStyleLst", "a:tblStyle", "tblStylAttrObj"] = .undefined ∧
      getTextByPathList after ["a:tblStyleLst", "a:tblStyle", "tblStylAttrObj"] =
        sampleFlags.toJVal := by
  refine ⟨rfl, rfl, _, rfl, ?_, rfl, rfl⟩
  intro h
  have h2 := congrArg
    (fun v => (getTextByPathList v ["a:tblStyleLst", "a:tblStyle", "tblStylAttrObj"]).truthy) h
  revert h2
  decide

/-- C16 (amended): a call of `genTable` on a table whose style id finds a style `st` in the
table styles leaves that style changed: in the part it leaves behind, the search for the same
id finds `st` with the field `tblStylAttrObj` set to the flags of the table, every other field
of `st` being as before. -/
theorem genTable_attaches_flags (node : JVal) (warpObj : WarpObj) (st : JVal)
    (hnode : node.isNullish = false) (hattrs : (node.get "attrs").isNullish = false)
    (hpr : (getTextByPathList node
      ["a:graphic", "a:graphicData", "a:tbl", "a:tblPr"]).isNullish = false)
    (hst : lookupTblStyle ((getTextByPathList node
      ["a:graphic", "a:graphicData", "a:tbl", "a:tblPr"]).get "a:tableStyleId") warpObj = .ok st)
    (htr : st.truthy = true) :
    ∃ after : JVal, tableStylesAfter node warpObj = .ok after ∧
      lookupTblStyle ((getTextByPathList node
          ["a:graphic", "a:graphicData", "a:tbl", "a:tblPr"]).get "a:tableStyleId")
        { warpObj with tableStyles := after } =
        .ok (attachFlags st (tblFlagsOf ((getTextByPathList node
          ["a:graphic", "a:graphicData", "a:tbl", "a:tblPr"]).get "attrs"))) ∧
      (attachFlags st (tblFlagsOf ((getTextByPathList node
          ["a:graphic", "a:graphicData", "a:tbl", "a:tblPr"]).get "attrs"))).get "tblStylAttrObj" =
        (tblFlagsOf ((getTextByPathList node
          ["a:graphic", "a:graphicData", "a:tbl", "a:tblPr"]).get "attrs")).toJVal ∧
      ∀ k : String, "tblStylAttrObj" ≠ k →
        (attachFlags st (tblFlagsOf ((getTextByPathList node
          ["a:graphic", "a:graphicData", "a:tbl", "a:tblPr"]).get "attrs"))).get k = st.get k := by
  obtain ⟨after, hafter, hlook⟩ := lookupTblStyle_stampTableStyles _
    (tblFlagsOf ((getTextByPathList node
      ["a:graphic", "a:graphicData", "a:tbl", "a:tblPr"]).get "attrs")) warpObj st hst htr
  obtain ⟨kvs, hkvs⟩ := lookupTblStyle_obj _ warpObj st hst htr
  refine ⟨after, ?_, hlook, ?_, fun k hk => attachFlags_get st _ hk⟩
  · simp only [tableStylesAfter, getProp_ok hnode, getProp_ok hattrs, getProp_ok hpr, bind,
      Except.bind]
    exact hafter
  · rw [hkvs]
    simp only [attachFlags, JVal.get, lookupKey_objSet_same, Option.getD_some]

theorem genTable_attaches_flags_witness :
    ∃ after : JVal, tableStylesAfter sampleTable sampleWarpStyles = .ok after ∧
      lookupTblStyle ((getTextByPathList sampleTable
          ["a:graphic", "a:graphicData", "a:tbl", "a:tblPr"]).get "a:tableStyleId")
        { sampleWarpStyles with tableStyles := after } =
        .ok (attachFlags sampleTblStyle (tblFlagsOf ((getTextByPathList sampleTable
          ["a:graphic", "a:graphicData", "a:tbl", "a:tblPr"]).get "attrs"))) ∧
      (attachFlags sampleTblStyle (tblFlagsOf ((getTextByPathList sampleTable
          ["a:graphic", "a:graphicData", "a:tbl", "a:tblPr"]).get "attrs"))).get
          "tblStylAttrObj" =
        (tblFlagsOf ((getTextByPathList sampleTable
          ["a:graphic", "a:graphicData", "a:tbl", "a:tblPr"]).get "attrs")).toJVal ∧
      ∀ k : String, "tblStylAttrObj" ≠ k →
        (attachFlags sampleTblStyle (tblFlagsOf ((getTextByPathList sampleTable
          ["a:graphic", "a:graphicData", "a:tbl", "a:tblPr"]).get "attrs"))).get k =
          sampleTblStyle.get k :=
  genTable_attaches_flags sampleTable sampleWarpStyles sampleTblStyle rfl rfl rfl rfl rfl

/-! ## The placeholder index -/

theorem indexedNodes_nil : indexedNodes [] = [] := rfl

theorem indexedNodes_skip (key : String) (v : JVal) (rest : List (String × JVal))
    (h : key = "p:nvGrpSpPr" ∨ key = "p:grpSpPr") :
    indexedNodes ((key, v) :: rest) = indexedNodes rest := by
  rcases h with h | h <;> subst h <;> rfl

theorem indexedNodes_arr (key : String) (items : List JVal) (rest : List (String × JVal))
    (h : ¬ (key = "p:nvGrpSpPr" ∨ key = "p:grpSpPr")) :
    indexedNodes ((key, .arr items) :: rest) = items ++ indexedNodes rest := by
  have hf : (!(key == "p:nvGrpSpPr" || key == "p:grpSpPr")) = true := by
    simpa using h
  simp only [indexedNodes, List.filter_cons, hf, if_true, childNodes, List.map_append,
    List.map_map]
  congr 1
  induction items with
  | nil => rfl
  | cons c cs ih => simp

theorem indexedNodes_one (key : String) (v : JVal) (rest : List (String × JVal))
    (h : ¬ (key = "p:nvGrpSpPr" ∨ key = "p:grpSpPr")) (hv : ∀ items, v ≠ .arr items) :
    indexedNodes ((key, v) :: rest) = v :: indexedNodes rest := by
  have hf : (!(key == "p:nvGrpSpPr" || key == "p:grpSpPr")) = true := by
    simpa using h
  simp only [indexedNodes, List.filter_cons, hf, if_true]
  cases v with
  | arr items => exact absurd rfl (hv items)
  | _ => rfl

theorem lastCarrying_cons (attr : JVal → JVal) (k : String) (c : JVal) (cs : List JVal) :
    lastCarrying attr k (c :: cs) =
      (lastCarrying attr k cs).or (if carriesKey attr k c then some c else none) := by
  simp only [lastCarrying, List.reverse_cons, List.find?_append, List.find?_cons, List.find?_nil]
  cases carriesKey attr k c <;> rfl

theorem lastCarrying_append (attr : JVal → JVal) (k : String) (as bs : List JVal) :
    lastCarrying attr k (as ++ bs) = (lastCarrying attr k bs).or (lastCarrying attr k as) := by
  simp only [lastCarrying, List.reverse_append, List.find?_append]

/-- The three tables after one node is registered (lines 380-382 and 391-393). -/
theorem indexNode_slots {t t' : IndexTables} {c : JVal} (h : indexNode t c = .ok t') (k : String) :
    lookupKey k t'.idTable =
        (if carriesKey nvId k c then some c else lookupKey k t.idTable) ∧
      lookupKey k t'.idxTable =
        (if carriesKey nvIdx k c then some c else lookupKey k t.idxTable) ∧
      lookupKey k t'.typeTable =
        (if carriesKey nvType k c then some c else lookupKey k t.typeTable) := by
  obtain ⟨nv, hnv, h1⟩ := bind_ok_inv h
  have hnv2 := (getProp_ok_inv hnv).2
  subst hnv2
  simp only [pure, Except.pure] at h1
  cases h1
  have key : ∀ (tbl : List (String × JVal)) (a : JVal),
      lookupKey k (if a.truthy = true then objSet tbl (toPropertyKey a) c else tbl) =
        if (a.truthy && toPropertyKey a == k) = true then some c else lookupKey k tbl := by
    intro tbl a
    cases ha : a.truthy with
    | false => simp
    | true =>
      by_cases hk : toPropertyKey a = k
      · subst hk
        simp [lookupKey_objSet_same]
      · simp [hk, lookupKey_objSet_ne _ _ hk]
  refine ⟨?_, ?_, ?_⟩
  · have := key t.idTable (nvId c)
    simp only [carriesKey]
    rw [← this]
    simp only [nvId]
    split <;> split <;> split <;> rfl
  · have := key t.idxTable (nvIdx c)
    simp only [carriesKey]
    rw [← this]
    simp only [nvIdx]
    split <;> split <;> split <;> rfl
  · have := key t.typeTable (nvType c)
    simp only [carriesKey]
    rw [← this]
    simp only [nvType]
    split <;> split <;> split <;> rfl
theorem or_step (X L : Option JVal) (p : Bool) (c : JVal) :
    X.or (if p = true then some c else L) = (X.or (if p = true then some c else none)).or L := by
  cases X <;> cases p <;> simp

/-- The three tables after the items of an array child are registered. -/
theorem indexItems_slots :
    ∀ (items : List JVal) (t t' : IndexTables), indexItems items t = .ok t' → ∀ k : String,
      lookupKey k t'.idTable = (lastCarrying nvId k items).or (lookupKey k t.idTable) ∧
      lookupKey k t'.idxTable = (lastCarrying nvIdx k items).or (lookupKey k t.idxTable) ∧
      lookupKey k t'.typeTable = (lastCarrying nvType k items).or (lookupKey k t.typeTable) := by
  intro items
  induction items with
  | nil =>
    intro t t' h k
    simp only [indexItems] at h
    cases h
    simp [lastCarrying]
  | cons c rest ih =>
    intro t t' h k
    simp only [indexItems] at h
    obtain ⟨t1, h1, h2⟩ := bind_ok_inv h
    obtain ⟨a1, a2, a3⟩ := ih t1 t' h2 k
    obtain ⟨b1, b2, b3⟩ := indexNode_slots h1 k
    simp only [lastCarrying_cons]
    refine ⟨?_, ?_, ?_⟩
    · rw [a1, b1, or_step]
    · rw [a2, b2, or_step]
    · rw [a3, b3, or_step]

/-- The three tables after the children of a shape tree are registered: each slot holds the
last visited node that carries its key, or what it held before. -/
theorem indexEntries_slots :
    ∀ (kvs : List (String × JVal)) (t t' : IndexTables), indexEntries kvs t = .ok t' →
      ∀ k : String,
      lookupKey k t'.idTable =
        (lastCarrying nvId k (indexedNodes kvs)).or (lookupKey k t.idTable) ∧
      lookupKey k t'.idxTable =
        (lastCarrying nvIdx k (indexedNodes kvs)).or (lookupKey k t.idxTable) ∧
      lookupKey k t'.typeTable =
        (lastCarrying nvType k (indexedNodes kvs)).or (lookupKey k t.typeTable) := by
  intro kvs
  induction kvs with
  | nil =>
    intro t t' h k
    simp only [indexEntries] at h
    cases h
    simp [lastCarrying, indexedNodes_nil]
  | cons kv rest ih =>
    obtain ⟨key, v⟩ := kv
    intro t t' h k
    by_cases hskip : key = "p:nvGrpSpPr" ∨ key = "p:grpSpPr"
    · simp only [indexEntries, hskip, if_true] at h
      rw [indexedNodes_skip key v rest hskip]
      exact ih t t' h k
    · simp only [indexEntries, hskip, if_false] at h
      obtain ⟨b, _, h1⟩ := bind_ok_inv h
      obtain ⟨t1, h2, h3⟩ : ∃ t1, (match v with
          | .arr items => indexItems items t
          | _ => indexNode t v) = .ok t1 ∧ indexEntries rest t1 = .ok t' := by
        cases v <;> exact bind_ok_inv h1
      obtain ⟨a1, a2, a3⟩ := ih t1 t' h3 k
      by_cases harr : ∃ items, v = .arr items
      · obtain ⟨items, hitems⟩ := harr
        subst hitems
        simp only at h2
        obtain ⟨b1, b2, b3⟩ := indexItems_slots items t t1 h2 k
        rw [indexedNodes_arr key items rest hskip]
        simp only [lastCarrying_append]
        refine ⟨?_, ?_, ?_⟩
        · rw [a1, b1, Option.or_assoc]
        · rw [a2, b2, Option.or_assoc]
        · rw [a3, b3, Option.or_assoc]
      · have hv : ∀ items, v ≠ .arr items := fun items hi => harr ⟨items, hi⟩
        have h2' : indexNode t v = .ok t1 := by
          cases v with
          | arr items => exact absurd rfl (hv items)
          | _ => exact h2
        obtain ⟨b1, b2, b3⟩ := indexNode_slots h2' k
        rw [indexedNodes_one key v rest hskip hv]
        simp only [lastCarrying_cons]
        refine ⟨?_, ?_, ?_⟩
        · rw [a1, b1, or_step]
        · rw [a2, b2, or_step]
        · rw [a3, b3, or_step]

theorem indexNode_ok (t : IndexTables) {c : JVal} (hc : c.isNullish = false) :
    ∃ t', indexNode t c = .ok t' := by
  simp only [indexNode, getProp_ok hc, bind, Except.bind, pure, Except.pure]
  exact ⟨_, rfl⟩

theorem indexItems_ok :
    ∀ (items : List JVal) (t : IndexTables), (∀ c ∈ items, c.isNullish = false) →
      ∃ t', indexItems items t = .ok t' := by
  intro items
  induction items with
  | nil => exact fun t _ => ⟨t, rfl⟩
  | cons c rest ih =>
    intro t h
    obtain ⟨t1, h1⟩ := indexNode_ok t (h c (List.mem_cons_self _ _))
    obtain ⟨t', h2⟩ := ih t1 (fun c' hc' => h c' (List.mem_cons_of_mem _ hc'))
    exact ⟨t', by simp only [indexItems, h1, bind, Except.bind]; exact h2⟩

theorem isArrayCtor_ok {v : JVal} (hv : v.isNullish = false) : ∃ b, isArrayCtor v = .ok b := by
  cases v <;> first | exact ⟨_, rfl⟩ | cases hv

/-- The loop of `indexNodes` returns when no visited node is `undefined` or `null`. -/
theorem indexEntries_ok :
    ∀ (kvs : List (String × JVal)) (t : IndexTables),
      (∀ c ∈ indexedNodes kvs, c.isNullish = false) → ∃ t', indexEntries kvs t = .ok t' := by
  intro kvs
  induction kvs with
  | nil => exact fun t _ => ⟨t, rfl⟩
  | cons kv rest ih =>
    obtain ⟨key, v⟩ := kv
    intro t h
    by_cases hskip : key = "p:nvGrpSpPr" ∨ key = "p:grpSpPr"
    · rw [indexedNodes_skip key v rest hskip] at h
      obtain ⟨t', h'⟩ := ih t h
      exact ⟨t', by simp only [indexEntries, hskip, if_true]; exact h'⟩
    · by_cases harr : ∃ items, v = .arr items
      · obtain ⟨items, hitems⟩ := harr
        subst hitems
        rw [indexedNodes_arr key items rest hskip] at h
        obtain ⟨t1, h1⟩ := indexItems_ok items t (fun c hc => h c (List.mem_append_left _ hc))
        obtain ⟨t', h2⟩ := ih t1 (fun c hc => h c (List.mem_append_right _ hc))
        refine ⟨t', ?_⟩
        simp only [indexEntries, hskip, if_false, isArrayCtor, h1, bind, Except.bind]
        exact h2
      · have hv : ∀ items, v ≠ .arr items := fun items hi => harr ⟨items, hi⟩
        rw [indexedNodes_one key v rest hskip hv] at h
        have hvn := h v (List.mem_cons_self _ _)
        obtain ⟨b, hb⟩ := isArrayCtor_ok hvn
        obtain ⟨t1, h1⟩ := indexNode_ok t hvn
        obtain ⟨t', h2⟩ := ih t1 (fun c hc => h c (List.mem_cons_of_mem _ hc))
        refine ⟨t', ?_⟩
        simp only [indexEntries, hskip, if_false, hb, bind, Except.bind]
        cases v with
        | arr items => exact absurd rfl (hv items)
        | _ =>
          simp only [h1]
          exact h2
theorem objectKeys_ok_inv {v : JVal} {ks : List String} (h : objectKeys v = .ok ks) :
    v.isNullish = false ∧ ks = v.entries.map Prod.fst := by
  cases v <;> simp [objectKeys] at h <;> simp [JVal.isNullish, h]

/-- When `indexNodes` returns, its tables are those of the loop over the shape tree. -/
theorem indexNodes_ok_inv {content tables : JVal} (h : indexNodes content = .ok tables) :
    ∃ t : IndexTables, indexEntries (spTreeOf content).entries ⟨[], [], []⟩ = .ok t ∧
      tables = t.toJVal := by
  obtain ⟨keys, hkeys, h1⟩ := bind_ok_inv h
  obtain ⟨cSld, hcSld, h2⟩ := bind_ok_inv h1
  obtain ⟨spTree, hspTree, h3⟩ := bind_ok_inv h2
  obtain ⟨t, ht, h4⟩ := bind_ok_inv h3
  simp only [pure, Except.pure] at h4
  cases h4
  have e1 := (objectKeys_ok_inv hkeys).2
  have e2 := (getProp_ok_inv hcSld).2
  have e3 := (getProp_ok_inv hspTree).2
  subst e1 e2 e3
  exact ⟨t, ht, rfl⟩

theorem objectKeys_ok {v : JVal} (h : v.isNullish = false) :
    objectKeys v = .ok (v.entries.map Prod.fst) := by
  cases v <;> first | rfl | cases h

/-- The function `indexNodes` returns when the part, its root and its `p:cSld` are not
`undefined` or `null` and no visited child of the shape tree is. -/
theorem indexNodes_ok (content : JVal) (hcontent : content.isNullish = false)
    (hroot : (content.get (firstKey (content.entries.map Prod.fst))).isNullish = false)
    (hcSld : ((content.get (firstKey (content.entries.map Prod.fst))).get "p:cSld").isNullish = false)
    (hchildren : ∀ c ∈ indexedNodes (spTreeOf content).entries, c.isNullish = false) :
    ∃ t : IndexTables, indexEntries (spTreeOf content).entries ⟨[], [], []⟩ = .ok t ∧
      indexNodes content = .ok t.toJVal := by
  obtain ⟨t, ht⟩ := indexEntries_ok _ ⟨[], [], []⟩ hchildren
  refine ⟨t, ht, ?_⟩
  simp only [spTreeOf] at ht
  simp only [indexNodes, objectKeys_ok hcontent, getProp_ok hroot, getProp_ok hcSld, bind,
    Except.bind, ht, pure, Except.pure]

theorem tableSlot_toJVal (t : IndexTables) (k : String) :
    tableSlot t.toJVal "idTable" k = lookupKey k t.idTable ∧
      tableSlot t.toJVal "idxTable" k = lookupKey k t.idxTable ∧
      tableSlot t.toJVal "typeTable" k = lookupKey k t.typeTable :=
  ⟨rfl, rfl, rfl⟩

/-- The slots of the tables `indexNodes` returns: each holds the last visited child that
carries its key. -/
theorem indexNodes_tableSlot {content tables : JVal} (h : indexNodes content = .ok tables)
    (k : String) :
    tableSlot tables "idTable" k =
        lastCarrying nvId k (indexedNodes (spTreeOf content).entries) ∧
      tableSlot tables "idxTable" k =
        lastCarrying nvIdx k (indexedNodes (spTreeOf content).entries) ∧
      tableSlot tables "typeTable" k =
        lastCarrying nvType k (indexedNodes (spTreeOf content).entries) := by
  obtain ⟨t, ht, htables⟩ := indexNodes_ok_inv h
  subst htables
  obtain ⟨a1, a2, a3⟩ := indexEntries_slots _ _ _ ht k
  obtain ⟨b1, b2, b3⟩ := tableSlot_toJVal t k
  rw [b1, b2, b3, a1, a2, a3]
  simp [lookupKey]

/-- The node the last search finds is in the list and carries the key. -/
theorem lastCarrying_some {attr : JVal → JVal} {k : String} {cs : List JVal} {n : JVal}
    (h : lastCarrying attr k cs = some n) :
    n ∈ cs ∧ (attr n).truthy = true ∧ toPropertyKey (attr n) = k := by
  have h1 := List.find?_some h
  have h2 := List.mem_of_find?_eq_some h
  simp only [carriesKey, Bool.and_eq_true, beq_iff_eq] at h1
  exact ⟨List.mem_reverse.mp h2, h1.1, h1.2⟩

/-- A list that holds a node carrying the key has a last such node. -/
theorem lastCarrying_of_mem {attr : JVal → JVal} {cs : List JVal} {c : JVal}
    (hc : c ∈ cs) (ht : (attr c).truthy = true) :
    ∃ n, lastCarrying attr (toPropertyKey (attr c)) cs = some n := by
  cases hf : lastCarrying attr (toPropertyKey (attr c)) cs with
  | some n => exact ⟨n, rfl⟩
  | none =>
    have := List.find?_eq_none.mp hf c (List.mem_reverse.mpr hc)
    simp [carriesKey, ht] at this

/-- A visited node is a direct child of the shape tree under a key other than the two
property containers: the value of the key, or an item of it when it is an array. -/
theorem mem_indexedNodes {kvs : List (String × JVal)} {n : JVal} (h : n ∈ indexedNodes kvs) :
    ∃ (key : String) (v : JVal), (key, v) ∈ kvs ∧ key ≠ "p:nvGrpSpPr" ∧ key ≠ "p:grpSpPr" ∧
      (n = v ∨ ∃ items, v = .arr items ∧ n ∈ items) := by
  induction kvs with
  | nil => simp [indexedNodes_nil] at h
  | cons kv rest ih =>
    obtain ⟨key, v⟩ := kv
    by_cases hskip : key = "p:nvGrpSpPr" ∨ key = "p:grpSpPr"
    · rw [indexedNodes_skip key v rest hskip] at h
      obtain ⟨key', v', hm, h1, h2, h3⟩ := ih h
      exact ⟨key', v', List.mem_cons_of_mem _ hm, h1, h2, h3⟩
    · have hk1 : key ≠ "p:nvGrpSpPr" := fun e => hskip (Or.inl e)
      have hk2 : key ≠ "p:grpSpPr" := fun e => hskip (Or.inr e)
      by_cases harr : ∃ items, v = .arr items
      · obtain ⟨items, hitems⟩ := harr
        subst hitems
        rw [indexedNodes_arr key items rest hskip] at h
        rcases List.mem_append.mp h with h | h
        · exact ⟨key, .arr items, List.mem_cons_self _ _, hk1, hk2, Or.inr ⟨items, rfl, h⟩⟩
        · obtain ⟨key', v', hm, h1, h2, h3⟩ := ih h
          exact ⟨key', v', List.mem_cons_of_mem _ hm, h1, h2, h3⟩
      · have hv : ∀ items, v ≠ .arr items := fun items hi => harr ⟨items, hi⟩
        rw [indexedNodes_one key v rest hskip hv] at h
        rcases List.mem_cons.mp h with h | h
        · exact ⟨key, v, List.mem_cons_self _ _, hk1, hk2, Or.inl h⟩
        · obtain ⟨key', v', hm, h1, h2, h3⟩ := ih h
          exact ⟨key', v', List.mem_cons_of_mem _ hm, h1, h2, h3⟩

/-- C17 (counterexample): the shape tree of the layout `sampleLayoutPart` holds the picture
`samplePicture`, whose non-visual properties carry the shape id 4, the placeholder index 1 and
the placeholder type `pic`, and the connector `sampleConnector`, whose non-visual properties
carry the shape id 3; after indexing no table has a slot for any of these keys. -/
theorem indexNodes_picture_counterexample :
    ∃ tables : JVal, indexNodes sampleLayoutPart = .ok tables ∧
      indexedNodes (spTreeOf sampleLayoutPart).entries =
        [sampleTitle "2", sampleTitle "5", sampleConnector 1, samplePicture] ∧
      getTextByPathList samplePicture ["p:nvPicPr", "p:cNvPr", "attrs", "id"] = .str "4" ∧
      getTextByPathList samplePicture ["p:nvPicPr", "p:nvPr", "p:ph", "attrs", "idx"] = .str "1" ∧
      getTextByPathList samplePicture ["p:nvPicPr", "p:nvPr", "p:ph", "attrs", "type"] =
        .str "pic" ∧
      getTextByPathList (sampleConnector 1) ["p:nvCxnSpPr", "p:cNvPr", "attrs", "id"] = .str "3" ∧
      tableSlot tables "idTable" "4" = none ∧ tableSlot tables "idxTable" "1" = none ∧
      tableSlot tables "typeTable" "pic" = none ∧ tableSlot tables "idTable" "3" = none :=
  ⟨_, rfl, rfl, rfl, rfl, rfl, rfl, rfl, rfl, rfl, rfl⟩

/-- C17 (amended): for a layout or master part whose root and `p:cSld` are present and whose
shape tree has no child that is `undefined` or `null`, `indexNodes` returns, and every visited
direct child that carries a truthy shape id (placeholder index, placeholder type) under
`p:nvSpPr`, as a shape does, is registered: the slot of that key in `idTable` (`idxTable`,
`typeTable`) holds a visited child that carries the same key. A node without `p:nvSpPr`, as a
connector, a picture or a graphic frame is, is in no slot of the three tables. -/
theorem indexNodes_registers_shapes (content : JVal) (hcontent : content.isNullish = false)
    (hroot : (content.get (firstKey (content.entries.map Prod.fst))).isNullish = false)
    (hcSld : ((content.get (firstKey (content.entries.map Prod.fst))).get "p:cSld").isNullish = false)
    (hchildren : ∀ c ∈ indexedNodes (spTreeOf content).entries, c.isNullish = false) :
    ∃ tables : JVal, indexNodes content = .ok tables ∧
      (∀ c ∈ indexedNodes (spTreeOf content).entries,
        ((nvId c).truthy = true →
          ∃ n, tableSlot tables "idTable" (toPropertyKey (nvId c)) = some n ∧
            n ∈ indexedNodes (spTreeOf content).entries ∧ (nvId n).truthy = true ∧
            toPropertyKey (nvId n) = toPropertyKey (nvId c)) ∧
        ((nvIdx c).truthy = true →
          ∃ n, tableSlot tables "idxTable" (toPropertyKey (nvIdx c)) = some n ∧
            n ∈ indexedNodes (spTreeOf content).entries ∧ (nvIdx n).truthy = true ∧
            toPropertyKey (nvIdx n) = toPropertyKey (nvIdx c)) ∧
        ((nvType c).truthy = true →
          ∃ n, tableSlot tables "typeTable" (toPropertyKey (nvType c)) = some n ∧
            n ∈ indexedNodes (spTreeOf content).entries ∧ (nvType n).truthy = true ∧
            toPropertyKey (nvType n) = toPropertyKey (nvType c))) ∧
      (∀ c : JVal, (c.get "p:nvSpPr").truthy = false → ∀ k : String,
        tableSlot tables "idTable" k ≠ some c ∧ tableSlot tables "idxTable" k ≠ some c ∧
          tableSlot tables "typeTable" k ≠ some c) := by
  obtain ⟨t, _, ht⟩ := indexNodes_ok content hcontent hroot hcSld hchildren
  refine ⟨t.toJVal, ht, ?_, ?_⟩
  swap
  · intro c hc k
    have hf : ∀ path : List String, path ≠ [] →
        (getTextByPathList (c.get "p:nvSpPr") path).truthy = false := by
      intro path hpath
      cases path with
      | nil => exact absurd rfl hpath
      | cons key rest =>
        cases hx : (getTextByPathList (c.get "p:nvSpPr") (key :: rest)).truthy with
        | false => rfl
        | true =>
          rw [getTextByPathList_truthy _ _ _ hx] at hc
          cases hc
    refine ⟨?_, ?_, ?_⟩
    · intro h
      rw [(indexNodes_tableSlot ht k).1] at h
      have h1 := (lastCarrying_some h).2.1
      rw [nvId, hf _ (by simp)] at h1
      cases h1
    · intro h
      rw [(indexNodes_tableSlot ht k).2.1] at h
      have h1 := (lastCarrying_some h).2.1
      rw [nvIdx, hf _ (by simp)] at h1
      cases h1
    · intro h
      rw [(indexNodes_tableSlot ht k).2.2] at h
      have h1 := (lastCarrying_some h).2.1
      rw [nvType, hf _ (by simp)] at h1
      cases h1
  intro c hc
  refine ⟨?_, ?_, ?_⟩
  · intro hk
    obtain ⟨n, hn⟩ := lastCarrying_of_mem hc hk
    exact ⟨n, by rw [(indexNodes_tableSlot ht _).1, hn], lastCarrying_some hn⟩
  · intro hk
    obtain ⟨n, hn⟩ := lastCarrying_of_mem hc hk
    exact ⟨n, by rw [(indexNodes_tableSlot ht _).2.1, hn], lastCarrying_some hn⟩
  · intro hk
    obtain ⟨n, hn⟩ := lastCarrying_of_mem hc hk
    exact ⟨n, by rw [(indexNodes_tableSlot ht _).2.2, hn], lastCarrying_some hn⟩
theorem indexNodes_registers_shapes_witness :
    ∃ tables : JVal, indexNodes sampleLayoutPart = .ok tables ∧
      (∀ c ∈ indexedNodes (spTreeOf sampleLayoutPart).entries,
        ((nvId c).truthy = true →
          ∃ n, tableSlot tables "idTable" (toPropertyKey (nvId c)) = some n ∧
            n ∈ indexedNodes (spTreeOf sampleLayoutPart).entries ∧ (nvId n).truthy = true ∧
            toPropertyKey (nvId n) = toPropertyKey (nvId c)) ∧
        ((nvIdx c).truthy = true →
          ∃ n, tableSlot tables "idxTable" (toPropertyKey (nvIdx c)) = some n ∧
            n ∈ indexedNodes (spTreeOf sampleLayoutPart).entries ∧ (nvIdx n).truthy = true ∧
            toPropertyKey (nvIdx n) = toPropertyKey (nvIdx c)) ∧
        ((nvType c).truthy = true →
          ∃ n, tableSlot tables "typeTable" (toPropertyKey (nvType c)) = some n ∧
            n ∈ indexedNodes (spTreeOf sampleLayoutPart).entries ∧ (nvType n).truthy = true ∧
            toPropertyKey (nvType n) = toPropertyKey (nvType c))) ∧
      (∀ c : JVal, (c.get "p:nvSpPr").truthy = false → ∀ k : String,
        tableSlot tables "idTable" k ≠ some c ∧ tableSlot tables "idxTable" k ≠ some c ∧
          tableSlot tables "typeTable" k ≠ some c) :=
  indexNodes_registers_shapes sampleLayoutPart rfl rfl rfl (by decide)

/-- C18: in the tables `indexNodes` returns, the slot of a key `k` holds the last visited
child, in the order of the loops, that carries `k` in the attribute of the table (shape id for
`idTable`, placeholder index for `idxTable`, placeholder type for `typeTable`); so every stored
node carries the key of its slot, occupies no second slot of the table, and is a direct child
of the shape tree under a key other than `p:nvGrpSpPr` and `p:grpSpPr`: the value of that key,
or an item of it when the value is an array. -/
theorem indexNodes_keyed_last_direct (content tables : JVal)
    (h : indexNodes content = .ok tables) :
    (∀ k : String, tableSlot tables "idTable" k =
        lastCarrying nvId k (indexedNodes (spTreeOf content).entries)) ∧
    (∀ k : String, tableSlot tables "idxTable" k =
        lastCarrying nvIdx k (indexedNodes (spTreeOf content).entries)) ∧
    (∀ k : String, tableSlot tables "typeTable" k =
        lastCarrying nvType k (indexedNodes (spTreeOf content).entries)) ∧
    (∀ (k : String) (n : JVal), tableSlot tables "idTable" k = some n →
        (nvId n).truthy = true ∧ toPropertyKey (nvId n) = k) ∧
    (∀ (k : String) (n : JVal), tableSlot tables "idxTable" k = some n →
        (nvIdx n).truthy = true ∧ toPropertyKey (nvIdx n) = k) ∧
    (∀ (k : String) (n : JVal), tableSlot tables "typeTable" k = some n →
        (nvType n).truthy = true ∧ toPropertyKey (nvType n) = k) ∧
    (∀ (tbl k k' : String) (n : JVal), tbl ∈ ["idTable", "idxTable", "typeTable"] →
        tableSlot tables tbl k = some n → tableSlot tables tbl k' = some n → k = k') ∧
    (∀ (tbl k : String) (n : JVal), tbl ∈ ["idTable", "idxTable", "typeTable"] →
        tableSlot tables tbl k = some n →
        ∃ (key : String) (v : JVal), (key, v) ∈ (spTreeOf content).entries ∧
          key ≠ "p:nvGrpSpPr" ∧ key ≠ "p:grpSpPr" ∧
          (n = v ∨ ∃ items, v = .arr items ∧ n ∈ items)) := by
  have hs := indexNodes_tableSlot h
  have h1 : ∀ (k : String) (n : JVal), tableSlot tables "idTable" k = some n →
      n ∈ indexedNodes (spTreeOf content).entries ∧ (nvId n).truthy = true ∧
        toPropertyKey (nvId n) = k := by
    intro k n hn
    rw [(hs k).1] at hn
    exact lastCarrying_some hn
  have h2 : ∀ (k : String) (n : JVal), tableSlot tables "idxTable" k = some n →
      n ∈ indexedNodes (spTreeOf content).entries ∧ (nvIdx n).truthy = true ∧
        toPropertyKey (nvIdx n) = k := by
    intro k n hn
    rw [(hs k).2.1] at hn
    exact lastCarrying_some hn
  have h3 : ∀ (k : String) (n : JVal), tableSlot tables "typeTable" k = some n →
      n ∈ indexedNodes (spTreeOf content).entries ∧ (nvType n).truthy = true ∧
        toPropertyKey (nvType n) = k := by
    intro k n hn
    rw [(hs k).2.2] at hn
    exact lastCarrying_some hn
  refine ⟨fun k => (hs k).1, fun k => (hs k).2.1, fun k => (hs k).2.2,
    fun k n hn => (h1 k n hn).2, fun k n hn => (h2 k n hn).2, fun k n hn => (h3 k n hn).2,
    ?_, ?_⟩
  · intro tbl k k' n htbl hk hk'
    simp only [List.mem_cons, List.mem_singleton, List.mem_nil_iff, or_false] at htbl
    rcases htbl with e | e | e <;> subst e
    · rw [← (h1 k n hk).2.2, ← (h1 k' n hk').2.2]
    · rw [← (h2 k n hk).2.2, ← (h2 k' n hk').2.2]
    · rw [← (h3 k n hk).2.2, ← (h3 k' n hk').2.2]
  · intro tbl k n htbl hk
    simp only [List.mem_cons, List.mem_singleton, List.mem_nil_iff, or_false] at htbl
    rcases htbl with e | e | e <;> subst e
    · exact mem_indexedNodes (h1 k n hk).1
    · exact mem_indexedNodes (h2 k n hk).1
    · exact mem_indexedNodes (h3 k n hk).1

theorem indexNodes_keyed_last_direct_witness :
    indexNodes sampleLayoutPart = .ok (okVal (indexNodes sampleLayoutPart)) ∧
    tableSlot (okVal (indexNodes sampleLayoutPart)) "typeTable" "title" = some (sampleTitle "5") ∧
    tableSlot (okVal (indexNodes sampleLayoutPart)) "typeTable" "title" =
      lastCarrying nvType "title" (indexedNodes (spTreeOf sampleLayoutPart).entries) :=
  ⟨rfl, rfl, (indexNodes_keyed_last_direct sampleLayoutPart (okVal (indexNodes sampleLayoutPart))
    rfl).2.2.1 "title"⟩

/-! ## The theme of the presentation -/

theorem findThemeURI_eq :
    ∀ items : List JVal, (∀ r ∈ items, (r.get "attrs").isNullish = false) →
      findThemeURI items = .ok (firstThemeTarget (.arr items)) := by
  intro items
  induction items with
  | nil => intro _; rfl
  | cons r rest ih =>
    intro h
    have hattrs := h r (List.mem_cons_self _ _)
    obtain ⟨kvs, hr⟩ := obj_of_get_not_nullish hattrs
    have hrn : r.isNullish = false := by rw [hr]; rfl
    have ih' := ih (fun r' hr' => h r' (List.mem_cons_of_mem _ hr'))
    simp only [findThemeURI, getProp_ok hrn, getProp_ok hattrs, bind, Except.bind]
    cases ht : isThemeRel r with
    | true =>
      have ht' := ht
      simp only [isThemeRel] at ht'
      simp only [ht', if_true, firstThemeTarget, asList, List.find?_cons, ht, relTargetOf]
    | false =>
      have ht' := ht
      simp only [isThemeRel] at ht'
      simp only [ht', Bool.false_eq_true, if_false, ih', firstThemeTarget, asList,
        List.find?_cons, ht]

/-- The function `loadTheme` on relationships whose records all have attributes: the error
when the first relationship of the theme type has no truthy target or there is none, else the
part `'ppt/' + Target` of that relationship. -/
theorem loadTheme_eq (env : Env) (pre rels ra : JVal)
    (hread : env.readXmlFile (.str "ppt/_rels/presentation.xml.rels") = .ok pre)
    (hrels : getProp pre "Relationships" = .ok rels)
    (hra : getProp rels "Relationship" = .ok ra)
    (hwf : ∀ r ∈ asList ra, (r.get "attrs").isNullish = false) :
    loadTheme env =
      if (firstThemeTarget ra).truthy then
        env.readXmlFile (.str ("ppt/" ++ toPropertyKey (firstThemeTarget ra)))
      else .error (.error "Can't open theme file.") := by
  have hfin : ∀ uri : JVal,
      (do
        if !uri.truthy then throw (Err.error "Can't open theme file.")
        env.readXmlFile (.str ("ppt/" ++ toPropertyKey uri)) : Except Err JVal) =
      if uri.truthy then env.readXmlFile (.str ("ppt/" ++ toPropertyKey uri))
      else .error (.error "Can't open theme file.") := by
    intro uri
    cases uri.truthy <;> rfl
  cases ra with
  | arr items =>
    have h1 := findThemeURI_eq items hwf
    simp only [loadTheme, hread, hrels, hra, isArrayCtor, h1, bind, Except.bind]
    exact hfin _
  | obj kvs =>
    have hattrs := hwf (.obj kvs) (List.mem_cons_self _ _)
    have hg : getProp (JVal.obj kvs) "attrs" = .ok ((JVal.obj kvs).get "attrs") := rfl
    simp only [loadTheme, hread, hrels, hra, isArrayCtor, hg, getProp_ok hattrs, bind,
      Except.bind]
    cases ht : isThemeRel (.obj kvs) with
    | true =>
      have ht' := ht
      simp only [isThemeRel] at ht'
      simp only [ht', if_true, firstThemeTarget, asList, List.find?_cons, ht, relTargetOf]
      exact hfin _
    | false =>
      have ht' := ht
      simp only [isThemeRel] at ht'
      simp only [ht', Bool.false_eq_true, if_false, firstThemeTarget, asList, List.find?_cons,
        List.find?_nil, ht, pure, Except.pure]
      exact hfin _
  | undefined => exact absurd (hwf .undefined (List.mem_cons_self _ _)) (by decide)
  | null => exact absurd (hwf .null (List.mem_cons_self _ _)) (by decide)
  | bool b => exact absurd (hwf (.bool b) (List.mem_cons_self _ _)) (by simp [JVal.get, JVal.isNullish])
  | num q => exact absurd (hwf (.num q) (List.mem_cons_self _ _)) (by simp [JVal.get, JVal.isNullish])
  | str s => exact absurd (hwf (.str s) (List.mem_cons_self _ _)) (by simp [JVal.get, JVal.isNullish])

/-- C19 (counterexample): the relationships of the presentation of `emptyThemeEnv` hold two
entries of the theme type, the first with the target `""`, the second with the target
`theme/theme1.xml`; an entry of the theme type with a non-empty target exists, and `loadTheme`
fails with `Can't open theme file.`: the loop stops at the first entry of the theme type
(line 91). -/
theorem loadTheme_first_entry_counterexample :
    ∃ pre ra : JVal,
      emptyThemeEnv.readXmlFile (.str "ppt/_rels/presentation.xml.rels") = .ok pre ∧
      getProp (pre.get "Relationships") "Relationship" = .ok ra ∧
      (∃ r ∈ asList ra, isThemeRel r = true ∧ relTargetOf r = .str "theme/theme1.xml" ∧
        (relTargetOf r).truthy = true) ∧
      loadTheme emptyThemeEnv = .error (.error "Can't open theme file.") :=
  ⟨_, _, rfl, rfl,
    ⟨relRecord "rId2"
      "http://schemas.openxmlformats.org/officeDocument/2006/relationships/theme"
      "theme/theme1.xml", List.mem_cons_of_mem _ (List.mem_cons_self _ _), rfl, rfl, rfl⟩,
    rfl⟩

/-- C19 (amended): for relationships of the presentation, given as a list or as a single
record, whose records all have attributes, and a reader that does not itself fail with that
message, `loadTheme` fails with `Can't open theme file.` if and only if there is no entry of
the theme type or the first such entry has no truthy target; otherwise it reads the part
`'ppt/' + Target` of the first entry of the theme type. -/
theorem loadTheme_first_theme_entry (env : Env) (pre rels ra : JVal)
    (hread : env.readXmlFile (.str "ppt/_rels/presentation.xml.rels") = .ok pre)
    (hrels : getProp pre "Relationships" = .ok rels)
    (hra : getProp rels "Relationship" = .ok ra)
    (hwf : ∀ r ∈ asList ra, (r.get "attrs").isNullish = false)
    (hreader : ∀ p : JVal, env.readXmlFile p ≠ .error (.error "Can't open theme file.")) :
    (loadTheme env = .error (.error "Can't open theme file.") ↔
      ((asList ra).find? isThemeRel = none ∨
        ∃ r, (asList ra).find? isThemeRel = some r ∧ (relTargetOf r).truthy = false)) ∧
    (∀ r, (asList ra).find? isThemeRel = some r → (relTargetOf r).truthy = true →
      loadTheme env = env.readXmlFile (.str ("ppt/" ++ toPropertyKey (relTargetOf r)))) := by
  have heq := loadTheme_eq env pre rels ra hread hrels hra hwf
  refine ⟨⟨?_, ?_⟩, ?_⟩
  · intro h
    cases hf : (asList ra).find? isThemeRel with
    | none => exact Or.inl rfl
    | some r =>
      refine Or.inr ⟨r, rfl, ?_⟩
      cases ht : (relTargetOf r).truthy with
      | false => rfl
      | true =>
        rw [heq] at h
        simp only [firstThemeTarget, hf, ht, if_true] at h
        exact absurd h (hreader _)
  · intro h
    rw [heq]
    rcases h with h | ⟨r, h, ht⟩
    · simp only [firstThemeTarget, h]
      rfl
    · simp only [firstThemeTarget, h, ht, Bool.false_eq_true, if_false]
  · intro r h ht
    rw [heq]
    simp only [firstThemeTarget, h, ht, if_true]

theorem loadTheme_first_theme_entry_witness :
    (loadTheme themeEnv = .error (.error "Can't open theme file.") ↔
      ((asList (getTextByPathList (okVal (themeEnv.readXmlFile
          (.str "ppt/_rels/presentation.xml.rels"))) ["Relationships", "Relationship"])).find?
          isThemeRel = none ∨
        ∃ r, (asList (getTextByPathList (okVal (themeEnv.readXmlFile
          (.str "ppt/_rels/presentation.xml.rels"))) ["Relationships", "Relationship"])).find?
          isThemeRel = some r ∧ (relTargetOf r).truthy = false)) ∧
    (∀ r, (asList (getTextByPathList (okVal (themeEnv.readXmlFile
          (.str "ppt/_rels/presentation.xml.rels"))) ["Relationships", "Relationship"])).find?
          isThemeRel = some r → (relTargetOf r).truthy = true →
      loadTheme themeEnv =
        themeEnv.readXmlFile (.str ("ppt/" ++ toPropertyKey (relTargetOf r)))) :=
  loadTheme_first_theme_entry themeEnv _ _ _ rfl rfl rfl (by decide)
    (fun p h => by simp [themeEnv, readOrNull] at h)

/-! ## A slide without a layout -/

theorem isRelRecord_inv {r : JVal} (h : isRelRecord r = true) :
    ∃ ty tg : String, (r.get "attrs").get "Type" = .str ty ∧
      (r.get "attrs").get "Target" = .str tg := by
  simp only [isRelRecord] at h
  split at h
  · next ty tg hty htg => exact ⟨ty, tg, hty, htg⟩
  · cases h

theorem isRelRecord_not_nullish {r : JVal} (h : isRelRecord r = true) :
    r.isNullish = false ∧ (r.get "attrs").isNullish = false := by
  obtain ⟨ty, tg, hty, _⟩ := isRelRecord_inv h
  have h1 : (r.get "attrs").isNullish = false := by
    cases ha : r.get "attrs" <;> first | rfl | (rw [ha] at hty; cases hty)
  obtain ⟨kvs, hr⟩ := obj_of_get_not_nullish h1
  exact ⟨by rw [hr]; rfl, h1⟩

theorem relTarget_ok {attrs : JVal} {tg : String} (hn : attrs.isNullish = false)
    (htg : attrs.get "Target" = .str tg) :
    relTarget attrs = .ok (.str (replaceFirst tg "../" "ppt/")) := by
  simp only [relTarget, getProp_ok hn, htg, bind, Except.bind, jsReplace]

theorem addRel_ok (resObj : List (String × JVal)) {r : JVal} (h : isRelRecord r = true) :
    ∃ resObj', addRel resObj r = .ok resObj' := by
  obtain ⟨ty, tg, hty, htg⟩ := isRelRecord_inv h
  obtain ⟨hrn, han⟩ := isRelRecord_not_nullish h
  simp only [addRel, relEntry, relType, relTarget, getProp_ok hrn, getProp_ok han, hty, htg,
    bind, Except.bind, jsReplace, pure, Except.pure]
  exact ⟨_, rfl⟩

/-- One turn of the loop over the relationships of a slide, on a record that is not of the
slide layout type, leaves the layout file name as it is. -/
theorem slideRel_keeps_layout (st : SlideRels) {r : JVal} (hwf : isRelRecord r = true)
    (hno : isLayoutRel r = false) :
    ∃ st', slideRel st r = .ok st' ∧ st'.layoutFilename = st.layoutFilename := by
  obtain ⟨ty, tg, hty, htg⟩ := isRelRecord_inv hwf
  obtain ⟨hrn, han⟩ := isRelRecord_not_nullish hwf
  obtain ⟨resObj', hadd⟩ := addRel_ok st.slideResObj hwf
  have hne : ty ≠ "http://schemas.openxmlformats.org/officeDocument/2006/relationships/slideLayout" := by
    intro e
    simp [isLayoutRel, hty, JVal.isStr, e] at hno
  simp only [slideRel, getProp_ok hrn, getProp_ok han, hty, bind, Except.bind]
  split
  · next heq =>
    cases heq
    exact absurd rfl hne
  · simp only [relTarget_ok han htg, hadd, pure, Except.pure]
    exact ⟨_, rfl, rfl⟩
  · simp only [relTarget_ok han htg, pure, Except.pure]
    exact ⟨_, rfl, rfl⟩
  · simp only [hadd, pure, Except.pure]
    exact ⟨_, rfl, rfl⟩

/-- The loop over relationships none of which is of the slide layout type leaves the layout
file name as it is. -/
theorem slideRels_keeps_layout :
    ∀ (items : List JVal) (st : SlideRels),
      (∀ r ∈ items, isRelRecord r = true) → (∀ r ∈ items, isLayoutRel r = false) →
      ∃ st', slideRels items st = .ok st' ∧ st'.layoutFilename = st.layoutFilename := by
  intro items
  induction items with
  | nil => exact fun st _ _ => ⟨st, rfl, rfl⟩
  | cons r rest ih =>
    intro st hwf hno
    obtain ⟨st1, h1, e1⟩ := slideRel_keeps_layout st (hwf r (List.mem_cons_self _ _))
      (hno r (List.mem_cons_self _ _))
    obtain ⟨st', h2, e2⟩ := ih st1 (fun r' hr' => hwf r' (List.mem_cons_of_mem _ hr'))
      (fun r' hr' => hno r' (List.mem_cons_of_mem _ hr'))
    exact ⟨st', by simp only [slideRels, h1, bind, Except.bind]; exact h2, by rw [e2, e1]⟩

/-- The target of a well-formed relationship record, as a path. -/
theorem relTarget_eq {r : JVal} (h : isRelRecord r = true) :
    relTarget (r.get "attrs") = .ok (.str (relPath r)) := by
  obtain ⟨ty, tg, hty, htg⟩ := isRelRecord_inv h
  rw [relTarget_ok (isRelRecord_not_nullish h).2 htg]
  simp only [relPath, relTargetOf, htg, JVal.strD]

/-- The relationships of a slide none of which is of the slide layout type leave the layout
file name `layoutNameOf`. -/
theorem slideRelsOf_without_layout {ra : JVal}
    (hwf : ∀ r ∈ asList ra, isRelRecord r = true)
    (hno : ∀ r ∈ asList ra, isLayoutRel r = false) :
    ∃ st, slideRelsOf ra = .ok st ∧ st.layoutFilename = layoutNameOf ra := by
  have hsingle : ∀ r : JVal, isRelRecord r = true → (∀ items, r ≠ .arr items) →
      slideRelsOf r = .ok ⟨relPath r, "", "", []⟩ := by
    intro r hrec hna
    obtain ⟨hrn, han⟩ := isRelRecord_not_nullish hrec
    obtain ⟨kvs, hr⟩ := obj_of_get_not_nullish han
    subst hr
    simp only [slideRelsOf, isArrayCtor, getProp_ok hrn, relTarget_eq hrec, bind,
      Except.bind, pure, Except.pure, JVal.strD]
  cases ra with
  | arr items =>
    obtain ⟨st', hst, hlay⟩ := slideRels_keeps_layout items ⟨"", "", "", []⟩ hwf hno
    exact ⟨st', by simp only [slideRelsOf, isArrayCtor, hst, bind, Except.bind], hlay⟩
  | obj kvs =>
    exact ⟨_, hsingle _ (hwf _ (List.mem_cons_self _ _)) (fun _ h => by cases h), rfl⟩
  | undefined => exact absurd (hwf .undefined (List.mem_cons_self _ _)) (by decide)
  | null => exact absurd (hwf .null (List.mem_cons_self _ _)) (by decide)
  | bool b => exact absurd (hwf (.bool b) (List.mem_cons_self _ _)) (by simp [isRelRecord, JVal.get])
  | num q => exact absurd (hwf (.num q) (List.mem_cons_self _ _)) (by simp [isRelRecord, JVal.get])
  | str s => exact absurd (hwf (.str s) (List.mem_cons_self _ _)) (by simp [isRelRecord, JVal.get])

/-- The index of the nodes of a part that is `undefined` or `null` throws a `TypeError`: the
call `Object.keys(content)` of line 362. -/
theorem indexNodes_nullish {v : JVal} (h : v.isNullish = true) :
    indexNodes v = .error .typeError := by
  cases v <;> first | rfl | exact absurd h (by simp [JVal.isNullish])

/-- The first part of `processSingleSlide` on a slide without a relationship to a layout, when
the part reader has no tree for the layout file name: no context is returned, and the error is
the `TypeError` of line 362 unless the reader itself throws. -/
theorem slideContext_without_layout (env : Env) (sldFileName : String)
    (themeContent defaultTextStyle resContent rels ra : JVal)
    (hres : env.readXmlFile
      (.str (replaceFirst sldFileName "slides/slide" "slides/_rels/slide" ++ ".rels")) =
        .ok resContent)
    (hrels : getProp resContent "Relationships" = .ok rels)
    (hra : getProp rels "Relationship" = .ok ra)
    (hwf : ∀ r ∈ asList ra, isRelRecord r = true)
    (hno : ∀ r ∈ asList ra, isLayoutRel r = false)
    (hlay : (∃ e, env.readXmlFile (.str (layoutNameOf ra)) = .error e) ∨
      (∃ v, env.readXmlFile (.str (layoutNameOf ra)) = .ok v ∧ v.isNullish = true)) :
    ∃ err, slideContext env sldFileName themeContent defaultTextStyle = .error err ∧
      ((∀ p e, env.readXmlFile p ≠ .error e) → err = .typeError) := by
  obtain ⟨st, hst, hname⟩ := slideRelsOf_without_layout hwf hno
  rw [← hname] at hlay
  cases hn : env.readXmlFile (.str st.notesFilename) with
  | error e =>
    refine ⟨e, ?_, fun htot => absurd hn (htot _ _)⟩
    simp only [slideContext, hres, hrels, hra, hst, hn, bind, Except.bind]
  | ok notes =>
    rcases hlay with ⟨e, he⟩ | ⟨v, hv, hnull⟩
    · refine ⟨e, ?_, fun htot => absurd he (htot _ _)⟩
      simp only [slideContext, hres, hrels, hra, hst, hn, he, bind, Except.bind]
    · refine ⟨.typeError, ?_, fun _ => rfl⟩
      simp only [slideContext, hres, hrels, hra, hst, hn, hv, indexNodes_nullish hnull, bind,
        Except.bind]

/-- C20 (counterexample): with a part reader that returns `null` for a part the archive lacks,
slide 3 of `noLayoutArchive` (two relationships, to an image and to its notes) and slide 4 (a
single relationship, to an image) have no relationship to a layout, and `processSingleSlide`
throws the `TypeError` of `Object.keys(null)` (line 362): the failure is not an error of the
part reader and names no path. -/
theorem no_layout_type_error_counterexample :
    (∀ p e, noLayoutEnv.readXmlFile p ≠ .error e) ∧
    (∀ r ∈ asList ((((lookupKey "ppt/slides/_rels/slide3.xml.rels" noLayoutArchive).getD
        .undefined).get "Relationships").get "Relationship"), isLayoutRel r = false) ∧
    (∀ r ∈ asList ((((lookupKey "ppt/slides/_rels/slide4.xml.rels" noLayoutArchive).getD
        .undefined).get "Relationships").get "Relationship"), isLayoutRel r = false) ∧
    processSingleSlide noLayoutEnv "ppt/slides/slide3.xml" .undefined .undefined =
      .error .typeError ∧
    processSingleSlide noLayoutEnv "ppt/slides/slide4.xml" .undefined .undefined =
      .error .typeError ∧
    ∀ msg : String,
      processSingleSlide noLayoutEnv "ppt/slides/slide3.xml" .undefined .undefined ≠
        .error (.error msg) :=
  ⟨fun _ _ h => (by cases h), by decide, by decide, rfl, rfl, fun _ h => (by cases h)⟩

/-- C20 (amended): `processSingleSlide` on a slide whose relationships (a list, or a single
record) are well-formed records none of which is of the slide layout type, when the part
reader has no tree for the layout file name, returns no slide record. The layout file name is
the empty name in the list form and the target of the record in the single-record form; the
reader has no tree for it when it throws there or returns `undefined` or `null`. The error is
the one a read threw, and when no read throws it is the `TypeError` of `Object.keys` on the
missing layout (line 362). -/
theorem processSingleSlide_without_layout (env : Env) (sldFileName : String)
    (themeContent defaultTextStyle resContent rels ra : JVal)
    (hres : env.readXmlFile
      (.str (replaceFirst sldFileName "slides/slide" "slides/_rels/slide" ++ ".rels")) =
        .ok resContent)
    (hrels : getProp resContent "Relationships" = .ok rels)
    (hra : getProp rels "Relationship" = .ok ra)
    (hwf : ∀ r ∈ asList ra, isRelRecord r = true)
    (hno : ∀ r ∈ asList ra, isLayoutRel r = false)
    (hlay : (∃ e, env.readXmlFile (.str (layoutNameOf ra)) = .error e) ∨
      (∃ v, env.readXmlFile (.str (layoutNameOf ra)) = .ok v ∧ v.isNullish = true)) :
    ∃ err, processSingleSlide env sldFileName themeContent defaultTextStyle = .error err ∧
      ((∀ p e, env.readXmlFile p ≠ .error e) → err = .typeError) := by
  obtain ⟨err, h, herr⟩ := slideContext_without_layout env sldFileName themeContent
    defaultTextStyle resContent rels ra hres hrels hra hwf hno hlay
  exact ⟨err, by simp only [processSingleSlide, h, bind, Except.bind], herr⟩

theorem processSingleSlide_without_layout_witness :
    (∃ err, processSingleSlide noLayoutEnv "ppt/slides/slide4.xml" .undefined .undefined =
        .error err ∧
      ((∀ p e, noLayoutEnv.readXmlFile p ≠ .error e) → err = .typeError)) ∧
    layoutNameOf (relRecord "rId1"
      "http://schemas.openxmlformats.org/officeDocument/2006/relationships/image"
      "../media/image1.png") = "ppt/media/image1.png" :=
  ⟨processSingleSlide_without_layout noLayoutEnv "ppt/slides/slide4.xml" .undefined .undefined
    _ _ _ rfl rfl rfl (by decide) (by decide) (Or.inr ⟨.null, rfl, rfl⟩), rfl⟩

/-! ## Connectors, embedded objects and alternate content -/

/-- C24 (the code departs from the claim): the connector `samplePhConnector` is well formed
and its `p:nvPr` carries a placeholder of type `body`; `processCxnSpNode` throws a `TypeError`
and returns no element: with a placeholder present it reads the type from `node['p:nvSpPr']`
(line 545), which a connector does not have. The same connector without the placeholder is
processed. -/
theorem connector_placeholder_throws :
    getTextByPathList samplePhConnector ["p:nvCxnSpPr", "p:nvPr", "p:ph", "attrs", "type"] =
      .str "body" ∧
    samplePhConnector.get "p:nvSpPr" = .undefined ∧
    processCxnSpNode sampleEnv samplePhConnector sampleWarp = .error .typeError ∧
    processNode sampleEnv sampleWarp "slide" "p:cxnSp" samplePhConnector = .error .typeError ∧
    isOk (processCxnSpNode sampleEnv (sampleConnector 1) sampleWarp) = true :=
  ⟨rfl, rfl, rfl, rfl, rfl⟩

/-- C26 (the code departs from the claim): the graphic frame `sampleOleFrame` is of the
embedded-object kind and its alternate drawing tree is a group with a transform and one shape;
processed as a group that tree gives a group element with one child, and
`processGraphicFrameNode` returns `undefined`: the call of line 769 is made and its result is
dropped. -/
theorem ole_frame_returns_undefined :
    getTextByPathList sampleOleFrame ["a:graphic", "a:graphicData", "attrs", "uri"] =
      .str "http://schemas.openxmlformats.org/presentationml/2006/ole" ∧
    getTextByPathList sampleOleFrame
      ["a:graphic", "a:graphicData", "mc:AlternateContent", "mc:Fallback", "p:oleObj"] =
      .obj sampleGroupEntries ∧
    (∃ g child : JVal,
      processGroupSpNode sampleEnv (processNode sampleEnv sampleWarp "slide")
        (.obj sampleGroupEntries) = .ok g ∧
      g.truthy = true ∧ g.get "type" = .str "group" ∧ g.get "elements" = .arr [child]) ∧
    processGraphicFrameNode sampleEnv sampleOleFrame sampleWarp = .ok .undefined ∧
    processNode sampleEnv sampleWarp "slide" "p:graphicFrame" sampleOleFrame = .ok .undefined :=
  ⟨rfl, rfl, ⟨_, _, rfl, rfl, rfl, rfl⟩, rfl, rfl⟩
theorem processNode_alternateContent (env : Env) (warpObj : WarpObj) (source : String)
    (v : JVal) :
    processNode env warpObj source "mc:AlternateContent" v =
      if (getTextByPathList v ["mc:Fallback", "p:grpSpPr", "a:xfrm"]).truthy then
        processGroupSpNode env (processNode env warpObj source)
          (getTextByPathList v ["mc:Fallback"])
      else if (getTextByPathList v ["mc:Choice"]).truthy then
        processMathNode env (getTextByPathList v ["mc:Choice"])
      else .ok .undefined := by
  obtain ⟨n, hn⟩ : ∃ n, v.size = n + 1 := ⟨v.size - 1, by have := v.size_pos; omega⟩
  unfold processNode
  rw [hn]
  simp only [processNodesInSlide]
  split
  · apply processGroupSpNode_of_size
    intro k c hc
    have := getTextByPathList_size ["mc:Fallback"] v
    exact processNodesInSlide_eq_processNode env warpObj source n k c (by omega)
  · rfl

theorem getFirst_ok {v : JVal} (h : v.isNullish = false) : getFirst v = .ok (okVal (getFirst v)) := by
  cases v with
  | undefined => cases h
  | null => cases h
  | arr xs => cases xs <;> rfl
  | _ => rfl

/-- The function `processMathNode` on a node with attributes, for a search of math objects
that returns a value: the element `mathElement`. -/
theorem processMathNode_eq (env : Env) (node : JVal) (hnode : node.isNullish = false)
    (hattrs : (node.get "attrs").isNullish = false)
    (hfound : (env.findOMath node).isNullish = false) :
    processMathNode env node = .ok (mathElement env node) := by
  have hx := getFirst_ok hfound
  simp only [processMathNode, getProp_ok hnode, getProp_ok hattrs, bind, Except.bind, pure,
    Except.pure, mathElement]
  generalize getFirst (env.findOMath node) = g at hx ⊢
  cases g with
  | error e => cases hx
  | ok x => rfl

/-- C23 (counterexample): the alternate-content node `sampleChoiceNoMath` has a fallback
without group transform and a choice branch in which the search of math objects finds none;
`processNodesInSlide` yields an element, of type `math`. -/
theorem alternate_content_without_math_counterexample :
    ∃ e : JVal,
      (getTextByPathList sampleChoiceNoMath ["mc:Fallback", "p:grpSpPr", "a:xfrm"]).truthy
        = false ∧
      sampleEnv.findOMath (getTextByPathList sampleChoiceNoMath ["mc:Choice"]) = .arr [] ∧
      processNode sampleEnv sampleWarp "slide" "mc:AlternateContent" sampleChoiceNoMath = .ok e ∧
      e.truthy = true ∧ e.get "type" = .str "math" :=
  ⟨_, rfl, rfl, rfl, rfl, rfl⟩

/-- C23 (amended): for an `mc:AlternateContent` node, `processNodesInSlide` yields the result
of `processGroupSpNode` on the `mc:Fallback` branch if that branch carries
`p:grpSpPr/a:xfrm`; otherwise, if the node has an `mc:Choice` branch, the result of
`processMathNode` on that branch, which is an element of type `math` whenever the branch has
attributes and the search of math objects returns a value, whether or not it finds a math
object; otherwise `undefined`. -/
theorem processNode_alternateContent_cases (env : Env) (warpObj : WarpObj) (source : String)
    (v : JVal) :
    ((getTextByPathList v ["mc:Fallback", "p:grpSpPr", "a:xfrm"]).truthy = true →
      processNode env warpObj source "mc:AlternateContent" v =
        processGroupSpNode env (processNode env warpObj source)
          (getTextByPathList v ["mc:Fallback"])) ∧
    ((getTextByPathList v ["mc:Fallback", "p:grpSpPr", "a:xfrm"]).truthy = false →
      (getTextByPathList v ["mc:Choice"]).truthy = true →
      processNode env warpObj source "mc:AlternateContent" v =
        processMathNode env (getTextByPathList v ["mc:Choice"]) ∧
      (((getTextByPathList v ["mc:Choice"]).get "attrs").isNullish = false →
        (env.findOMath (getTextByPathList v ["mc:Choice"])).isNullish = false →
        processNode env warpObj source "mc:AlternateContent" v =
          .ok (mathElement env (getTextByPathList v ["mc:Choice"])) ∧
        (mathElement env (getTextByPathList v ["mc:Choice"])).get "type" = .str "math")) ∧
    ((getTextByPathList v ["mc:Fallback", "p:grpSpPr", "a:xfrm"]).truthy = false →
      (getTextByPathList v ["mc:Choice"]).truthy = false →
      processNode env warpObj source "mc:AlternateContent" v = .ok .undefined) := by
  refine ⟨?_, ?_, ?_⟩
  · intro h
    rw [processNode_alternateContent, h]
    rfl
  · intro h hc
    have heq : processNode env warpObj source "mc:AlternateContent" v =
        processMathNode env (getTextByPathList v ["mc:Choice"]) := by
      rw [processNode_alternateContent, h, hc]
      rfl
    refine ⟨heq, ?_⟩
    intro hattrs hfound
    rw [heq, processMathNode_eq env _ (truthy_not_nullish hc) hattrs hfound]
    exact ⟨rfl, rfl⟩
  · intro h hc
    rw [processNode_alternateContent, h, hc]
    rfl

theorem processNode_alternateContent_cases_witness :
    ((getTextByPathList sampleChoiceNoMath ["mc:Fallback", "p:grpSpPr", "a:xfrm"]).truthy
        = false →
      (getTextByPathList sampleChoiceNoMath ["mc:Choice"]).truthy = true →
      processNode sampleEnv sampleWarp "slide" "mc:AlternateContent" sampleChoiceNoMath =
        processMathNode sampleEnv (getTextByPathList sampleChoiceNoMath ["mc:Choice"]) ∧
      (((getTextByPathList sampleChoiceNoMath ["mc:Choice"]).get "attrs").isNullish = false →
        (sampleEnv.findOMath (getTextByPathList sampleChoiceNoMath ["mc:Choice"])).isNullish
          = false →
        processNode sampleEnv sampleWarp "slide" "mc:AlternateContent" sampleChoiceNoMath =
          .ok (mathElement sampleEnv (getTextByPathList sampleChoiceNoMath ["mc:Choice"])) ∧
        (mathElement sampleEnv (getTextByPathList sampleChoiceNoMath ["mc:Choice"])).get "type"
          = .str "math")) ∧
    (getTextByPathList sampleChoiceNoMath ["mc:Fallback", "p:grpSpPr", "a:xfrm"]).truthy
      = false ∧
    (getTextByPathList sampleChoiceNoMath ["mc:Choice"]).truthy = true :=
  ⟨(processNode_alternateContent_cases sampleEnv sampleWarp "slide" sampleChoiceNoMath).2.1,
    rfl, rfl⟩

/-! ## Column bands and single-cell rows -/

/-- C27 (counterexample): the table `sampleBandTable` has `bandCol` and `lastRow` set, no other
flag, and a style that defines `a:band2V`. Its cell (0, 1), in an odd column, gets the region
`a:band2V`. Its cell (1, 1), in the same column and in the last row, gets no region (line 872),
and its cell (0, 3), in an odd column that is the last one of a table with `lastCol` unset,
gets no region either (line 873). -/
theorem band_column_last_row_counterexample :
    ∃ t : JVal, genTable regionEnv sampleBandTable sampleWarpBand = .ok t ∧
      tblFlagsOf (getTextByPathList sampleBandTable
        ["a:graphic", "a:graphicData", "a:tbl", "a:tblPr", "attrs"]) = bandFlags ∧
      (getTextByPathList sampleBandStyle ["a:band2V"]).truthy = true ∧
      aSorceMulti bandFlags (attachFlags sampleBandStyle bandFlags) 0 1 2 4 = .str "a:band2V" ∧
      (tableCell t 0 1).get "fillColor" = .str "a:band2V" ∧
      aSorceMulti bandFlags (attachFlags sampleBandStyle bandFlags) 1 1 2 4 = .undefined ∧
      (tableCell t 1 1).get "fillColor" = .undefined ∧
      aSorceMulti bandFlags (attachFlags sampleBandStyle bandFlags) 0 3 2 4 = .undefined ∧
      (tableCell t 0 3).get "fillColor" = .undefined :=
  ⟨_, rfl, rfl, rfl, rfl, rfl, rfl, rfl, rfl, rfl⟩

/-- C27 (amended): in a table with `bandCol` set and a style in which `a:band2V` is not
`undefined`, take a cell of a row of `nCols` cells in an odd column `j > 0`. If the column is
not the last one, the cell gets the region `a:band2V` when its row is neither row 0 nor the
last row of a table with `lastRow` set, and also in row 0 when neither `firstCol` nor
`firstRow` is set; in the last row of a table with `lastRow` set it gets no region. If the
column is the last one and `lastCol` is unset, the cell gets no region. -/
theorem aSorceMulti_band (f : TblFlags) (thisTblStyle : JVal) (i j nRows nCols : Nat)
    (hband : f.isBandColAttr = true)
    (hdef : (getTextByPathList thisTblStyle ["a:band2V"]).isUndefined = false)
    (hj : 0 < j) (hodd : j % 2 ≠ 0) :
    (j ≠ nCols - 1 → (i = 0 → f.isFrstColAttr = false ∧ f.isFrstRowAttr = false) →
      ¬ (f.isLstRowAttr = true ∧ i = nRows - 1) →
      aSorceMulti f thisTblStyle i j nRows nCols = .str "a:band2V") ∧
    (j ≠ nCols - 1 → f.isLstRowAttr = true → i = nRows - 1 →
      aSorceMulti f thisTblStyle i j nRows nCols = .undefined) ∧
    (j = nCols - 1 → f.isLstColAttr = false →
      aSorceMulti f thisTblStyle i j nRows nCols = .undefined) := by
  have h0 : j ≠ 0 := by omega
  refine ⟨?_, ?_, ?_⟩
  · intro hlast hfirst hrow
    have hf : (f.isFrstColAttr && decide (i = 0)) = false := by
      cases h : (f.isFrstColAttr && decide (i = 0)) with
      | false => rfl
      | true =>
        simp only [Bool.and_eq_true, decide_eq_true_eq] at h
        rw [(hfirst h.2).1] at h
        exact absurd h.1 (by decide)
    have hr : (f.isLstRowAttr && decide (i = nRows - 1)) = false := by
      cases h : (f.isLstRowAttr && decide (i = nRows - 1)) with
      | false => rfl
      | true =>
        simp only [Bool.and_eq_true, decide_eq_true_eq] at h
        exact absurd h hrow
    unfold aSorceMulti
    simp [h0, hband, hdef, hj, hodd, hlast, hf, hr]
  · intro hlast hrow hi
    unfold aSorceMulti
    simp [h0, hlast, hrow, hi]
  · intro hlast hcol
    subst hlast
    unfold aSorceMulti
    simp [h0, hcol]

theorem aSorceMulti_band_witness :
    aSorceMulti bandFlags sampleBandStyle 0 1 2 4 = .str "a:band2V" ∧
    aSorceMulti bandFlags sampleBandStyle 1 1 2 4 = .undefined ∧
    aSorceMulti bandFlags sampleBandStyle 1 3 2 4 = .undefined :=
  ⟨(aSorceMulti_band bandFlags sampleBandStyle 0 1 2 4 rfl rfl (by decide) (by decide)).1
      (by decide) (fun _ => ⟨rfl, rfl⟩) (by decide),
    (aSorceMulti_band bandFlags sampleBandStyle 1 1 2 4 rfl rfl (by decide) (by decide)).2.1
      (by decide) rfl rfl,
    (aSorceMulti_band bandFlags sampleBandStyle 1 3 2 4 rfl rfl (by decide) (by decide)).2.2
      rfl rfl⟩

/-- C29 (counterexample): with `firstCol` and `lastRow` set and the other flags unset, the
branch for a row that holds a single cell record selects no region, and the branch for a row
that holds a list selects `a:firstCol` for the cell of a one-column row in row 0 of a table of
two rows. -/
theorem single_cell_branch_counterexample :
    aSorceSingle ⟨false, true, true, false, false, false⟩ sampleTblStyle = .undefined ∧
    aSorceMulti ⟨false, true, true, false, false, false⟩ sampleTblStyle 0 0 2 1 =
      .str "a:firstCol" ∧
    aSorceSingle ⟨false, false, false, false, false, true⟩ sampleTblStyle = .str "a:band2V" ∧
    aSorceMulti ⟨false, false, false, false, false, true⟩ sampleTblStyle 0 0 2 1 = .undefined :=
  ⟨rfl, rfl, rfl, rfl⟩

/-- C29 (amended): the branch for a row that holds a single cell record selects the same
region as the branch for a list would select for that cell as the only cell of its row,
whenever `lastRow` is unset, no corner of the first row applies (`firstRow` unset, or the row
is not row 0, or the style defines neither `a:neCell` nor `a:nwCell`) and the column band does
not apply alone (`bandCol` unset, or `firstCol` or `lastCol` set, or the style defines no
band). -/
theorem aSorceSingle_eq_aSorceMulti (f : TblFlags) (thisTblStyle : JVal) (i nRows : Nat)
    (hlastRow : f.isLstRowAttr = false)
    (hcorner : f.isFrstRowAttr = false ∨ i ≠ 0 ∨
      ((getTextByPathList thisTblStyle ["a:neCell"]).truthy = false ∧
        (getTextByPathList thisTblStyle ["a:nwCell"]).truthy = false))
    (hband : f.isBandColAttr = false ∨ f.isFrstColAttr = true ∨ f.isLstColAttr = true ∨
      ((getTextByPathList thisTblStyle ["a:band2V"]).truthy = false ∧
        (getTextByPathList thisTblStyle ["a:band1V"]).truthy = false)) :
    aSorceSingle f thisTblStyle = aSorceMulti f thisTblStyle i 0 nRows 1 := by
  have hne : (f.isFrstRowAttr && decide (i = 0) &&
      (getTextByPathList thisTblStyle ["a:neCell"]).truthy) = false := by
    rcases hcorner with h | h | h
    · simp [h]
    · simp [h]
    · simp [h.1]
  have hnw : (f.isFrstRowAttr && decide (i = 0) &&
      (getTextByPathList thisTblStyle ["a:nwCell"]).truthy) = false := by
    rcases hcorner with h | h | h
    · simp [h]
    · simp [h]
    · simp [h.2]
  unfold aSorceSingle aSorceMulti
  simp only [hlastRow, hne, hnw, Bool.false_and, Bool.not_false, Bool.and_true,
    Bool.false_eq_true, if_false, Nat.sub_self, decide_True, Bool.true_and, lt_self_iff_false,
    decide_False, Nat.lt_irrefl]
  cases hF : f.isFrstColAttr <;> cases hL : f.isLstColAttr <;> cases hB : f.isBandColAttr <;>
    simp_all

theorem aSorceSingle_eq_aSorceMulti_witness :
    aSorceSingle ⟨false, true, false, false, false, true⟩ sampleTblStyle =
        aSorceMulti ⟨false, true, false, false, false, true⟩ sampleTblStyle 0 0 2 1 ∧
      aSorceSingle ⟨false, true, false, false, false, true⟩ sampleTblStyle = .str "a:firstCol" :=
  ⟨aSorceSingle_eq_aSorceMulti ⟨false, true, false, false, false, true⟩ sampleTblStyle 0 2 rfl
    (Or.inl rfl) (Or.inr (Or.inl rfl)), rfl⟩

/-! ## The relationship loops -/

theorem reverse_find_cons {α : Type} (p : α → Bool) (c : α) (cs : List α) :
    (c :: cs).reverse.find? p = (cs.reverse.find? p).or (if p c then some c else none) := by
  simp only [List.reverse_cons, List.find?_append, List.find?_cons, List.find?_nil]
  cases p c <;> rfl

theorem isRelRecord_vals {r : JVal} (h : isRelRecord r = true) :
    relTypeOf r = .str (relTypeOf r).strD ∧ relTargetOf r = .str (relTargetOf r).strD := by
  obtain ⟨ty, tg, hty, htg⟩ := isRelRecord_inv h
  simp only [relTypeOf, relTargetOf, hty, htg, JVal.strD, and_self]

/-- The assignment of a well-formed record into a relationship table. -/
theorem addRel_eq (resObj : List (String × JVal)) {r : JVal} (h : isRelRecord r = true) :
    addRel resObj r = .ok (objSet resObj (relIdKey r) (relEntryOf r)) := by
  obtain ⟨ty, tg, hty, htg⟩ := isRelRecord_inv h
  obtain ⟨hrn, han⟩ := isRelRecord_not_nullish h
  simp only [addRel, relEntry, relType, relTarget, getProp_ok hrn, getProp_ok han, hty, htg,
    bind, Except.bind, jsReplace, pure, Except.pure, relIdKey, relEntryOf, relTypeOf, relPath,
    relTargetOf, JVal.strD]

/-- One turn of the loop over the relationships of a slide on a well-formed record
(lines 114-136). -/
theorem slideRel_eq (st : SlideRels) {r : JVal} (hwf : isRelRecord r = true) :
    slideRel st r = .ok
      { layoutFilename := if isLayoutRel r then relPath r else st.layoutFilename
        diagramFilename := if isDiagramRel r then relPath r else st.diagramFilename
        notesFilename := if isNotesRel r then relPath r else st.notesFilename
        slideResObj := if isStoredRel r then objSet st.slideResObj (relIdKey r) (relEntryOf r)
          else st.slideResObj } := by
  obtain ⟨ty, tg, hty, htg⟩ := isRelRecord_inv hwf
  obtain ⟨hrn, han⟩ := isRelRecord_not_nullish hwf
  have hadd := addRel_eq st.slideResObj hwf
  have htgt := relTarget_eq hwf
  simp only [slideRel, getProp_ok hrn, getProp_ok han, hty, bind, Except.bind]
  split
  · next heq =>
    cases heq
    simp [htgt, pure, Except.pure, isLayoutRel, isDiagramRel, isNotesRel, isStoredRel,
      relTypeOf, hty, JVal.isStr, JVal.strD]
  · next heq =>
    cases heq
    simp [htgt, hadd, pure, Except.pure, isLayoutRel, isDiagramRel, isNotesRel, isStoredRel,
      relTypeOf, hty, JVal.isStr, JVal.strD]
  · next heq =>
    cases heq
    simp [htgt, pure, Except.pure, isLayoutRel, isDiagramRel, isNotesRel, isStoredRel,
      relTypeOf, hty, JVal.isStr, JVal.strD]
  · next h1 h2 h3 =>
    have e1 : ty ≠ "http://schemas.openxmlformats.org/officeDocument/2006/relationships/slideLayout" :=
      fun e => h1 (by rw [e])
    have e2 : ty ≠ "http://schemas.microsoft.com/office/2007/relationships/diagramDrawing" :=
      fun e => h2 (by rw [e])
    have e3 : ty ≠ "http://schemas.openxmlformats.org/officeDocument/2006/relationships/notesSlide" :=
      fun e => h3 (by rw [e])
    simp [hadd, pure, Except.pure, isLayoutRel, isDiagramRel, isNotesRel, isStoredRel,
      relTypeOf, hty, JVal.isStr, e1, e2, e3]
theorem lookupKey_objSet (kvs : List (String × JVal)) (k k' : String) (v : JVal) :
    lookupKey k (objSet kvs k' v) = if k' = k then some v else lookupKey k kvs := by
  by_cases h : k' = k
  · subst h
    simp [lookupKey_objSet_same]
  · simp [h, lookupKey_objSet_ne _ _ h]

/-- The loop over a list of well-formed relationships of a slide (lines 113-137): the layout
file name is the path of the last record of the slide layout type, and a key of the table
holds the entry of the last stored record with that `Id`. -/
theorem slideRels_eq :
    ∀ (items : List JVal) (st : SlideRels), (∀ r ∈ items, isRelRecord r = true) →
      ∃ st', slideRels items st = .ok st' ∧
        st'.layoutFilename =
          ((items.reverse.find? isLayoutRel).map relPath).getD st.layoutFilename ∧
        ∀ k : String, lookupKey k st'.slideResObj =
          ((items.reverse.find? fun r => isStoredRel r && relIdKey r == k).map relEntryOf).or
            (lookupKey k st.slideResObj) := by
  intro items
  induction items with
  | nil => exact fun st _ => ⟨st, rfl, rfl, fun k => by simp⟩
  | cons r rest ih =>
    intro st hwf
    have hr := hwf r (List.mem_cons_self _ _)
    obtain ⟨st', h2, hl, hk⟩ := ih _ (fun r' hr' => hwf r' (List.mem_cons_of_mem _ hr'))
    refine ⟨st', ?_, ?_, ?_⟩
    · simp only [slideRels, slideRel_eq st hr, bind, Except.bind]
      exact h2
    · rw [hl, reverse_find_cons]
      cases rest.reverse.find? isLayoutRel <;> cases isLayoutRel r <;> simp
    · intro k
      rw [hk k, reverse_find_cons]
      cases hs : isStoredRel r with
      | false => simp
      | true =>
        simp only [if_true, lookupKey_objSet, Bool.true_and, beq_iff_eq]
        cases rest.reverse.find? (fun r => isStoredRel r && relIdKey r == k) <;>
          by_cases hkk : relIdKey r = k <;> simp [hkk]

/-- One turn of the loop over the relationships of a layout on a well-formed record
(lines 155-163). -/
theorem layoutRel_eq (st : String × List (String × JVal)) {r : JVal}
    (hwf : isRelRecord r = true) :
    layoutRel st r = .ok (if isMasterRel r then (relPath r, st.2)
      else (st.1, objSet st.2 (relIdKey r) (relEntryOf r))) := by
  obtain ⟨ty, tg, hty, htg⟩ := isRelRecord_inv hwf
  obtain ⟨hrn, han⟩ := isRelRecord_not_nullish hwf
  have hadd := addRel_eq st.2 hwf
  have htgt := relTarget_eq hwf
  simp only [layoutRel, getProp_ok hrn, getProp_ok han, hty, bind, Except.bind]
  split
  · next heq =>
    cases heq
    simp [htgt, pure, Except.pure, isMasterRel, relTypeOf, hty, JVal.isStr, JVal.strD]
  · next h1 =>
    have e1 : ty ≠ "http://schemas.openxmlformats.org/officeDocument/2006/relationships/slideMaster" :=
      fun e => h1 (by rw [e])
    simp [hadd, pure, Except.pure, isMasterRel, relTypeOf, hty, JVal.isStr, e1]

/-- The loop over a list of well-formed relationships of a layout (lines 154-165): the master
file name is the path of the last record of the slide master type. -/
theorem layoutRels_eq :
    ∀ (items : List JVal) (st : String × List (String × JVal)),
      (∀ r ∈ items, isRelRecord r = true) →
      ∃ st', layoutRels items st = .ok st' ∧
        st'.1 = ((items.reverse.find? isMasterRel).map relPath).getD st.1 := by
  intro items
  induction items with
  | nil => exact fun st _ => ⟨st, rfl, rfl⟩
  | cons r rest ih =>
    intro st hwf
    have hr := hwf r (List.mem_cons_self _ _)
    obtain ⟨st', h2, hl⟩ := ih _ (fun r' hr' => hwf r' (List.mem_cons_of_mem _ hr'))
    refine ⟨st', ?_, ?_⟩
    · simp only [layoutRels, layoutRel_eq st hr, bind, Except.bind]
      exact h2
    · rw [hl, reverse_find_cons]
      cases rest.reverse.find? isMasterRel <;> cases isMasterRel r <;> simp

/-- The theme file name the relationships of a master give when they are a list: empty. -/
theorem masterRelsOf_arr (items : List JVal) (p : String × List (String × JVal))
    (h : masterRelsOf (.arr items) = .ok p) : p.1 = "" := by
  simp only [masterRelsOf, isArrayCtor, bind, Except.bind, pure, Except.pure] at h
  cases hm : masterRels items [] with
  | error e => simp [hm] at h
  | ok res =>
    simp only [hm] at h
    cases h
    rfl
/-- C21 (counterexample): the relationships of slide 6 of `relsArchive` hold two entries of
the slide layout type, to layout 1 and then to layout 2, and those of layout 2 two entries of
the slide master type, to master 1 and then to master 2; `processSingleSlide` resolves the
layout path of the second entry and reads layout 2, and resolves the master path of the second
entry and reads master 2. -/
theorem first_layout_entry_counterexample :
    ∃ (w : WarpObj) (note : String) (nodes : JVal) (st : SlideRels)
        (p : String × List (String × JVal)),
      slideContext relsEnv "ppt/slides/slide6.xml" .undefined .undefined = .ok (w, note, nodes) ∧
      (slide6Rels.find? isLayoutRel).map relPath = some "ppt/slideLayouts/slideLayout1.xml" ∧
      slideRelsOf (.arr slide6Rels) = .ok st ∧
      st.layoutFilename = "ppt/slideLayouts/slideLayout2.xml" ∧
      relsEnv.readXmlFile (.str "ppt/slideLayouts/slideLayout2.xml") = .ok w.slideLayoutContent ∧
      w.slideLayoutContent = sampleLayoutPart ∧
      (layout2Rels.find? isMasterRel).map relPath = some "ppt/slideMasters/slideMaster1.xml" ∧
      layoutRelsOf (.arr layout2Rels) = .ok p ∧
      p.1 = "ppt/slideMasters/slideMaster2.xml" ∧
      relsEnv.readXmlFile (.str "ppt/slideMasters/slideMaster2.xml") = .ok w.slideMasterContent ∧
      w.slideMasterTextStyles = .obj [("p:titleStyle", .obj [])] :=
  ⟨_, _, _, _, _, rfl, rfl, rfl, rfl, rfl, rfl, rfl, rfl, rfl, rfl, rfl⟩

/-- C21 (amended): for a list of well-formed relationships, the layout path the loop of
`processSingleSlide` resolves is the path of the last entry of the slide layout type (its
`Target` with `../` replaced by `ppt/`), and the master path the loop over the relationships
of a layout resolves is the path of the last entry of the slide master type. -/
theorem slideRelsOf_last_entry (items : List JVal)
    (hwf : ∀ r ∈ items, isRelRecord r = true) :
    (∃ st, slideRelsOf (.arr items) = .ok st ∧
      ∀ r, items.reverse.find? isLayoutRel = some r → st.layoutFilename = relPath r) ∧
    (∃ p, layoutRelsOf (.arr items) = .ok p ∧
      ∀ r, items.reverse.find? isMasterRel = some r → p.1 = relPath r) := by
  obtain ⟨st, h1, h2, _⟩ := slideRels_eq items ⟨"", "", "", []⟩ hwf
  obtain ⟨p, h3, h4⟩ := layoutRels_eq items ("", []) hwf
  refine ⟨⟨st, ?_, ?_⟩, ⟨p, ?_, ?_⟩⟩
  · simp only [slideRelsOf, isArrayCtor, bind, Except.bind]
    exact h1
  · intro r hr
    rw [h2, hr]
    rfl
  · simp only [layoutRelsOf, isArrayCtor, bind, Except.bind]
    exact h3
  · intro r hr
    rw [h4, hr]
    rfl

theorem slideRelsOf_last_entry_witness :
    (∃ st, slideRelsOf (.arr slide6Rels) = .ok st ∧
      ∀ r, slide6Rels.reverse.find? isLayoutRel = some r → st.layoutFilename = relPath r) ∧
    (∃ p, layoutRelsOf (.arr slide6Rels) = .ok p ∧
      ∀ r, slide6Rels.reverse.find? isMasterRel = some r → p.1 = relPath r) :=
  slideRelsOf_last_entry slide6Rels (by decide)

/-- C22 (counterexample): the relationships of slide 6 of `relsArchive` hold an entry to the
notes with the id `rId3` and a diagram drawing with the id `rId6`; the relationship table of
the slide has no key `rId3`, and the type stored under `rId6` is the whole declared type, not
a short name. -/
theorem notes_entry_not_stored_counterexample :
    ∃ (w : WarpObj) (note : String) (nodes : JVal),
      slideContext relsEnv "ppt/slides/slide6.xml" .undefined .undefined = .ok (w, note, nodes) ∧
      relRecord "rId3"
        "http://schemas.openxmlformats.org/officeDocument/2006/relationships/notesSlide"
        "../notesSlides/notesSlide6.xml" ∈ slide6Rels ∧
      lookupKey "rId3" w.slideResObj.entries = none ∧
      lookupKey "rId4" w.slideResObj.entries =
        some (.obj [("type", .str "image"), ("target", .str "ppt/media/image1.png")]) ∧
      lookupKey "rId6" w.slideResObj.entries =
        some (.obj [("type",
            .str "http://schemas.microsoft.com/office/2007/relationships/diagramDrawing"),
          ("target", .str "ppt/diagrams/drawing1.xml")]) :=
  ⟨_, _, _, rfl, by simp [slide6Rels], rfl, rfl, rfl⟩

/-- C22 (amended): for a list of well-formed relationships of a slide, the relationship table
holds under a key the record `{ type, target }` of the last entry with that `Id` among the
entries other than those of the slide layout type and of the notes type, and nothing under a
key no such entry has; `target` is the `Target` with `../` replaced by `ppt/` and `type` the
declared `Type` with the URL of the office-document relationships removed. In particular such
an entry whose `Id` no other such entry has is in the table under its `Id`. -/
theorem slideRelsOf_table (items : List JVal) (hwf : ∀ r ∈ items, isRelRecord r = true) :
    ∃ st, slideRelsOf (.arr items) = .ok st ∧
      (∀ k : String, lookupKey k st.slideResObj =
        (items.reverse.find? fun r => isStoredRel r && relIdKey r == k).map relEntryOf) ∧
      (∀ r ∈ items, isStoredRel r = true →
        (∀ r' ∈ items, isStoredRel r' = true → relIdKey r' = relIdKey r → r' = r) →
        lookupKey (relIdKey r) st.slideResObj = some (relEntryOf r)) := by
  obtain ⟨st, h1, _, h3⟩ := slideRels_eq items ⟨"", "", "", []⟩ hwf
  have hk : ∀ k : String, lookupKey k st.slideResObj =
      (items.reverse.find? fun r => isStoredRel r && relIdKey r == k).map relEntryOf := by
    intro k
    rw [h3 k]
    simp [lookupKey]
  refine ⟨st, ?_, hk, ?_⟩
  · simp only [slideRelsOf, isArrayCtor, bind, Except.bind]
    exact h1
  · intro r hr hs huniq
    rw [hk]
    cases hf : items.reverse.find? (fun r' => isStoredRel r' && relIdKey r' == relIdKey r) with
    | none =>
      have := List.find?_eq_none.mp hf r (List.mem_reverse.mpr hr)
      simp [hs] at this
    | some r' =>
      have hp := List.find?_some hf
      have hm := List.mem_reverse.mp (List.mem_of_find?_eq_some hf)
      simp only [Bool.and_eq_true, beq_iff_eq] at hp
      rw [huniq r' hm hp.1 hp.2]
      rfl

theorem slideRelsOf_table_witness :
    ∃ st, slideRelsOf (.arr slide6Rels) = .ok st ∧
      (∀ k : String, lookupKey k st.slideResObj =
        (slide6Rels.reverse.find? fun r => isStoredRel r && relIdKey r == k).map relEntryOf) ∧
      (∀ r ∈ slide6Rels, isStoredRel r = true →
        (∀ r' ∈ slide6Rels, isStoredRel r' = true → relIdKey r' = relIdKey r → r' = r) →
        lookupKey (relIdKey r) st.slideResObj = some (relEntryOf r)) :=
  slideRelsOf_table slide6Rels (by decide)

/-- C28 (the code departs from the claim): the relationships of master 2 of `relsArchive` are
a list that holds an entry of the theme type, to `ppt/theme/theme1.xml`, and that theme has a
relationship part with one image; `processSingleSlide` resolves the empty theme path for the
master and builds an empty relationship table for the theme: the loop passes over the entry of
the theme type (lines 182-183), and only a single relationship record sets the path
(line 192). -/
theorem master_theme_entry_ignored :
    ∃ (w : WarpObj) (note : String) (nodes : JVal) (p : String × List (String × JVal)),
      slideContext relsEnv "ppt/slides/slide6.xml" .undefined .undefined = .ok (w, note, nodes) ∧
      relsEnv.readXmlFile (.str "ppt/slideMasters/_rels/slideMaster2.xml.rels") =
        .ok (listRels master2Rels) ∧
      (master2Rels.find? isThemeRel).map relPath = some "ppt/theme/theme1.xml" ∧
      masterRelsOf (.arr master2Rels) = .ok p ∧ p.1 = "" ∧
      w.themeResObj = .obj [] ∧
      themeRels relsEnv "ppt/theme/theme1.xml" =
        .ok [("rId1", .obj [("type", .str "image"), ("target", .str "ppt/media/image3.png")])] ∧
      (masterRelsOf (relRecord "rId2"
        "http://schemas.openxmlformats.org/officeDocument/2006/relationships/theme"
        "../theme/theme1.xml")).map Prod.fst = .ok "ppt/theme/theme1.xml" :=
  ⟨_, _, _, _, rfl, rfl, rfl, rfl, rfl, rfl, rfl, rfl⟩

/-- C25 (the code departs from the claim): slide 6 of `relsArchive` holds one graphic frame
with a chart for which the chart extractor yields `undefined`; the elements list of the slide
has one entry, the empty object, which has no type: `genChart` returns `{}` (line 965), which
is truthy and is pushed (line 286). -/
theorem chart_without_info_is_listed :
    sampleEnv.getChartInfo (getTextByPathList (okVal (relsEnv.readXmlFile
      (.str "ppt/charts/chart1.xml"))) ["c:chartSpace", "c:chart", "c:plotArea"]) =
      .undefined ∧
    processSingleSlide relsEnv "ppt/slides/slide6.xml" .undefined .undefined =
      .ok (.obj [("fill", .undefined), ("elements", .arr [.obj []]), ("note", .str "")]) ∧
    (JVal.obj []).truthy = true ∧ (JVal.obj []).get "type" = .undefined :=
  ⟨rfl, rfl, rfl, rfl⟩

/-! ## The order of the slides -/

/-- One turn of the loop over the overrides on a well-formed override (lines 46-54). -/
theorem contentTypeItem_eq (st : List String × List String) {item : JVal}
    (h : isOverrideRecord item = true) :
    contentTypeItem st item =
      .ok (st.1 ++ (if isSlideOverride item then [partNameOf item] else []),
           st.2 ++ (if isLayoutOverride item then [partNameOf item] else [])) := by
  simp only [isOverrideRecord, Bool.and_eq_true, Bool.not_eq_true', Bool.or_eq_true] at h
  obtain ⟨hattrs, hname⟩ := h
  obtain ⟨kvs, hitem⟩ := obj_of_get_not_nullish hattrs
  have hitemn : item.isNullish = false := by rw [hitem]; rfl
  simp only [contentTypeItem, getProp_ok hattrs, getProp_ok hitemn, bind, Except.bind]
  simp only [isSlideOverride, isLayoutOverride, partNameOf] at hname ⊢
  generalize (item.get "attrs").get "ContentType" = ct at hname ⊢
  generalize (item.get "attrs").get "PartName" = pn at hname ⊢
  cases ct with
  | str s =>
    by_cases h1 : s = "application/vnd.openxmlformats-officedocument.presentationml.slide+xml"
    · subst h1
      cases pn <;> simp [JVal.isStr] at hname
      simp [JVal.isStr, jsSubstr1, JVal.strD, pure, Except.pure]
    · by_cases h2 : s = "application/vnd.openxmlformats-officedocument.presentationml.slideLayout+xml"
      · subst h2
        cases pn <;> simp [JVal.isStr] at hname
        simp [JVal.isStr, jsSubstr1, JVal.strD, pure, Except.pure]
      · simp [JVal.isStr, h1, h2, pure, Except.pure]
  | _ => simp [JVal.isStr, pure, Except.pure]

/-- The loop over well-formed overrides collects the declared names in order. -/
theorem contentTypeItems_eq (items : List JVal) :
    ∀ st : List String × List String, (∀ item ∈ items, isOverrideRecord item = true) →
      contentTypeItems items st =
        .ok (st.1 ++ declaredSlides items, st.2 ++ declaredLayouts items) := by
  induction items with
  | nil => intro st _; simp [contentTypeItems, declaredSlides, declaredLayouts]
  | cons item rest ih =>
    intro st h
    have hi := h item (List.mem_cons_self _ _)
    have hr : ∀ x ∈ rest, isOverrideRecord x = true := fun x hx => h x (List.mem_cons_of_mem _ hx)
    simp only [contentTypeItems, contentTypeItem_eq st hi, bind, Except.bind, ih _ hr]
    simp only [declaredSlides, declaredLayouts, List.filter_cons]
    cases isSlideOverride item <;> cases isLayoutOverride item <;> simp

/-- The comparator returns on two names with a number, and its result is not positive exactly
when the first number is at most the second. -/
theorem sortSlideXml_sign {a b : String} (ha : (xmlNumber a).isSome = true)
    (hb : (xmlNumber b).isSome = true) :
    ∃ d, sortSlideXml a b = .ok d ∧
      (d ≤ 0 ↔ (xmlNumber a).getD 0 ≤ (xmlNumber b).getD 0) := by
  obtain ⟨n1, h1⟩ := Option.isSome_iff_exists.mp ha
  obtain ⟨n2, h2⟩ := Option.isSome_iff_exists.mp hb
  refine ⟨(n1 : Int) - (n2 : Int), by simp only [sortSlideXml, h1, h2], ?_⟩
  simp only [h1, h2, Option.getD_some]
  omega

/-- The comparator throws a `TypeError` on a name without a number. -/
theorem sortSlideXml_none {a b : String} (h : xmlNumber a = none ∨ xmlNumber b = none) :
    sortSlideXml a b = .error .typeError := by
  rcases h with h | h
  · simp only [sortSlideXml, h]
  · cases ha : xmlNumber a <;> simp only [sortSlideXml, h, ha]

/-- The comparator throws nothing but a `TypeError`. -/
theorem sortSlideXml_error {a b : String} {e : Err} (h : sortSlideXml a b = .error e) :
    e = .typeError := by
  unfold sortSlideXml at h
  split at h
  · cases h
  · cases h; rfl

/-- The insertion by the comparator into names that have numbers is the ordered insertion by
number. -/
theorem insertBy_eq (a : String) (ha : (xmlNumber a).isSome = true) :
    ∀ l : List String, (∀ p ∈ l, (xmlNumber p).isSome = true) →
      insertBy sortSlideXml a l =
        .ok (l.orderedInsert (fun a b => (xmlNumber a).getD 0 ≤ (xmlNumber b).getD 0) a) := by
  intro l
  induction l with
  | nil => intro _; rfl
  | cons b l ih =>
    intro h
    obtain ⟨d, hd, hle⟩ := sortSlideXml_sign ha (h b (List.mem_cons_self _ _))
    have hr := ih fun p hp => h p (List.mem_cons_of_mem _ hp)
    simp only [insertBy, hd, hr, bind, Except.bind, pure, Except.pure, List.orderedInsert]
    by_cases hc : d ≤ 0
    · rw [if_pos hc, if_pos (hle.mp hc)]
    · rw [if_neg hc, if_neg (fun h' => hc (hle.mpr h'))]

/-- The sort by the comparator of names that all have a number is the stable sort by
number. -/
theorem jsSort_eq : ∀ names : List String, (∀ p ∈ names, (xmlNumber p).isSome = true) →
    jsSort sortSlideXml names =
      .ok (names.insertionSort fun a b => (xmlNumber a).getD 0 ≤ (xmlNumber b).getD 0) := by
  intro names
  induction names with
  | nil => intro _; rfl
  | cons a l ih =>
    intro h
    have hr := ih fun p hp => h p (List.mem_cons_of_mem _ hp)
    have hmem : ∀ p ∈ l.insertionSort (fun a b => (xmlNumber a).getD 0 ≤ (xmlNumber b).getD 0),
        (xmlNumber p).isSome = true := fun p hp =>
      h p (List.mem_cons_of_mem _ ((List.perm_insertionSort _ l).subset hp))
    simp only [jsSort, hr, bind, Except.bind, List.insertionSort]
    exact insertBy_eq a (h a (List.mem_cons_self _ _)) _ hmem

/-- Sorting names that all have a number returns a permutation ordered by number. -/
theorem jsSort_sorted (names : List String)
    (h : ∀ p ∈ names, (xmlNumber p).isSome = true) :
    ∃ out, jsSort sortSlideXml names = .ok out ∧ out.Perm names ∧
      out.Sorted (fun a b => (xmlNumber a).getD 0 ≤ (xmlNumber b).getD 0) := by
  haveI : IsTotal String (fun a b => (xmlNumber a).getD 0 ≤ (xmlNumber b).getD 0) :=
    ⟨fun a b => le_total _ _⟩
  haveI : IsTrans String (fun a b => (xmlNumber a).getD 0 ≤ (xmlNumber b).getD 0) :=
    ⟨fun a b c => le_trans⟩
  exact ⟨_, jsSort_eq names h, List.perm_insertionSort _ _, List.sorted_insertionSort _ _⟩

theorem insertBy_error {a : String} : ∀ {l : List String} {e : Err},
    insertBy sortSlideXml a l = .error e → e = .typeError := by
  intro l
  induction l with
  | nil => intro e h; cases h
  | cons b l ih =>
    intro e h
    cases hd : sortSlideXml a b with
    | error e' =>
      simp only [insertBy, hd, bind, Except.bind] at h
      cases h
      exact sortSlideXml_error hd
    | ok d =>
      by_cases hc : d ≤ 0
      · simp only [insertBy, hd, bind, Except.bind, pure, Except.pure, if_pos hc] at h
        cases h
      · cases hi : insertBy sortSlideXml a l with
        | error e' =>
          simp only [insertBy, hd, hi, bind, Except.bind, pure, Except.pure, if_neg hc] at h
          cases h
          exact ih hi
        | ok l' =>
          simp only [insertBy, hd, hi, bind, Except.bind, pure, Except.pure, if_neg hc] at h
          cases h

theorem insertBy_length {a : String} : ∀ {l out : List String},
    insertBy sortSlideXml a l = .ok out → out.length = l.length + 1 := by
  intro l
  induction l with
  | nil => intro out h; cases h; rfl
  | cons b l ih =>
    intro out h
    cases hd : sortSlideXml a b with
    | error e' =>
      simp only [insertBy, hd, bind, Except.bind] at h
      cases h
    | ok d =>
      by_cases hc : d ≤ 0
      · simp only [insertBy, hd, bind, Except.bind, pure, Except.pure, if_pos hc] at h
        cases h
        rfl
      · cases hi : insertBy sortSlideXml a l with
        | error e' =>
          simp only [insertBy, hd, hi, bind, Except.bind, pure, Except.pure, if_neg hc] at h
          cases h
        | ok l' =>
          simp only [insertBy, hd, hi, bind, Except.bind, pure, Except.pure, if_neg hc] at h
          cases h
          simp only [List.length_cons, ih hi]

theorem jsSort_error : ∀ {names : List String} {e : Err},
    jsSort sortSlideXml names = .error e → e = .typeError := by
  intro names
  induction names with
  | nil => intro e h; cases h
  | cons a l ih =>
    intro e h
    simp only [jsSort, bind, Except.bind] at h
    cases hl : jsSort sortSlideXml l with
    | error e' => rw [hl] at h; cases h; exact ih hl
    | ok l' => rw [hl] at h; exact insertBy_error h

theorem jsSort_length : ∀ {names out : List String},
    jsSort sortSlideXml names = .ok out → out.length = names.length := by
  intro names
  induction names with
  | nil => intro out h; cases h; rfl
  | cons a l ih =>
    intro out h
    simp only [jsSort, bind, Except.bind] at h
    cases hl : jsSort sortSlideXml l with
    | error e' => rw [hl] at h; cases h
    | ok l' =>
      rw [hl] at h
      rw [insertBy_length h, ih hl, List.length_cons]

/-- The sort of two or more names one of which has no number throws a `TypeError`. -/
theorem jsSort_throws : ∀ (names : List String), 2 ≤ names.length →
    (∃ p ∈ names, xmlNumber p = none) → jsSort sortSlideXml names = .error .typeError := by
  intro names
  induction names with
  | nil => intro h; simp at h
  | cons a l ih =>
    intro hlen hex
    have hl1 : 1 ≤ l.length := by simp only [List.length_cons] at hlen; omega
    cases hl : jsSort sortSlideXml l with
    | error e =>
      simp only [jsSort, hl, bind, Except.bind, jsSort_error hl]
    | ok l' =>
      have hlen' := jsSort_length hl
      match l', hlen' with
      | [], h0 => simp only [List.length_nil] at h0; omega
      | b :: rest, _ =>
        simp only [jsSort, hl, bind, Except.bind, insertBy]
        cases ha : xmlNumber a with
        | none => rw [sortSlideXml_none (Or.inl ha)]
        | some n =>
          have hex' : ∃ p ∈ l, xmlNumber p = none := by
            obtain ⟨p, hp, hn⟩ := hex
            rcases List.mem_cons.mp hp with rfl | hp'
            · rw [ha] at hn; cases hn
            · exact ⟨p, hp', hn⟩
          by_cases h2 : 2 ≤ l.length
          · rw [ih h2 hex'] at hl; cases hl
          · match l, hl1, h2, hex', hl with
            | [p], _, _, hex', hl =>
              obtain ⟨q, hq, hn⟩ := hex'
              have hqp : q = p := by simpa using hq
              subst hqp
              have hb : b = q := by
                simp only [jsSort, insertBy, bind, Except.bind] at hl
                injection hl with hl
                injection hl with hl
                exact hl.symm
              rw [hb, sortSlideXml_none (Or.inr hn)]
            | _ :: _ :: _, _, h2, _, _ => simp only [List.length_cons] at h2; omega

/-- The loop of `parse` returns one record per name, in order, when every slide is
processed. -/
theorem parseSlides_eq (env : Env) (themeContent defaultTextStyle : JVal) (names : List String) :
    (∀ p ∈ names, isOk (processSingleSlide env p themeContent defaultTextStyle) = true) →
      parseSlides env themeContent defaultTextStyle names =
        .ok (names.map fun p => okVal (processSingleSlide env p themeContent defaultTextStyle)) := by
  induction names with
  | nil => intro _; rfl
  | cons p rest ih =>
    intro h
    have hp := h p (List.mem_cons_self _ _)
    have hr := ih fun x hx => h x (List.mem_cons_of_mem _ hx)
    simp only [parseSlides, hr, bind, Except.bind, List.map_cons, pure, Except.pure]
    generalize processSingleSlide env p themeContent defaultTextStyle = r at hp ⊢
    cases r with
    | error e => cases hp
    | ok v => rfl

/-- C30 (counterexample): the overrides `namedLayoutOverrides` are well formed and declare the
slides `slide1.xml` and `slide2.xml`, whose names have digits right before ".xml", and the
layouts `title.xml` and `blank.xml`. The comparator throws a `TypeError` on the two layout
names (line 59), so the sort of line 63 throws: `getContentTypes` returns no list of slides
and `parse` no slide record. -/
theorem named_layouts_counterexample :
    (∀ item ∈ namedLayoutOverrides, isOverrideRecord item = true) ∧
    declaredSlides namedLayoutOverrides = ["ppt/slides/slide1.xml", "ppt/slides/slide2.xml"] ∧
    (∀ p ∈ declaredSlides namedLayoutOverrides, (xmlNumber p).isSome = true) ∧
    declaredLayouts namedLayoutOverrides =
      ["ppt/slideLayouts/title.xml", "ppt/slideLayouts/blank.xml"] ∧
    sortSlideXml "ppt/slideLayouts/title.xml" "ppt/slideLayouts/blank.xml" =
      .error .typeError ∧
    getContentTypes namedLayoutEnv = .error .typeError ∧
    parse namedLayoutEnv = .error .typeError :=
  ⟨by decide, rfl, by decide, rfl, rfl, rfl, rfl⟩

/-- C30 (amended): over a list of well-formed overrides in which every declared slide name has
digits right before ".xml": when fewer than two slide layouts are declared, or every declared
layout name has such digits too, `getContentTypes` returns; its list of slides is a
permutation of the part names declared with the slide content type, without their first
character, in non-decreasing order of that number; and `parse`, when the size, the theme and
every slide are read, returns one record per entry of that list, in that order. When two or
more layouts are declared and one of their names has no such digits, `getContentTypes` and
`parse` throw a `TypeError`. -/
theorem getContentTypes_slides_sorted (env : Env) (ct types : JVal) (items : List JVal)
    (hread : env.readXmlFile (.str "[Content_Types].xml") = .ok ct)
    (htypes : getProp ct "Types" = .ok types)
    (hover : getProp types "Override" = .ok (.arr items))
    (hwf : ∀ item ∈ items, isOverrideRecord item = true)
    (hnum : ∀ p ∈ declaredSlides items, (xmlNumber p).isSome = true) :
    (((declaredLayouts items).length < 2 ∨
        ∀ p ∈ declaredLayouts items, (xmlNumber p).isSome = true) →
      ∃ slides layouts, getContentTypes env = .ok (slides, layouts) ∧
        slides.Perm (declaredSlides items) ∧
        (∀ p ∈ slides, (xmlNumber p).isSome = true) ∧
        (slides.map fun p => (xmlNumber p).getD 0).Sorted (· ≤ ·) ∧
        ∀ info themeContent, getSlideInfo env = .ok info → loadTheme env = .ok themeContent →
          (∀ p ∈ declaredSlides items,
            isOk (processSingleSlide env p themeContent (info.get "defaultTextStyle")) = true) →
          parse env = .ok (.obj
            [("slides", .arr (slides.map fun p =>
                okVal (processSingleSlide env p themeContent (info.get "defaultTextStyle")))),
             ("size", .obj [("width", info.get "width"), ("height", info.get "height")])])) ∧
    (2 ≤ (declaredLayouts items).length →
      (∃ p ∈ declaredLayouts items, xmlNumber p = none) →
      getContentTypes env = .error .typeError ∧ parse env = .error .typeError) := by
  obtain ⟨slides, hs, hperm, hsorted⟩ := jsSort_sorted _ hnum
  refine ⟨?_, ?_⟩
  · intro hlay
    have hl : ∃ layouts, jsSort sortSlideXml (declaredLayouts items) = .ok layouts := by
      rcases hlay with hlt | hall
      · match declaredLayouts items, hlt with
        | [], _ => exact ⟨_, rfl⟩
        | [p], _ => exact ⟨_, rfl⟩
        | _ :: _ :: _, hlt => simp only [List.length_cons] at hlt; omega
      · exact ⟨_, jsSort_eq _ hall⟩
    obtain ⟨layouts, hl⟩ := hl
    have hget : getContentTypes env = .ok (slides, layouts) := by
      simp only [getContentTypes, hread, htypes, hover, forOf, contentTypeItems_eq items _ hwf,
        List.nil_append, hs, hl, bind, Except.bind, pure, Except.pure]
    refine ⟨slides, layouts, hget, hperm, fun p hp => hnum p (hperm.subset hp),
      List.pairwise_map.mpr hsorted, ?_⟩
    intro info themeContent hinfo htheme hall
    have hslides := parseSlides_eq env themeContent (info.get "defaultTextStyle") slides
      fun p hp => hall p (hperm.subset hp)
    simp only [parse, hget, hinfo, htheme, hslides, bind, Except.bind, pure, Except.pure]
  · intro hlen hex
    have hl := jsSort_throws _ hlen hex
    have hget : getContentTypes env = .error .typeError := by
      simp only [getContentTypes, hread, htypes, hover, forOf, contentTypeItems_eq items _ hwf,
        List.nil_append, hs, hl, bind, Except.bind, pure, Except.pure]
    exact ⟨hget, by simp only [parse, hget, bind, Except.bind]⟩

theorem getContentTypes_slides_sorted_witness :
    ∃ slides layouts, getContentTypes deckEnv = .ok (slides, layouts) ∧
      slides = ["ppt/slides/slide2.xml", "ppt/slides/slide10.xml"] ∧
      slides.Perm ["ppt/slides/slide10.xml", "ppt/slides/slide2.xml"] ∧
      (slides.map fun p => (xmlNumber p).getD 0).Sorted (· ≤ ·) ∧
      parse deckEnv = .ok (.obj
        [("slides", .arr (slides.map fun p =>
            okVal (processSingleSlide deckEnv p (okVal (loadTheme deckEnv)) (.obj [])))),
         ("size", .obj [("width", .num (some 960)), ("height", .num (some 540))])]) := by
  have hw : emuToPoints (.str "12192000") = some 960 := by
    show pointsOfInt 12192000 = some 960
    exact pointsOfInt_12192000
  have hh : emuToPoints (.str "6858000") = some 540 := by
    show pointsOfInt 6858000 = some 540
    exact pointsOfInt_6858000
  have hinfo : getSlideInfo deckEnv = .ok (.obj [("width", .num (some 960)),
      ("height", .num (some 540)), ("defaultTextStyle", .obj [])]) := by
    show Except.ok (JVal.obj [("width", .num (emuToPoints (.str "12192000"))),
      ("height", .num (emuToPoints (.str "6858000"))), ("defaultTextStyle", .obj [])]) = _
    rw [hw, hh]
  have hall : ∀ p ∈ declaredSlides deckOverrides, isOk (processSingleSlide deckEnv p
      (okVal (loadTheme deckEnv)) (JVal.get (.obj [("width", .num (some 960)),
        ("height", .num (some 540)), ("defaultTextStyle", .obj [])]) "defaultTextStyle")) = true := by
    intro p hp
    have hp2 : p = "ppt/slides/slide10.xml" ∨ p = "ppt/slides/slide2.xml" := by
      simpa using (show p ∈ ["ppt/slides/slide10.xml", "ppt/slides/slide2.xml"] from hp)
    rcases hp2 with rfl | rfl <;> rfl
  obtain ⟨slides, layouts, hget, hperm, -, hsorted, hparse⟩ :=
    (getContentTypes_slides_sorted deckEnv
      (.obj [("Types", .obj [("Override", .arr deckOverrides)])])
      (.obj [("Override", .arr deckOverrides)]) deckOverrides rfl rfl rfl (by decide)
      (by decide)).1 (Or.inl (by decide))
  have hrec := hparse (.obj [("width", .num (some 960)), ("height", .num (some 540)),
    ("defaultTextStyle", .obj [])]) (okVal (loadTheme deckEnv)) hinfo rfl hall
  have hval : getContentTypes deckEnv = .ok (["ppt/slides/slide2.xml", "ppt/slides/slide10.xml"],
      ["ppt/slideLayouts/slideLayout1.xml"]) := rfl
  have hslides : slides = ["ppt/slides/slide2.xml", "ppt/slides/slide10.xml"] := by
    have heq := hget.symm.trans hval
    injection heq with heq
    injection heq
  exact ⟨slides, layouts, hget, hslides, hperm, hsorted, hrec⟩

end Pptx
